import Mathlib

/-!
# GLSL shader translator (xenia, `src/xenia/gpu/glsl_shader_translator.cc`)

A shallow embedding of `xe::gpu::GlslShaderTranslator`: the translator is a
record holding the output buffer `source_`, the indent depth `depth_` and the
indentation buffer `depth_prefix_`; every member function of the source is a
function from translator state to translator state that appends to `source_`
in the order of the `EmitSource` / `EmitSourceDepth` calls of the source.
-/

namespace xe.gpu

/-! ## Data model -/

/-- Fixed array of four elements (`T name[4]` in the source). -/
structure Vec4 (α : Type) where
  e0 : α
  e1 : α
  e2 : α
  e3 : α
deriving DecidableEq, Repr

/-- Array subscript `a[j]`. The array has the four elements 0..3; a subscript
past 3 is outside the array in the source and reads the last element here. -/
def Vec4.get {α : Type} (a : Vec4 α) (j : Nat) : α :=
  match j with
  | 0 => a.e0
  | 1 => a.e1
  | 2 => a.e2
  | _ => a.e3

/-- Fixed array of three elements (`InstructionOperand operands[3]`). -/
structure Arr3 (α : Type) where
  e0 : α
  e1 : α
  e2 : α
deriving DecidableEq, Repr

/-- Array subscript `a[i]`; a subscript past 2 is outside the array in the
source and reads the last element here. -/
def Arr3.get {α : Type} (a : Arr3 α) (i : Nat) : α :=
  match i with
  | 0 => a.e0
  | 1 => a.e1
  | _ => a.e2

/-- Shader stage of the translation (`is_vertex_shader()` / `is_pixel_shader()`). -/
inductive ShaderType where
  | kVertex
  | kPixel
deriving DecidableEq, Repr

/-- Swizzle component: a lane of the source vector or one of the constants. -/
inductive SwizzleSource where
  | kX
  | kY
  | kZ
  | kW
  | k0
  | k1
deriving DecidableEq, Repr

/-- Modelled from the spec: `GetCharForSwizzle` is declared in a header that is
not among the sources; components are written `x`, `y`, `z`, `w`, `0`, `1`. -/
def GetCharForSwizzle : SwizzleSource → Char
  | .kX => 'x'
  | .kY => 'y'
  | .kZ => 'z'
  | .kW => 'w'
  | .k0 => '0'
  | .k1 => '1'

/-- Modelled from the spec: `GetSwizzleFromComponentIndex` is declared in a
header that is not among the sources; lane `j` of `xyzw` for `j` in 0..3. -/
def GetSwizzleFromComponentIndex (j : Nat) : SwizzleSource :=
  match j with
  | 0 => .kX
  | 1 => .kY
  | 2 => .kZ
  | _ => .kW

/-- Modelled from the spec: `GetCharForComponentIndex` is declared in a header
that is not among the sources; the letter of lane `i` of `xyzw`. -/
def GetCharForComponentIndex (i : Nat) : Char :=
  match i with
  | 0 => 'x'
  | 1 => 'y'
  | 2 => 'z'
  | _ => 'w'

/-- Where an operand is read from. The two fetch-constant sources are the ones
the fetch callbacks skip before calling `EmitLoadOperand`. -/
inductive InstructionStorageSource where
  | kRegister
  | kConstantFloat
  | kConstantInt
  | kConstantBool
  | kVertexFetchConstant
  | kTextureFetchConstant
deriving DecidableEq, Repr

/-- How a storage index is formed. -/
inductive InstructionStorageAddressingMode where
  | kStatic
  | kAddressAbsolute
  | kAddressRelative
deriving DecidableEq, Repr

/-- Where a result is written. -/
inductive InstructionStorageTarget where
  | kRegister
  | kInterpolant
  | kPosition
  | kPointSize
  | kColorTarget
  | kDepth
deriving DecidableEq, Repr

/-- Parsed operand. `storage_index` and `component_count` are `int` in the
source (`component_count` is never negative: it counts components, 1..4).
`is_standard_swizzle` is a member function declared in a header that is not
among the sources; its value is carried with the operand. -/
structure InstructionOperand where
  storage_source : InstructionStorageSource
  storage_index : Int
  storage_addressing_mode : InstructionStorageAddressingMode
  is_negated : Bool
  is_absolute_value : Bool
  component_count : Nat
  components : Vec4 SwizzleSource
  is_standard_swizzle : Bool
deriving DecidableEq, Repr

/-- Parsed result descriptor. -/
structure InstructionResult where
  storage_target : InstructionStorageTarget
  storage_index : Int
  storage_addressing_mode : InstructionStorageAddressingMode
  is_clamped : Bool
  write_mask : Vec4 Bool
  components : Vec4 SwizzleSource
deriving DecidableEq, Repr

/-- Modelled from the spec: `has_any_writes` is declared in a header that is
not among the sources; true when some write-mask bit is set. -/
def InstructionResult.has_any_writes (r : InstructionResult) : Bool :=
  r.write_mask.e0 || r.write_mask.e1 || r.write_mask.e2 || r.write_mask.e3

/-- Modelled from the spec: `is_standard_swizzle` of a result is declared in a
header that is not among the sources; a result is standard when all four
lanes are written and the output swizzle is the identity `xyzw`. -/
def InstructionResult.is_standard_swizzle (r : InstructionResult) : Bool :=
  (r.write_mask.e0 && r.write_mask.e1 && r.write_mask.e2 && r.write_mask.e3) &&
  decide (r.components.e0 = .kX) && decide (r.components.e1 = .kY) &&
  decide (r.components.e2 = .kZ) && decide (r.components.e3 = .kW)

/-- Modelled from the spec: `stores_non_constants` is declared in a header that
is not among the sources; true when some written lane takes a component other
than the literals 0 and 1. -/
def InstructionResult.stores_non_constants (r : InstructionResult) : Bool :=
  (List.range 4).any (fun j =>
    r.write_mask.get j && decide (r.components.get j ≠ .k0) &&
      decide (r.components.get j ≠ .k1))

/-- Vector ALU opcodes, in the order of the cases of `ProcessVectorAluInstruction`. -/
inductive AluVectorOpcode where
  | kAdd
  | kMul
  | kMax
  | kMin
  | kSeq
  | kSgt
  | kSge
  | kSne
  | kFrc
  | kTrunc
  | kFloor
  | kMad
  | kCndEq
  | kCndGe
  | kCndGt
  | kDp4
  | kDp3
  | kDp2Add
  | kCube
  | kMax4
  | kSetpEqPush
  | kSetpNePush
  | kSetpGtPush
  | kSetpGePush
  | kKillEq
  | kKillGt
  | kKillGe
  | kKillNe
  | kDst
  | kMaxA
deriving DecidableEq, Repr

/-- Scalar ALU opcodes, in the order of the cases of `ProcessScalarAluInstruction`. -/
inductive AluScalarOpcode where
  | kAdds
  | kAddsPrev
  | kMuls
  | kMulsPrev
  | kMulsPrev2
  | kMaxs
  | kMins
  | kSeqs
  | kSgts
  | kSges
  | kSnes
  | kFrcs
  | kTruncs
  | kFloors
  | kExp
  | kLogc
  | kLog
  | kRcpc
  | kRcpf
  | kRcp
  | kRsqc
  | kRsqf
  | kRsq
  | kMaxAs
  | kMaxAsf
  | kSubs
  | kSubsPrev
  | kSetpEq
  | kSetpNe
  | kSetpGt
  | kSetpGe
  | kSetpInv
  | kSetpPop
  | kSetpClr
  | kSetpRstr
  | kKillsEq
  | kKillsGt
  | kKillsGe
  | kKillsNe
  | kKillsOne
  | kSqrt
  | kMulsc0
  | kMulsc1
  | kAddsc0
  | kAddsc1
  | kSubsc0
  | kSubsc1
  | kSin
  | kCos
  | kRetainPrev
deriving DecidableEq, Repr

/-- Sub-kind of a parsed ALU instruction. -/
inductive AluType where
  | kNop
  | kVector
  | kScalar
deriving DecidableEq, Repr

/-- Parsed ALU instruction. `disassembly` is the text that `Disassemble`, a
function defined outside the sources, appends to the output. -/
structure ParsedAluInstruction where
  disassembly : String
  type : AluType
  vector_opcode : AluVectorOpcode
  scalar_opcode : AluScalarOpcode
  is_predicated : Bool
  predicate_condition : Bool
  operand_count : Nat
  operands : Arr3 InstructionOperand
  result : InstructionResult
deriving DecidableEq, Repr

/-- Kind of an exec block. -/
inductive ExecType where
  | kUnconditional
  | kConditional
  | kPredicated
deriving DecidableEq, Repr

/-- Parsed exec instruction; `bool_constant_index` is an unsigned 32-bit value.
`disassembly` is the text that `Disassemble` appends. -/
structure ParsedExecInstruction where
  disassembly : String
  type : ExecType
  bool_constant_index : Nat
  condition : Bool
deriving DecidableEq, Repr

/-- Parsed control-flow instruction of the kinds that carry no field the
translator reads (loop start, loop end, call, return, jump, alloc). -/
structure ParsedControlFlowInstruction where
  disassembly : String
deriving DecidableEq, Repr

/-- Fetch opcodes named by the two fetch callbacks. -/
inductive FetchOpcode where
  | kVertexFetch
  | kTextureFetch
  | kGetTextureBorderColorFrac
  | kGetTextureComputedLod
  | kGetTextureGradients
  | kGetTextureWeights
  | kSetTextureLod
  | kSetTextureGradientsHorz
  | kSetTextureGradientsVert
  | kUnknownTextureOp
deriving DecidableEq, Repr

/-- Vertex data formats: the fifteen named by `GetVertexFormatTypeName`, and
`kUndefined` for a value that reaches its `default` branch. -/
inductive VertexFormat where
  | k_32
  | k_32_FLOAT
  | k_16_16
  | k_32_32
  | k_16_16_FLOAT
  | k_32_32_FLOAT
  | k_10_11_11
  | k_11_11_10
  | k_32_32_32_FLOAT
  | k_8_8_8_8
  | k_2_10_10_10
  | k_16_16_16_16
  | k_32_32_32_32
  | k_16_16_16_16_FLOAT
  | k_32_32_32_32_FLOAT
  | kUndefined
deriving DecidableEq, Repr

/-- Function `GetVertexFormatTypeName`. -/
def GetVertexFormatTypeName : VertexFormat → String
  | .k_32 => "float"
  | .k_32_FLOAT => "float"
  | .k_16_16 => "vec2"
  | .k_32_32 => "vec2"
  | .k_16_16_FLOAT => "vec2"
  | .k_32_32_FLOAT => "vec2"
  | .k_10_11_11 => "vec3"
  | .k_11_11_10 => "vec3"
  | .k_32_32_32_FLOAT => "vec3"
  | .k_8_8_8_8 => "vec4"
  | .k_2_10_10_10 => "vec4"
  | .k_16_16_16_16 => "vec4"
  | .k_32_32_32_32 => "vec4"
  | .k_16_16_16_16_FLOAT => "vec4"
  | .k_32_32_32_32_FLOAT => "vec4"
  | .kUndefined => "vec4"

/-- Modelled from the spec: `GetVertexFormatComponentCount` is declared in a
header that is not among the sources; `k_32`, `k_32_FLOAT` have 1 component,
`k_16_16`, `k_32_32`, `k_16_16_FLOAT`, `k_32_32_FLOAT` have 2, `k_10_11_11`,
`k_11_11_10`, `k_32_32_32_FLOAT` have 3, all remaining have 4. -/
def GetVertexFormatComponentCount : VertexFormat → Nat
  | .k_32 => 1
  | .k_32_FLOAT => 1
  | .k_16_16 => 2
  | .k_32_32 => 2
  | .k_16_16_FLOAT => 2
  | .k_32_32_FLOAT => 2
  | .k_10_11_11 => 3
  | .k_11_11_10 => 3
  | .k_32_32_32_FLOAT => 3
  | _ => 4

/-- Attribute fields of a vertex fetch that the translator reads. -/
structure VertexFetchAttributes where
  data_format : VertexFormat
  offset : Int
deriving DecidableEq, Repr

/-- Parsed vertex-fetch instruction. -/
structure ParsedVertexFetchInstruction where
  disassembly : String
  opcode : FetchOpcode
  is_predicated : Bool
  predicate_condition : Bool
  operand_count : Nat
  operands : Arr3 InstructionOperand
  attributes : VertexFetchAttributes
  result : InstructionResult
deriving DecidableEq, Repr

/-- Texture dimension of a texture fetch. -/
inductive TextureDimension where
  | k1D
  | k2D
  | k3D
  | kCube
deriving DecidableEq, Repr

/-- Parsed texture-fetch instruction. -/
structure ParsedTextureFetchInstruction where
  disassembly : String
  opcode : FetchOpcode
  dimension : TextureDimension
  is_predicated : Bool
  predicate_condition : Bool
  operand_count : Nat
  operands : Arr3 InstructionOperand
  result : InstructionResult
deriving DecidableEq, Repr

/-! ## Translator state and the text buffer -/

/-- Modelled from the spec: the enumeration `Dialect` is declared in the
header, which is not among the sources. A dialect is stood for by the integer
value of its enumerator. -/
abbrev Dialect : Type := Nat

/-- State of one `GlslShaderTranslator`. `depth_prefix_` is the `char` array
that holds the indentation as a NUL-terminated string; its length is the
declared size of the array. `has_error_` stands for what the base class
records when a translation error is emitted. `dialect_` is what the
constructor stores. -/
structure GlslShaderTranslator where
  shader_type_ : ShaderType
  depth_ : Int
  depth_prefix_ : List Char
  source_ : String
  has_error_ : Bool
  dialect_ : Dialect
deriving DecidableEq, Repr

/-- The NUL character that terminates a C string. -/
def NUL : Char := Char.ofNat 0

/-- The C string stored in a `char` array: the characters before the first NUL. -/
def cstr (buf : List Char) : String :=
  String.mk (buf.takeWhile (fun c => c != NUL))

/-- Store `buf[i] = c`. A store outside the array is undefined in the source;
here it leaves the array as it is. -/
def poke (buf : List Char) (i : Int) (c : Char) : List Char :=
  if 0 ≤ i then buf.set i.toNat c else buf

namespace GlslShaderTranslator

/-- Base-class query `is_pixel_shader()`. -/
def is_pixel_shader (t : GlslShaderTranslator) : Bool :=
  decide (t.shader_type_ = .kPixel)

/-- Macro `EmitSource(...)`: `source_.AppendFormat(...)`, with the formatted
text as argument. -/
def EmitSource (t : GlslShaderTranslator) (s : String) : GlslShaderTranslator :=
  { t with source_ := t.source_ ++ s }

/-- Macro `EmitSourceDepth(...)`: append two spaces, then the indentation
buffer read as a C string, then the formatted text. -/
def EmitSourceDepth (t : GlslShaderTranslator) (s : String) : GlslShaderTranslator :=
  let t1 : GlslShaderTranslator := { t with source_ := t.source_ ++ "  " }
  let t2 : GlslShaderTranslator := { t1 with source_ := t1.source_ ++ cstr t1.depth_prefix_ }
  { t2 with source_ := t2.source_ ++ s }

/-- Member `Reset`: depth 0, first byte of the indentation buffer NUL, empty
output. -/
def Reset (t : GlslShaderTranslator) : GlslShaderTranslator :=
  { t with depth_ := 0, depth_prefix_ := poke t.depth_prefix_ 0 NUL, source_ := "",
           has_error_ := false }

/-- Modelled from the spec: the base-class part of `EmitTranslationError` is
not among the sources; it records the error in a flag. The derived part
emits the message as a comment. -/
def EmitTranslationError (t : GlslShaderTranslator) (message : String) :
    GlslShaderTranslator :=
  let t : GlslShaderTranslator := { t with has_error_ := true }
  EmitSourceDepth t ("// TRANSLATION ERROR: " ++ message ++ "\n")

/-- Modelled from the spec: the base-class part of
`EmitUnimplementedTranslationError` is not among the sources; it records the
error in a flag. The derived part emits a fixed comment. -/
def EmitUnimplementedTranslationError (t : GlslShaderTranslator) : GlslShaderTranslator :=
  let t : GlslShaderTranslator := { t with has_error_ := true }
  EmitSourceDepth t "// UNIMPLEMENTED TRANSLATION\n"

/-- Member `Indent`. -/
def Indent (t : GlslShaderTranslator) : GlslShaderTranslator :=
  let b0 := poke t.depth_prefix_ t.depth_ ' '
  let b1 := poke b0 (t.depth_ + 1) ' '
  let b2 := poke b1 (t.depth_ + 2) NUL
  { t with depth_prefix_ := b2, depth_ := t.depth_ + 2 }

/-- Member `Unindent`. -/
def Unindent (t : GlslShaderTranslator) : GlslShaderTranslator :=
  let b0 := poke t.depth_prefix_ t.depth_ NUL
  let b1 := poke b0 (t.depth_ - 1) NUL
  let b2 := poke b1 (t.depth_ - 2) NUL
  { t with depth_prefix_ := b2, depth_ := t.depth_ - 2 }

/-- Loop `for (j = lo; j < hi; ++j) EmitSource("%c", f(j))`. -/
def emitChars (t : GlslShaderTranslator) (js : List Nat) (f : Nat → Char) :
    GlslShaderTranslator :=
  js.foldl (fun acc j => EmitSource acc (String.singleton (f j))) t

/-- The `switch (op.storage_source)` of `EmitLoadOperand`: emits the root and
yields the local `storage_index_offset`. No case exists for the fetch
constants. -/
def emitOperandRoot (t : GlslShaderTranslator) (storage_source : InstructionStorageSource) :
    GlslShaderTranslator × Int :=
  match storage_source with
  | .kRegister => (EmitSource t "r", 0)
  | .kConstantFloat => (EmitSource t "state.float_consts", if t.is_pixel_shader then 256 else 0)
  | .kConstantInt => (EmitSource t "state.loop_consts", 0)
  | .kConstantBool => (EmitSource t "state.bool_consts", 0)
  | .kVertexFetchConstant => (t, 0)
  | .kTextureFetchConstant => (t, 0)

/-- The `switch (op.storage_addressing_mode)` of `EmitLoadOperand`. -/
def emitOperandIndex (t : GlslShaderTranslator) (storage_index_offset : Int)
    (mode : InstructionStorageAddressingMode) (storage_index : Int) : GlslShaderTranslator :=
  match mode with
  | .kStatic =>
    if storage_index_offset ≠ 0 then
      EmitSource t ("[" ++ toString storage_index_offset ++ "+" ++ toString storage_index ++ "]")
    else
      EmitSource t ("[" ++ toString storage_index ++ "]")
  | .kAddressAbsolute =>
    if storage_index_offset ≠ 0 then
      EmitSource t ("[" ++ toString storage_index_offset ++ "+" ++ toString storage_index ++
        "+a0]")
    else
      EmitSource t ("[" ++ toString storage_index ++ "+a0]")
  | .kAddressRelative =>
    if storage_index_offset ≠ 0 then
      EmitSource t ("[" ++ toString storage_index_offset ++ "+" ++ toString storage_index ++
        "+aL]")
    else
      EmitSource t ("[" ++ toString storage_index ++ "+aL]")

/-- The block `if (!op.is_standard_swizzle()) { … }` of `EmitLoadOperand`.
`component_count` is 1..4; at 0 the source reads `components[-1]`, outside the
array, where this reads `components[0]`. -/
def emitOperandSwizzle (t : GlslShaderTranslator) (op : InstructionOperand) :
    GlslShaderTranslator :=
  if !op.is_standard_swizzle then
    let t := EmitSource t "."
    if op.component_count = 1 then
      let a := GetCharForSwizzle (op.components.get 0)
      EmitSource t (String.mk [a, a, a, a])
    else if op.component_count = 2 then
      let a := GetCharForSwizzle (op.components.get 0)
      let b := GetCharForSwizzle (op.components.get 1)
      EmitSource t (String.mk [a, b, b, b])
    else
      let t := emitChars t (List.range op.component_count)
        (fun j => GetCharForSwizzle (op.components.get j))
      emitChars t (List.range' op.component_count (4 - op.component_count))
        (fun _ => GetCharForSwizzle (op.components.get (op.component_count - 1)))
  else t

/-- Member `EmitLoadOperand(i, op)`. -/
def EmitLoadOperand (t : GlslShaderTranslator) (i : Nat) (op : InstructionOperand) :
    GlslShaderTranslator :=
  let t := EmitSourceDepth t ("src" ++ toString i ++ " = ")
  let t := if op.is_negated then EmitSource t "-" else t
  let t := if op.is_absolute_value then EmitSource t "abs(" else t
  let (t, storage_index_offset) := emitOperandRoot t op.storage_source
  let t := emitOperandIndex t storage_index_offset op.storage_addressing_mode op.storage_index
  let t := if op.is_absolute_value then EmitSource t ")" else t
  let t := emitOperandSwizzle t op
  EmitSource t ";\n"

/-- State of the write-mask loop of `EmitStoreResult`: the translator, the
flag `has_const_writes` and the counter `component_write_count`. -/
structure MaskLoop where
  t : GlslShaderTranslator
  has_const_writes : Bool
  component_write_count : Nat

/-- One iteration of the write-mask loop of `EmitStoreResult`. -/
def maskStep (result : InstructionResult) (s : MaskLoop) (j : Nat) : MaskLoop :=
  if result.write_mask.get j then
    { t := EmitSource s.t
        (String.singleton (GetCharForSwizzle (GetSwizzleFromComponentIndex j))),
      has_const_writes :=
        if result.components.get j = .k0 ∨ result.components.get j = .k1 then true
        else s.has_const_writes,
      component_write_count := s.component_write_count + 1 }
  else s

/-- One iteration of the `vecN(` loop of `EmitStoreResult`; the Boolean is the
local `has_written`. -/
def vecStep (result : InstructionResult) (temp : String)
    (s : GlslShaderTranslator × Bool) (j : Nat) : GlslShaderTranslator × Bool :=
  if result.write_mask.get j then
    let t := if s.2 then EmitSource s.1 ", " else s.1
    let t :=
      match result.components.get j with
      | .k0 => EmitSource t "0.0"
      | .k1 => EmitSource t "1.0"
      | c => EmitSource t (temp ++ "." ++ String.singleton (GetCharForSwizzle c))
    (t, true)
  else s

/-- One iteration of the swizzle loop of `EmitStoreResult`. -/
def swizzleStep (result : InstructionResult) (t : GlslShaderTranslator) (j : Nat) :
    GlslShaderTranslator :=
  if result.write_mask.get j then
    EmitSource t (String.singleton (GetCharForSwizzle (result.components.get j)))
  else t

/-- The `switch (result.storage_target)` of `EmitStoreResult`: emits the
destination root and yields the local `uses_storage_index`. -/
def emitDestRoot (t : GlslShaderTranslator) (storage_target : InstructionStorageTarget) :
    GlslShaderTranslator × Bool :=
  match storage_target with
  | .kRegister => (EmitSourceDepth t "r", true)
  | .kInterpolant => (EmitSourceDepth t "vtx.o", true)
  | .kPosition => (EmitSourceDepth t "gl_Position", false)
  | .kPointSize => (EmitSourceDepth t "gl_PointSize", false)
  | .kColorTarget => (EmitSourceDepth t "oC", true)
  | .kDepth => (EmitSourceDepth t "gl_FragDepth", false)

/-- The `switch (result.storage_addressing_mode)` of `EmitStoreResult`. -/
def emitDestIndex (t : GlslShaderTranslator) (mode : InstructionStorageAddressingMode)
    (storage_index : Int) : GlslShaderTranslator :=
  match mode with
  | .kStatic => EmitSource t ("[" ++ toString storage_index ++ "]")
  | .kAddressAbsolute => EmitSource t ("[" ++ toString storage_index ++ "+a0]")
  | .kAddressRelative => EmitSource t ("[" ++ toString storage_index ++ "+aL]")

/-- Member `EmitStoreResult(result, temp)`. -/
def EmitStoreResult (t : GlslShaderTranslator) (result : InstructionResult)
    (temp : String) : GlslShaderTranslator :=
  if !result.has_any_writes then t
  else
    let (t, uses_storage_index) := emitDestRoot t result.storage_target
    let t :=
      if uses_storage_index then
        emitDestIndex t result.storage_addressing_mode result.storage_index
      else t
    let s : MaskLoop :=
      if !result.is_standard_swizzle then
        (List.range 4).foldl (maskStep result)
          { t := EmitSource t ".", has_const_writes := false, component_write_count := 0 }
      else { t := t, has_const_writes := false, component_write_count := 0 }
    let t := EmitSource s.t " = "
    let t := if result.is_clamped then EmitSource t "clamp(" else t
    let t :=
      if s.has_const_writes then
        let t := EmitSource t ("vec" ++ toString s.component_write_count ++ "(")
        let t := ((List.range 4).foldl (vecStep result temp) (t, false)).1
        EmitSource t ")"
      else
        let t := EmitSource t temp
        if !result.is_standard_swizzle then
          let t := EmitSource t "."
          (List.range 4).foldl (swizzleStep result) t
        else t
    let t := if result.is_clamped then EmitSource t ", 0.0, 1.0)" else t
    EmitSource t ";\n"

/-- Member `EmitStoreVectorResult`. -/
def EmitStoreVectorResult (t : GlslShaderTranslator) (result : InstructionResult) :
    GlslShaderTranslator :=
  EmitStoreResult t result "pv"

/-- Member `EmitStoreScalarResult`. -/
def EmitStoreScalarResult (t : GlslShaderTranslator) (result : InstructionResult) :
    GlslShaderTranslator :=
  EmitStoreResult t result "vec4(ps)"

/-- The `switch (instr.vector_opcode)` of `ProcessVectorAluInstruction`: for each
case, the format strings of its `EmitSourceDepth` calls, in order. -/
def vectorOpcodeBody : AluVectorOpcode → List String
  | .kAdd => ["pv = src0 + src1;\n"]
  | .kMul => ["pv = src0 * src1;\n"]
  | .kMax => ["pv = max(src0, src1);\n"]
  | .kMin => ["pv = min(src0, src1);\n"]
  | .kSeq =>
    ["pv.x = src0.x == src1.x ? 1.0 : 0.0;\n",
     "pv.y = src0.y == src1.y ? 1.0 : 0.0;\n",
     "pv.z = src0.z == src1.z ? 1.0 : 0.0;\n",
     "pv.w = src0.w == src1.w ? 1.0 : 0.0;\n"]
  | .kSgt =>
    ["pv.x = src0.x > src1.x ? 1.0 : 0.0;\n",
     "pv.y = src0.y > src1.y ? 1.0 : 0.0;\n",
     "pv.z = src0.z > src1.z ? 1.0 : 0.0;\n",
     "pv.w = src0.w > src1.w ? 1.0 : 0.0;\n"]
  | .kSge =>
    ["pv.x = src0.x >= src1.x ? 1.0 : 0.0;\n",
     "pv.y = src0.y >= src1.y ? 1.0 : 0.0;\n",
     "pv.z = src0.z >= src1.z ? 1.0 : 0.0;\n",
     "pv.w = src0.w >= src1.w ? 1.0 : 0.0;\n"]
  | .kSne =>
    ["pv.x = src0.x != src1.x ? 1.0 : 0.0;\n",
     "pv.y = src0.y != src1.y ? 1.0 : 0.0;\n",
     "pv.z = src0.z != src1.z ? 1.0 : 0.0;\n",
     "pv.w = src0.w != src1.w ? 1.0 : 0.0;\n"]
  | .kFrc => ["pv = fract(src0);\n"]
  | .kTrunc => ["pv = trunc(src0);\n"]
  | .kFloor => ["pv = floor(src0);\n"]
  | .kMad => ["pv = (src0 * src1) + src2;\n"]
  | .kCndEq =>
    ["pv.x = src0.x == 0.0 ? src1.x : src2.x;\n",
     "pv.y = src0.y == 0.0 ? src1.y : src2.y;\n",
     "pv.z = src0.z == 0.0 ? src1.z : src2.z;\n",
     "pv.w = src0.w == 0.0 ? src1.w : src2.w;\n"]
  | .kCndGe =>
    ["pv.x = src0.x >= 0.0 ? src1.x : src2.x;\n",
     "pv.y = src0.y >= 0.0 ? src1.y : src2.y;\n",
     "pv.z = src0.z >= 0.0 ? src1.z : src2.z;\n",
     "pv.w = src0.w >= 0.0 ? src1.w : src2.w;\n"]
  | .kCndGt =>
    ["pv.x = src0.x > 0.0 ? src1.x : src2.x;\n",
     "pv.y = src0.y > 0.0 ? src1.y : src2.y;\n",
     "pv.z = src0.z > 0.0 ? src1.z : src2.z;\n",
     "pv.w = src0.w > 0.0 ? src1.w : src2.w;\n"]
  | .kDp4 => ["pv = dot(src0, src1).xxxx;\n"]
  | .kDp3 => ["pv = dot(vec4(src0).xyz, vec4(src1).xyz).xxxx;\n"]
  | .kDp2Add => ["pv = vec4(src0.x * src1.x + src0.y * src1.y + src2.x).xxxx;\n"]
  | .kCube => ["pv = cube(src0, src1);\n"]
  | .kMax4 => ["pv = max(src0.x, max(src0.y, max(src0.z, src0.w))).xxxx;\n"]
  | .kSetpEqPush =>
    ["p0 = src0.w == 0.0 && src1.w == 0.0 ? true : false;\n",
     "pv = vec4(src0.x == 0.0 && src1.x == 0.0 ? 0.0 : src0.x + 1.0);\n"]
  | .kSetpNePush =>
    ["p0 = src0.w == 0.0 && src1.w != 0.0 ? true : false;\n",
     "pv = vec4(src0.x == 0.0 && src1.x != 0.0 ? 0.0 : src0.x + 1.0);\n"]
  | .kSetpGtPush =>
    ["p0 = src0.w == 0.0 && src1.w > 0.0 ? true : false;\n",
     "pv = vec4(src0.x == 0.0 && src1.x > 0.0 ? 0.0 : src0.x + 1.0);\n"]
  | .kSetpGePush =>
    ["p0 = src0.w == 0.0 && src1.w >= 0.0 ? true : false;\n",
     "pv = vec4(src0.x == 0.0 && src1.x >= 0.0 ? 0.0 : src0.x + 1.0);\n"]
  | .kKillEq =>
    ["if (src0.x == src1.x || src0.y == src1.y || src0.z == src1.z || src0.w == src1.w) \x7b\n",
     "  pv = vec4(1.0);\n",
     "  discard;\n",
     "\x7d else \x7b\n",
     "  pv = vec4(0.0);\n",
     "\x7d\n"]
  | .kKillGt =>
    ["if (src0.x > src1.x || src0.y > src1.y || src0.z > src1.z || src0.w > src1.w) \x7b\n",
     "  pv = vec4(1.0);\n",
     "  discard;\n",
     "\x7d else \x7b\n",
     "  pv = vec4(0.0);\n",
     "\x7d\n"]
  | .kKillGe =>
    ["if (src0.x >= src1.x || src0.y >= src1.y || src0.z >= src1.z || src0.w >= src1.w) \x7b\n",
     "  pv = vec4(1.0);\n",
     "  discard;\n",
     "\x7d else \x7b\n",
     "  pv = vec4(0.0);\n",
     "\x7d\n"]
  | .kKillNe =>
    ["if (src0.x != src1.x || src0.y != src1.y || src0.z != src1.z || src0.w != src1.w) \x7b\n",
     "  pv = vec4(1.0);\n",
     "  discard;\n",
     "\x7d else \x7b\n",
     "  pv = vec4(0.0);\n",
     "\x7d\n"]
  | .kDst =>
    ["pv.x = 1.0;\n",
     "pv.y = src0.y * src1.y;\n",
     "pv.z = src0.z;\n",
     "pv.w = src1.w;\n"]
  | .kMaxA =>
    ["a0 = clamp(int(floor(src0.w + 0.5)), -256, 255);\n",
     "pv = max(src0, src1);\n"]

/-- The `switch (instr.scalar_opcode)` of `ProcessScalarAluInstruction`: for each
case, the format strings of its `EmitSourceDepth` calls, in order. -/
def scalarOpcodeBody : AluScalarOpcode → List String
  | .kAdds => ["ps = src0.x + src0.y;\n"]
  | .kAddsPrev => ["ps = src0.x + ps;\n"]
  | .kMuls => ["ps = src0.x * src0.y;\n"]
  | .kMulsPrev => ["ps = src0.x * ps;\n"]
  | .kMulsPrev2 =>
    ["ps = ps == -FLT_MAX || isinf(ps) || isnan(ps) || isnan(src0.y) || " ++
     "src0.y <= 0.0 ? -FLT_MAX : src0.x * ps;\n"]
  | .kMaxs => ["ps = max(src0.x, src0.y);\n"]
  | .kMins => ["ps = min(src0.x, src0.y);\n"]
  | .kSeqs => ["ps = src0.x == 0.0 ? 1.0 : 0.0;\n"]
  | .kSgts => ["ps = src0.x > 0.0 ? 1.0 : 0.0;\n"]
  | .kSges => ["ps = src0.x >= 0.0 ? 1.0 : 0.0;\n"]
  | .kSnes => ["ps = src0.x != 0.0 ? 1.0 : 0.0;\n"]
  | .kFrcs => ["ps = fract(src0.x);\n"]
  | .kTruncs => ["ps = trunc(src0.x);\n"]
  | .kFloors => ["ps = floor(src0.x);\n"]
  | .kExp => ["ps = exp2(src0.x);\n"]
  | .kLogc =>
    ["ps = log2(src0.x);\n",
     "ps = isinf(ps) ? -FLT_MAX : ps;\n"]
  | .kLog => ["ps = log2(src0.x);\n"]
  | .kRcpc =>
    ["ps = 1.0 / src0.x;\n",
     "if (isinf(ps)) ps = FLT_MAX;\n"]
  | .kRcpf =>
    ["ps = 1.0 / src0.x;\n",
     "if (isinf(ps)) ps = 0.0;\n"]
  | .kRcp => ["ps = 1.0 / src0.x;\n"]
  | .kRsqc =>
    ["ps = inversesqrt(src0.x);\n",
     "if (isinf(ps)) ps = FLT_MAX;\n"]
  | .kRsqf =>
    ["ps = inversesqrt(src0.x);\n",
     "if (isinf(ps)) ps = 0.0;\n"]
  | .kRsq => ["ps = inversesqrt(src0.x);\n"]
  | .kMaxAs =>
    ["a0 = clamp(int(floor(src0.x + 0.5)), -256, 255);\n",
     "ps = max(src0.x, src0.y);\n"]
  | .kMaxAsf =>
    ["a0 = clamp(int(floor(src0.x)), -256, 255);\n",
     "ps = max(src0.x, src0.y);\n"]
  | .kSubs => ["ps = src0.x - src0.y;\n"]
  | .kSubsPrev => ["ps = src0.x - ps;\n"]
  | .kSetpEq =>
    ["if (src0.x == 0.0) \x7b\n",
     "  ps = 0.0;\n",
     "  p0 = true;\n",
     "\x7d else \x7b\n",
     "  ps = 1.0;\n",
     "  p0 = false;\n",
     "\x7d\n"]
  | .kSetpNe =>
    ["if (src0.x != 0.0) \x7b\n",
     "  ps = 0.0;\n",
     "  p0 = true;\n",
     "\x7d else \x7b\n",
     "  ps = 1.0;\n",
     "  p0 = false;\n",
     "\x7d\n"]
  | .kSetpGt =>
    ["if (src0.x > 0.0) \x7b\n",
     "  ps = 0.0;\n",
     "  p0 = true;\n",
     "\x7d else \x7b\n",
     "  ps = 1.0;\n",
     "  p0 = false;\n",
     "\x7d\n"]
  | .kSetpGe =>
    ["if (src0.x >= 0.0) \x7b\n",
     "  ps = 0.0;\n",
     "  p0 = true;\n",
     "\x7d else \x7b\n",
     "  ps = 1.0;\n",
     "  p0 = false;\n",
     "\x7d\n"]
  | .kSetpInv =>
    ["if (src0.x == 1.0) \x7b\n",
     "  ps = 0.0;\n",
     "  p0 = true;\n",
     "\x7d else \x7b\n",
     "  ps = src0.x == 0.0 ? 1.0 : src0.x;\n",
     "  p0 = false;\n",
     "\x7d\n"]
  | .kSetpPop =>
    ["if (src0.x - 1.0 <= 0.0) \x7b\n",
     "  ps = 0.0;\n",
     "  p0 = true;\n",
     "\x7d else \x7b\n",
     "  ps = src0.x - 1.0;\n",
     "  p0 = false;\n",
     "\x7d\n"]
  | .kSetpClr =>
    ["ps = FLT_MAX;\n",
     "p0 = false;\n"]
  | .kSetpRstr =>
    ["ps = src0.x;\n",
     "p0 = src0.x == 0.0 ? true : false;\n"]
  | .kKillsEq =>
    ["if (src0.x == 0.0) \x7b\n",
     "  ps = 1.0;\n",
     "  discard;\n",
     "\x7d else \x7b\n",
     "  ps = 0.0;\n",
     "\x7d\n"]
  | .kKillsGt =>
    ["if (src0.x > 0.0) \x7b\n",
     "  ps = 1.0;\n",
     "  discard;\n",
     "\x7d else \x7b\n",
     "  ps = 0.0;\n",
     "\x7d\n"]
  | .kKillsGe =>
    ["if (src0.x >= 0.0) \x7b\n",
     "  ps = 1.0;\n",
     "  discard;\n",
     "\x7d else \x7b\n",
     "  ps = 0.0;\n",
     "\x7d\n"]
  | .kKillsNe =>
    ["if (src0.x != 0.0) \x7b\n",
     "  ps = 1.0;\n",
     "  discard;\n",
     "\x7d else \x7b\n",
     "  ps = 0.0;\n",
     "\x7d\n"]
  | .kKillsOne =>
    ["if (src0.x == 1.0) \x7b\n",
     "  ps = 1.0;\n",
     "  discard;\n",
     "\x7d else \x7b\n",
     "  ps = 0.0;\n",
     "\x7d\n"]
  | .kSqrt => ["ps = sqrt(src0.x);\n"]
  | .kMulsc0 => ["ps = src0.x * src1.x;\n"]
  | .kMulsc1 => ["ps = src0.x * src1.x;\n"]
  | .kAddsc0 => ["ps = src0.x + src1.x;\n"]
  | .kAddsc1 => ["ps = src0.x + src1.x;\n"]
  | .kSubsc0 => ["ps = src0.x - src1.x;\n"]
  | .kSubsc1 => ["ps = src0.x - src1.x;\n"]
  | .kSin => ["ps = sin(src0.x);\n"]
  | .kCos => ["ps = cos(src0.x);\n"]
  | .kRetainPrev => []

/-- Consecutive `EmitSourceDepth` calls, one for each format string. -/
def emitDepthLines (t : GlslShaderTranslator) (ls : List String) : GlslShaderTranslator :=
  ls.foldl EmitSourceDepth t

/-- The guard `EmitSourceDepth("if (%cp0) {\n", cond ? ' ' : '!')` followed by
`Indent()`, as the callbacks emit it for a predicated instruction. -/
def beginPredicate (t : GlslShaderTranslator) (predicate_condition : Bool) :
    GlslShaderTranslator :=
  let t := EmitSourceDepth t
    ("if (" ++ String.singleton (if predicate_condition then ' ' else '!') ++ "p0) \x7b\n")
  Indent t

/-- The closing `Unindent(); EmitSourceDepth("}\n")` of a predicated instruction. -/
def endPredicate (t : GlslShaderTranslator) : GlslShaderTranslator :=
  let t := Unindent t
  EmitSourceDepth t "\x7d\n"

/-- Loop `for (i = 0; i < operand_count; ++i) EmitLoadOperand(i, operands[i])`. -/
def loadOperands (t : GlslShaderTranslator) (operand_count : Nat)
    (operands : Arr3 InstructionOperand) : GlslShaderTranslator :=
  (List.range operand_count).foldl (fun acc i => EmitLoadOperand acc i (operands.get i)) t

/-- Member `ProcessVectorAluInstruction`. -/
def ProcessVectorAluInstruction (t : GlslShaderTranslator) (instr : ParsedAluInstruction) :
    GlslShaderTranslator :=
  let t := if instr.is_predicated then beginPredicate t instr.predicate_condition else t
  let t := loadOperands t instr.operand_count instr.operands
  let t := emitDepthLines t (vectorOpcodeBody instr.vector_opcode)
  let t := EmitStoreVectorResult t instr.result
  if instr.is_predicated then endPredicate t else t

/-- Member `ProcessScalarAluInstruction`. -/
def ProcessScalarAluInstruction (t : GlslShaderTranslator) (instr : ParsedAluInstruction) :
    GlslShaderTranslator :=
  let t := if instr.is_predicated then beginPredicate t instr.predicate_condition else t
  let t := loadOperands t instr.operand_count instr.operands
  let t := emitDepthLines t (scalarOpcodeBody instr.scalar_opcode)
  let t := EmitStoreScalarResult t instr.result
  if instr.is_predicated then endPredicate t else t

/-- Member `ProcessAluInstruction`. -/
def ProcessAluInstruction (t : GlslShaderTranslator) (instr : ParsedAluInstruction) :
    GlslShaderTranslator :=
  let t := EmitSource t "// "
  let t := EmitSource t instr.disassembly
  match instr.type with
  | .kNop => t
  | .kVector => ProcessVectorAluInstruction t instr
  | .kScalar => ProcessScalarAluInstruction t instr

/-- Member `ProcessLabel`. -/
def ProcessLabel (t : GlslShaderTranslator) : GlslShaderTranslator :=
  EmitUnimplementedTranslationError t

/-- Member `ProcessControlFlowNopInstruction`. -/
def ProcessControlFlowNopInstruction (t : GlslShaderTranslator) : GlslShaderTranslator :=
  EmitSource t "//        cnop\n"

/-- Member `ProcessExecInstructionBegin`. -/
def ProcessExecInstructionBegin (t : GlslShaderTranslator) (instr : ParsedExecInstruction) :
    GlslShaderTranslator :=
  let t := EmitSource t "// "
  let t := EmitSource t instr.disassembly
  let t :=
    match instr.type with
    | .kUnconditional => EmitSourceDepth t "\x7b\n"
    | .kConditional =>
      EmitSourceDepth t
        ("if ((state.bool_consts[" ++ toString (instr.bool_constant_index / 32) ++
          "] & (1 << " ++ toString (instr.bool_constant_index % 32) ++ ")) == " ++
          String.singleton (if instr.condition then '1' else '0') ++ ") \x7b\n")
    | .kPredicated =>
      EmitSourceDepth t
        ("if (" ++ String.singleton (if instr.condition then ' ' else '!') ++ "p0) \x7b\n")
  Indent t

/-- Member `ProcessExecInstructionEnd`. -/
def ProcessExecInstructionEnd (t : GlslShaderTranslator) (_instr : ParsedExecInstruction) :
    GlslShaderTranslator :=
  let t := Unindent t
  EmitSourceDepth t "\x7d\n"

/-- Members `ProcessLoopStartInstruction`, `ProcessLoopEndInstruction`,
`ProcessCallInstruction`, `ProcessReturnInstruction` and
`ProcessJumpInstruction`, which have the same body. -/
def ProcessUnimplementedControlFlow (t : GlslShaderTranslator)
    (instr : ParsedControlFlowInstruction) : GlslShaderTranslator :=
  let t := EmitSource t "// "
  let t := EmitSource t instr.disassembly
  EmitUnimplementedTranslationError t

/-- Member `ProcessAllocInstruction`. -/
def ProcessAllocInstruction (t : GlslShaderTranslator)
    (instr : ParsedControlFlowInstruction) : GlslShaderTranslator :=
  let t := EmitSource t "// "
  EmitSource t instr.disassembly

/-- Conversion `%u` of an `int` argument: its value modulo 2^32. -/
def asUnsigned (k : Int) : Nat := (k % 4294967296).toNat

/-- Loop of the fetch callbacks: `EmitLoadOperand(i, operands[i])` for each
operand whose storage source is not the fetch constant `skip`. -/
def loadFetchOperands (t : GlslShaderTranslator) (skip : InstructionStorageSource)
    (operand_count : Nat) (operands : Arr3 InstructionOperand) : GlslShaderTranslator :=
  (List.range operand_count).foldl
    (fun acc i =>
      if (operands.get i).storage_source ≠ skip then EmitLoadOperand acc i (operands.get i)
      else acc) t

/-- The `switch (instr.opcode)` of `ProcessVertexFetchInstruction`, which has
the one case `kVertexFetch`. -/
def vertexFetchSwitch (t : GlslShaderTranslator) (instr : ParsedVertexFetchInstruction) :
    GlslShaderTranslator :=
  match instr.opcode with
  | .kVertexFetch =>
    let t := EmitSourceDepth t "pv."
    let t := emitChars t
      (List.range (GetVertexFormatComponentCount instr.attributes.data_format))
      GetCharForComponentIndex
    EmitSource t (" = vf" ++ toString (asUnsigned (instr.operands.get 1).storage_index) ++
      "_" ++ toString instr.attributes.offset ++ ";\n")
  | _ => t

/-- Member `ProcessVertexFetchInstruction`. -/
def ProcessVertexFetchInstruction (t : GlslShaderTranslator)
    (instr : ParsedVertexFetchInstruction) : GlslShaderTranslator :=
  let t := EmitSource t "// "
  let t := EmitSource t instr.disassembly
  let t := if instr.is_predicated then beginPredicate t instr.predicate_condition else t
  let t :=
    if instr.result.stores_non_constants then
      let t := loadFetchOperands t .kVertexFetchConstant instr.operand_count instr.operands
      vertexFetchSwitch t instr
    else t
  let t := EmitStoreVectorResult t instr.result
  if instr.is_predicated then endPredicate t else t

/-- The four cases of `switch (instr.dimension)` under `kTextureFetch`: the
formatted strings of the five `EmitSourceDepth` calls, `k` being
`instr.operands[1].storage_index`. -/
def textureFetchBody (dimension : TextureDimension) (k : Int) : List String :=
  match dimension with
  | .k1D =>
    ["if (state.texture_samplers[" ++ toString k ++ "] != 0) \x7b\n",
     "  pv = texture(sampler1D(state.texture_samplers[" ++ toString k ++ "]), " ++
       "src0.x);\n",
     "\x7d else \x7b\n",
     "  pv = vec4(src0.x, 0.0, 0.0, 1.0);\n",
     "\x7d\n"]
  | .k2D =>
    ["if (state.texture_samplers[" ++ toString k ++ "] != 0) \x7b\n",
     "  pv = texture(sampler2D(state.texture_samplers[" ++ toString k ++ "]), " ++
       "src0.xy);\n",
     "\x7d else \x7b\n",
     "  pv = vec4(src0.x, src0.y, 0.0, 1.0);\n",
     "\x7d\n"]
  | .k3D =>
    ["if (state.texture_samplers[" ++ toString k ++ "] != 0) \x7b\n",
     "  pv = texture(sampler3D(state.texture_samplers[" ++ toString k ++ "]), " ++
       "src0.xyz);\n",
     "\x7d else \x7b\n",
     "  pv = vec4(src0.x, src0.y, src0.z, 1.0);\n",
     "\x7d\n"]
  | .kCube =>
    ["if (state.texture_samplers[" ++ toString k ++ "] != 0) \x7b\n",
     "  pv = texture(samplerCube(state.texture_samplers[" ++ toString k ++ "]), " ++
       "src0.xyz);\n",
     "\x7d else \x7b\n",
     "  pv = vec4(src0.x, src0.y, src0.z, 1.0);\n",
     "\x7d\n"]

/-- The `switch (instr.opcode)` of `ProcessTextureFetchInstruction`. -/
def textureFetchSwitch (t : GlslShaderTranslator) (instr : ParsedTextureFetchInstruction) :
    GlslShaderTranslator :=
  match instr.opcode with
  | .kTextureFetch =>
    emitDepthLines t (textureFetchBody instr.dimension (instr.operands.get 1).storage_index)
  | .kGetTextureBorderColorFrac =>
    EmitSourceDepth (EmitUnimplementedTranslationError t) "pv = vec4(0.0);\n"
  | .kGetTextureComputedLod =>
    EmitSourceDepth (EmitUnimplementedTranslationError t) "pv = vec4(0.0);\n"
  | .kGetTextureGradients =>
    EmitSourceDepth (EmitUnimplementedTranslationError t) "pv = vec4(0.0);\n"
  | .kGetTextureWeights =>
    EmitSourceDepth (EmitUnimplementedTranslationError t) "pv = vec4(0.0);\n"
  | .kSetTextureLod => EmitUnimplementedTranslationError t
  | .kSetTextureGradientsHorz => EmitUnimplementedTranslationError t
  | .kSetTextureGradientsVert => EmitUnimplementedTranslationError t
  | .kUnknownTextureOp =>
    EmitSourceDepth (EmitUnimplementedTranslationError t) "pv = vec4(0.0);\n"
  | .kVertexFetch => t

/-- Member `ProcessTextureFetchInstruction`. -/
def ProcessTextureFetchInstruction (t : GlslShaderTranslator)
    (instr : ParsedTextureFetchInstruction) : GlslShaderTranslator :=
  let t := EmitSource t "// "
  let t := EmitSource t instr.disassembly
  let t := if instr.is_predicated then beginPredicate t instr.predicate_condition else t
  let t := loadFetchOperands t .kTextureFetchConstant instr.operand_count instr.operands
  let t := textureFetchSwitch t instr
  let t := EmitStoreVectorResult t instr.result
  if instr.is_predicated then endPredicate t else t

end GlslShaderTranslator

/-! ## The emitted text, as the specification words it

The definitions below describe the emitted lines piece by piece; the theorems
compare them with what the functions above append. -/

/-- The indentation that `EmitSourceDepth` puts in front of a line: two
spaces and the indentation buffer read as a C string. -/
def indent (t : GlslShaderTranslator) : String :=
  "  " ++ cstr t.depth_prefix_

/-- Root expression of an operand by storage source; the fetch constants have
no root. -/
def operandRoot : InstructionStorageSource → String
  | .kRegister => "r"
  | .kConstantFloat => "state.float_consts"
  | .kConstantInt => "state.loop_consts"
  | .kConstantBool => "state.bool_consts"
  | .kVertexFetchConstant => ""
  | .kTextureFetchConstant => ""

/-- Text after the storage index inside the brackets, by addressing mode. -/
def addressSuffix : InstructionStorageAddressingMode → String
  | .kStatic => ""
  | .kAddressAbsolute => "+a0"
  | .kAddressRelative => "+aL"

/-- Bracketed index of an operand: `[256+k…]` for a constant-float operand in
the pixel stage, `[k…]` otherwise. -/
def operandIndex (stage : ShaderType) (op : InstructionOperand) : String :=
  if op.storage_source = .kConstantFloat ∧ stage = .kPixel then
    "[256+" ++ toString op.storage_index ++ addressSuffix op.storage_addressing_mode ++ "]"
  else
    "[" ++ toString op.storage_index ++ addressSuffix op.storage_addressing_mode ++ "]"

/-- The four swizzle letters of a non-standard operand: broadcast for one
component, `a b b b` for two, otherwise the components padded with the last. -/
def swizzleLetters (op : InstructionOperand) : List Char :=
  if op.component_count = 1 then
    List.replicate 4 (GetCharForSwizzle (op.components.get 0))
  else if op.component_count = 2 then
    GetCharForSwizzle (op.components.get 0) ::
      List.replicate 3 (GetCharForSwizzle (op.components.get 1))
  else
    (List.range op.component_count).map (fun j => GetCharForSwizzle (op.components.get j)) ++
      List.replicate (4 - op.component_count)
        (GetCharForSwizzle (op.components.get (op.component_count - 1)))

/-- Swizzle suffix of an operand: nothing when standard, else `.` and the
letters. -/
def swizzleSuffix (op : InstructionOperand) : String :=
  if op.is_standard_swizzle then "" else "." ++ String.mk (swizzleLetters op)

/-- The line of an operand load, without its indentation, with the bracketed
index and the swizzle suffix given: `src<i> = `, `-` if negated, `abs(` if
absolute-value, the root, the index, `)` if absolute-value, the swizzle
suffix, `;`. -/
def loadLineWith (i : Nat) (op : InstructionOperand) (index swizzle : String) : String :=
  "src" ++ toString i ++ " = " ++
    (if op.is_negated then "-" else "") ++
    (if op.is_absolute_value then "abs(" else "") ++
    operandRoot op.storage_source ++ index ++
    (if op.is_absolute_value then ")" else "") ++
    swizzle ++ ";\n"

/-- The line of an operand load, without its indentation. -/
def loadLine (stage : ShaderType) (i : Nat) (op : InstructionOperand) : String :=
  loadLineWith i op (operandIndex stage op) (swizzleSuffix op)

/-- Destination root of a result by storage target. -/
def destRoot : InstructionStorageTarget → String
  | .kRegister => "r"
  | .kInterpolant => "vtx.o"
  | .kPosition => "gl_Position"
  | .kPointSize => "gl_PointSize"
  | .kColorTarget => "oC"
  | .kDepth => "gl_FragDepth"

/-- Bracketed index of a destination: present for register, interpolant and
color target only. -/
def destIndex (r : InstructionResult) : String :=
  match r.storage_target with
  | .kRegister | .kInterpolant | .kColorTarget =>
    "[" ++ toString r.storage_index ++ addressSuffix r.storage_addressing_mode ++ "]"
  | .kPosition | .kPointSize | .kDepth => ""

/-- The written lanes of a result, in x, y, z, w order. -/
def writtenLanes (r : InstructionResult) : List Nat :=
  (List.range 4).filter (fun j => r.write_mask.get j)

/-- Letters of the written lanes. -/
def maskLetters (r : InstructionResult) : List Char :=
  (writtenLanes r).map GetCharForComponentIndex

/-- Letters of the output-swizzle components of the written lanes. -/
def storeSwizzleLetters (r : InstructionResult) : List Char :=
  (writtenLanes r).map (fun j => GetCharForSwizzle (r.components.get j))

/-- Whether a swizzle component is one of the literals 0 and 1. -/
def isConstSwizzle (c : SwizzleSource) : Bool :=
  decide (c = .k0) || decide (c = .k1)

/-- Whether some written lane takes the literal 0 or 1. -/
def hasConstWrite (r : InstructionResult) : Bool :=
  (writtenLanes r).any (fun j => isConstSwizzle (r.components.get j))

/-- Whether some of the four output-swizzle components is the literal 0 or 1,
written or not. -/
def anyConstComponent (r : InstructionResult) : Bool :=
  (List.range 4).any (fun j => isConstSwizzle (r.components.get j))

/-- Element of a `vecN(…)` right-hand side for one component. -/
def vecElement (temp : String) : SwizzleSource → String
  | .k0 => "0.0"
  | .k1 => "1.0"
  | c => temp ++ "." ++ String.singleton (GetCharForSwizzle c)

/-- Comma-separated list. -/
def commaSep : List String → String
  | [] => ""
  | [a] => a
  | a :: b :: rest => a ++ ", " ++ commaSep (b :: rest)

/-- Right-hand side `vecN(…)`: one element per written lane. -/
def vecRhs (r : InstructionResult) (temp : String) : String :=
  "vec" ++ toString (writtenLanes r).length ++ "(" ++
    commaSep ((writtenLanes r).map (fun j => vecElement temp (r.components.get j))) ++ ")"

/-- Right-hand side of a store before clamping. -/
def storeRhs (r : InstructionResult) (temp : String) : String :=
  if r.is_standard_swizzle then temp
  else if hasConstWrite r then vecRhs r temp
  else temp ++ "." ++ String.mk (storeSwizzleLetters r)

/-- Wrapping of a right-hand side in `clamp(…, 0.0, 1.0)` when clamped. -/
def clampWrap (is_clamped : Bool) (rhs : String) : String :=
  if is_clamped then "clamp(" ++ rhs ++ ", 0.0, 1.0)" else rhs

/-- What follows the destination in a store line: the write-mask selector,
the assignment operator, the right-hand side and the terminator. -/
def storeTail (r : InstructionResult) (temp : String) : String :=
  (if r.is_standard_swizzle then "" else "." ++ String.mk (maskLetters r)) ++ " = " ++
    clampWrap r.is_clamped (storeRhs r temp) ++ ";\n"

/-- The line of a store, without its indentation. -/
def storeLine (r : InstructionResult) (temp : String) : String :=
  destRoot r.storage_target ++ destIndex r ++ storeTail r temp

/-- The lines of the operand loads of an ALU instruction. -/
def loadLines (stage : ShaderType) (operand_count : Nat)
    (operands : Arr3 InstructionOperand) : List String :=
  (List.range operand_count).map (fun i => loadLine stage i (operands.get i))

/-- The lines of the operand loads of a fetch instruction: every operand but
the fetch constants `skip`. -/
def fetchLoadLines (stage : ShaderType) (skip : InstructionStorageSource)
    (operand_count : Nat) (operands : Arr3 InstructionOperand) : List String :=
  ((List.range operand_count).filter
    (fun i => decide ((operands.get i).storage_source ≠ skip))).map
    (fun i => loadLine stage i (operands.get i))

/-- The store of an instruction: one line if the result has writes, none
otherwise. -/
def storeLines (r : InstructionResult) (temp : String) : List String :=
  if r.has_any_writes then [storeLine r temp] else []

/-- Text of a list of lines, each after the indentation `ind`. -/
def indented (ind : String) : List String → String
  | [] => ""
  | l :: ls => ind ++ l ++ indented ind ls

/-- A line: text that ends with a newline and holds no other newline. -/
def IsLine (s : String) : Prop :=
  s.data.getLast? = some '\n' ∧ '\n' ∉ s.data.dropLast

/-- The texts that open an assignment to a destination: register, interpolant
and color target with their index bracket, position, point size and depth. -/
def destinationHeads : List String :=
  ["r[", "vtx.o[", "gl_Position", "gl_PointSize", "oC[", "gl_FragDepth"]

/-- Whether a line, after its leading spaces, opens with a destination. -/
def isDestinationAssignment (line : String) : Bool :=
  destinationHeads.any (fun h => h.data.isPrefixOf (line.data.dropWhile (fun c => c == ' ')))

/-- The guard line of a predicated instruction, without its indentation. -/
def guardLine (predicate_condition : Bool) : String :=
  if predicate_condition then "if ( p0) \x7b\n" else "if (!p0) \x7b\n"

/-- The opcode body of a vector or scalar ALU instruction. -/
def aluOpcodeLines (instr : ParsedAluInstruction) : List String :=
  match instr.type with
  | .kNop => []
  | .kVector => GlslShaderTranslator.vectorOpcodeBody instr.vector_opcode
  | .kScalar => GlslShaderTranslator.scalarOpcodeBody instr.scalar_opcode

/-- The temp an ALU instruction stores from. -/
def aluTemp (instr : ParsedAluInstruction) : String :=
  match instr.type with
  | .kScalar => "vec4(ps)"
  | _ => "pv"

/-- The lines of a vector or scalar ALU instruction: loads, opcode body, store. -/
def aluLines (stage : ShaderType) (instr : ParsedAluInstruction) : List String :=
  loadLines stage instr.operand_count instr.operands ++ aluOpcodeLines instr ++
    storeLines instr.result (aluTemp instr)

/-- The loads and opcode body of a vertex fetch; empty unless the result
stores a non-constant component. -/
def vertexFetchBodyLines (stage : ShaderType) (instr : ParsedVertexFetchInstruction) :
    List String :=
  if instr.result.stores_non_constants then
    fetchLoadLines stage .kVertexFetchConstant instr.operand_count instr.operands ++
      (match instr.opcode with
       | .kVertexFetch =>
         ["pv." ++ String.mk ((List.range
            (GetVertexFormatComponentCount instr.attributes.data_format)).map
              GetCharForComponentIndex) ++
           " = vf" ++
           toString (GlslShaderTranslator.asUnsigned (instr.operands.get 1).storage_index) ++
           "_" ++ toString instr.attributes.offset ++ ";\n"]
       | _ => [])
  else []

/-- The lines of a vertex fetch: loads, fetch body, store. -/
def vertexFetchLines (stage : ShaderType) (instr : ParsedVertexFetchInstruction) :
    List String :=
  vertexFetchBodyLines stage instr ++ storeLines instr.result "pv"

/-- The opcode body of a texture fetch. -/
def textureOpcodeLines (instr : ParsedTextureFetchInstruction) : List String :=
  match instr.opcode with
  | .kTextureFetch =>
    GlslShaderTranslator.textureFetchBody instr.dimension (instr.operands.get 1).storage_index
  | .kGetTextureBorderColorFrac | .kGetTextureComputedLod | .kGetTextureGradients
  | .kGetTextureWeights | .kUnknownTextureOp =>
    ["// UNIMPLEMENTED TRANSLATION\n", "pv = vec4(0.0);\n"]
  | .kSetTextureLod | .kSetTextureGradientsHorz | .kSetTextureGradientsVert =>
    ["// UNIMPLEMENTED TRANSLATION\n"]
  | .kVertexFetch => []

/-- The lines of a texture fetch: loads, opcode body, store. -/
def textureFetchLines (stage : ShaderType) (instr : ParsedTextureFetchInstruction) :
    List String :=
  fetchLoadLines stage .kTextureFetchConstant instr.operand_count instr.operands ++
    textureOpcodeLines instr ++ storeLines instr.result "pv"

/-- The indentation buffer holds `depth_` spaces followed by a NUL. -/
def PrefixOk (t : GlslShaderTranslator) : Prop :=
  0 ≤ t.depth_ ∧
  t.depth_prefix_.take t.depth_.toNat = List.replicate t.depth_.toNat ' ' ∧
  t.depth_prefix_[t.depth_.toNat]? = some NUL

/-- The indentation buffer has room for one more `Indent`. -/
def HasRoom (t : GlslShaderTranslator) : Prop :=
  t.depth_ + 2 < t.depth_prefix_.length

/-- State in which the body of an instruction is emitted: after `Indent` when
the instruction is predicated. -/
def bodyState (t : GlslShaderTranslator) (is_predicated : Bool) : GlslShaderTranslator :=
  if is_predicated then GlslShaderTranslator.Indent t else t

/-- Text in front of the body of an instruction: the guard line when
predicated, nothing otherwise. -/
def guardText (t : GlslShaderTranslator) (is_predicated predicate_condition : Bool) : String :=
  if is_predicated then indent t ++ guardLine predicate_condition else ""

/-- Text after the body of an instruction: the closing brace when predicated,
at the indentation left by `Unindent`; nothing otherwise. -/
def closeText (t : GlslShaderTranslator) (is_predicated : Bool) : String :=
  if is_predicated then
    indent (GlslShaderTranslator.Unindent (GlslShaderTranslator.Indent t)) ++ "\x7d\n"
  else ""

/-- What an instruction leaves behind: the text it appended, and the depth and
indentation buffer, which are those of `Unindent` after `Indent` when the
instruction is predicated and unchanged otherwise. -/
def Emits (t w : GlslShaderTranslator) (pred : Bool) (text : String) : Prop :=
  w.source_ = t.source_ ++ text ∧
    w.depth_ = (if pred then (GlslShaderTranslator.Unindent
      (GlslShaderTranslator.Indent t)).depth_ else t.depth_) ∧
    w.depth_prefix_ = (if pred then (GlslShaderTranslator.Unindent
      (GlslShaderTranslator.Indent t)).depth_prefix_ else t.depth_prefix_)

/-- The shape of what a callback `w = Process…(t, instr)` emits for an
instruction with disassembly `disasm` and body lines `ls`: every body line
is a line; without predication the comment is followed by the body at the
current indentation; with predication (the indentation buffer being in order
and having room) the comment is followed by the guard line, the body two
spaces deeper, and `}` at the indentation of the guard, depth and
indentation being restored. -/
def GuardedText (t w : GlslShaderTranslator) (is_predicated predicate_condition : Bool)
    (disasm : String) (ls : List String) : Prop :=
  (∀ l ∈ ls, IsLine l) ∧
  (is_predicated = false →
    w.source_ = t.source_ ++ "// " ++ disasm ++ indented (indent t) ls) ∧
  (is_predicated = true → PrefixOk t → HasRoom t →
    w.source_ = t.source_ ++ "// " ++ disasm ++ indent t ++ guardLine predicate_condition ++
        indented (indent t ++ "  ") ls ++ indent t ++ "\x7d\n" ∧
      w.depth_ = t.depth_ ∧ indent w = indent t)

/-- The shape of what a callback `w = Process…(t, instr)` emits with respect to
its destination, `ls` being its body lines and `store` its store line: the
text is the comment, the guard if any, the body lines and the closing brace
if any; the body lines that assign to a destination are the store line alone
when the result has writes, and none otherwise. -/
def StoresOnce (t w : GlslShaderTranslator) (is_predicated predicate_condition : Bool)
    (disasm : String) (ls : List String) (has_any_writes : Bool) (store : String) : Prop :=
  w.source_ = t.source_ ++ "// " ++ disasm ++
      guardText t is_predicated predicate_condition ++
      indented (indent (bodyState t is_predicated)) ls ++ closeText t is_predicated ∧
    ls.filter isDestinationAssignment = (if has_any_writes then [store] else []) ∧
    (has_any_writes = true → ls.getLast? = some store)

/-- A translator as `Reset` leaves it, with an indentation buffer of 16 bytes. -/
def freshTranslator (stage : ShaderType) : GlslShaderTranslator :=
  { shader_type_ := stage, depth_ := 0, depth_prefix_ := List.replicate 16 NUL,
    source_ := "", has_error_ := false, dialect_ := 0 }

/-- Register operand `r<k>` with the standard swizzle. -/
def registerOperand (k : Int) : InstructionOperand :=
  { storage_source := .kRegister, storage_index := k, storage_addressing_mode := .kStatic,
    is_negated := false, is_absolute_value := false, component_count := 4,
    components := ⟨.kX, .kY, .kZ, .kW⟩, is_standard_swizzle := true }

/-- Float-constant operand `c<k>` with the standard swizzle. -/
def floatConstOperand (k : Int) : InstructionOperand :=
  { registerOperand k with storage_source := .kConstantFloat }

/-- Result `r<k>` with the full write mask and the standard swizzle. -/
def registerResult (k : Int) : InstructionResult :=
  { storage_target := .kRegister, storage_index := k, storage_addressing_mode := .kStatic,
    is_clamped := false, write_mask := ⟨true, true, true, true⟩,
    components := ⟨.kX, .kY, .kZ, .kW⟩ }

/-- The scenario "add two registers": vector `add` with operands `r0`, `r1` and
result `r2`, not predicated. -/
def addExample (disassembly : String) : ParsedAluInstruction :=
  { disassembly := disassembly, type := .kVector, vector_opcode := .kAdd,
    scalar_opcode := .kRetainPrev, is_predicated := false, predicate_condition := false,
    operand_count := 2,
    operands := ⟨registerOperand 0, registerOperand 1, registerOperand 0⟩,
    result := registerResult 2 }

/-- A result that writes lane x only, from component x, while the unwritten
lane y carries the literal 0. -/
def maskedConstResult : InstructionResult :=
  { storage_target := .kRegister, storage_index := 0, storage_addressing_mode := .kStatic,
    is_clamped := false, write_mask := ⟨true, false, false, false⟩,
    components := ⟨.kX, .k0, .kZ, .kW⟩ }

/-- A result that writes lanes x, z, w with swizzle x, 0, z, 1, clamped. -/
def constWriteResult : InstructionResult :=
  { storage_target := .kRegister, storage_index := 2, storage_addressing_mode := .kStatic,
    is_clamped := true, write_mask := ⟨true, false, true, true⟩,
    components := ⟨.kX, .k0, .kZ, .k1⟩ }

/-- A result that writes lanes x, y of interpolant 3 from components y, x. -/
def swizzledResult : InstructionResult :=
  { storage_target := .kInterpolant, storage_index := 3,
    storage_addressing_mode := .kAddressAbsolute, is_clamped := false,
    write_mask := ⟨true, true, false, false⟩, components := ⟨.kY, .kX, .kZ, .kW⟩ }

/-- An operand with three components `y x z`, negated and absolute-value. -/
def swizzledOperand : InstructionOperand :=
  { storage_source := .kConstantFloat, storage_index := 5, storage_addressing_mode := .kStatic,
    is_negated := true, is_absolute_value := true, component_count := 3,
    components := ⟨.kY, .kX, .kZ, .kW⟩, is_standard_swizzle := false }

/-- A conditional exec on bool constant 37 with condition true. -/
def condExecExample : ParsedExecInstruction :=
  { disassembly := "", type := .kConditional, bool_constant_index := 37, condition := true }

/-- The scenario "predicated kill": vector `kill_gt` on `r0`, `r1`, predicated
on `p0` being true, result `r2`. -/
def killExample : ParsedAluInstruction :=
  { disassembly := "", type := .kVector, vector_opcode := .kKillGt,
    scalar_opcode := .kRetainPrev, is_predicated := true, predicate_condition := true,
    operand_count := 2,
    operands := ⟨registerOperand 0, registerOperand 1, registerOperand 0⟩,
    result := registerResult 2 }

/-! ## Shader assembly and the callback stream -/

/-- Attribute of a vertex binding, with the fields `StartTranslation` reads:
`attrib_index` and the fetch instruction of the attribute. -/
structure VertexAttribute where
  attrib_index : Int
  fetch_instr : ParsedVertexFetchInstruction
deriving DecidableEq, Repr

/-- Vertex binding, with the fields `StartTranslation` reads: the fetch
constant, an unsigned value, and the attributes. -/
structure VertexBinding where
  fetch_constant : Nat
  attributes : List VertexAttribute
deriving DecidableEq, Repr

/-- Constant `kMaxInterpolators`. -/
def kMaxInterpolators : Nat := 16

/-- Constant `kMaxTemporaryRegisters`. -/
def kMaxTemporaryRegisters : Nat := 64

/-- First raw string of `StartTranslation`: version, extensions, `StateData`, the
state buffer and `VertexData`. -/
def preambleCommon : String :=
  "\n" ++
  "#version 450\n" ++
  "#extension all : warn\n" ++
  "#extension GL_ARB_bindless_texture : require\n" ++
  "#extension GL_ARB_explicit_uniform_location : require\n" ++
  "#extension GL_ARB_shader_draw_parameters : require\n" ++
  "#extension GL_ARB_shader_storage_buffer_object : require\n" ++
  "#extension GL_ARB_shading_language_420pack : require\n" ++
  "#extension GL_ARB_fragment_coord_conventions : require\n" ++
  "#define FLT_MAX 3.402823466e+38\n" ++
  "precision highp float;\n" ++
  "precision highp int;\n" ++
  "layout(std140, column_major) uniform;\n" ++
  "layout(std430, column_major) buffer;\n" ++
  "\n" ++
  "// This must match DrawBatcher::CommonHeader.\n" ++
  "struct StateData \x7b\n" ++
  "  vec4 window_scale;\n" ++
  "  vec4 vtx_fmt;\n" ++
  "  vec4 alpha_test;\n" ++
  "  // TODO(benvanik): variable length.\n" ++
  "  uvec2 texture_samplers[32];\n" ++
  "  vec4 float_consts[512];\n" ++
  "  int bool_consts[8];\n" ++
  "  int loop_consts[32];\n" ++
  "\x7d;\n" ++
  "layout(binding = 0) buffer State \x7b\n" ++
  "  StateData states[];\n" ++
  "\x7d;\n" ++
  "\n" ++
  "struct VertexData \x7b\n" ++
  "  vec4 o[16];\n" ++
  "\x7d;\n"

/-- Second raw string of `StartTranslation`: the helper `cube`. -/
def preambleCube : String :=
  "\n" ++
  "vec4 cube(vec4 src0, vec4 src1) \x7b\n" ++
  "  vec3 src = vec3(src1.y, src1.x, src1.z);\n" ++
  "  vec3 abs_src = abs(src);\n" ++
  "  int face_id;\n" ++
  "  float sc;\n" ++
  "  float tc;\n" ++
  "  float ma;\n" ++
  "  if (abs_src.x > abs_src.y && abs_src.x > abs_src.z) \x7b\n" ++
  "    if (src.x > 0.0) \x7b\n" ++
  "      face_id = 0; sc = -abs_src.z; tc = -abs_src.y; ma = abs_src.x;\n" ++
  "    \x7d else \x7b\n" ++
  "      face_id = 1; sc =  abs_src.z; tc = -abs_src.y; ma = abs_src.x;\n" ++
  "    \x7d\n" ++
  "  \x7d else if (abs_src.y > abs_src.x && abs_src.y > abs_src.z) \x7b\n" ++
  "    if (src.y > 0.0) \x7b\n" ++
  "      face_id = 2; sc =  abs_src.x; tc =  abs_src.z; ma = abs_src.y;\n" ++
  "    \x7d else \x7b\n" ++
  "      face_id = 3; sc =  abs_src.x; tc = -abs_src.z; ma = abs_src.y;\n" ++
  "    \x7d\n" ++
  "  \x7d else \x7b\n" ++
  "    if (src.z > 0.0) \x7b\n" ++
  "      face_id = 4; sc =  abs_src.x; tc = -abs_src.y; ma = abs_src.z;\n" ++
  "    \x7d else \x7b\n" ++
  "      face_id = 5; sc = -abs_src.x; tc = -abs_src.y; ma = abs_src.z;\n" ++
  "    \x7d\n" ++
  "  \x7d\n" ++
  "  float s = (sc / ma + 1.0) / 2.0;\n" ++
  "  float t = (tc / ma + 1.0) / 2.0;\n" ++
  "  return vec4(t, s, 2.0 * ma, float(face_id));\n" ++
  "\x7d;\n"

/-- Raw string of `StartTranslation` for the vertex stage: outputs,
`applyTransform` and `main`. -/
def preambleVertex : String :=
  "\n" ++
  "out gl_PerVertex \x7b\n" ++
  "  vec4 gl_Position;\n" ++
  "  float gl_PointSize;\n" ++
  "  float gl_ClipDistance[];\n" ++
  "\x7d;\n" ++
  "layout(location = 0) flat out uint draw_id;\n" ++
  "layout(location = 1) out VertexData vtx;\n" ++
  "vec4 applyTransform(const in StateData state, vec4 pos) \x7b\n" ++
  "  if (state.vtx_fmt.w == 0.0) \x7b\n" ++
  "    // w is 1/W0, so fix it.\n" ++
  "    pos.w = 1.0 / pos.w;\n" ++
  "  \x7d\n" ++
  "  if (state.vtx_fmt.x != 0.0) \x7b\n" ++
  "    // Already multiplied by 1/W0, so pull it out.\n" ++
  "    pos.xy /= pos.w;\n" ++
  "  \x7d\n" ++
  "  if (state.vtx_fmt.z != 0.0) \x7b\n" ++
  "    // Already multiplied by 1/W0, so pull it out.\n" ++
  "    pos.z /= pos.w;\n" ++
  "  \x7d\n" ++
  "  pos.xy *= state.window_scale.xy;\n" ++
  "  return pos;\n" ++
  "\x7d;\n" ++
  "void processVertex(const in StateData state);\n" ++
  "void main() \x7b\n" ++
  "  gl_Position = vec4(0.0, 0.0, 0.0, 1.0);\n" ++
  "  gl_PointSize = 1.0;\n" ++
  "  for (int i = 0; i < vtx.o.length(); ++i) \x7b\n" ++
  "    vtx.o[i] = vec4(0.0, 0.0, 0.0, 0.0);\n" ++
  "  \x7d\n" ++
  "  const StateData state = states[gl_DrawIDARB];\n" ++
  "  processVertex(state);\n" ++
  "  gl_Position = applyTransform(state, gl_Position);\n" ++
  "  draw_id = gl_DrawIDARB;\n" ++
  "\x7d\n"

/-- Raw string of `StartTranslation` for the pixel stage: inputs, outputs,
`applyAlphaTest` and `main`. -/
def preamblePixel : String :=
  "\n" ++
  "layout(origin_upper_left, pixel_center_integer) in vec4 gl_FragCoord;\n" ++
  "layout(location = 0) flat in uint draw_id;\n" ++
  "layout(location = 1) in VertexData vtx;\n" ++
  "layout(location = 0) out vec4 oC[4];\n" ++
  "void applyAlphaTest(int alpha_func, float alpha_ref) \x7b\n" ++
  "  bool passes = false;\n" ++
  "  switch (alpha_func) \x7b\n" ++
  "  case 0:                                          break;\n" ++
  "  case 1: if (oC[0].a <  alpha_ref) passes = true; break;\n" ++
  "  case 2: if (oC[0].a == alpha_ref) passes = true; break;\n" ++
  "  case 3: if (oC[0].a <= alpha_ref) passes = true; break;\n" ++
  "  case 4: if (oC[0].a >  alpha_ref) passes = true; break;\n" ++
  "  case 5: if (oC[0].a != alpha_ref) passes = true; break;\n" ++
  "  case 6: if (oC[0].a >= alpha_ref) passes = true; break;\n" ++
  "  case 7:                           passes = true; break;\n" ++
  "  \x7d;\n" ++
  "  if (!passes) discard;\n" ++
  "\x7d\n" ++
  "void processFragment(const in StateData state);\n" ++
  "void main() \x7b\n" ++
  "  const StateData state = states[draw_id];\n" ++
  "  processFragment(state);\n" ++
  "  if (state.alpha_test.x != 0.0) \x7b\n" ++
  "    applyAlphaTest(int(state.alpha_test.y), state.alpha_test.z);\n" ++
  "  \x7d\n" ++
  "\x7d\n"

namespace GlslShaderTranslator

/-- Base-class query `is_vertex_shader()`. -/
def is_vertex_shader (t : GlslShaderTranslator) : Bool :=
  decide (t.shader_type_ = .kVertex)

/-- The statement of the inner loop of `StartTranslation`: the input
declaration of one attribute. -/
def emitAttribute (t : GlslShaderTranslator) (binding : VertexBinding)
    (attrib : VertexAttribute) : GlslShaderTranslator :=
  let type_name := GetVertexFormatTypeName attrib.fetch_instr.attributes.data_format
  EmitSource t ("layout(location = " ++ toString attrib.attrib_index ++ ") in " ++ type_name ++
    " vf" ++ toString binding.fetch_constant ++ "_" ++
    toString attrib.fetch_instr.attributes.offset ++ ";\n")

/-- The two nested loops of `StartTranslation` over bindings and attributes. -/
def emitVertexInputs (t : GlslShaderTranslator) (vertex_bindings : List VertexBinding) :
    GlslShaderTranslator :=
  vertex_bindings.foldl
    (fun acc binding =>
      binding.attributes.foldl (fun acc2 attrib => emitAttribute acc2 binding attrib) acc)
    t

/-- The loop of `StartTranslation` that copies the interpolators. -/
def emitInterpolatorCopies (t : GlslShaderTranslator) : GlslShaderTranslator :=
  (List.range kMaxInterpolators).foldl
    (fun acc i => EmitSource acc ("  r[" ++ toString i ++ "] = vtx.o[" ++ toString i ++ "];\n")) t

/-- Member `StartTranslation`; `vertex_bindings` is what the base-class query
`vertex_bindings()` returns. -/
def StartTranslation (t : GlslShaderTranslator) (vertex_bindings : List VertexBinding) :
    GlslShaderTranslator :=
  let t := EmitSource t preambleCommon
  let t := EmitSource t preambleCube
  let t := if t.is_vertex_shader then EmitSource t preambleVertex else EmitSource t preamblePixel
  let t := if t.is_vertex_shader then emitVertexInputs t vertex_bindings else t
  let t :=
    if t.is_vertex_shader then
      let t := EmitSource t "void processVertex(const in StateData state) \x7b\n"
      EmitSource t "  vec4 r[64];\n"
    else
      let t := EmitSource t "void processFragment(const in StateData state) \x7b\n"
      let t := EmitSource t "  vec4 r[64];\n"
      emitInterpolatorCopies t
  let t := EmitSource t "  vec4 pv;\n"
  let t := EmitSource t "  float ps;\n"
  let t := EmitSource t "  bool p0 = false;\n"
  let t := EmitSource t "  int a0 = 0;\n"
  let t := EmitSource t "  vec4 src0;\n"
  let t := EmitSource t "  vec4 src1;\n"
  EmitSource t "  vec4 src2;\n"

/-- Member `CompleteTranslation`: closes the process function; the second
component is the text of the bytes returned. -/
def CompleteTranslation (t : GlslShaderTranslator) : GlslShaderTranslator × String :=
  let t := EmitSource t "\x7d\n"
  (t, t.source_)

end GlslShaderTranslator

/-- One call of a callback of the translator by the parser, with its argument. -/
inductive Callback where
  | label (cf_index : Nat)
  | controlFlowNop
  | execBegin (instr : ParsedExecInstruction)
  | execEnd (instr : ParsedExecInstruction)
  | loopStart (instr : ParsedControlFlowInstruction)
  | loopEnd (instr : ParsedControlFlowInstruction)
  | call (instr : ParsedControlFlowInstruction)
  | ret (instr : ParsedControlFlowInstruction)
  | jump (instr : ParsedControlFlowInstruction)
  | alloc (instr : ParsedControlFlowInstruction)
  | vertexFetch (instr : ParsedVertexFetchInstruction)
  | textureFetch (instr : ParsedTextureFetchInstruction)
  | alu (instr : ParsedAluInstruction)
deriving DecidableEq, Repr

/-- The member function a callback stands for, applied to the translator. -/
def Callback.run (t : GlslShaderTranslator) : Callback → GlslShaderTranslator
  | .label _ => GlslShaderTranslator.ProcessLabel t
  | .controlFlowNop => GlslShaderTranslator.ProcessControlFlowNopInstruction t
  | .execBegin instr => GlslShaderTranslator.ProcessExecInstructionBegin t instr
  | .execEnd instr => GlslShaderTranslator.ProcessExecInstructionEnd t instr
  | .loopStart instr => GlslShaderTranslator.ProcessUnimplementedControlFlow t instr
  | .loopEnd instr => GlslShaderTranslator.ProcessUnimplementedControlFlow t instr
  | .call instr => GlslShaderTranslator.ProcessUnimplementedControlFlow t instr
  | .ret instr => GlslShaderTranslator.ProcessUnimplementedControlFlow t instr
  | .jump instr => GlslShaderTranslator.ProcessUnimplementedControlFlow t instr
  | .alloc instr => GlslShaderTranslator.ProcessAllocInstruction t instr
  | .vertexFetch instr => GlslShaderTranslator.ProcessVertexFetchInstruction t instr
  | .textureFetch instr => GlslShaderTranslator.ProcessTextureFetchInstruction t instr
  | .alu instr => GlslShaderTranslator.ProcessAluInstruction t instr

/-- Modelled from the spec: the driver of a translation is not among the
sources; for each shader `Reset` clears the state, `StartTranslation` emits
the preamble, the parser drives the callbacks in order, and
`CompleteTranslation` closes the function and returns the bytes. -/
def Translate (t : GlslShaderTranslator) (vertex_bindings : List VertexBinding)
    (stream : List Callback) : GlslShaderTranslator × String :=
  GlslShaderTranslator.CompleteTranslation
    (stream.foldl Callback.run
      (GlslShaderTranslator.StartTranslation (GlslShaderTranslator.Reset t) vertex_bindings))

/-! ## What a callback emits, line by line -/

/-- Text of a list of segments, a segment being an indentation and a line. -/
def segmentsText : List (String × String) → String
  | [] => ""
  | (ind, l) :: rest => ind ++ l ++ segmentsText rest

/-- The segments of an instruction with body lines `ls`: the guard line when
predicated, the body lines at the indentation of the body, and the closing
brace when predicated. -/
def guardedSegments (t : GlslShaderTranslator) (is_predicated predicate_condition : Bool)
    (ls : List String) : List (String × String) :=
  (if is_predicated then [(indent t, guardLine predicate_condition)] else []) ++
    ls.map (fun l => (indent (bodyState t is_predicated), l)) ++
    (if is_predicated then
      [(indent (GlslShaderTranslator.Unindent (GlslShaderTranslator.Indent t)), "\x7d\n")]
     else [])

/-- The header line of an exec block, without its indentation. -/
def execHeader (instr : ParsedExecInstruction) : String :=
  match instr.type with
  | .kUnconditional => "\x7b\n"
  | .kConditional =>
    "if ((state.bool_consts[" ++ toString (instr.bool_constant_index / 32) ++
      "] & (1 << " ++ toString (instr.bool_constant_index % 32) ++ ")) == " ++
      (if instr.condition then "1" else "0") ++ ") \x7b\n"
  | .kPredicated => if instr.condition then "if ( p0) \x7b\n" else "if (!p0) \x7b\n"

/-- The text that `Disassemble` contributes to a callback; none for the
callbacks that do not disassemble. -/
def Callback.disassembly : Callback → String
  | .label _ => ""
  | .controlFlowNop => ""
  | .execBegin instr => instr.disassembly
  | .execEnd _ => ""
  | .loopStart instr => instr.disassembly
  | .loopEnd instr => instr.disassembly
  | .call instr => instr.disassembly
  | .ret instr => instr.disassembly
  | .jump instr => instr.disassembly
  | .alloc instr => instr.disassembly
  | .vertexFetch instr => instr.disassembly
  | .textureFetch instr => instr.disassembly
  | .alu instr => instr.disassembly

/-- The comment a callback emits first, through `EmitSource`: `// ` and the
disassembly, or the fixed `cnop` comment; none for label and exec end. -/
def Callback.comment : Callback → String
  | .label _ => ""
  | .controlFlowNop => "//        cnop\n"
  | .execEnd _ => ""
  | cb => "// " ++ cb.disassembly

/-- The lines a callback emits through `EmitSourceDepth`, each with its
indentation, in order. -/
def Callback.segments (t : GlslShaderTranslator) : Callback → List (String × String)
  | .label _ => [(indent t, "// UNIMPLEMENTED TRANSLATION\n")]
  | .controlFlowNop => []
  | .execBegin instr => [(indent t, execHeader instr)]
  | .execEnd _ => [(indent (GlslShaderTranslator.Unindent t), "\x7d\n")]
  | .loopStart _ => [(indent t, "// UNIMPLEMENTED TRANSLATION\n")]
  | .loopEnd _ => [(indent t, "// UNIMPLEMENTED TRANSLATION\n")]
  | .call _ => [(indent t, "// UNIMPLEMENTED TRANSLATION\n")]
  | .ret _ => [(indent t, "// UNIMPLEMENTED TRANSLATION\n")]
  | .jump _ => [(indent t, "// UNIMPLEMENTED TRANSLATION\n")]
  | .alloc _ => []
  | .vertexFetch instr =>
    guardedSegments t instr.is_predicated instr.predicate_condition
      (vertexFetchLines t.shader_type_ instr)
  | .textureFetch instr =>
    guardedSegments t instr.is_predicated instr.predicate_condition
      (textureFetchLines t.shader_type_ instr)
  | .alu instr =>
    match instr.type with
    | .kNop => []
    | _ =>
      guardedSegments t instr.is_predicated instr.predicate_condition
        (aluLines t.shader_type_ instr)

/-- Whether a callback is an exec begin or an exec end. -/
def Callback.isExec : Callback → Bool
  | .execBegin _ => true
  | .execEnd _ => true
  | _ => false

/-- The lines a callback emits, without their indentation. -/
def Callback.lines (t : GlslShaderTranslator) (cb : Callback) : List String :=
  (cb.segments t).map Prod.snd

/-- Whether a line, after its leading spaces, opens with `head`. -/
def lineOpensWith (head line : String) : Bool :=
  head.data.isPrefixOf (line.data.dropWhile (fun c => c == ' '))

/-- Whether a line is an assignment to the address register `a0`. -/
def assignsA0 (line : String) : Bool := lineOpensWith "a0 = " line

/-- Whether a line is an assignment to the predicate register `p0`. -/
def assignsP0 (line : String) : Bool := lineOpensWith "p0 = " line

/-- Whether a character names a lane. -/
def isLaneLetter (c : Char) : Bool := c == 'x' || c == 'y' || c == 'z' || c == 'w'

/-- The lanes of `pv` that a statement assigns, the statement given by its
characters: all four for `pv = …`, the listed ones for `pv.<lanes> = …`, none
for any other statement. -/
def pvLanesOf (stmt : List Char) : List Char :=
  if "pv = ".data.isPrefixOf stmt then ['x', 'y', 'z', 'w']
  else if "pv.".data.isPrefixOf stmt then
    let rest := stmt.drop 3
    let lanes := rest.takeWhile isLaneLetter
    if " = ".data.isPrefixOf (rest.drop lanes.length) then lanes else []
  else []

/-- The marker `s` when a statement, given by its characters, assigns `ps`. -/
def psLanesOf (stmt : List Char) : List Char :=
  if "ps = ".data.isPrefixOf stmt then ['s'] else []

/-- Whether a line, after its leading spaces, assigns `pv` or lanes of it. -/
def assignsPv (line : String) : Bool :=
  !(pvLanesOf (line.data.dropWhile (fun c => c == ' '))).isEmpty

/-- State of the analysis of a body, line by line: `mode` 0 outside a
conditional, 1 in the first branch of an `if`, 2 in its `else` branch; the
lanes assigned so far on every path, and in each branch of the conditional
being read. -/
structure PathState where
  mode : Nat
  always : List Char
  inThen : List Char
  inElse : List Char
deriving DecidableEq, Repr

/-- Whether a line opens a conditional block: `if (…) {` at the margin. -/
def opensIf (line : String) : Bool :=
  "if (".data.isPrefixOf line.data && "\x7b\n".data.isSuffixOf line.data

/-- The lanes that a line of a branch assigns: the line is indented by two
spaces exactly. -/
def branchLanes (lanesOf : List Char → List Char) (line : String) : List Char :=
  match line.data with
  | ' ' :: ' ' :: rest => lanesOf rest
  | _ => []

/-- One line of the analysis. At the margin an `if (…) {` enters the first
branch and any other line adds the lanes it assigns; in a branch `} else {`
and `}` move on, the latter adding the lanes assigned in both branches (none
when there was no `else`). -/
def pathStep (lanesOf : List Char → List Char) (s : PathState) (line : String) : PathState :=
  if s.mode = 0 then
    if opensIf line then { s with mode := 1, inThen := [], inElse := [] }
    else { s with always := s.always ++ lanesOf line.data }
  else if s.mode = 1 then
    if line = "\x7d else \x7b\n" then { s with mode := 2 }
    else if line = "\x7d\n" then { s with mode := 0 }
    else { s with inThen := s.inThen ++ branchLanes lanesOf line }
  else
    if line = "\x7d\n" then
      { s with mode := 0, always := s.always ++ s.inThen.filter (fun c => s.inElse.contains c) }
    else { s with inElse := s.inElse ++ branchLanes lanesOf line }

/-- The lanes that a body assigns on every execution path. -/
def assignedOnEveryPath (lanesOf : List Char → List Char) (body : List String) : List Char :=
  let s := body.foldl (pathStep lanesOf) { mode := 0, always := [], inThen := [], inElse := [] }
  if s.mode = 0 then s.always else []

/-! ## Braces -/

/-- One character of the brace count: `none` once a closing brace had no
opening brace before it, else the number of braces open. -/
def braceStep (n : Option Nat) (c : Char) : Option Nat :=
  match n with
  | none => none
  | some k =>
    if c = '\x7b' then some (k + 1)
    else if c = '\x7d' then (if k = 0 then none else some (k - 1))
    else some k

/-- The brace count after a text, from the count `n` before it. -/
def braceScan (n : Option Nat) (s : String) : Option Nat :=
  s.data.foldl braceStep n

/-- Every opening brace of the text is matched by a later closing brace, and
no part read from the start holds more closing than opening braces. -/
def BracesMatched (s : String) : Prop :=
  braceScan (some 0) s = some 0

instance (s : String) : Decidable (BracesMatched s) :=
  inferInstanceAs (Decidable (braceScan (some 0) s = some 0))

/-- Whether a text holds no brace. -/
def braceFree (s : String) : Bool :=
  !s.data.contains '\x7b' && !s.data.contains '\x7d'

/-- One callback of the count of open exec blocks: `none` once an exec end
had no exec begin before it. -/
def execStep (n : Option Nat) (cb : Callback) : Option Nat :=
  match n with
  | none => none
  | some k =>
    match cb with
    | .execBegin _ => some (k + 1)
    | .execEnd _ => if k = 0 then none else some (k - 1)
    | _ => some k

/-- The exec begins and exec ends of a stream are matched: each exec begin by
a later exec end, each exec end matching an exec begin before it. -/
def ExecMatched (stream : List Callback) : Prop :=
  stream.foldl execStep (some 0) = some 0

instance (stream : List Callback) : Decidable (ExecMatched stream) :=
  inferInstanceAs (Decidable (stream.foldl execStep (some 0) = some 0))

/-- The indentation read from the buffer holds spaces only. -/
def CleanIndent (t : GlslShaderTranslator) : Prop :=
  ∀ c ∈ (cstr t.depth_prefix_).data, c = ' '

/-- Concatenation of lines. -/
def concatLines : List String → String
  | [] => ""
  | l :: ls => l ++ concatLines ls

/-- The input declarations of the vertex stage: one line per attribute, in
binding order and then attribute order. -/
def vertexInputLines (vertex_bindings : List VertexBinding) : List String :=
  vertex_bindings.flatMap (fun binding =>
    binding.attributes.map (fun attrib =>
      "layout(location = " ++ toString attrib.attrib_index ++ ") in " ++
        GetVertexFormatTypeName attrib.fetch_instr.attributes.data_format ++
        " vf" ++ toString binding.fetch_constant ++ "_" ++
        toString attrib.fetch_instr.attributes.offset ++ ";\n"))

/-- The copies of the interpolators into the registers, `r[i] = vtx.o[i];`
for i = 0..15. -/
def interpolatorCopyLines : List String :=
  (List.range 16).map (fun i => "  r[" ++ toString i ++ "] = vtx.o[" ++ toString i ++ "];\n")

/-- The declarations of the scratch variables that end the preamble. -/
def scratchDeclarations : String :=
  "  vec4 pv;\n" ++ "  float ps;\n" ++ "  bool p0 = false;\n" ++ "  int a0 = 0;\n" ++
    "  vec4 src0;\n" ++ "  vec4 src1;\n" ++ "  vec4 src2;\n"

/-- The preamble up to the scratch declarations: the shared text, the helper
`cube`, the text of the stage, the vertex inputs (vertex stage), the opening
of the process function, the registers and the interpolator copies (pixel
stage). -/
def preambleHead (stage : ShaderType) (vertex_bindings : List VertexBinding) : String :=
  match stage with
  | .kVertex =>
    preambleCommon ++ preambleCube ++ preambleVertex ++
      concatLines (vertexInputLines vertex_bindings) ++
      "void processVertex(const in StateData state) \x7b\n" ++ "  vec4 r[64];\n"
  | .kPixel =>
    preambleCommon ++ preambleCube ++ preamblePixel ++
      "void processFragment(const in StateData state) \x7b\n" ++ "  vec4 r[64];\n" ++
      concatLines interpolatorCopyLines

/-- The preamble that `StartTranslation` emits. -/
def preambleText (stage : ShaderType) (vertex_bindings : List VertexBinding) : String :=
  preambleHead stage vertex_bindings ++ scratchDeclarations

/-- The lines that are the same for every instruction: the two guard lines,
the closing brace and the comment of an unimplemented translation. -/
def fixedLines : List String :=
  [guardLine true, guardLine false, "\x7d\n", "// UNIMPLEMENTED TRANSLATION\n"]

/-- The kinds of line a callback can emit: a fixed line, an exec header, an
operand load, a store from `pv` or `vec4(ps)`, a line of the opcode body of
the vector or scalar ALU instruction of the callback, a line of the opcode
body of a texture fetch or of the body of a vertex fetch. -/
def LineOfCallback (cb : Callback) (l : String) : Prop :=
  l ∈ fixedLines ∨
  (∃ e : ParsedExecInstruction, l = execHeader e) ∨
  (∃ (stage : ShaderType) (i : Nat) (op : InstructionOperand), l = loadLine stage i op) ∨
  (∃ r : InstructionResult, l = storeLine r "pv" ∨ l = storeLine r "vec4(ps)") ∨
  (∃ instr : ParsedAluInstruction, cb = .alu instr ∧ instr.type = .kVector ∧
    l ∈ GlslShaderTranslator.vectorOpcodeBody instr.vector_opcode) ∨
  (∃ instr : ParsedAluInstruction, cb = .alu instr ∧ instr.type = .kScalar ∧
    l ∈ GlslShaderTranslator.scalarOpcodeBody instr.scalar_opcode) ∨
  (∃ instr : ParsedTextureFetchInstruction, l ∈ textureOpcodeLines instr) ∨
  (∃ (n : Nat) (k : Nat) (o : Int),
    l = "pv." ++ String.mk ((List.range n).map GetCharForComponentIndex) ++
      " = vf" ++ toString k ++ "_" ++ toString o ++ ";\n")

/-- The shape of what a callback `w = Process…(t, instr)` emits together with
the lanes of `pv` that it assigns before its store: the text is the comment,
the guard if any, the lines `pre`, the store from `pv` if the result has
writes, and the closing brace if any; and the lanes of `pv` that the lines
`pre` assign on every path are the lanes `lanes`, each of them and no other. -/
def AssignsLanesBeforeStore (t w : GlslShaderTranslator)
    (is_predicated predicate_condition : Bool) (disasm : String) (pre : List String)
    (result : InstructionResult) (lanes : List Char) : Prop :=
  w.source_ = t.source_ ++ "// " ++ disasm ++
      guardText t is_predicated predicate_condition ++
      indented (indent (bodyState t is_predicated)) (pre ++ storeLines result "pv") ++
      closeText t is_predicated ∧
    (∀ lane ∈ lanes, lane ∈ assignedOnEveryPath pvLanesOf pre) ∧
    (∀ lane ∈ assignedOnEveryPath pvLanesOf pre, lane ∈ lanes)

/-- The lanes of `pv` that the case `kVertexFetch` of
`ProcessVertexFetchInstruction` assigns: the first lanes, as many as the data
format has components. -/
def vertexFetchLanes (data_format : VertexFormat) : List Char :=
  (List.range (GetVertexFormatComponentCount data_format)).map GetCharForComponentIndex

/-- The shape of what a callback `w = Process…(t, instr)` emits when it
assigns `pv` nowhere: as above, but no line of `pre` assigns `pv`. -/
def StoresWithoutAssigningPv (t w : GlslShaderTranslator)
    (is_predicated predicate_condition : Bool)
    (disasm : String) (pre : List String) (result : InstructionResult) : Prop :=
  w.source_ = t.source_ ++ "// " ++ disasm ++
      guardText t is_predicated predicate_condition ++
      indented (indent (bodyState t is_predicated)) (pre ++ storeLines result "pv") ++
      closeText t is_predicated ∧
    pre.any assignsPv = false

/-- Whether the case of a fetch opcode in `ProcessTextureFetchInstruction`
assigns `pv`: the fetch itself and the opcodes that fall back to zero. -/
def textureOpcodeAssignsPv : FetchOpcode → Bool
  | .kTextureFetch => true
  | .kGetTextureBorderColorFrac => true
  | .kGetTextureComputedLod => true
  | .kGetTextureGradients => true
  | .kGetTextureWeights => true
  | .kUnknownTextureOp => true
  | .kSetTextureLod => false
  | .kSetTextureGradientsHorz => false
  | .kSetTextureGradientsVert => false
  | .kVertexFetch => false

/-- A texture fetch with opcode `kSetTextureLod`, no operand to load, and a
result that writes all four lanes of `r2`. -/
def setLodExample : ParsedTextureFetchInstruction :=
  { disassembly := "", opcode := .kSetTextureLod, dimension := .k2D, is_predicated := false,
    predicate_condition := false, operand_count := 0,
    operands := ⟨registerOperand 0, registerOperand 0, registerOperand 0⟩,
    result := registerResult 2 }

/-- The function `clamp` of the shading language on integers:
`min(max(n, lo), hi)`. -/
def clampInt (n lo hi : Int) : Int := min (max n lo) hi

/-- The value that `a0 = clamp(int(floor(E)), -256, 255);` writes to `a0` when
`E` has the value `e`, arithmetic taken as exact. -/
def a0Written (e : ℚ) : Int := clampInt ⌊e⌋ (-256) 255

/-- Vector opcodes whose case assigns `p0`. -/
def vectorOpcodeSetsP0 : AluVectorOpcode → Bool
  | .kSetpEqPush => true
  | .kSetpNePush => true
  | .kSetpGtPush => true
  | .kSetpGePush => true
  | _ => false

/-- Scalar opcodes whose case assigns `p0`. -/
def scalarOpcodeSetsP0 : AluScalarOpcode → Bool
  | .kSetpEq => true
  | .kSetpNe => true
  | .kSetpGt => true
  | .kSetpGe => true
  | .kSetpInv => true
  | .kSetpPop => true
  | .kSetpClr => true
  | .kSetpRstr => true
  | _ => false

/-- The vector instruction `maxa` on `r0`, `r1` with result `r2`. -/
def maxaExample : ParsedAluInstruction :=
  { addExample "maxa" with vector_opcode := .kMaxA }

/-- The scalar instruction `setp_eq` on `r0` with result `r2`. -/
def setpEqExample : ParsedAluInstruction :=
  { addExample "setp_eq" with type := .kScalar, scalar_opcode := .kSetpEq, operand_count := 1 }

/-! ## Reading the emitted statements

A fragment of the shading language, large enough for the statements of the
predicate setters, the kill opcodes and `muls_prev2`: expressions printed with
the precedence of the operators, and what they compute. -/

/-- A `float` of the shading language: a finite number, an infinity or a NaN.
A finite number is a rational. Sums and products are rounded to binary32 (see
`round32`); zero has no sign, which no comparison can tell, and subnormal
numbers are kept. -/
inductive FVal where
  | fin (q : ℚ)
  | posInf
  | negInf
  | nan
deriving DecidableEq

/-- Value of `#define FLT_MAX 3.402823466e+38` of the preamble: the literal
read as a binary32 number, which is the largest finite one, 2^128 - 2^104. -/
def FLT_MAX : ℚ := 340282346638528859811704183484516925440

/-- Number of binary digits of `n`, with `fuel` at least that number. -/
def bitLength : Nat → Nat → Nat
  | 0, _ => 0
  | fuel + 1, n => if n = 0 then 0 else bitLength fuel (n / 2) + 1

/-- The exponent `e` with `2^e <= n / d < 2^(e + 1)`, for positive `n` and `d`. -/
def floorLog2 (n d : Nat) : Int :=
  let c : Int := (bitLength n n : Int) - (bitLength d d : Int)
  if 0 ≤ c then (if d * 2 ^ c.toNat ≤ n then c else c - 1)
  else (if d ≤ n * 2 ^ (-c).toNat then c else c - 1)

/-- The integer nearest to `n / d`, the even one of the two when `n / d` lies
halfway between them. -/
def roundHalfEven (n d : Nat) : Nat :=
  if 2 * (n % d) < d then n / d
  else if d < 2 * (n % d) then n / d + 1
  else if n / d % 2 = 0 then n / d else n / d + 1

/-- Rounding of a rational to binary32, to nearest with ties to even: with `e`
the exponent of the number, not below -126, the result is the multiple of
`2^(e - 23)` nearest to it; a result of magnitude `2^128` or more is an
infinity. -/
def round32 (x : ℚ) : FVal :=
  if x.num = 0 then .fin 0
  else
    let n := x.num.natAbs
    let d := x.den
    let k : Int := max (floorLog2 n d) (-126) - 23
    let m : Nat :=
      if 0 ≤ k then roundHalfEven n (d * 2 ^ k.toNat) else roundHalfEven (n * 2 ^ (-k).toNat) d
    if 0 ≤ k ∧ 2 ^ 128 ≤ m * 2 ^ k.toNat then (if 0 < x.num then .posInf else .negInf)
    else
      let v : ℚ := if 0 ≤ k then ((m * 2 ^ k.toNat : Nat) : ℚ) else mkRat m (2 ^ (-k).toNat)
      .fin (if 0 < x.num then v else -v)

namespace FVal

/-- Negation `-a`. -/
def neg : FVal → FVal
  | fin q => fin (-q)
  | posInf => negInf
  | negInf => posInf
  | nan => nan

/-- Sum `a + b`, rounded to binary32; the sum of opposite infinities is a
NaN. -/
def add : FVal → FVal → FVal
  | fin a, fin b => round32 (a + b)
  | nan, _ => nan
  | _, nan => nan
  | posInf, negInf => nan
  | negInf, posInf => nan
  | posInf, _ => posInf
  | _, posInf => posInf
  | negInf, _ => negInf
  | _, negInf => negInf

/-- Difference `a - b`. -/
def sub (a b : FVal) : FVal := add a (neg b)

/-- Sign of a value as -1, 0 or 1; 0 for a NaN. -/
def sign : FVal → Int
  | fin q => if q < 0 then -1 else if q = 0 then 0 else 1
  | posInf => 1
  | negInf => -1
  | nan => 0

/-- Product `a * b`, rounded to binary32; the product of an infinity and zero
is a NaN. -/
def mul : FVal → FVal → FVal
  | fin a, fin b => round32 (a * b)
  | nan, _ => nan
  | _, nan => nan
  | a, b =>
    if sign a * sign b = 0 then nan
    else if sign a * sign b = 1 then posInf else negInf

/-- Comparison `a == b`; false when either is a NaN. -/
def eq : FVal → FVal → Bool
  | fin a, fin b => decide (a = b)
  | posInf, posInf => true
  | negInf, negInf => true
  | _, _ => false

/-- Comparison `a <= b`; false when either is a NaN. -/
def le : FVal → FVal → Bool
  | nan, _ => false
  | _, nan => false
  | fin a, fin b => decide (a ≤ b)
  | negInf, _ => true
  | _, posInf => true
  | _, _ => false

/-- Comparison `a != b`. -/
def ne (a b : FVal) : Bool := !eq a b

/-- Comparison `a >= b`. -/
def ge (a b : FVal) : Bool := le b a

/-- Comparison `a > b`. -/
def gt (a b : FVal) : Bool := le b a && !eq a b

/-- Built-in `isinf`. -/
def isinf : FVal → Bool
  | posInf => true
  | negInf => true
  | _ => false

/-- Built-in `isnan`. -/
def isnan : FVal → Bool
  | nan => true
  | _ => false

end FVal

/-- A value of an expression: a `float` or a `bool`. -/
inductive Val where
  | num (f : FVal)
  | bool (b : Bool)
deriving DecidableEq

/-- The binary operators of the emitted statements. -/
inductive BinOp where
  | mul
  | add
  | sub
  | le
  | gt
  | ge
  | eq
  | ne
  | and
  | or
deriving DecidableEq, Repr

namespace BinOp

/-- Precedence of an operator in the shading language, higher binding
tighter: multiplicative, additive, relational, equality, logical and,
logical or. -/
def prec : BinOp → Nat
  | mul => 7
  | add => 6
  | sub => 6
  | le => 5
  | gt => 5
  | ge => 5
  | eq => 4
  | ne => 4
  | and => 3
  | or => 2

/-- The token of an operator. -/
def text : BinOp → String
  | mul => "*"
  | add => "+"
  | sub => "-"
  | le => "<="
  | gt => ">"
  | ge => ">="
  | eq => "=="
  | ne => "!="
  | and => "&&"
  | or => "||"

/-- What an operator computes; nothing when the operands have the wrong type. -/
def apply : BinOp → Val → Val → Option Val
  | mul, .num a, .num b => some (.num (a.mul b))
  | add, .num a, .num b => some (.num (a.add b))
  | sub, .num a, .num b => some (.num (a.sub b))
  | le, .num a, .num b => some (.bool (a.le b))
  | gt, .num a, .num b => some (.bool (a.gt b))
  | ge, .num a, .num b => some (.bool (a.ge b))
  | eq, .num a, .num b => some (.bool (a.eq b))
  | ne, .num a, .num b => some (.bool (a.ne b))
  | and, .bool a, .bool b => some (.bool (a && b))
  | or, .bool a, .bool b => some (.bool (a || b))
  | _, _, _ => none

end BinOp

/-- Expressions of the emitted statements: a lane `src<i>.<lane>` of an
operand, `ps`, the literals `0.0`, `1.0`, `FLT_MAX`, `true`, `false`, unary
minus, the built-ins `isinf` and `isnan`, binary operators and the
conditional `c ? a : b`. -/
inductive Ex where
  | src (i : Nat) (lane : Nat)
  | ps
  | zero
  | one
  | fltMax
  | tt
  | ff
  | neg (e : Ex)
  | isinf (e : Ex)
  | isnan (e : Ex)
  | bin (op : BinOp) (a b : Ex)
  | cond (c a b : Ex)
deriving DecidableEq, Repr

/-- Parentheses around the text `s` of a sub-expression of precedence `p`
where precedence `need` is required. -/
def paren (need p : Nat) (s : String) : String :=
  if p < need then "(" ++ s ++ ")" else s

namespace Ex

/-- Precedence of an expression: primary 9, unary 8, binary by operator,
conditional 1. -/
def prec : Ex → Nat
  | neg _ => 8
  | bin op _ _ => op.prec
  | cond _ _ _ => 1
  | _ => 9

/-- Text of an expression, with parentheses only where the precedence of the
operators asks for them; binary operators associate to the left. -/
def render : Ex → String
  | src i lane => "src" ++ toString i ++ "." ++ String.singleton (GetCharForComponentIndex lane)
  | ps => "ps"
  | zero => "0.0"
  | one => "1.0"
  | fltMax => "FLT_MAX"
  | tt => "true"
  | ff => "false"
  | neg e => "-" ++ paren 8 e.prec e.render
  | isinf e => "isinf(" ++ e.render ++ ")"
  | isnan e => "isnan(" ++ e.render ++ ")"
  | bin op a b =>
    paren op.prec a.prec a.render ++ " " ++ op.text ++ " " ++
      paren (op.prec + 1) b.prec b.render
  | cond c a b =>
    paren 2 c.prec c.render ++ " ? " ++ paren 1 a.prec a.render ++ " : " ++
      paren 1 b.prec b.render

end Ex

/-- The variables the emitted statements read and write: the loaded operands
`src0`, `src1`, `src2`, and the temporaries `pv`, `ps` and `p0`. -/
structure ShaderState where
  src : Arr3 (Vec4 FVal)
  pv : Vec4 FVal
  ps : FVal
  p0 : Bool
deriving DecidableEq

/-- Value of an expression in a state; nothing when a sub-expression has the
wrong type. -/
def Ex.value (s : ShaderState) : Ex → Option Val
  | .src i lane => some (.num ((s.src.get i).get lane))
  | .ps => some (.num s.ps)
  | .zero => some (.num (.fin 0))
  | .one => some (.num (.fin 1))
  | .fltMax => some (.num (.fin FLT_MAX))
  | .tt => some (.bool true)
  | .ff => some (.bool false)
  | .neg e =>
    match e.value s with
    | some (.num f) => some (.num f.neg)
    | _ => none
  | .isinf e =>
    match e.value s with
    | some (.num f) => some (.bool f.isinf)
    | _ => none
  | .isnan e =>
    match e.value s with
    | some (.num f) => some (.bool f.isnan)
    | _ => none
  | .bin op a b =>
    match a.value s, b.value s with
    | some x, some y => op.apply x y
    | _, _ => none
  | .cond c a b =>
    match c.value s with
    | some (.bool true) => a.value s
    | some (.bool false) => b.value s
    | _ => none

/-- Statements without a block: the assignments `ps = E;`, `p0 = E;`,
`pv = vec4(E);` and `discard;`. -/
inductive Simple where
  | setPs (e : Ex)
  | setP0 (e : Ex)
  | setPv (e : Ex)
  | discard
deriving DecidableEq, Repr

/-- Statements: one without a block, or `if (C) { … } else { … }` over
statements without a block. -/
inductive Stmt where
  | simple (s : Simple)
  | ifElse (c : Ex) (thenBranch elseBranch : List Simple)
deriving DecidableEq, Repr

/-- The line of a statement without a block. -/
def Simple.line : Simple → String
  | .setPs e => "ps = " ++ e.render ++ ";\n"
  | .setP0 e => "p0 = " ++ e.render ++ ";\n"
  | .setPv e => "pv = vec4(" ++ e.render ++ ");\n"
  | .discard => "discard;\n"

/-- The lines of a statement, the branches of a conditional two spaces in. -/
def Stmt.lines : Stmt → List String
  | .simple s => [s.line]
  | .ifElse c thenBranch elseBranch =>
    ["if (" ++ c.render ++ ") \x7b\n"] ++ thenBranch.map (fun s => "  " ++ s.line) ++
      ["\x7d else \x7b\n"] ++ elseBranch.map (fun s => "  " ++ s.line) ++ ["\x7d\n"]

/-- The lines of a list of statements. -/
def renderBody (body : List Stmt) : List String :=
  body.flatMap Stmt.lines

/-- How a list of statements ends: at its end, or at a `discard`. -/
inductive Outcome where
  | completed (s : ShaderState)
  | discarded (s : ShaderState)
deriving DecidableEq

/-- Run statements without a block in order, up to the first `discard`;
nothing when an expression has the wrong type. -/
def runSimples : List Simple → ShaderState → Option Outcome
  | [], s => some (.completed s)
  | .setPs e :: rest, s =>
    match e.value s with
    | some (.num f) => runSimples rest { s with ps := f }
    | _ => none
  | .setP0 e :: rest, s =>
    match e.value s with
    | some (.bool b) => runSimples rest { s with p0 := b }
    | _ => none
  | .setPv e :: rest, s =>
    match e.value s with
    | some (.num f) => runSimples rest { s with pv := ⟨f, f, f, f⟩ }
    | _ => none
  | .discard :: _, s => some (.discarded s)

/-- Run one statement. -/
def Stmt.run (s : ShaderState) : Stmt → Option Outcome
  | .simple st => runSimples [st] s
  | .ifElse c thenBranch elseBranch =>
    match c.value s with
    | some (.bool true) => runSimples thenBranch s
    | some (.bool false) => runSimples elseBranch s
    | _ => none

/-- Run statements in order, up to the first `discard`. -/
def runBody : List Stmt → ShaderState → Option Outcome
  | [], s => some (.completed s)
  | st :: rest, s =>
    match st.run s with
    | some (.completed s1) => runBody rest s1
    | other => other

/-- Comparison of lane `x` of `src0` with the literal `0.0`. -/
def cmpZero (op : BinOp) : Ex := .bin op (.src 0 0) .zero

/-- Statements of the scalar predicate setters `setp_eq`, `setp_ne`,
`setp_gt`, `setp_ge`, with the comparison `c`. -/
def setpStatements (c : Ex) : List Stmt :=
  [.ifElse c [.setPs .zero, .setP0 .tt] [.setPs .one, .setP0 .ff]]

/-- Statements of the scalar kill opcodes, with the comparison `c`. -/
def killsStatements (c : Ex) : List Stmt :=
  [.ifElse c [.setPs .one, .discard] [.setPs .zero]]

/-- The statements of the scalar opcodes read here; none for the others. -/
def scalarStatements : AluScalarOpcode → Option (List Stmt)
  | .kSetpEq => some (setpStatements (cmpZero .eq))
  | .kSetpNe => some (setpStatements (cmpZero .ne))
  | .kSetpGt => some (setpStatements (cmpZero .gt))
  | .kSetpGe => some (setpStatements (cmpZero .ge))
  | .kSetpInv =>
    some [.ifElse (.bin .eq (.src 0 0) .one) [.setPs .zero, .setP0 .tt]
      [.setPs (.cond (cmpZero .eq) .one (.src 0 0)), .setP0 .ff]]
  | .kSetpPop =>
    some [.ifElse (.bin .le (.bin .sub (.src 0 0) .one) .zero) [.setPs .zero, .setP0 .tt]
      [.setPs (.bin .sub (.src 0 0) .one), .setP0 .ff]]
  | .kSetpClr => some [.simple (.setPs .fltMax), .simple (.setP0 .ff)]
  | .kSetpRstr =>
    some [.simple (.setPs (.src 0 0)), .simple (.setP0 (.cond (cmpZero .eq) .tt .ff))]
  | .kKillsEq => some (killsStatements (cmpZero .eq))
  | .kKillsGt => some (killsStatements (cmpZero .gt))
  | .kKillsGe => some (killsStatements (cmpZero .ge))
  | .kKillsNe => some (killsStatements (cmpZero .ne))
  | .kKillsOne => some (killsStatements (.bin .eq (.src 0 0) .one))
  | .kMulsPrev2 =>
    some [.simple (.setPs (.cond
      (.bin .or (.bin .or (.bin .or (.bin .or
        (.bin .eq .ps (.neg .fltMax)) (.isinf .ps)) (.isnan .ps)) (.isnan (.src 0 1)))
        (.bin .le (.src 0 1) .zero))
      (.neg .fltMax) (.bin .mul (.src 0 0) .ps)))]
  | _ => none

/-- Comparison of lane `lane` of `src0` with the same lane of `src1`. -/
def cmpLanes (op : BinOp) (lane : Nat) : Ex := .bin op (.src 0 lane) (.src 1 lane)

/-- The condition `src0.L == 0.0 && src1.L OP 0.0` of the push opcodes. -/
def pushCondition (op : BinOp) (lane : Nat) : Ex :=
  .bin .and (.bin .eq (.src 0 lane) .zero) (.bin op (.src 1 lane) .zero)

/-- Statements of the vector opcodes `setp_*_push`, with the comparison `op`. -/
def pushStatements (op : BinOp) : List Stmt :=
  [.simple (.setP0 (.cond (pushCondition op 3) .tt .ff)),
   .simple (.setPv (.cond (pushCondition op 0) .zero (.bin .add (.src 0 0) .one)))]

/-- The guard of the vector kill opcodes: the comparison on lane x, or y, or
z, or w. -/
def killGuard (op : BinOp) : Ex :=
  .bin .or (.bin .or (.bin .or (cmpLanes op 0) (cmpLanes op 1)) (cmpLanes op 2)) (cmpLanes op 3)

/-- Statements of the vector kill opcodes, with the comparison `op`. -/
def killStatements (op : BinOp) : List Stmt :=
  [.ifElse (killGuard op) [.setPv .one, .discard] [.setPv .zero]]

/-- The statements of the vector opcodes read here; none for the others. -/
def vectorStatements : AluVectorOpcode → Option (List Stmt)
  | .kSetpEqPush => some (pushStatements .eq)
  | .kSetpNePush => some (pushStatements .ne)
  | .kSetpGtPush => some (pushStatements .gt)
  | .kSetpGePush => some (pushStatements .ge)
  | .kKillEq => some (killStatements .eq)
  | .kKillGt => some (killStatements .gt)
  | .kKillGe => some (killStatements .ge)
  | .kKillNe => some (killStatements .ne)
  | _ => none

/-- The statements `scalarStatements` gives for a scalar opcode are a reading
of its emitted body, and run from state `s` they end as `out`. -/
def ScalarReads (op : AluScalarOpcode) (s : ShaderState) (out : Outcome) : Prop :=
  ∃ body, scalarStatements op = some body ∧
    renderBody body = GlslShaderTranslator.scalarOpcodeBody op ∧ runBody body s = some out

/-- The statements `vectorStatements` gives for a vector opcode are a reading
of its emitted body, and run from state `s` they end as `out`. -/
def VectorReads (op : AluVectorOpcode) (s : ShaderState) (out : Outcome) : Prop :=
  ∃ body, vectorStatements op = some body ∧
    renderBody body = GlslShaderTranslator.vectorOpcodeBody op ∧ runBody body s = some out

/-- The state a push opcode with comparison `cmp` leaves: `p0` from the w
lanes, every lane of `pv` from the x lanes. -/
def pushResult (cmp : FVal → FVal → Bool) (s : ShaderState) : ShaderState :=
  { s with
    p0 := s.src.e0.e3.eq (.fin 0) && cmp s.src.e1.e3 (.fin 0),
    pv :=
      ⟨if s.src.e0.e0.eq (.fin 0) && cmp s.src.e1.e0 (.fin 0) then .fin 0
          else s.src.e0.e0.add (.fin 1),
        if s.src.e0.e0.eq (.fin 0) && cmp s.src.e1.e0 (.fin 0) then .fin 0
          else s.src.e0.e0.add (.fin 1),
        if s.src.e0.e0.eq (.fin 0) && cmp s.src.e1.e0 (.fin 0) then .fin 0
          else s.src.e0.e0.add (.fin 1),
        if s.src.e0.e0.eq (.fin 0) && cmp s.src.e1.e0 (.fin 0) then .fin 0
          else s.src.e0.e0.add (.fin 1)⟩ }

/-- Whether the comparison `cmp` of `src0` with `src1` holds on lane x, y, z
or w. -/
def anyLane (cmp : FVal → FVal → Bool) (s : ShaderState) : Bool :=
  cmp s.src.e0.e0 s.src.e1.e0 || cmp s.src.e0.e1 s.src.e1.e1 ||
    cmp s.src.e0.e2 s.src.e1.e2 || cmp s.src.e0.e3 s.src.e1.e3

/-- How a vector kill opcode ends: on a match every lane of `pv` is 1.0 and
the fragment is discarded, otherwise every lane of `pv` is 0.0. -/
def killOutcome (matched : Bool) (s : ShaderState) : Outcome :=
  if matched then .discarded { s with pv := ⟨.fin 1, .fin 1, .fin 1, .fin 1⟩ }
  else .completed { s with pv := ⟨.fin 0, .fin 0, .fin 0, .fin 0⟩ }

/-- How a scalar kill opcode ends: on a match `ps` is 1.0 and the fragment is
discarded, otherwise `ps` is 0.0. -/
def killsOutcome (matched : Bool) (s : ShaderState) : Outcome :=
  if matched then .discarded { s with ps := .fin 1 } else .completed { s with ps := .fin 0 }

/-- A state with the given lanes x and w of `src0` and of `src1`. -/
def pushState (x0 w0 x1 w1 : FVal) : ShaderState :=
  { src := ⟨⟨x0, .fin 0, .fin 0, w0⟩, ⟨x1, .fin 0, .fin 0, w1⟩,
      ⟨.fin 0, .fin 0, .fin 0, .fin 0⟩⟩,
    pv := ⟨.fin 0, .fin 0, .fin 0, .fin 0⟩, ps := .fin 0, p0 := false }

/-- A state with the given lanes x and y of `src0` and the given `ps`. -/
def scalarState (x y ps : FVal) : ShaderState :=
  { src := ⟨⟨x, y, .fin 0, .fin 0⟩, ⟨.fin 0, .fin 0, .fin 0, .fin 0⟩,
      ⟨.fin 0, .fin 0, .fin 0, .fin 0⟩⟩,
    pv := ⟨.fin 0, .fin 0, .fin 0, .fin 0⟩, ps := ps, p0 := false }

/-- The second statement emitted for `logc`, `ps = isinf(ps) ? -FLT_MAX : ps;`,
as a statement of the fragment of the shading language. -/
def logcClamp : Simple :=
  .setPs (.cond (.isinf .ps) (.neg .fltMax) .ps)

/-- The lines of a text given by its characters, without their newlines; a
text that ends with a newline has an empty last line. -/
def splitLines : List Char → List (List Char)
  | [] => [[]]
  | c :: cs =>
    match splitLines cs with
    | [] => [[c]]
    | l :: ls => if c = '\n' then [] :: l :: ls else (c :: l) :: ls

/-- The lines of a text, without their newlines. -/
def textLines (s : String) : List String :=
  (splitLines s.data).map String.mk

/-! ## The helpers of the preamble

The helpers `cube` and `applyAlphaTest` that `StartTranslation` emits, and the
pixel-stage `main`, read as functions over the rationals: arithmetic is exact,
and a value is neither an infinity nor a NaN. -/

/-- The locals `face_id`, `sc`, `tc`, `ma` of the helper `cube` after its
nested conditionals. -/
structure CubeFace where
  face_id : Int
  sc : ℚ
  tc : ℚ
  ma : ℚ
deriving DecidableEq

/-- The nested conditionals of the emitted helper `cube`, with
`src = vec3(src1.y, src1.x, src1.z)` and `abs_src = abs(src)`: the locals
their branches assign. -/
def cubeFace (src1 : Vec4 ℚ) : CubeFace :=
  let src_x := src1.e1
  let src_y := src1.e0
  let src_z := src1.e2
  let abs_x := |src_x|
  let abs_y := |src_y|
  let abs_z := |src_z|
  if abs_x > abs_y ∧ abs_x > abs_z then
    if src_x > 0 then { face_id := 0, sc := -abs_z, tc := -abs_y, ma := abs_x }
    else { face_id := 1, sc := abs_z, tc := -abs_y, ma := abs_x }
  else if abs_y > abs_x ∧ abs_y > abs_z then
    if src_y > 0 then { face_id := 2, sc := abs_x, tc := abs_z, ma := abs_y }
    else { face_id := 3, sc := abs_x, tc := -abs_z, ma := abs_y }
  else
    if src_z > 0 then { face_id := 4, sc := abs_x, tc := -abs_y, ma := abs_z }
    else { face_id := 5, sc := -abs_x, tc := -abs_y, ma := abs_z }

/-- The emitted helper `cube(src0, src1)`: after the conditionals,
`s = (sc / ma + 1.0) / 2.0`, `t = (tc / ma + 1.0) / 2.0` and the value
`vec4(t, s, 2.0 * ma, float(face_id))`. The helper does not read `src0`. A
division by zero, which gives an infinity or a NaN in the shading language,
gives 0 here. -/
def cube (_src0 src1 : Vec4 ℚ) : Vec4 ℚ :=
  let f := cubeFace src1
  let s := (f.sc / f.ma + 1) / 2
  let t := (f.tc / f.ma + 1) / 2
  ⟨t, s, 2 * f.ma, (f.face_id : ℚ)⟩

/-- The table in the comment above the helper `cube`, by face: the pair
`(sc, tc)` as signed components of `r = (rx, ry, rz)`. -/
def documentedScTc (face_id : Int) (rx ry rz : ℚ) : ℚ × ℚ :=
  if face_id = 0 then (-rz, -ry)
  else if face_id = 1 then (rz, -ry)
  else if face_id = 2 then (rx, rz)
  else if face_id = 3 then (rx, -rz)
  else if face_id = 4 then (rx, -ry)
  else (-rx, -ry)

/-- The operations on `float` that the helper `cube` applies: `abs`, unary
minus, `+`, `*`, `/`, `>`, the value of a literal and the conversion
`float(int)`. -/
structure FloatOps (α : Type) where
  abs : α → α
  neg : α → α
  add : α → α → α
  mul : α → α → α
  div : α → α → α
  gt : α → α → Bool
  literal : ℚ → α
  ofInt : Int → α

/-- The locals `face_id`, `sc`, `tc`, `ma` of the helper `cube` after its
nested conditionals, over the operations `ops`. -/
structure CubeLocals (α : Type) where
  face_id : Int
  sc : α
  tc : α
  ma : α

/-- The emitted helper `cube(src0, src1)` over the operations `ops`, statement
by statement: `src = vec3(src1.y, src1.x, src1.z)`, `abs_src = abs(src)`, the
nested conditionals that assign `face_id`, `sc`, `tc` and `ma`,
`s = (sc / ma + 1.0) / 2.0`, `t = (tc / ma + 1.0) / 2.0` and the value
`vec4(t, s, 2.0 * ma, float(face_id))`. No statement of the helper names
`src0`. -/
def cubeWith {α : Type} (ops : FloatOps α) (_src0 src1 : Vec4 α) : Vec4 α :=
  let src_x := src1.e1
  let src_y := src1.e0
  let src_z := src1.e2
  let abs_x := ops.abs src_x
  let abs_y := ops.abs src_y
  let abs_z := ops.abs src_z
  let f : CubeLocals α :=
    if ops.gt abs_x abs_y && ops.gt abs_x abs_z then
      if ops.gt src_x (ops.literal 0) then
        { face_id := 0, sc := ops.neg abs_z, tc := ops.neg abs_y, ma := abs_x }
      else { face_id := 1, sc := abs_z, tc := ops.neg abs_y, ma := abs_x }
    else if ops.gt abs_y abs_x && ops.gt abs_y abs_z then
      if ops.gt src_y (ops.literal 0) then
        { face_id := 2, sc := abs_x, tc := abs_z, ma := abs_y }
      else { face_id := 3, sc := abs_x, tc := ops.neg abs_z, ma := abs_y }
    else
      if ops.gt src_z (ops.literal 0) then
        { face_id := 4, sc := abs_x, tc := ops.neg abs_y, ma := abs_z }
      else { face_id := 5, sc := ops.neg abs_x, tc := ops.neg abs_y, ma := abs_z }
  let s := ops.div (ops.add (ops.div f.sc f.ma) (ops.literal 1)) (ops.literal 2)
  let t := ops.div (ops.add (ops.div f.tc f.ma) (ops.literal 1)) (ops.literal 2)
  ⟨t, s, ops.mul (ops.literal 2) f.ma, ops.ofInt f.face_id⟩

/-- The operations of exact arithmetic over the rationals, in which a
division by zero gives 0. -/
def rationalOps : FloatOps ℚ :=
  { abs := fun a => |a|, neg := fun a => -a, add := fun a b => a + b, mul := fun a b => a * b,
    div := fun a b => a / b, gt := fun a b => decide (a > b), literal := fun q => q,
    ofInt := fun n => (n : ℚ) }

/-- Built-in `abs` on a `float`. -/
def FVal.abs : FVal → FVal
  | .fin q => .fin (if q < 0 then -q else q)
  | .posInf => .posInf
  | .negInf => .posInf
  | .nan => .nan

/-- Quotient `a / b`, rounded to binary32: a finite number other than zero
divided by zero is an infinity of its sign, zero divided by zero and an
infinity divided by an infinity are NaN, a finite number divided by an
infinity is zero. -/
def FVal.div : FVal → FVal → FVal
  | .nan, _ => .nan
  | _, .nan => .nan
  | .fin a, .fin b =>
    if b = 0 then (if a = 0 then .nan else if 0 < a then .posInf else .negInf)
    else round32 (a / b)
  | .fin _, _ => .fin 0
  | .posInf, .fin b => if b < 0 then .negInf else .posInf
  | .negInf, .fin b => if b < 0 then .posInf else .negInf
  | _, _ => .nan

/-- The operations on binary32 values. -/
def binary32Ops : FloatOps FVal :=
  { abs := FVal.abs, neg := FVal.neg, add := FVal.add, mul := FVal.mul, div := FVal.div,
    gt := FVal.gt, literal := round32, ofInt := fun n => round32 (n : ℚ) }

/-- The lines of the emitted helper `cube` that compute a value, in order. -/
def cubeComputingLines : List String :=
  ["  vec3 src = vec3(src1.y, src1.x, src1.z);",
   "  vec3 abs_src = abs(src);",
   "  if (abs_src.x > abs_src.y && abs_src.x > abs_src.z) \x7b",
   "    if (src.x > 0.0) \x7b",
   "      face_id = 0; sc = -abs_src.z; tc = -abs_src.y; ma = abs_src.x;",
   "      face_id = 1; sc =  abs_src.z; tc = -abs_src.y; ma = abs_src.x;",
   "  \x7d else if (abs_src.y > abs_src.x && abs_src.y > abs_src.z) \x7b",
   "    if (src.y > 0.0) \x7b",
   "      face_id = 2; sc =  abs_src.x; tc =  abs_src.z; ma = abs_src.y;",
   "      face_id = 3; sc =  abs_src.x; tc = -abs_src.z; ma = abs_src.y;",
   "    if (src.z > 0.0) \x7b",
   "      face_id = 4; sc =  abs_src.x; tc = -abs_src.y; ma = abs_src.z;",
   "      face_id = 5; sc = -abs_src.x; tc = -abs_src.y; ma = abs_src.z;",
   "  float s = (sc / ma + 1.0) / 2.0;",
   "  float t = (tc / ma + 1.0) / 2.0;",
   "  return vec4(t, s, 2.0 * ma, float(face_id));"]

/-! ## Fetches and declarations, as the specification words them -/

/-- Sampler constructor by texture dimension. -/
def samplerName : TextureDimension → String
  | .k1D => "sampler1D"
  | .k2D => "sampler2D"
  | .k3D => "sampler3D"
  | .kCube => "samplerCube"

/-- Lanes of `src0` that are the coordinate of a fetch, by texture dimension. -/
def fetchCoordinate : TextureDimension → String
  | .k1D => "x"
  | .k2D => "xy"
  | .k3D => "xyz"
  | .kCube => "xyz"

/-- Value of a fetch from a null sampler, by texture dimension: the coordinate
in the low lanes, zeros, and 1.0 in lane w. -/
def fetchPassthrough : TextureDimension → String
  | .k1D => "vec4(src0.x, 0.0, 0.0, 1.0)"
  | .k2D => "vec4(src0.x, src0.y, 0.0, 1.0)"
  | .k3D => "vec4(src0.x, src0.y, src0.z, 1.0)"
  | .kCube => "vec4(src0.x, src0.y, src0.z, 1.0)"

/-- The body of a texture fetch with sampler index `i`: the null-sampler
guard, the sample, and the passthrough in the else branch. -/
def guardedFetchLines (d : TextureDimension) (i : Int) : List String :=
  ["if (state.texture_samplers[" ++ toString i ++ "] != 0) \x7b\n",
   "  pv = texture(" ++ samplerName d ++ "(state.texture_samplers[" ++ toString i ++
     "]), src0." ++ fetchCoordinate d ++ ");\n",
   "\x7d else \x7b\n",
   "  pv = " ++ fetchPassthrough d ++ ";\n",
   "\x7d\n"]

/-- Name of the input of an attribute with fetch constant `b` and offset `o`:
`vf<b>_<o>`. -/
def vertexInputName (b : Nat) (o : Int) : String :=
  "vf" ++ toString b ++ "_" ++ toString o

/-- The declaration of the input of an attribute of a binding:
`layout(location = <attrib_index>) in <T> vf<fetch_constant>_<offset>;`. -/
def vertexInputLine (binding : VertexBinding) (attrib : VertexAttribute) : String :=
  "layout(location = " ++ toString attrib.attrib_index ++ ") in " ++
    GetVertexFormatTypeName attrib.fetch_instr.attributes.data_format ++ " " ++
    vertexInputName binding.fetch_constant attrib.fetch_instr.attributes.offset ++ ";\n"

/-- The attributes of a list of bindings, each with its binding, in binding
order and then attribute order. -/
def bindingAttributes (vertex_bindings : List VertexBinding) :
    List (VertexBinding × VertexAttribute) :=
  vertex_bindings.flatMap (fun binding => binding.attributes.map (fun attrib => (binding, attrib)))

/-- Number of lanes of a type of the shading language named in an input
declaration. -/
def typeLanes (type_name : String) : Nat :=
  if type_name = "float" then 1
  else if type_name = "vec2" then 2
  else if type_name = "vec3" then 3
  else if type_name = "vec4" then 4
  else 0

/-- The declarations of the scratch variables, line by line. -/
def scratchLines : List String :=
  ["  vec4 pv;\n", "  float ps;\n", "  bool p0 = false;\n", "  int a0 = 0;\n",
    "  vec4 src0;\n", "  vec4 src1;\n", "  vec4 src2;\n"]

/-- The process-function prologue of the pixel stage, line by line. -/
def pixelPrologueLines : List String :=
  ["void processFragment(const in StateData state) \x7b\n", "  vec4 r[64];\n",
    "  r[0] = vtx.o[0];\n", "  r[1] = vtx.o[1];\n", "  r[2] = vtx.o[2];\n",
    "  r[3] = vtx.o[3];\n", "  r[4] = vtx.o[4];\n", "  r[5] = vtx.o[5];\n",
    "  r[6] = vtx.o[6];\n", "  r[7] = vtx.o[7];\n", "  r[8] = vtx.o[8];\n",
    "  r[9] = vtx.o[9];\n", "  r[10] = vtx.o[10];\n", "  r[11] = vtx.o[11];\n",
    "  r[12] = vtx.o[12];\n", "  r[13] = vtx.o[13];\n", "  r[14] = vtx.o[14];\n",
    "  r[15] = vtx.o[15];\n"] ++ scratchLines

/-- The process-function prologue of the vertex stage, line by line. -/
def vertexPrologueLines : List String :=
  ["void processVertex(const in StateData state) \x7b\n", "  vec4 r[64];\n"] ++ scratchLines

/-- A vertex fetch from fetch constant 95 with the given data format and
offset, address `r0` and result `r2`, not predicated. -/
def vfetchExample (data_format : VertexFormat) (offset : Int) : ParsedVertexFetchInstruction :=
  { disassembly := "", opcode := .kVertexFetch, is_predicated := false,
    predicate_condition := false, operand_count := 2,
    operands := ⟨registerOperand 0,
      { registerOperand 95 with storage_source := .kVertexFetchConstant },
      registerOperand 0⟩,
    result := registerResult 2,
    attributes := { data_format := data_format, offset := offset } }

/-- A vertex fetch as `vfetchExample`, with a fetch opcode that the switch of
`ProcessVertexFetchInstruction` has no case for. -/
def vfetchOtherOpcode : ParsedVertexFetchInstruction :=
  { vfetchExample .k_32_FLOAT 8 with opcode := .kTextureFetch }

/-- A vertex binding with fetch constant 95 and two attributes, at locations
0 and 1, of formats `k_32_32_32_FLOAT` at offset 0 and `k_16_16` at offset 3. -/
def bindingExample : VertexBinding :=
  { fetch_constant := 95,
    attributes :=
      [{ attrib_index := 0, fetch_instr := vfetchExample .k_32_32_32_FLOAT 0 },
       { attrib_index := 1, fetch_instr := vfetchExample .k_16_16 3 }] }

/-- A 2D texture fetch from sampler 3 with coordinate `r0` and result `r2`,
not predicated. -/
def tfetchExample : ParsedTextureFetchInstruction :=
  { disassembly := "", opcode := .kTextureFetch, dimension := .k2D, is_predicated := false,
    predicate_condition := false, operand_count := 2,
    operands := ⟨registerOperand 0,
      { registerOperand 3 with storage_source := .kTextureFetchConstant },
      registerOperand 0⟩,
    result := registerResult 2 }

/-! ## Reuse of a translator, indentation and Reset -/

/-- Modelled from the spec: the constructor is declared in the header, which
is not among the sources, with a member initialiser for every field; its body
in the source stores the dialect. The indentation buffer is an array of 16
bytes, zero-initialised, the depth is 0 and the output is empty. The stage is
set by the base class for each shader. -/
def GlslShaderTranslator.construct (dialect : Dialect) (stage : ShaderType) :
    GlslShaderTranslator :=
  { shader_type_ := stage, depth_ := 0, depth_prefix_ := List.replicate 16 NUL,
    source_ := "", has_error_ := false, dialect_ := dialect }

/-- Two indentation buffers read alike at depth `d`: they have the same size
and the same bytes up to index `max d 0`, where they hold the terminator
unless the buffer ends before. -/
def BufferAgrees (d : Int) (a b : List Char) : Prop :=
  a.length = b.length ∧ a.take (d.toNat + 1) = b.take (d.toNat + 1) ∧
    (a[d.toNat]? = some NUL ∨ a.length ≤ d.toNat)

/-- Two translators that emit the same text from here on: same stage, same
depth, same text so far, and indentation buffers that read alike. The error
flag and the dialect are left out. -/
def SameOutput (a b : GlslShaderTranslator) : Prop :=
  a.shader_type_ = b.shader_type_ ∧ a.depth_ = b.depth_ ∧ a.source_ = b.source_ ∧
    BufferAgrees a.depth_ a.depth_prefix_ b.depth_prefix_

/-- Whether a callback emits its body between `Indent` and `Unindent`: a
predicated fetch or a predicated ALU instruction other than a nop. -/
def Callback.indents : Callback → Bool
  | .vertexFetch instr => instr.is_predicated
  | .textureFetch instr => instr.is_predicated
  | .alu instr =>
    match instr.type with
    | .kNop => false
    | _ => instr.is_predicated
  | _ => false

/-- The predicate on depth and indentation: the depth is even and not
negative, and the indentation buffer holds `depth_` spaces and then the
terminator, so that it reads as a C string of `depth_` spaces. -/
def IndentInvariant (t : GlslShaderTranslator) : Prop :=
  t.depth_ % 2 = 0 ∧ 0 ≤ t.depth_ ∧
    t.depth_prefix_.take t.depth_.toNat = List.replicate t.depth_.toNat ' ' ∧
    t.depth_prefix_[t.depth_.toNat]? = some NUL

instance (t : GlslShaderTranslator) : Decidable (IndentInvariant t) :=
  inferInstanceAs (Decidable (t.depth_ % 2 = 0 ∧ 0 ≤ t.depth_ ∧
    t.depth_prefix_.take t.depth_.toNat = List.replicate t.depth_.toNat ' ' ∧
    t.depth_prefix_[t.depth_.toNat]? = some NUL))

/-- Whether a callback calls `Indent`: exec begin, and the callbacks that
indent their body. -/
def Callback.callsIndent : Callback → Bool
  | .execBegin _ => true
  | cb => cb.indents

/-- An unconditional exec. -/
def plainExec : ParsedExecInstruction :=
  { disassembly := "", type := .kUnconditional, bool_constant_index := 0, condition := false }

/-- The number of spaces a text opens with. -/
def leadingSpaces (s : String) : Nat :=
  (s.data.takeWhile (fun c => c == ' ')).length

/-- A translator with leftovers of an earlier translation: depth 6, a buffer
that holds text after its terminator, buffered source, the error flag set,
dialect 1. -/
def usedTranslator (stage : ShaderType) : GlslShaderTranslator :=
  { shader_type_ := stage, depth_ := 6,
    depth_prefix_ := "    ".data ++ [NUL, 'x', ' ', 'y'] ++ List.replicate 8 ' ',
    source_ := "void main() \x7b\n", has_error_ := true, dialect_ := 1 }

/-! ## The guard of a conditional exec -/

/-- Integer expressions of the shading language, as far as the guard of a
conditional exec uses them. -/
inductive IntEx where
  | boolConst (k : Nat)
  | lit (n : Nat)
  | shl (a b : IntEx)
  | band (a b : IntEx)
deriving DecidableEq, Repr

/-- Text of an integer expression; a shift and a bitwise and are written in
parentheses. -/
def IntEx.render : IntEx → String
  | .boolConst k => "state.bool_consts[" ++ toString k ++ "]"
  | .lit n => toString n
  | .shl a b => "(" ++ a.render ++ " << " ++ b.render ++ ")"
  | .band a b => "(" ++ a.render ++ " & " ++ b.render ++ ")"

/-- Value of an integer expression as the bit pattern of a 32-bit `int`,
`bool_consts k` being the bit pattern of `state.bool_consts[k]`. A shift by
32 or more has no defined value. -/
def IntEx.value (bool_consts : Nat → Nat) : IntEx → Option Nat
  | .boolConst k => some (bool_consts k % 4294967296)
  | .lit n => some (n % 4294967296)
  | .shl a b =>
    match a.value bool_consts, b.value bool_consts with
    | some x, some y => if y < 32 then some ((x <<< y) % 4294967296) else none
    | _, _ => none
  | .band a b =>
    match a.value bool_consts, b.value bool_consts with
    | some x, some y => some (x &&& y)
    | _, _ => none

/-- Left-hand side of the comparison in the guard of a conditional exec:
`(state.bool_consts[i / 32] & (1 << i % 32))`. -/
def guardWord (instr : ParsedExecInstruction) : IntEx :=
  .band (.boolConst (instr.bool_constant_index / 32))
    (.shl (.lit 1) (.lit (instr.bool_constant_index % 32)))

/-- Right-hand side of the comparison in the guard of a conditional exec: the
literal `1` or `0` by the condition. -/
def guardLiteral (instr : ParsedExecInstruction) : IntEx :=
  .lit (if instr.condition then 1 else 0)

/-- Whether the guard `guardWord == guardLiteral` of a conditional exec holds
when `state.bool_consts[i / 32]` has the bit pattern `w`. -/
def guardHolds (instr : ParsedExecInstruction) (w : Nat) : Bool :=
  match (guardWord instr).value (fun _ => w), (guardLiteral instr).value (fun _ => w) with
  | some x, some y => decide (x = y)
  | _, _ => false

/-! ## Names declared and lanes stored -/

/-- Whether a character can be part of an identifier. -/
def isIdentChar (c : Char) : Bool :=
  c.isAlphanum || c == '_'

/-- The name that a line declares, when the line is two spaces, one of the
types `vec4`, `float`, `bool`, `int`, a space and an identifier. -/
def declaredName (line : String) : Option String :=
  let body := line.data.dropWhile (fun c => c == ' ')
  let rest : Option (List Char) :=
    if "vec4 ".data.isPrefixOf body then some (body.drop 5)
    else if "float ".data.isPrefixOf body then some (body.drop 6)
    else if "bool ".data.isPrefixOf body then some (body.drop 5)
    else if "int ".data.isPrefixOf body then some (body.drop 4)
    else none
  match rest with
  | some cs =>
    let name := cs.takeWhile isIdentChar
    if name.isEmpty then none else some (String.mk name)
  | none => none

/-- The names that the lines of a text declare. -/
def declaredNames (lines : List String) : List String :=
  lines.filterMap declaredName

/-- Whether the characters `word` occur in a row somewhere in `text`. -/
def occursIn (word : List Char) : List Char → Bool
  | [] => word.isEmpty
  | c :: cs => word.isPrefixOf (c :: cs) || occursIn word cs

/-- Whether a text holds `word` somewhere. -/
def mentions (word text : String) : Bool :=
  occursIn word.data text.data

/-- Register operand `r[k+aL]`: relative addressing. -/
def relativeOperand (k : Int) : InstructionOperand :=
  { registerOperand k with storage_addressing_mode := .kAddressRelative }

/-- Result `r[k+aL]` with the full write mask and the standard swizzle. -/
def relativeResult (k : Int) : InstructionResult :=
  { registerResult k with storage_addressing_mode := .kAddressRelative }

/-- Number of lanes of a storage target: four for register, interpolant,
position and color target, one for point size and depth. -/
def targetLanes : InstructionStorageTarget → Nat
  | .kRegister | .kInterpolant | .kPosition | .kColorTarget => 4
  | .kPointSize | .kDepth => 1

/-- The selector after the destination of a store: the text between the
destination and ` = `. -/
def storeSelector (r : InstructionResult) : String :=
  if r.is_standard_swizzle then "" else "." ++ String.mk (maskLetters r)

/-- Number of lanes that the left-hand side of a store selects from a
destination of `lanes` lanes: all of them without a selector, else the number
of letters after the dot. -/
def selectedLanes (lanes : Nat) (sel : String) : Nat :=
  match sel.data with
  | [] => lanes
  | _ :: letters => letters.length

/-- The characters after the last dot of a text, and `none` when the text
has no dot. -/
def afterLastDot : List Char → Option (List Char)
  | [] => none
  | c :: cs =>
    match afterLastDot cs with
    | some tail => some tail
    | none => if c = '.' then some cs else none

/-- A right-hand side without the `clamp(…, 0.0, 1.0)` around it, if any. -/
def unclamped (e : List Char) : List Char :=
  if "clamp(".data.isPrefixOf e ∧ ", 0.0, 1.0)".data.isSuffixOf e then
    (e.drop 6).take (e.length - 6 - 11)
  else e

/-- Number of lanes of the right-hand side of a store, read from its text:
inside `clamp(…, 0.0, 1.0)` if present, a text that ends with `)` is a
constructor `vecN(…)` of N lanes, a text that ends with a selector has as many
lanes as the selector has letters, and a bare temp has four. -/
def valueLanes (rhs : String) : Option Nat :=
  let e := unclamped rhs.data
  if e.getLast? = some ')' then
    match e with
    | 'v' :: 'e' :: 'c' :: d :: '(' :: _ => if d.isDigit then some (d.toNat - 48) else none
    | _ => none
  else
    match afterLastDot e with
    | some letters => some letters.length
    | none => if e = "pv".data then some 4 else none

/-- A result that writes lanes y, w of the position from components w, x. -/
def positionResult : InstructionResult :=
  { storage_target := .kPosition, storage_index := 0, storage_addressing_mode := .kStatic,
    is_clamped := true, write_mask := ⟨false, true, false, true⟩,
    components := ⟨.kX, .kW, .kZ, .kX⟩ }

end xe.gpu

namespace xe.kernel.apps

/-! ## The music player application `XXMPApp`

The header `xmp_app.h`, which declares the class, its nested types and its
fields, is not among the sources; the types below are read from the member
initialisers and the uses in `xmp_app.cc`. Guest memory, the notifications to
the kernel state, the log and the mutex are outside the state modelled here:
members run one at a time, and a store to guest memory leaves the state as it
is. -/

/-- Modelled from the spec: the result codes are declared in a header that is
not among the sources; the members below return these two. -/
inductive X_RESULT where
  | X_ERROR_SUCCESS
  | X_ERROR_NOT_FOUND
deriving DecidableEq, Repr

/-- Modelled from the spec: enumeration `State` of the header, with the three
enumerators that the source names. -/
inductive State where
  | kIdle
  | kPlaying
  | kPaused
deriving DecidableEq, Repr

/-- The record of one song in guest memory, 36 bytes at `songs_ptr + i * 36`,
with the strings its pointers lead to. -/
structure GuestSong where
  file_path : String
  name : String
  artist : String
  album : String
  album_artist : String
  genre : String
  track_number : Nat
  duration_ms : Nat
  format : Nat
deriving DecidableEq, Repr, Inhabited

/-- Modelled from the spec: structure `Song` of the header, with the fields
that `XMPCreateTitlePlaylist` assigns. -/
structure Song where
  handle : Nat
  file_path : String
  name : String
  artist : String
  album : String
  album_artist : String
  genre : String
  track_number : Nat
  duration_ms : Nat
  format : Nat
deriving DecidableEq, Repr

/-- Modelled from the spec: structure `Playlist` of the header, with the
fields that `XMPCreateTitlePlaylist` assigns; `songs` is the vector of the
songs in order. -/
structure Playlist where
  handle : Nat
  name : String
  flags : Nat
  songs : List Song
deriving DecidableEq, Repr

/-- Modelled from the spec: the fields of `XXMPApp` that the members below
read or write; playback mode, repeat mode, flags and volume are left out.
`active_playlist_` is a pointer to a playlist of `playlists_`, or null: it is
the playlist pointed to, or `none`. `active_song_index_` is a signed 32-bit
`int`; `disabled_` and the handles are unsigned 32-bit. `playlists_` is the
map from handle to playlist, as the list of its entries. -/
structure XXMPApp where
  state_ : State
  disabled_ : Nat
  active_playlist_ : Option Playlist
  active_song_index_ : Int
  next_playlist_handle_ : Nat
  next_song_handle_ : Nat
  playlists_ : List (Nat × Playlist)
deriving DecidableEq, Repr

/-- Conversion of an integer to `size_t`: its value modulo 2^64. -/
def toSizeT (z : Int) : Nat := (z % 18446744073709551616).toNat

/-- Conversion of an integer to `int`: its value modulo 2^32, in
-2^31 .. 2^31 - 1. -/
def toInt32 (z : Int) : Int := (z + 2147483648) % 4294967296 - 2147483648

/-- Increment `++x` of an unsigned 32-bit value. -/
def increment32 (x : Nat) : Nat := (x + 1) % 4294967296

/-- Lookup `playlists_.find(handle)`. -/
def findPlaylist (playlists : List (Nat × Playlist)) (handle : Nat) : Option Playlist :=
  (playlists.find? (fun e => e.1 == handle)).map Prod.snd

namespace XXMPApp

/-- The state that the member initialisers of the constructor give. -/
def construct : XXMPApp :=
  { state_ := .kIdle, disabled_ := 0, active_playlist_ := none, active_song_index_ := 0,
    next_playlist_handle_ := 1, next_song_handle_ := 1, playlists_ := [] }

/-- Body of the loop of `XMPCreateTitlePlaylist` for index `i`: a song with
the next handle and the fields of the guest record is appended. -/
def createSong (guest_songs : Nat → GuestSong) (acc : XXMPApp × List Song) (i : Nat) :
    XXMPApp × List Song :=
  let handle := increment32 acc.1.next_song_handle_
  let g := guest_songs i
  let song : Song :=
    { handle := handle, file_path := g.file_path, name := g.name, artist := g.artist,
      album := g.album, album_artist := g.album_artist, genre := g.genre,
      track_number := g.track_number, duration_ms := g.duration_ms, format := g.format }
  ({ acc.1 with next_song_handle_ := handle }, acc.2 ++ [song])

/-- Member `XMPCreateTitlePlaylist`, `guest_songs i` being the record that
guest memory holds for song `i`. An insertion into the map under a handle
that the map holds already leaves the map as it is. -/
def XMPCreateTitlePlaylist (app : XXMPApp) (guest_songs : Nat → GuestSong) (song_count : Nat)
    (playlist_name : String) (flags : Nat) : XXMPApp × X_RESULT :=
  let handle := increment32 app.next_playlist_handle_
  let app : XXMPApp := { app with next_playlist_handle_ := handle }
  let loop := (List.range song_count).foldl (createSong guest_songs) (app, [])
  let playlist : Playlist :=
    { handle := handle, name := playlist_name, flags := flags, songs := loop.2 }
  let app : XXMPApp := loop.1
  let playlists :=
    if (findPlaylist app.playlists_ handle).isSome then app.playlists_
    else app.playlists_ ++ [(handle, playlist)]
  ({ app with playlists_ := playlists }, .X_ERROR_SUCCESS)

/-- Member `XMPStop`. -/
def XMPStop (app : XXMPApp) (_unk : Nat) : XXMPApp × X_RESULT :=
  ({ app with active_playlist_ := none, active_song_index_ := 0, state_ := .kIdle },
    .X_ERROR_SUCCESS)

/-- Member `XMPDeleteTitlePlaylist`. The comparison of the pointers
`playlist == active_playlist_` is the comparison of the playlists: the
playlists of the map differ in their handles, and the active playlist is one
of the map. -/
def XMPDeleteTitlePlaylist (app : XXMPApp) (playlist_handle : Nat) : XXMPApp × X_RESULT :=
  match findPlaylist app.playlists_ playlist_handle with
  | none => (app, .X_ERROR_NOT_FOUND)
  | some playlist =>
    let app : XXMPApp :=
      if app.active_playlist_ = some playlist then (XMPStop app 0).1 else app
    ({ app with playlists_ := app.playlists_.filter (fun e => e.1 != playlist_handle) },
      .X_ERROR_SUCCESS)

/-- Member `XMPPlayTitlePlaylist`. -/
def XMPPlayTitlePlaylist (app : XXMPApp) (playlist_handle : Nat) (_song_handle : Nat) :
    XXMPApp × X_RESULT :=
  match findPlaylist app.playlists_ playlist_handle with
  | none => (app, .X_ERROR_NOT_FOUND)
  | some playlist =>
    if app.disabled_ ≠ 0 then (app, .X_ERROR_SUCCESS)
    else
      ({ app with active_playlist_ := some playlist, active_song_index_ := 0,
                  state_ := .kPlaying }, .X_ERROR_SUCCESS)

/-- Member `XMPNext`. The remainder
`(active_song_index_ + 1) % active_playlist_->songs.size()` is taken in
`size_t` and stored as an `int`; with no songs the divisor is zero, the
behaviour is undefined and there is no result. -/
def XMPNext (app : XXMPApp) : Option (XXMPApp × X_RESULT) :=
  match app.active_playlist_ with
  | none => some (app, .X_ERROR_NOT_FOUND)
  | some playlist =>
    if playlist.songs.length = 0 then none
    else
      some ({ app with
                state_ := .kPlaying,
                active_song_index_ :=
                  toInt32 ((toSizeT (toInt32 (app.active_song_index_ + 1)) %
                    playlist.songs.length : Nat) : Int) },
        .X_ERROR_SUCCESS)

/-- Member `XMPPrevious`. -/
def XMPPrevious (app : XXMPApp) : XXMPApp × X_RESULT :=
  match app.active_playlist_ with
  | none => (app, .X_ERROR_NOT_FOUND)
  | some playlist =>
    let app : XXMPApp := { app with state_ := .kPlaying }
    if app.active_song_index_ = 0 then
      ({ app with active_song_index_ := toInt32 (toInt32 playlist.songs.length - 1) },
        .X_ERROR_SUCCESS)
    else
      ({ app with active_song_index_ := toInt32 (app.active_song_index_ - 1) },
        .X_ERROR_SUCCESS)

end XXMPApp

/-- One call of a member of `XXMPApp` with its arguments. -/
inductive Call where
  | createTitlePlaylist (guest_songs : Nat → GuestSong) (song_count : Nat)
      (playlist_name : String) (flags : Nat)
  | playTitlePlaylist (playlist_handle song_handle : Nat)
  | next
  | previous
  | stop
  | deleteTitlePlaylist (playlist_handle : Nat)

/-- The state after a call; none when the behaviour of the call is undefined. -/
def Call.run (app : XXMPApp) : Call → Option XXMPApp
  | .createTitlePlaylist guest_songs song_count playlist_name flags =>
    some (app.XMPCreateTitlePlaylist guest_songs song_count playlist_name flags).1
  | .playTitlePlaylist playlist_handle song_handle =>
    some (app.XMPPlayTitlePlaylist playlist_handle song_handle).1
  | .next => app.XMPNext.map Prod.fst
  | .previous => some app.XMPPrevious.1
  | .stop => some (app.XMPStop 0).1
  | .deleteTitlePlaylist playlist_handle => some (app.XMPDeleteTitlePlaylist playlist_handle).1

/-- The state after a sequence of calls from `app`; none when the behaviour of
one of them is undefined. -/
def runCalls (app : XXMPApp) : List Call → Option XXMPApp
  | [] => some app
  | c :: rest => (c.run app).bind (fun a => runCalls a rest)

/-- The property of the song index that the members rely on: an active
playlist has a song, and the index is a position in its songs. -/
def IndexInRange (app : XXMPApp) : Prop :=
  ∀ playlist, app.active_playlist_ = some playlist →
    1 ≤ playlist.songs.length ∧ 0 ≤ app.active_song_index_ ∧
      app.active_song_index_ < (playlist.songs.length : Int)

instance (app : XXMPApp) : Decidable (IndexInRange app) :=
  match h : app.active_playlist_ with
  | none => isTrue (fun p hp => by rw [h] at hp; cases hp)
  | some q =>
    if hq : 1 ≤ q.songs.length ∧ 0 ≤ app.active_song_index_ ∧
        app.active_song_index_ < (q.songs.length : Int) then
      isTrue (fun p hp => by rw [h] at hp; cases hp; exact hq)
    else isFalse (fun hall => hq (hall q h))

/-- Whether a call creates no playlist without songs, nor one with more songs
than an `int` counts. -/
def Call.hasSongs : Call → Prop
  | .createTitlePlaylist _ song_count _ _ => 1 ≤ song_count ∧ song_count < 2147483648
  | _ => True

/-- The playlists of the map and the active playlist have between 1 and
2^31 - 1 songs, and the song index is a position in the active playlist. -/
def SongsInvariant (app : XXMPApp) : Prop :=
  (∀ e ∈ app.playlists_, 1 ≤ e.2.songs.length ∧ e.2.songs.length < 2147483648) ∧
    ∀ p, app.active_playlist_ = some p →
      (1 ≤ p.songs.length ∧ p.songs.length < 2147483648) ∧
        0 ≤ app.active_song_index_ ∧ app.active_song_index_ < (p.songs.length : Int)

/-- Guest memory that holds the same record for every song. -/
def sameSong : Nat → GuestSong :=
  fun _ => default

/-- The calls that create a playlist with no songs and play it: the first
playlist created has handle 2. -/
def playEmptyPlaylist : List Call :=
  [.createTitlePlaylist sameSong 0 "" 0, .playTitlePlaylist 2 0]

/-- The calls that create a playlist of three songs and play it. -/
def playThreeSongs : List Call :=
  [.createTitlePlaylist sameSong 3 "" 0, .playTitlePlaylist 2 0]

/-- The state after `playThreeSongs` from the constructor. -/
def threeSongsApp : XXMPApp :=
  ((XXMPApp.construct.XMPCreateTitlePlaylist sameSong 3 "" 0).1.XMPPlayTitlePlaylist 2 0).1

/-- The state after `k` calls of `XMPNext`; none when the behaviour of one of
them is undefined. -/
def nextTimes : Nat → XXMPApp → Option XXMPApp
  | 0, app => some app
  | k + 1, app => (nextTimes k app).bind (fun a => a.XMPNext.map Prod.fst)

end xe.kernel.apps

namespace xe.gpu

open GlslShaderTranslator

/-! ## Basic facts about the text buffer -/

@[simp] theorem EmitSource_source (t : GlslShaderTranslator) (s : String) :
    (EmitSource t s).source_ = t.source_ ++ s := rfl

@[simp] theorem EmitSource_depth (t : GlslShaderTranslator) (s : String) :
    (EmitSource t s).depth_ = t.depth_ := rfl

@[simp] theorem EmitSource_buffer (t : GlslShaderTranslator) (s : String) :
    (EmitSource t s).depth_prefix_ = t.depth_prefix_ := rfl

@[simp] theorem EmitSource_stage (t : GlslShaderTranslator) (s : String) :
    (EmitSource t s).shader_type_ = t.shader_type_ := rfl

@[simp] theorem EmitSource_error (t : GlslShaderTranslator) (s : String) :
    (EmitSource t s).has_error_ = t.has_error_ := rfl

@[simp] theorem EmitSource_is_pixel (t : GlslShaderTranslator) (s : String) :
    (EmitSource t s).is_pixel_shader = t.is_pixel_shader := rfl

@[simp] theorem indent_EmitSource (t : GlslShaderTranslator) (s : String) :
    indent (EmitSource t s) = indent t := rfl

@[simp] theorem EmitSource_EmitSource (t : GlslShaderTranslator) (a b : String) :
    EmitSource (EmitSource t a) b = EmitSource t (a ++ b) := by
  simp [EmitSource, String.append_assoc]

@[simp] theorem EmitSource_empty (t : GlslShaderTranslator) : EmitSource t "" = t := by
  simp [EmitSource]

theorem EmitSourceDepth_eq (t : GlslShaderTranslator) (s : String) :
    EmitSourceDepth t s = EmitSource t (indent t ++ s) := by
  simp [EmitSourceDepth, EmitSource, indent, String.append_assoc]

theorem emitChars_eq (js : List Nat) (f : Nat → Char) (t : GlslShaderTranslator) :
    emitChars t js f = EmitSource t (String.mk (js.map f)) := by
  induction js generalizing t with
  | nil => simp [emitChars]
  | cons j js ih =>
    have h : emitChars t (j :: js) f = emitChars (EmitSource t (String.singleton (f j))) js f := rfl
    rw [h, ih, EmitSource_EmitSource]
    congr 1

theorem EmitSource_congr (t : GlslShaderTranslator) {a b : String} (h : a.data = b.data) :
    EmitSource t a = EmitSource t b := by
  rw [String.ext h]



theorem emitOperandRoot_fst (t : GlslShaderTranslator) (src : InstructionStorageSource) :
    (emitOperandRoot t src).1 = EmitSource t (operandRoot src) := by
  cases src <;> simp [emitOperandRoot, operandRoot]

theorem emitOperandRoot_snd (t : GlslShaderTranslator) (src : InstructionStorageSource) :
    (emitOperandRoot t src).2 =
      if src = .kConstantFloat ∧ t.shader_type_ = .kPixel then 256 else 0 := by
  cases src <;> simp [emitOperandRoot, is_pixel_shader]

theorem emitOperandIndex_eq (t : GlslShaderTranslator) (op : InstructionOperand)
    (stage : ShaderType) :
    emitOperandIndex t (if op.storage_source = .kConstantFloat ∧ stage = .kPixel then 256 else 0)
        op.storage_addressing_mode op.storage_index =
      EmitSource t (operandIndex stage op) := by
  by_cases h : op.storage_source = .kConstantFloat ∧ stage = .kPixel
  · simp only [h, and_self, if_true, operandIndex]
    cases op.storage_addressing_mode <;>
      simp only [emitOperandIndex, addressSuffix, if_true, ne_eq, not_false_eq_true] <;>
      apply EmitSource_congr <;> simp <;> rfl
  · simp only [h, if_false, operandIndex]
    cases op.storage_addressing_mode <;>
      simp only [emitOperandIndex, addressSuffix, if_false, ne_eq, not_true_eq_false] <;>
      apply EmitSource_congr <;> simp

theorem emitOperandSwizzle_eq (t : GlslShaderTranslator) (op : InstructionOperand) :
    emitOperandSwizzle t op = EmitSource t (swizzleSuffix op) := by
  unfold emitOperandSwizzle swizzleSuffix swizzleLetters
  cases op.is_standard_swizzle
  · simp only [Bool.not_false, if_true, emitChars_eq, EmitSource_EmitSource, Bool.false_eq_true,
      if_false]
    split_ifs <;> apply EmitSource_congr <;> simp
  · simp

/-- Text appended by `EmitLoadOperand`: the indentation and the load line. -/
theorem EmitLoadOperand_eq (t : GlslShaderTranslator) (i : Nat) (op : InstructionOperand) :
    EmitLoadOperand t i op = EmitSource t (indent t ++ loadLine t.shader_type_ i op) := by
  unfold EmitLoadOperand loadLine loadLineWith
  cases op.is_negated <;> cases op.is_absolute_value <;>
    simp only [EmitSourceDepth_eq, EmitSource_EmitSource, if_true, if_false,
      emitOperandRoot_fst, emitOperandRoot_snd, EmitSource_stage, emitOperandIndex_eq,
      emitOperandSwizzle_eq, Bool.false_eq_true] <;>
    apply EmitSource_congr <;> simp


theorem componentChar_eq (j : Nat) :
    GetCharForSwizzle (GetSwizzleFromComponentIndex j) = GetCharForComponentIndex j := by
  rcases j with _ | _ | _ | _ <;> rfl

theorem emitDestRoot_fst (t : GlslShaderTranslator) (target : InstructionStorageTarget) :
    (emitDestRoot t target).1 = EmitSource t (indent t ++ destRoot target) := by
  cases target <;> simp [emitDestRoot, destRoot, EmitSourceDepth_eq]

theorem emitDestIndex_eq (t : GlslShaderTranslator) (mode : InstructionStorageAddressingMode)
    (k : Int) :
    emitDestIndex t mode k = EmitSource t ("[" ++ toString k ++ addressSuffix mode ++ "]") := by
  cases mode <;> simp only [emitDestIndex, addressSuffix] <;> apply EmitSource_congr <;> simp

theorem destIndex_eq (t : GlslShaderTranslator) (r : InstructionResult) :
    (if (emitDestRoot t r.storage_target).2 = true then
        emitDestIndex (emitDestRoot t r.storage_target).1 r.storage_addressing_mode
          r.storage_index
      else (emitDestRoot t r.storage_target).1) =
      EmitSource t (indent t ++ destRoot r.storage_target ++ destIndex r) := by
  rw [emitDestRoot_fst, emitDestIndex_eq]
  cases h : r.storage_target <;>
    simp [emitDestRoot, destIndex, h, String.append_assoc]

theorem maskLoop_eq (r : InstructionResult) (js : List Nat) (s : MaskLoop) :
    js.foldl (maskStep r) s =
      { t := EmitSource s.t (String.mk
          ((js.filter (fun j => r.write_mask.get j)).map GetCharForComponentIndex)),
        has_const_writes := s.has_const_writes ||
          (js.filter (fun j => r.write_mask.get j)).any
            (fun j => isConstSwizzle (r.components.get j)),
        component_write_count :=
          s.component_write_count + (js.filter (fun j => r.write_mask.get j)).length } := by
  induction js generalizing s with
  | nil => cases s; simp
  | cons j js ih =>
    rw [List.foldl_cons, ih]
    by_cases hw : r.write_mask.get j = true
    · simp only [maskStep, hw, if_true, List.filter_cons_of_pos, List.map_cons, List.any_cons,
        List.length_cons, EmitSource_EmitSource, componentChar_eq]
      rw [MaskLoop.mk.injEq]
      refine ⟨?_, ?_, ?_⟩
      · apply EmitSource_congr; simp
      · by_cases hc : r.components.get j = .k0 ∨ r.components.get j = .k1
        · rcases hc with hc | hc <;> simp [hc, isConstSwizzle]
        · have hc2 : isConstSwizzle (r.components.get j) = false := by
            simp only [isConstSwizzle, Bool.or_eq_false_iff, decide_eq_false_iff_not]
            exact ⟨fun h => hc (Or.inl h), fun h => hc (Or.inr h)⟩
          simp [hc, hc2]
      · omega
    · simp [maskStep, hw]

theorem commaSep_cons (a : String) (rest : List String) :
    commaSep (a :: rest) = a ++ (if rest = [] then "" else ", " ++ commaSep rest) := by
  cases rest with
  | nil => simp [commaSep]
  | cons b rest => simp [commaSep, String.append_assoc]

theorem vecLoop_eq (r : InstructionResult) (temp : String) (js : List Nat)
    (t : GlslShaderTranslator) (b : Bool) :
    js.foldl (vecStep r temp) (t, b) =
      (EmitSource t
        (if (js.filter (fun j => r.write_mask.get j)) = [] then ""
         else (if b then ", " else "") ++
          commaSep ((js.filter (fun j => r.write_mask.get j)).map
            (fun j => vecElement temp (r.components.get j)))),
       b || (js.filter (fun j => r.write_mask.get j)).any (fun _ => true)) := by
  induction js generalizing t b with
  | nil => simp
  | cons j js ih =>
    rw [List.foldl_cons]
    by_cases hw : r.write_mask.get j = true
    · have hstep : vecStep r temp (t, b) j =
          (EmitSource t ((if b then ", " else "") ++ vecElement temp (r.components.get j)),
            true) := by
        cases b <;> cases hc : r.components.get j <;>
          simp [vecStep, hw, hc, vecElement]
      rw [hstep, ih]
      simp only [hw, List.filter_cons_of_pos, List.map_cons, EmitSource_EmitSource, if_true,
        List.any_cons, Bool.true_or, Bool.or_true, commaSep_cons, reduceCtorEq, if_false,
        List.map_eq_nil_iff]
      rw [Prod.mk.injEq]
      refine ⟨?_, rfl⟩
      simp only [String.append_assoc]
    · simp only [Bool.not_eq_true] at hw
      have hstep : vecStep r temp (t, b) j = (t, b) := by simp [vecStep, hw]
      rw [hstep, ih]
      simp [hw]

theorem swizzleLoop_eq (r : InstructionResult) (js : List Nat) (t : GlslShaderTranslator) :
    js.foldl (swizzleStep r) t =
      EmitSource t (String.mk ((js.filter (fun j => r.write_mask.get j)).map
        (fun j => GetCharForSwizzle (r.components.get j)))) := by
  induction js generalizing t with
  | nil => simp
  | cons j js ih =>
    rw [List.foldl_cons, ih]
    by_cases hw : r.write_mask.get j = true
    · simp only [swizzleStep, hw, if_true, List.filter_cons_of_pos, List.map_cons,
        EmitSource_EmitSource]
      apply EmitSource_congr; simp
    · simp [swizzleStep, hw]


theorem writtenLanes_ne_nil (r : InstructionResult) (h : r.has_any_writes = true) :
    writtenLanes r ≠ [] := by
  obtain ⟨tg, k, m, c, ⟨w0, w1, w2, w3⟩, comps⟩ := r
  revert h
  cases w0 <;> cases w1 <;> cases w2 <;> cases w3 <;>
    simp [InstructionResult.has_any_writes, writtenLanes, Vec4.get, List.range_succ, List.filter]

/-- Text appended by `EmitStoreResult`: nothing without writes, else the
indentation and the store line. -/
theorem EmitStoreResult_eq (t : GlslShaderTranslator) (r : InstructionResult) (temp : String) :
    EmitStoreResult t r temp =
      if r.has_any_writes then EmitSource t (indent t ++ storeLine r temp) else t := by
  unfold EmitStoreResult
  cases hw : r.has_any_writes
  · simp
  · simp only [Bool.not_true, Bool.false_eq_true, if_false, if_true]
    have hd := destIndex_eq t r
    simp only [] at hd ⊢
    rw [hd]
    have hne := writtenLanes_ne_nil r hw
    have hk : ((writtenLanes r).any
        (fun j => isConstSwizzle (r.components.get j))) = hasConstWrite r := rfl
    have hl : List.filter (fun j => r.write_mask.get j) (List.range 4) = writtenLanes r := rfl
    cases hs : r.is_standard_swizzle <;> cases hc : r.is_clamped
    all_goals
      simp only [Bool.not_false, Bool.not_true, if_true, maskLoop_eq, EmitSource_EmitSource,
        Bool.false_or, Nat.zero_add, vecLoop_eq, swizzleLoop_eq, Bool.false_eq_true, if_false,
        hk, hl, hne, storeLine, storeTail, storeRhs, clampWrap, hs, hc, vecRhs]
    · cases hasConstWrite r <;>
        simp only [if_true, if_false, Bool.false_eq_true, EmitSource_EmitSource] <;>
        apply EmitSource_congr <;> simp [maskLetters, storeSwizzleLetters]
    · cases hasConstWrite r <;>
        simp only [if_true, if_false, Bool.false_eq_true, EmitSource_EmitSource] <;>
        apply EmitSource_congr <;> simp [maskLetters, storeSwizzleLetters]
    · apply EmitSource_congr; simp
    · apply EmitSource_congr; simp

/-! ## Lines of an instruction -/

theorem indented_append (ind : String) (a b : List String) :
    indented ind (a ++ b) = indented ind a ++ indented ind b := by
  induction a with
  | nil => simp [indented]
  | cons l ls ih => simp [indented, ih, String.append_assoc]

theorem emitDepthLines_eq (ls : List String) (t : GlslShaderTranslator) :
    emitDepthLines t ls = EmitSource t (indented (indent t) ls) := by
  induction ls generalizing t with
  | nil => simp [emitDepthLines, indented]
  | cons l ls ih =>
    have h : emitDepthLines t (l :: ls) = emitDepthLines (EmitSourceDepth t l) ls := rfl
    rw [h, ih, EmitSourceDepth_eq, EmitSource_EmitSource, indent_EmitSource]
    simp [indented, String.append_assoc]

theorem loadLoop_eq (ops : Arr3 InstructionOperand) (js : List Nat) (t : GlslShaderTranslator) :
    js.foldl (fun acc i => EmitLoadOperand acc i (ops.get i)) t =
      EmitSource t (indented (indent t)
        (js.map (fun i => loadLine t.shader_type_ i (ops.get i)))) := by
  induction js generalizing t with
  | nil => simp [indented]
  | cons j js ih =>
    rw [List.foldl_cons, ih, EmitLoadOperand_eq, EmitSource_EmitSource, indent_EmitSource,
      EmitSource_stage]
    simp [indented, String.append_assoc]

theorem loadOperands_eq (t : GlslShaderTranslator) (n : Nat) (ops : Arr3 InstructionOperand) :
    loadOperands t n ops = EmitSource t (indented (indent t) (loadLines t.shader_type_ n ops)) :=
  loadLoop_eq ops (List.range n) t

theorem fetchLoadLoop_eq (skip : InstructionStorageSource) (ops : Arr3 InstructionOperand)
    (js : List Nat) (t : GlslShaderTranslator) :
    js.foldl (fun acc i =>
        if (ops.get i).storage_source ≠ skip then EmitLoadOperand acc i (ops.get i) else acc) t =
      EmitSource t (indented (indent t)
        ((js.filter (fun i => decide ((ops.get i).storage_source ≠ skip))).map
          (fun i => loadLine t.shader_type_ i (ops.get i)))) := by
  induction js generalizing t with
  | nil => simp [indented]
  | cons j js ih =>
    rw [List.foldl_cons, ih]
    by_cases h : (ops.get j).storage_source = skip
    · simp [h]
    · simp only [ne_eq, h, not_false_eq_true, if_true, EmitLoadOperand_eq, EmitSource_EmitSource,
        indent_EmitSource, EmitSource_stage, decide_True, List.filter_cons_of_pos,
        List.map_cons, indented, String.append_assoc]

theorem loadFetchOperands_eq (t : GlslShaderTranslator) (skip : InstructionStorageSource)
    (n : Nat) (ops : Arr3 InstructionOperand) :
    loadFetchOperands t skip n ops =
      EmitSource t (indented (indent t) (fetchLoadLines t.shader_type_ skip n ops)) :=
  fetchLoadLoop_eq skip ops (List.range n) t

theorem EmitStoreResult_lines (t : GlslShaderTranslator) (r : InstructionResult)
    (temp : String) :
    EmitStoreResult t r temp = EmitSource t (indented (indent t) (storeLines r temp)) := by
  rw [EmitStoreResult_eq]
  unfold storeLines
  cases r.has_any_writes <;> simp [indented]

theorem Indent_EmitSource (t : GlslShaderTranslator) (s : String) :
    Indent (EmitSource t s) = EmitSource (Indent t) s := rfl

theorem Unindent_EmitSource (t : GlslShaderTranslator) (s : String) :
    Unindent (EmitSource t s) = EmitSource (Unindent t) s := rfl

@[simp] theorem Indent_source (t : GlslShaderTranslator) : (Indent t).source_ = t.source_ := rfl

@[simp] theorem Unindent_source (t : GlslShaderTranslator) :
    (Unindent t).source_ = t.source_ := rfl

@[simp] theorem Indent_stage (t : GlslShaderTranslator) :
    (Indent t).shader_type_ = t.shader_type_ := rfl

theorem guardLine_eq (c : Bool) :
    "if (" ++ String.singleton (if c then ' ' else '!') ++ "p0) \x7b\n" = guardLine c := by
  cases c <;> decide

theorem beginPredicate_eq (t : GlslShaderTranslator) (c : Bool) :
    beginPredicate t c = EmitSource (Indent t) (indent t ++ guardLine c) := by
  simp only [beginPredicate, EmitSourceDepth_eq, Indent_EmitSource, guardLine_eq]

theorem endPredicate_eq (t : GlslShaderTranslator) :
    endPredicate t = EmitSource (Unindent t) (indent (Unindent t) ++ "\x7d\n") := by
  simp only [endPredicate, EmitSourceDepth_eq]

theorem Unindent_congr (a b : GlslShaderTranslator) (hd : a.depth_ = b.depth_)
    (hp : a.depth_prefix_ = b.depth_prefix_) :
    indent (Unindent a) = indent (Unindent b) ∧ (Unindent a).depth_ = (Unindent b).depth_ ∧
      (Unindent a).depth_prefix_ = (Unindent b).depth_prefix_ := by
  simp only [indent, Unindent, hd, hp, and_self]

/-- The guard, body and closing brace of an instruction whose body appends
the lines `ls` at the indentation of the state it starts from. -/
theorem predicated_body (t : GlslShaderTranslator) (pred c : Bool) (ls : List String)
    (body : GlslShaderTranslator → GlslShaderTranslator)
    (hbody : ∀ u : GlslShaderTranslator, u.shader_type_ = t.shader_type_ →
      (body u).source_ = u.source_ ++ indented (indent u) ls ∧
        (body u).depth_ = u.depth_ ∧ (body u).depth_prefix_ = u.depth_prefix_) :
    let u := if pred then beginPredicate t c else t
    let v := body u
    let w := if pred then endPredicate v else v
    w.source_ = t.source_ ++ guardText t pred c ++ indented (indent (bodyState t pred)) ls ++
        closeText t pred ∧
      w.depth_ = (if pred then (Unindent (Indent t)).depth_ else t.depth_) ∧
      w.depth_prefix_ =
        (if pred then (Unindent (Indent t)).depth_prefix_ else t.depth_prefix_) := by
  cases pred
  · simp only [Bool.false_eq_true, if_false, guardText, bodyState, closeText]
    obtain ⟨h1, h2, h3⟩ := hbody t rfl
    refine ⟨?_, h2, h3⟩
    rw [h1]
    apply String.ext
    simp
  · simp only [if_true, guardText, bodyState, closeText, beginPredicate_eq, endPredicate_eq]
    obtain ⟨h1, h2, h3⟩ := hbody (EmitSource (Indent t) (indent t ++ guardLine c)) rfl
    obtain ⟨hi, hj, hk⟩ := Unindent_congr
      (body (EmitSource (Indent t) (indent t ++ guardLine c))) (Indent t) h2 h3
    refine ⟨?_, hj, hk⟩
    simp only [EmitSource_source, Unindent_source, h1, hi, indent_EmitSource, Indent_source]

theorem vectorAlu_emits (t : GlslShaderTranslator) (instr : ParsedAluInstruction) :
    Emits t (ProcessVectorAluInstruction t instr) instr.is_predicated
      (guardText t instr.is_predicated instr.predicate_condition ++
        indented (indent (bodyState t instr.is_predicated))
          (loadLines t.shader_type_ instr.operand_count instr.operands ++
            vectorOpcodeBody instr.vector_opcode ++ storeLines instr.result "pv") ++
        closeText t instr.is_predicated) := by
  have h := predicated_body t instr.is_predicated instr.predicate_condition
    (loadLines t.shader_type_ instr.operand_count instr.operands ++
      vectorOpcodeBody instr.vector_opcode ++ storeLines instr.result "pv")
    (fun u => EmitStoreVectorResult
      (emitDepthLines (loadOperands u instr.operand_count instr.operands)
        (vectorOpcodeBody instr.vector_opcode)) instr.result)
    (by
      intro u hu
      simp only [EmitStoreVectorResult, EmitStoreResult_lines, emitDepthLines_eq,
        loadOperands_eq, EmitSource_EmitSource, indent_EmitSource, EmitSource_source,
        EmitSource_depth, EmitSource_buffer, indented_append, hu, String.append_assoc,
        and_self])
  simp only [String.append_assoc] at h
  simpa only [Emits, ProcessVectorAluInstruction, String.append_assoc] using h

theorem scalarAlu_emits (t : GlslShaderTranslator) (instr : ParsedAluInstruction) :
    Emits t (ProcessScalarAluInstruction t instr) instr.is_predicated
      (guardText t instr.is_predicated instr.predicate_condition ++
        indented (indent (bodyState t instr.is_predicated))
          (loadLines t.shader_type_ instr.operand_count instr.operands ++
            scalarOpcodeBody instr.scalar_opcode ++ storeLines instr.result "vec4(ps)") ++
        closeText t instr.is_predicated) := by
  have h := predicated_body t instr.is_predicated instr.predicate_condition
    (loadLines t.shader_type_ instr.operand_count instr.operands ++
      scalarOpcodeBody instr.scalar_opcode ++ storeLines instr.result "vec4(ps)")
    (fun u => EmitStoreScalarResult
      (emitDepthLines (loadOperands u instr.operand_count instr.operands)
        (scalarOpcodeBody instr.scalar_opcode)) instr.result)
    (by
      intro u hu
      simp only [EmitStoreScalarResult, EmitStoreResult_lines, emitDepthLines_eq,
        loadOperands_eq, EmitSource_EmitSource, indent_EmitSource, EmitSource_source,
        EmitSource_depth, EmitSource_buffer, indented_append, hu, String.append_assoc,
        and_self])
  simp only [String.append_assoc] at h
  simpa only [Emits, ProcessScalarAluInstruction, String.append_assoc] using h

@[simp] theorem guardText_EmitSource (t : GlslShaderTranslator) (a : String) (p c : Bool) :
    guardText (EmitSource t a) p c = guardText t p c := rfl

@[simp] theorem closeText_EmitSource (t : GlslShaderTranslator) (a : String) (p : Bool) :
    closeText (EmitSource t a) p = closeText t p := rfl

@[simp] theorem indent_bodyState_EmitSource (t : GlslShaderTranslator) (a : String) (p : Bool) :
    indent (bodyState (EmitSource t a) p) = indent (bodyState t p) := by
  cases p <;> rfl

theorem Emits_after (t w : GlslShaderTranslator) (pred : Bool) (a text : String)
    (h : Emits (EmitSource t a) w pred text) : Emits t w pred (a ++ text) := by
  obtain ⟨h1, h2, h3⟩ := h
  refine ⟨?_, h2, h3⟩
  rw [h1, EmitSource_source, String.append_assoc]

theorem ProcessAluInstruction_emits (t : GlslShaderTranslator) (instr : ParsedAluInstruction)
    (hty : instr.type ≠ .kNop) :
    Emits t (ProcessAluInstruction t instr) instr.is_predicated
      ("// " ++ instr.disassembly ++
        (guardText t instr.is_predicated instr.predicate_condition ++
          indented (indent (bodyState t instr.is_predicated)) (aluLines t.shader_type_ instr) ++
          closeText t instr.is_predicated)) := by
  apply Emits_after
  simp only [ProcessAluInstruction, aluLines, aluOpcodeLines, aluTemp, EmitSource_EmitSource]
  cases hk : instr.type
  · exact absurd hk hty
  · have h := vectorAlu_emits (EmitSource t ("// " ++ instr.disassembly)) instr
    simpa only [guardText_EmitSource, closeText_EmitSource, indent_bodyState_EmitSource,
      EmitSource_stage] using h
  · have h := scalarAlu_emits (EmitSource t ("// " ++ instr.disassembly)) instr
    simpa only [guardText_EmitSource, closeText_EmitSource, indent_bodyState_EmitSource,
      EmitSource_stage] using h

theorem vertexFetchSwitch_eq (u : GlslShaderTranslator) (instr : ParsedVertexFetchInstruction) :
    (if instr.result.stores_non_constants then
        vertexFetchSwitch
          (loadFetchOperands u .kVertexFetchConstant instr.operand_count instr.operands) instr
      else u) =
      EmitSource u (indented (indent u) (vertexFetchBodyLines u.shader_type_ instr)) := by
  unfold vertexFetchBodyLines vertexFetchSwitch
  cases instr.result.stores_non_constants
  · simp [indented]
  · simp only [if_true]
    cases instr.opcode
    all_goals
      simp only [loadFetchOperands_eq, EmitSourceDepth_eq, emitChars_eq, EmitSource_EmitSource,
        indent_EmitSource, indented_append, indented, List.append_nil]
    apply EmitSource_congr
    simp

theorem ProcessVertexFetchInstruction_emits (t : GlslShaderTranslator)
    (instr : ParsedVertexFetchInstruction) :
    Emits t (ProcessVertexFetchInstruction t instr) instr.is_predicated
      ("// " ++ instr.disassembly ++
        (guardText t instr.is_predicated instr.predicate_condition ++
          indented (indent (bodyState t instr.is_predicated))
            (vertexFetchLines t.shader_type_ instr) ++
          closeText t instr.is_predicated)) := by
  apply Emits_after
  have h := predicated_body (EmitSource t ("// " ++ instr.disassembly)) instr.is_predicated
    instr.predicate_condition (vertexFetchLines t.shader_type_ instr)
    (fun u => EmitStoreVectorResult
      (if instr.result.stores_non_constants then
        vertexFetchSwitch
          (loadFetchOperands u .kVertexFetchConstant instr.operand_count instr.operands) instr
      else u) instr.result)
    (by
      intro u hu
      dsimp only
      rw [vertexFetchSwitch_eq]
      simp only [EmitStoreVectorResult, EmitStoreResult_lines, EmitSource_EmitSource,
        indent_EmitSource, EmitSource_source, EmitSource_depth, EmitSource_buffer,
        vertexFetchLines, indented_append, and_self, and_true]
      rw [show u.shader_type_ = t.shader_type_ from hu])
  simp only [String.append_assoc, guardText_EmitSource, closeText_EmitSource,
    indent_bodyState_EmitSource] at h
  simpa only [Emits, ProcessVertexFetchInstruction, EmitSource_EmitSource,
    String.append_assoc] using h

theorem EmitUnimplementedTranslationError_eq (u : GlslShaderTranslator) :
    EmitUnimplementedTranslationError u =
      EmitSource { u with has_error_ := true } (indent u ++ "// UNIMPLEMENTED TRANSLATION\n") := by
  simp only [EmitUnimplementedTranslationError, EmitSourceDepth_eq]
  rfl

theorem textureFetchSwitch_eq (u : GlslShaderTranslator)
    (instr : ParsedTextureFetchInstruction) :
    textureFetchSwitch u instr =
      EmitSource { u with has_error_ := (textureFetchSwitch u instr).has_error_ }
        (indented (indent u) (textureOpcodeLines instr)) := by
  unfold textureFetchSwitch textureOpcodeLines
  cases instr.opcode <;>
    simp only [emitDepthLines_eq, EmitUnimplementedTranslationError_eq, EmitSourceDepth_eq,
      EmitSource_EmitSource, indent_EmitSource, indented, EmitSource_error,
      String.append_assoc, String.append_empty, EmitSource_empty] <;>
    rfl

theorem ProcessTextureFetchInstruction_emits (t : GlslShaderTranslator)
    (instr : ParsedTextureFetchInstruction) :
    Emits t (ProcessTextureFetchInstruction t instr) instr.is_predicated
      ("// " ++ instr.disassembly ++
        (guardText t instr.is_predicated instr.predicate_condition ++
          indented (indent (bodyState t instr.is_predicated))
            (textureFetchLines t.shader_type_ instr) ++
          closeText t instr.is_predicated)) := by
  apply Emits_after
  have h := predicated_body (EmitSource t ("// " ++ instr.disassembly)) instr.is_predicated
    instr.predicate_condition (textureFetchLines t.shader_type_ instr)
    (fun u => EmitStoreVectorResult
      (textureFetchSwitch
        (loadFetchOperands u .kTextureFetchConstant instr.operand_count instr.operands) instr)
      instr.result)
    (by
      intro u hu
      dsimp only
      rw [textureFetchSwitch_eq, loadFetchOperands_eq]
      simp only [EmitStoreVectorResult, EmitStoreResult_lines, EmitSource_EmitSource,
        indent_EmitSource, EmitSource_source, EmitSource_depth, EmitSource_buffer,
        textureFetchLines, indented_append, and_self, and_true]
      rw [show u.shader_type_ = t.shader_type_ from hu]
      simp only [indent, String.append_assoc])
  simp only [String.append_assoc, guardText_EmitSource, closeText_EmitSource,
    indent_bodyState_EmitSource] at h
  simpa only [Emits, ProcessTextureFetchInstruction, EmitSource_EmitSource,
    String.append_assoc] using h

/-! ## The indentation buffer -/

theorem spaces_getElem (buf : List Char) (n : Nat) :
    buf.take n = List.replicate n ' ' ↔ ∀ i, i < n → buf[i]? = some ' ' := by
  constructor
  · intro h i hi
    have := congrArg (fun l => l[i]?) h
    simpa [List.getElem?_take, hi, List.getElem?_replicate] using this
  · intro h
    apply List.ext_getElem?
    intro i
    by_cases hi : i < n
    · simp [List.getElem?_take, hi, List.getElem?_replicate, h i hi]
    · simp [List.getElem?_take, hi, List.getElem?_replicate]

theorem cstr_spaces (buf : List Char) (n : Nat) (h1 : buf.take n = List.replicate n ' ')
    (h2 : buf[n]? = some NUL) : cstr buf = String.mk (List.replicate n ' ') := by
  have hsplit : buf = List.replicate n ' ' ++ NUL :: buf.drop (n + 1) := by
    have hlt : n < buf.length := by
      by_contra hge
      rw [List.getElem?_eq_none (by omega)] at h2
      exact absurd h2 (by simp)
    conv_lhs => rw [← List.take_append_drop n buf, h1]
    congr 1
    rw [List.drop_eq_getElem_cons hlt]
    congr 1
    rw [List.getElem?_eq_getElem hlt] at h2
    exact Option.some.inj h2
  unfold cstr
  rw [hsplit, List.takeWhile_append_of_pos]
  · simp [NUL]
  · intro c hc
    rw [List.eq_of_mem_replicate hc]
    decide

theorem indent_of_PrefixOk (t : GlslShaderTranslator) (h : PrefixOk t) :
    indent t = "  " ++ String.mk (List.replicate t.depth_.toNat ' ') := by
  unfold indent
  rw [cstr_spaces _ _ h.2.1 h.2.2]

theorem PrefixOk_Indent (t : GlslShaderTranslator) (h : PrefixOk t) (hr : HasRoom t) :
    PrefixOk (Indent t) := by
  obtain ⟨h0, h1, h2⟩ := h
  obtain ⟨n, hn⟩ := Int.eq_ofNat_of_zero_le h0
  unfold HasRoom at hr
  rw [hn] at hr
  have hlen : n + 2 < t.depth_prefix_.length := by omega
  rw [hn, Int.toNat_ofNat] at h1 h2
  rw [spaces_getElem] at h1
  have hd : (Indent t).depth_ = ((n + 2 : Nat) : Int) := by simp [Indent, hn]
  have hb : (Indent t).depth_prefix_ =
      ((t.depth_prefix_.set n ' ').set (n + 1) ' ').set (n + 2) NUL := by
    simp only [Indent, poke, hn]
    have e1 : (0 : Int) ≤ (n : Int) := by omega
    have e2 : (0 : Int) ≤ (n : Int) + 1 := by omega
    have e3 : (0 : Int) ≤ (n : Int) + 2 := by omega
    have f2 : ((n : Int) + 1).toNat = n + 1 := by omega
    have f3 : ((n : Int) + 2).toNat = n + 2 := by omega
    simp only [e1, e2, e3, if_true, Int.toNat_ofNat, f2, f3]
  refine ⟨by omega, ?_, ?_⟩
  · rw [hd, Int.toNat_ofNat, hb, spaces_getElem]
    intro i hi
    simp only [List.getElem?_set, List.length_set]
    by_cases c2 : n + 2 = i
    · omega
    · by_cases c1 : n + 1 = i
      · simp [c2, c1, hlen]
        omega
      · by_cases c0 : n = i
        · simp [c2, c1, c0]
          omega
        · simp only [c2, c1, c0, if_false]
          exact h1 i (by omega)
  · rw [hd, Int.toNat_ofNat, hb]
    simp [List.getElem?_set, hlen]

theorem PrefixOk_Unindent (t : GlslShaderTranslator) (h : PrefixOk t) (hd : 2 ≤ t.depth_) :
    PrefixOk (Unindent t) := by
  obtain ⟨h0, h1, h2⟩ := h
  obtain ⟨m, hm⟩ : ∃ m : Nat, t.depth_ = ((m + 2 : Nat) : Int) :=
    ⟨(t.depth_ - 2).toNat, by omega⟩
  rw [hm, Int.toNat_ofNat] at h1 h2
  rw [spaces_getElem] at h1
  have hlen : m + 2 < t.depth_prefix_.length := by
    by_contra hge
    rw [List.getElem?_eq_none (by omega)] at h2
    exact absurd h2 (by simp)
  have hdep : (Unindent t).depth_ = ((m : Nat) : Int) := by
    simp only [Unindent, hm]; omega
  have hb : (Unindent t).depth_prefix_ =
      ((t.depth_prefix_.set (m + 2) NUL).set (m + 1) NUL).set m NUL := by
    simp only [Unindent, poke, hm]
    have e1 : (0 : Int) ≤ ((m + 2 : Nat) : Int) := by omega
    have e2 : (0 : Int) ≤ ((m + 2 : Nat) : Int) - 1 := by omega
    have e3 : (0 : Int) ≤ ((m + 2 : Nat) : Int) - 2 := by omega
    have f2 : (((m + 2 : Nat) : Int) - 1).toNat = m + 1 := by omega
    have f3 : (((m + 2 : Nat) : Int) - 2).toNat = m := by omega
    simp only [e1, e2, e3, if_true, Int.toNat_ofNat, f2, f3]
  refine ⟨by omega, ?_, ?_⟩
  · rw [hdep, Int.toNat_ofNat, hb, spaces_getElem]
    intro i hi
    have c0 : ¬ m = i := by omega
    have c1 : ¬ m + 1 = i := by omega
    have c2 : ¬ m + 2 = i := by omega
    simp only [List.getElem?_set, c0, c1, c2, if_false]
    exact h1 i (by omega)
  · rw [hdep, Int.toNat_ofNat, hb]
    simp only [List.getElem?_set, List.length_set, if_true]
    simp
    omega

/-- Under the buffer invariant, with room in the buffer, `Indent` deepens the
indentation by two spaces and `Unindent` after it restores depth and
indentation. -/
theorem indent_Indent (t : GlslShaderTranslator) (h : PrefixOk t) (hr : HasRoom t) :
    indent (Indent t) = indent t ++ "  " ∧
      indent (Unindent (Indent t)) = indent t ∧
      (Unindent (Indent t)).depth_ = t.depth_ := by
  have hi := PrefixOk_Indent t h hr
  have hdi : (Indent t).depth_ = t.depth_ + 2 := rfl
  have hu := PrefixOk_Unindent (Indent t) hi (by rw [hdi]; have := h.1; omega)
  have hdu : (Unindent (Indent t)).depth_ = t.depth_ := by
    show t.depth_ + 2 - 2 = t.depth_
    omega
  refine ⟨?_, ?_, hdu⟩
  · rw [indent_of_PrefixOk _ hi, indent_of_PrefixOk _ h, hdi]
    have h0 := h.1
    have : (t.depth_ + 2).toNat = t.depth_.toNat + 2 := by omega
    rw [this]
    apply String.ext
    simp [List.replicate_add]
  · rw [indent_of_PrefixOk _ hu, indent_of_PrefixOk _ h, hdu]

/-! ## Lines -/

theorem digitChar_ne_newline (m : Nat) (h : m < 10) : Nat.digitChar m ≠ '\n' := by
  interval_cases m <;> decide

theorem toDigitsCore_no_newline (fuel : Nat) :
    ∀ (n : Nat) (ds : List Char), '\n' ∉ ds → '\n' ∉ Nat.toDigitsCore 10 fuel n ds := by
  induction fuel with
  | zero => intro n ds h; simpa [Nat.toDigitsCore] using h
  | succ f ih =>
    intro n ds h
    have hd : '\n' ∉ Nat.digitChar (n % 10) :: ds := by
      intro hm
      rcases List.mem_cons.mp hm with hm | hm
      · exact digitChar_ne_newline (n % 10) (Nat.mod_lt _ (by decide)) hm.symm
      · exact h hm
    unfold Nat.toDigitsCore
    dsimp only
    split
    · exact hd
    · exact ih _ _ hd

theorem nat_toString_no_newline (n : Nat) : '\n' ∉ (toString n).data := by
  show '\n' ∉ (Nat.repr n).data
  unfold Nat.repr Nat.toDigits
  exact toDigitsCore_no_newline _ _ _ (by simp)

theorem int_toString_no_newline (k : Int) : '\n' ∉ (toString k).data := by
  cases k with
  | ofNat m => exact nat_toString_no_newline m
  | negSucc m =>
    show '\n' ∉ ("-" ++ toString (m + 1)).data
    rw [String.data_append]
    intro h
    rcases List.mem_append.mp h with h | h
    · revert h; decide
    · exact nat_toString_no_newline _ h

theorem isLine_of_data (s : String) (l : List Char) (h : s.data = l ++ ['\n'])
    (hn : '\n' ∉ l) : IsLine s := by
  unfold IsLine
  rw [h]
  simp [hn]

theorem swizzleChar_ne_newline (c : SwizzleSource) : GetCharForSwizzle c ≠ '\n' := by
  cases c <;> decide

theorem componentChar_ne_newline (j : Nat) : GetCharForComponentIndex j ≠ '\n' := by
  rw [← componentChar_eq]
  exact swizzleChar_ne_newline _

theorem loadLine_isLine (stage : ShaderType) (i : Nat) (op : InstructionOperand) :
    IsLine (loadLine stage i op) := by
  apply isLine_of_data _
    (("src" ++ toString i ++ " = " ++
      (if op.is_negated then "-" else "") ++
      (if op.is_absolute_value then "abs(" else "") ++
      operandRoot op.storage_source ++ operandIndex stage op ++
      (if op.is_absolute_value then ")" else "") ++
      swizzleSuffix op ++ ";").data)
  · simp [loadLine, loadLineWith]
  · have hi := nat_toString_no_newline i
    have hk := int_toString_no_newline op.storage_index
    have hroot : '\n' ∉ (operandRoot op.storage_source).data := by
      cases op.storage_source <;> decide
    have hidx : '\n' ∉ (operandIndex stage op).data := by
      unfold operandIndex
      cases op.storage_addressing_mode <;> split_ifs <;>
        simp [addressSuffix, hk]
    have hswz : '\n' ∉ (swizzleSuffix op).data := by
      unfold swizzleSuffix swizzleLetters
      split_ifs <;> simp [swizzleChar_ne_newline, Ne.symm (swizzleChar_ne_newline _)]
    cases op.is_negated <;> cases op.is_absolute_value <;>
      simp [hi, hroot, hidx, hswz]

theorem commaSep_no_newline (es : List String) (h : ∀ e ∈ es, '\n' ∉ e.data) :
    '\n' ∉ (commaSep es).data := by
  induction es with
  | nil => simp [commaSep]
  | cons a rest ih =>
    rw [commaSep_cons]
    have ha := h a (List.mem_cons_self _ _)
    have hr := ih (fun e he => h e (List.mem_cons_of_mem _ he))
    split_ifs <;> simp [ha, hr]

theorem storeLine_isLine (r : InstructionResult) (temp : String) (ht : '\n' ∉ temp.data) :
    IsLine (storeLine r temp) := by
  apply isLine_of_data _
    ((destRoot r.storage_target ++ destIndex r ++
      (if r.is_standard_swizzle then "" else "." ++ String.mk (maskLetters r)) ++ " = " ++
      clampWrap r.is_clamped (storeRhs r temp) ++ ";").data)
  · simp [storeLine, storeTail]
  · have hk := int_toString_no_newline r.storage_index
    have hroot : '\n' ∉ (destRoot r.storage_target).data := by
      cases r.storage_target <;> decide
    have hidx : '\n' ∉ (destIndex r).data := by
      unfold destIndex
      cases r.storage_target <;> cases r.storage_addressing_mode <;>
        simp [addressSuffix, hk]
    have hmask : '\n' ∉ maskLetters r := by
      simp only [maskLetters, List.mem_map, not_exists, not_and]
      exact fun j _ h => componentChar_ne_newline j h
    have hswz : '\n' ∉ storeSwizzleLetters r := by
      simp only [storeSwizzleLetters, List.mem_map, not_exists, not_and]
      exact fun j _ h => swizzleChar_ne_newline _ h
    have hvec : '\n' ∉ (vecRhs r temp).data := by
      have := commaSep_no_newline
        ((writtenLanes r).map (fun j => vecElement temp (r.components.get j)))
        (by
          intro e he
          obtain ⟨j, _, rfl⟩ := List.mem_map.mp he
          cases hc : r.components.get j <;>
            simp [vecElement, ht, GetCharForSwizzle])
      simp [vecRhs, this, nat_toString_no_newline]
    have hrhs : '\n' ∉ (storeRhs r temp).data := by
      unfold storeRhs
      split_ifs <;> simp [ht, hvec, hswz]
    cases r.is_standard_swizzle <;> cases r.is_clamped <;>
      simp [clampWrap, hroot, hidx, hmask, hrhs]

theorem vectorOpcodeBody_isLine (op : AluVectorOpcode) :
    ∀ l ∈ vectorOpcodeBody op, IsLine l := by
  unfold IsLine
  cases op <;> decide

theorem scalarOpcodeBody_isLine (op : AluScalarOpcode) :
    ∀ l ∈ scalarOpcodeBody op, IsLine l := by
  unfold IsLine
  cases op <;> decide

theorem textureFetchBody_isLine (d : TextureDimension) (k : Int) :
    ∀ l ∈ textureFetchBody d k, IsLine l := by
  have hk := int_toString_no_newline k
  intro l hl
  cases d <;> simp only [textureFetchBody, List.mem_cons, List.mem_singleton,
    List.not_mem_nil, or_false] at hl <;>
    rcases hl with rfl | rfl | rfl | rfl | rfl <;>
    first
      | (unfold IsLine; decide)
      | (apply isLine_of_data _
          (("if (state.texture_samplers[" ++ toString k ++ "] != 0) \x7b").data)
         · simp
         · simp [hk])
      | (apply isLine_of_data _
          (("  pv = texture(sampler1D(state.texture_samplers[" ++ toString k ++ "]), " ++
            "src0.x);").data)
         · simp
         · simp [hk])
      | (apply isLine_of_data _
          (("  pv = texture(sampler2D(state.texture_samplers[" ++ toString k ++ "]), " ++
            "src0.xy);").data)
         · simp
         · simp [hk])
      | (apply isLine_of_data _
          (("  pv = texture(sampler3D(state.texture_samplers[" ++ toString k ++ "]), " ++
            "src0.xyz);").data)
         · simp
         · simp [hk])
      | (apply isLine_of_data _
          (("  pv = texture(samplerCube(state.texture_samplers[" ++ toString k ++ "]), " ++
            "src0.xyz);").data)
         · simp
         · simp [hk])

theorem textureOpcodeLines_isLine (instr : ParsedTextureFetchInstruction) :
    ∀ l ∈ textureOpcodeLines instr, IsLine l := by
  unfold textureOpcodeLines
  cases instr.opcode <;> dsimp only <;>
    first
      | exact textureFetchBody_isLine _ _
      | (unfold IsLine; decide)

theorem storeLines_isLine (r : InstructionResult) (temp : String) (ht : '\n' ∉ temp.data) :
    ∀ l ∈ storeLines r temp, IsLine l := by
  unfold storeLines
  intro l hl
  split_ifs at hl
  · rw [List.mem_singleton.mp hl]
    exact storeLine_isLine r temp ht
  · simp at hl

theorem loadLines_isLine (stage : ShaderType) (n : Nat) (ops : Arr3 InstructionOperand) :
    ∀ l ∈ loadLines stage n ops, IsLine l := by
  intro l hl
  obtain ⟨i, _, rfl⟩ := List.mem_map.mp hl
  exact loadLine_isLine _ _ _

theorem fetchLoadLines_isLine (stage : ShaderType) (skip : InstructionStorageSource) (n : Nat)
    (ops : Arr3 InstructionOperand) :
    ∀ l ∈ fetchLoadLines stage skip n ops, IsLine l := by
  intro l hl
  obtain ⟨i, _, rfl⟩ := List.mem_map.mp hl
  exact loadLine_isLine _ _ _

theorem aluLines_isLine (stage : ShaderType) (instr : ParsedAluInstruction) :
    ∀ l ∈ aluLines stage instr, IsLine l := by
  intro l hl
  simp only [aluLines, List.mem_append] at hl
  rcases hl with (hl | hl) | hl
  · exact loadLines_isLine _ _ _ l hl
  · unfold aluOpcodeLines at hl
    cases hty : instr.type <;> rw [hty] at hl
    · simp at hl
    · exact vectorOpcodeBody_isLine _ l hl
    · exact scalarOpcodeBody_isLine _ l hl
  · apply storeLines_isLine _ _ _ l hl
    unfold aluTemp
    cases instr.type <;> decide

theorem vertexFetchLines_isLine (stage : ShaderType) (instr : ParsedVertexFetchInstruction) :
    ∀ l ∈ vertexFetchLines stage instr, IsLine l := by
  intro l hl
  simp only [vertexFetchLines, List.mem_append] at hl
  rcases hl with hl | hl
  · unfold vertexFetchBodyLines at hl
    split_ifs at hl
    · rcases List.mem_append.mp hl with hl | hl
      · exact fetchLoadLines_isLine _ _ _ _ l hl
      · cases hop : instr.opcode <;> rw [hop] at hl <;> simp only [List.mem_singleton,
          List.not_mem_nil] at hl
        rw [hl]
        apply isLine_of_data _
          (("pv." ++ String.mk ((List.range
            (GetVertexFormatComponentCount instr.attributes.data_format)).map
              GetCharForComponentIndex) ++
           " = vf" ++ toString (asUnsigned (instr.operands.get 1).storage_index) ++ "_" ++
           toString instr.attributes.offset ++ ";").data)
        · simp
        · have h1 := nat_toString_no_newline (asUnsigned (instr.operands.get 1).storage_index)
          have h2 := int_toString_no_newline instr.attributes.offset
          simp [h1, h2]
          intro j _
          exact componentChar_ne_newline j
    · simp at hl
  · exact storeLines_isLine _ _ (by decide) l hl

theorem textureFetchLines_isLine (stage : ShaderType) (instr : ParsedTextureFetchInstruction) :
    ∀ l ∈ textureFetchLines stage instr, IsLine l := by
  intro l hl
  simp only [textureFetchLines, List.mem_append] at hl
  rcases hl with (hl | hl) | hl
  · exact fetchLoadLines_isLine _ _ _ _ l hl
  · exact textureOpcodeLines_isLine _ l hl
  · exact storeLines_isLine _ _ (by decide) l hl

/-! ## Assignments to a destination -/

theorem loadLine_not_destination (stage : ShaderType) (i : Nat) (op : InstructionOperand) :
    isDestinationAssignment (loadLine stage i op) = false := by
  have h : ∃ rest, (loadLine stage i op).data = 's' :: 'r' :: 'c' :: rest :=
    ⟨_, by simp [loadLine, loadLineWith]; rfl⟩
  obtain ⟨rest, hr⟩ := h
  simp [isDestinationAssignment, destinationHeads, hr, List.dropWhile, List.isPrefixOf]

theorem storeLine_destination (r : InstructionResult) (temp : String) :
    isDestinationAssignment (storeLine r temp) = true := by
  unfold storeLine destIndex
  cases r.storage_target <;>
    simp [isDestinationAssignment, destinationHeads, destRoot, List.dropWhile,
      List.isPrefixOf]

theorem vectorOpcodeBody_not_destination (op : AluVectorOpcode) :
    ∀ l ∈ vectorOpcodeBody op, isDestinationAssignment l = false := by
  cases op <;> decide

theorem scalarOpcodeBody_not_destination (op : AluScalarOpcode) :
    ∀ l ∈ scalarOpcodeBody op, isDestinationAssignment l = false := by
  cases op <;> decide

theorem textureOpcodeLines_not_destination (instr : ParsedTextureFetchInstruction) :
    ∀ l ∈ textureOpcodeLines instr, isDestinationAssignment l = false := by
  unfold textureOpcodeLines
  cases instr.opcode <;> dsimp only <;>
    first
      | decide
      | (cases instr.dimension <;> intro l hl <;>
          simp only [textureFetchBody, List.mem_cons, List.mem_singleton, List.not_mem_nil,
            or_false] at hl <;>
          rcases hl with rfl | rfl | rfl | rfl | rfl <;>
          simp [isDestinationAssignment, destinationHeads, List.dropWhile, List.isPrefixOf])

theorem filter_nil_of (ls : List String)
    (h : ∀ l ∈ ls, isDestinationAssignment l = false) :
    ls.filter isDestinationAssignment = [] := by
  rw [List.filter_eq_nil_iff]
  intro l hl
  simp [h l hl]

theorem loadLines_not_destination (stage : ShaderType) (n : Nat)
    (ops : Arr3 InstructionOperand) :
    ∀ l ∈ loadLines stage n ops, isDestinationAssignment l = false := by
  intro l hl
  obtain ⟨i, _, rfl⟩ := List.mem_map.mp hl
  exact loadLine_not_destination _ _ _

theorem fetchLoadLines_not_destination (stage : ShaderType) (skip : InstructionStorageSource)
    (n : Nat) (ops : Arr3 InstructionOperand) :
    ∀ l ∈ fetchLoadLines stage skip n ops, isDestinationAssignment l = false := by
  intro l hl
  obtain ⟨i, _, rfl⟩ := List.mem_map.mp hl
  exact loadLine_not_destination _ _ _

theorem aluOpcodeLines_not_destination (instr : ParsedAluInstruction) :
    ∀ l ∈ aluOpcodeLines instr, isDestinationAssignment l = false := by
  unfold aluOpcodeLines
  cases instr.type
  · simp
  · exact vectorOpcodeBody_not_destination _
  · exact scalarOpcodeBody_not_destination _

theorem vertexFetchBodyLines_not_destination (stage : ShaderType)
    (instr : ParsedVertexFetchInstruction) :
    ∀ l ∈ vertexFetchBodyLines stage instr, isDestinationAssignment l = false := by
  unfold vertexFetchBodyLines
  split_ifs
  · intro l hl
    rcases List.mem_append.mp hl with hl | hl
    · exact fetchLoadLines_not_destination _ _ _ _ l hl
    · cases hop : instr.opcode <;> rw [hop] at hl <;>
        simp only [List.mem_singleton, List.not_mem_nil] at hl
      rw [hl]
      simp [isDestinationAssignment, destinationHeads, List.dropWhile, List.isPrefixOf]
  · simp

/-- The body lines `pre ++ storeLines` of an instruction hold the store line
as their only assignment to a destination, in last position. -/
theorem store_is_only_destination (pre : List String) (r : InstructionResult) (temp : String)
    (hpre : ∀ l ∈ pre, isDestinationAssignment l = false) :
    (pre ++ storeLines r temp).filter isDestinationAssignment =
        (if r.has_any_writes then [storeLine r temp] else []) ∧
      (r.has_any_writes = true → (pre ++ storeLines r temp).getLast? = some (storeLine r temp)) := by
  rw [List.filter_append, filter_nil_of pre hpre, List.nil_append]
  unfold storeLines
  cases r.has_any_writes
  · simp
  · simp [storeLine_destination]

theorem standard_hasConstWrite (r : InstructionResult) (h : r.is_standard_swizzle = true) :
    hasConstWrite r = false := by
  obtain ⟨tg, k, m, c, ⟨w0, w1, w2, w3⟩, ⟨c0, c1, c2, c3⟩⟩ := r
  simp only [InstructionResult.is_standard_swizzle, Bool.and_eq_true, decide_eq_true_eq] at h
  obtain ⟨⟨⟨⟨⟨⟨⟨h0, h1⟩, h2⟩, h3⟩, h4⟩, h5⟩, h6⟩, h7⟩ := h
  subst h0 h1 h2 h3 h4 h5 h6 h7
  rfl

/-! ## The text of a callback -/

theorem segmentsText_append (a b : List (String × String)) :
    segmentsText (a ++ b) = segmentsText a ++ segmentsText b := by
  induction a with
  | nil => simp [segmentsText]
  | cons s rest ih =>
    obtain ⟨i, l⟩ := s
    simp [segmentsText, ih, String.append_assoc]

theorem segmentsText_map (ind : String) (ls : List String) :
    segmentsText (ls.map (fun l => (ind, l))) = indented ind ls := by
  induction ls with
  | nil => rfl
  | cons l ls ih => simp [segmentsText, indented, ih]

theorem segmentsText_guarded (t : GlslShaderTranslator) (p c : Bool) (ls : List String) :
    segmentsText (guardedSegments t p c ls) =
      guardText t p c ++ indented (indent (bodyState t p)) ls ++ closeText t p := by
  unfold guardedSegments guardText closeText
  rw [segmentsText_append, segmentsText_append, segmentsText_map]
  cases p <;> simp [segmentsText, String.append_assoc]

theorem Indent_depth (t : GlslShaderTranslator) : (Indent t).depth_ = t.depth_ + 2 := rfl

theorem Unindent_depth (t : GlslShaderTranslator) : (Unindent t).depth_ = t.depth_ - 2 := rfl

theorem execHeader_eq (t : GlslShaderTranslator) (instr : ParsedExecInstruction) :
    ProcessExecInstructionBegin t instr =
      EmitSource (Indent t) ("// " ++ instr.disassembly ++ (indent t ++ execHeader instr)) := by
  obtain ⟨d, ty, i, c⟩ := instr
  cases ty <;> cases c <;>
    simp only [ProcessExecInstructionBegin, EmitSourceDepth_eq, EmitSource_EmitSource,
      Indent_EmitSource, indent_EmitSource, execHeader] <;>
    apply EmitSource_congr <;> simp

theorem execEnd_eq (t : GlslShaderTranslator) (instr : ParsedExecInstruction) :
    ProcessExecInstructionEnd t instr =
      EmitSource (Unindent t) (indent (Unindent t) ++ "\x7d\n") := by
  simp only [ProcessExecInstructionEnd, EmitSourceDepth_eq]

theorem unimplementedControlFlow_source (t : GlslShaderTranslator)
    (instr : ParsedControlFlowInstruction) :
    (ProcessUnimplementedControlFlow t instr).source_ =
      t.source_ ++ ("// " ++ instr.disassembly ++
        (indent t ++ "// UNIMPLEMENTED TRANSLATION\n")) := by
  simp only [ProcessUnimplementedControlFlow, EmitUnimplementedTranslationError_eq,
    EmitSource_EmitSource, indent_EmitSource, EmitSource_source, String.append_assoc]

/-- The text a callback appends: its comment and then its segments. -/
theorem Callback_run_source (t : GlslShaderTranslator) (cb : Callback) :
    (cb.run t).source_ = t.source_ ++ (cb.comment ++ segmentsText (cb.segments t)) := by
  cases cb with
  | label k =>
    simp only [Callback.run, ProcessLabel, EmitUnimplementedTranslationError_eq,
      EmitSource_source, Callback.comment, Callback.segments, segmentsText]
    apply String.ext; simp
  | controlFlowNop =>
    simp [Callback.run, ProcessControlFlowNopInstruction, Callback.comment, Callback.segments,
      segmentsText]
  | execBegin instr =>
    simp only [Callback.run, execHeader_eq, EmitSource_source, Indent_source, Callback.comment,
      Callback.disassembly, Callback.segments, segmentsText]
    apply String.ext; simp
  | execEnd instr =>
    simp only [Callback.run, execEnd_eq, EmitSource_source, Unindent_source, Callback.comment,
      Callback.segments, segmentsText]
    apply String.ext; simp
  | loopStart instr =>
    simp only [Callback.run, unimplementedControlFlow_source, Callback.comment,
      Callback.disassembly, Callback.segments, segmentsText]
    apply String.ext; simp
  | loopEnd instr =>
    simp only [Callback.run, unimplementedControlFlow_source, Callback.comment,
      Callback.disassembly, Callback.segments, segmentsText]
    apply String.ext; simp
  | call instr =>
    simp only [Callback.run, unimplementedControlFlow_source, Callback.comment,
      Callback.disassembly, Callback.segments, segmentsText]
    apply String.ext; simp
  | ret instr =>
    simp only [Callback.run, unimplementedControlFlow_source, Callback.comment,
      Callback.disassembly, Callback.segments, segmentsText]
    apply String.ext; simp
  | jump instr =>
    simp only [Callback.run, unimplementedControlFlow_source, Callback.comment,
      Callback.disassembly, Callback.segments, segmentsText]
    apply String.ext; simp
  | alloc instr =>
    simp only [Callback.run, ProcessAllocInstruction, EmitSource_EmitSource, EmitSource_source,
      Callback.comment, Callback.disassembly, Callback.segments, segmentsText]
    apply String.ext; simp
  | vertexFetch instr =>
    simp only [Callback.run, Callback.comment, Callback.disassembly, Callback.segments,
      segmentsText_guarded]
    exact (ProcessVertexFetchInstruction_emits t instr).1
  | textureFetch instr =>
    simp only [Callback.run, Callback.comment, Callback.disassembly, Callback.segments,
      segmentsText_guarded]
    exact (ProcessTextureFetchInstruction_emits t instr).1
  | alu instr =>
    simp only [Callback.run, Callback.comment, Callback.disassembly, Callback.segments]
    cases hty : instr.type
    · simp [ProcessAluInstruction, hty, segmentsText]
    · simp only [segmentsText_guarded]
      exact (ProcessAluInstruction_emits t instr (by rw [hty]; decide)).1
    · simp only [segmentsText_guarded]
      exact (ProcessAluInstruction_emits t instr (by rw [hty]; decide)).1

theorem poke_length (buf : List Char) (i : Int) (c : Char) :
    (poke buf i c).length = buf.length := by
  unfold poke
  split <;> simp

theorem Indent_length (t : GlslShaderTranslator) :
    (Indent t).depth_prefix_.length = t.depth_prefix_.length := by
  simp [Indent, poke_length]

theorem Unindent_length (t : GlslShaderTranslator) :
    (Unindent t).depth_prefix_.length = t.depth_prefix_.length := by
  simp [Unindent, poke_length]

/-- What a callback other than exec begin and exec end does to depth and
indentation buffer: nothing, or `Unindent` after `Indent`. -/
theorem nonExec_buffer (t : GlslShaderTranslator) (cb : Callback) (h : cb.isExec = false) :
    ((cb.run t).depth_ = t.depth_ ∧ (cb.run t).depth_prefix_ = t.depth_prefix_) ∨
      ((cb.run t).depth_ = (Unindent (Indent t)).depth_ ∧
        (cb.run t).depth_prefix_ = (Unindent (Indent t)).depth_prefix_) := by
  have key : ∀ (w : GlslShaderTranslator) (p : Bool) (text : String), Emits t w p text →
      (w.depth_ = t.depth_ ∧ w.depth_prefix_ = t.depth_prefix_) ∨
        (w.depth_ = (Unindent (Indent t)).depth_ ∧
          w.depth_prefix_ = (Unindent (Indent t)).depth_prefix_) := by
    intro w p text he
    obtain ⟨_, h2, h3⟩ := he
    cases p
    · exact Or.inl ⟨h2, h3⟩
    · exact Or.inr ⟨h2, h3⟩
  cases cb with
  | execBegin instr => simp [Callback.isExec] at h
  | execEnd instr => simp [Callback.isExec] at h
  | vertexFetch instr => exact key _ _ _ (ProcessVertexFetchInstruction_emits t instr)
  | textureFetch instr => exact key _ _ _ (ProcessTextureFetchInstruction_emits t instr)
  | alu instr =>
    cases hty : instr.type
    · left
      simp [Callback.run, ProcessAluInstruction, hty]
    · exact key _ _ _ (ProcessAluInstruction_emits t instr (by rw [hty]; decide))
    · exact key _ _ _ (ProcessAluInstruction_emits t instr (by rw [hty]; decide))
  | _ => left; exact ⟨rfl, rfl⟩

theorem nonExec_preserves (t : GlslShaderTranslator) (cb : Callback) (h : cb.isExec = false)
    (hok : PrefixOk t) (hroom : HasRoom t) :
    PrefixOk (cb.run t) ∧ (cb.run t).depth_ = t.depth_ ∧
      (cb.run t).depth_prefix_.length = t.depth_prefix_.length := by
  rcases nonExec_buffer t cb h with ⟨h1, h2⟩ | ⟨h1, h2⟩
  · refine ⟨?_, h1, by rw [h2]⟩
    unfold PrefixOk
    rw [h1, h2]
    exact hok
  · have hi := PrefixOk_Indent t hok hroom
    have hu := PrefixOk_Unindent (Indent t) hi (by rw [Indent_depth]; have := hok.1; omega)
    refine ⟨?_, ?_, ?_⟩
    · unfold PrefixOk
      rw [h1, h2]
      exact hu
    · rw [h1, Unindent_depth, Indent_depth]; omega
    · rw [h2, Unindent_length, Indent_length]

theorem nonExec_stream_preserves (mid : List Callback) (hmid : ∀ cb ∈ mid, cb.isExec = false)
    (t : GlslShaderTranslator) (hok : PrefixOk t) (hroom : HasRoom t) :
    PrefixOk (mid.foldl Callback.run t) ∧ (mid.foldl Callback.run t).depth_ = t.depth_ := by
  induction mid generalizing t with
  | nil => exact ⟨hok, rfl⟩
  | cons cb rest ih =>
    obtain ⟨h1, h2, h3⟩ := nonExec_preserves t cb (hmid cb (List.mem_cons_self _ _)) hok hroom
    have hr : HasRoom (cb.run t) := by
      unfold HasRoom at hroom ⊢
      rw [h2, h3]
      exact hroom
    obtain ⟨i1, i2⟩ := ih (fun c hc => hmid c (List.mem_cons_of_mem _ hc)) (cb.run t) h1 hr
    exact ⟨i1, by rw [List.foldl_cons, i2, h2]⟩

/-! ## The kinds of line -/

theorem storeLines_kind (cb : Callback) (r : InstructionResult) (temp : String)
    (ht : temp = "pv" ∨ temp = "vec4(ps)") :
    ∀ l ∈ storeLines r temp, LineOfCallback cb l := by
  intro l hl
  unfold storeLines at hl
  split_ifs at hl
  · rw [List.mem_singleton] at hl
    right; right; right; left
    rcases ht with rfl | rfl
    · exact ⟨r, Or.inl hl⟩
    · exact ⟨r, Or.inr hl⟩
  · simp at hl

theorem loadLines_kind (cb : Callback) (stage : ShaderType) (n : Nat)
    (ops : Arr3 InstructionOperand) : ∀ l ∈ loadLines stage n ops, LineOfCallback cb l := by
  intro l hl
  obtain ⟨i, _, rfl⟩ := List.mem_map.mp hl
  right; right; left
  exact ⟨_, _, _, rfl⟩

theorem fetchLoadLines_kind (cb : Callback) (stage : ShaderType)
    (skip : InstructionStorageSource) (n : Nat) (ops : Arr3 InstructionOperand) :
    ∀ l ∈ fetchLoadLines stage skip n ops, LineOfCallback cb l := by
  intro l hl
  obtain ⟨i, _, rfl⟩ := List.mem_map.mp hl
  right; right; left
  exact ⟨_, _, _, rfl⟩

theorem guardedSegments_kind (cb : Callback) (t : GlslShaderTranslator) (p c : Bool)
    (ls : List String) (h : ∀ l ∈ ls, LineOfCallback cb l) :
    ∀ l ∈ (guardedSegments t p c ls).map Prod.snd, LineOfCallback cb l := by
  intro l hl
  simp only [guardedSegments, List.map_append, List.mem_append, List.map_map] at hl
  rcases hl with (hl | hl) | hl
  · left
    cases p <;> cases c <;> simp [fixedLines] at hl ⊢
    all_goals simp [hl]
  · obtain ⟨x, hx, rfl⟩ := List.mem_map.mp hl
    exact h x hx
  · left
    cases p <;> simp [fixedLines] at hl ⊢
    all_goals simp [hl]

/-- Every line a callback emits is of one of the kinds of `LineOfCallback`. -/
theorem Callback_lines_kind (t : GlslShaderTranslator) (cb : Callback) :
    ∀ l ∈ cb.lines t, LineOfCallback cb l := by
  have hfix : ∀ l, l = "// UNIMPLEMENTED TRANSLATION\n" ∨ l = "\x7d\n" →
      ∀ cb : Callback, LineOfCallback cb l := by
    intro l hl cb
    left
    rcases hl with rfl | rfl <;> simp [fixedLines]
  cases cb with
  | label k =>
    intro l hl
    exact hfix l (Or.inl (by simpa [Callback.lines, Callback.segments] using hl)) _
  | controlFlowNop => intro l hl; simp [Callback.lines, Callback.segments] at hl
  | execBegin instr =>
    intro l hl
    right; left
    exact ⟨instr, by simpa [Callback.lines, Callback.segments] using hl⟩
  | execEnd instr =>
    intro l hl
    exact hfix l (Or.inr (by simpa [Callback.lines, Callback.segments] using hl)) _
  | loopStart instr =>
    intro l hl; exact hfix l (Or.inl (by simpa [Callback.lines, Callback.segments] using hl)) _
  | loopEnd instr =>
    intro l hl; exact hfix l (Or.inl (by simpa [Callback.lines, Callback.segments] using hl)) _
  | call instr =>
    intro l hl; exact hfix l (Or.inl (by simpa [Callback.lines, Callback.segments] using hl)) _
  | ret instr =>
    intro l hl; exact hfix l (Or.inl (by simpa [Callback.lines, Callback.segments] using hl)) _
  | jump instr =>
    intro l hl; exact hfix l (Or.inl (by simpa [Callback.lines, Callback.segments] using hl)) _
  | alloc instr => intro l hl; simp [Callback.lines, Callback.segments] at hl
  | vertexFetch instr =>
    apply guardedSegments_kind
    intro l hl
    simp only [vertexFetchLines, List.mem_append] at hl
    rcases hl with hl | hl
    · unfold vertexFetchBodyLines at hl
      split_ifs at hl
      · rcases List.mem_append.mp hl with hl | hl
        · exact fetchLoadLines_kind _ _ _ _ _ l hl
        · cases hop : instr.opcode <;> rw [hop] at hl <;>
            simp only [List.mem_singleton, List.not_mem_nil] at hl
          right; right; right; right; right; right; right
          exact ⟨_, _, _, hl⟩
      · simp at hl
    · exact storeLines_kind _ _ _ (Or.inl rfl) l hl
  | textureFetch instr =>
    apply guardedSegments_kind
    intro l hl
    simp only [textureFetchLines, List.mem_append] at hl
    rcases hl with (hl | hl) | hl
    · exact fetchLoadLines_kind _ _ _ _ _ l hl
    · right; right; right; right; right; right; left
      exact ⟨instr, hl⟩
    · exact storeLines_kind _ _ _ (Or.inl rfl) l hl
  | alu instr =>
    intro l hl
    simp only [Callback.lines, Callback.segments] at hl
    cases hty : instr.type <;> rw [hty] at hl
    · simp at hl
    · refine guardedSegments_kind _ t _ _ _ ?_ l hl
      intro l hl
      simp only [aluLines, aluOpcodeLines, aluTemp, hty, List.mem_append] at hl
      rcases hl with (hl | hl) | hl
      · exact loadLines_kind _ _ _ _ l hl
      · right; right; right; right; left
        exact ⟨instr, rfl, hty, hl⟩
      · exact storeLines_kind _ _ _ (Or.inl rfl) l hl
    · refine guardedSegments_kind _ t _ _ _ ?_ l hl
      intro l hl
      simp only [aluLines, aluOpcodeLines, aluTemp, hty, List.mem_append] at hl
      rcases hl with (hl | hl) | hl
      · exact loadLines_kind _ _ _ _ l hl
      · right; right; right; right; right; left
        exact ⟨instr, rfl, hty, hl⟩
      · exact storeLines_kind _ _ _ (Or.inr rfl) l hl

/-- No line of a texture sampling body opens with `a0 = ` or `p0 = `. -/
theorem textureFetchBody_no_open (head : String) (hh : head = "a0 = " ∨ head = "p0 = ")
    (d : TextureDimension) (k : Int) :
    ∀ l ∈ textureFetchBody d k, lineOpensWith head l = false := by
  intro l hl
  cases d <;>
    simp only [textureFetchBody, List.mem_cons, List.mem_singleton, List.not_mem_nil,
      or_false] at hl <;>
    rcases hl with rfl | rfl | rfl | rfl | rfl <;> rcases hh with rfl | rfl <;>
    simp [lineOpensWith, List.dropWhile, List.isPrefixOf]

/-- No line of a texture opcode body opens with `a0 = ` or `p0 = `. -/
theorem textureOpcodeLines_no_open (head : String) (hh : head = "a0 = " ∨ head = "p0 = ")
    (x : ParsedTextureFetchInstruction) :
    ∀ l ∈ textureOpcodeLines x, lineOpensWith head l = false := by
  unfold textureOpcodeLines
  cases x.opcode <;> dsimp only
  case kTextureFetch => exact textureFetchBody_no_open head hh _ _
  all_goals
    rcases hh with rfl | rfl <;> decide

/-- No line other than a line of an ALU opcode body opens with `a0 = ` or
`p0 = `. -/
theorem register_lines (head : String) (hh : head = "a0 = " ∨ head = "p0 = ")
    (cb : Callback) (l : String) (hk : LineOfCallback cb l)
    (ho : lineOpensWith head l = true) :
    (∃ instr : ParsedAluInstruction, cb = .alu instr ∧ instr.type = .kVector ∧
      l ∈ vectorOpcodeBody instr.vector_opcode) ∨
    (∃ instr : ParsedAluInstruction, cb = .alu instr ∧ instr.type = .kScalar ∧
      l ∈ scalarOpcodeBody instr.scalar_opcode) := by
  rcases hk with hk | ⟨e, rfl⟩ | ⟨stage, i, op, rfl⟩ | ⟨r, hr⟩ | hk | hk | ⟨x, hx⟩ |
    ⟨n, k, o, rfl⟩
  · exfalso
    simp only [fixedLines, List.mem_cons, List.mem_singleton, List.not_mem_nil, or_false] at hk
    rcases hk with rfl | rfl | rfl | rfl <;> rcases hh with rfl | rfl <;> revert ho <;> decide
  · exfalso
    obtain ⟨d, ty, i, c⟩ := e
    cases ty <;> cases c <;> rcases hh with rfl | rfl <;>
      simp [lineOpensWith, execHeader, List.dropWhile, List.isPrefixOf] at ho
  · exfalso
    have h : ∃ rest, (loadLine stage i op).data = 's' :: 'r' :: 'c' :: rest :=
      ⟨_, by simp [loadLine, loadLineWith]; rfl⟩
    obtain ⟨rest, hr⟩ := h
    rcases hh with rfl | rfl <;>
      simp [lineOpensWith, hr, List.dropWhile, List.isPrefixOf] at ho
  · exfalso
    revert ho
    rcases hr with rfl | rfl <;> unfold storeLine destIndex <;>
      cases r.storage_target <;> rcases hh with rfl | rfl <;>
      simp [lineOpensWith, destRoot, List.dropWhile, List.isPrefixOf]
  · exact Or.inl hk
  · exact Or.inr hk
  · exfalso
    have h := textureOpcodeLines_no_open head hh x l hx
    rw [h] at ho
    exact Bool.noConfusion ho
  · exfalso
    rcases hh with rfl | rfl <;>
      simp [lineOpensWith, List.dropWhile, List.isPrefixOf] at ho

/-! ## Assignments to the temporaries -/

theorem vectorOpcodeBody_assigns_pv (op : AluVectorOpcode) :
    (vectorOpcodeBody op).any assignsPv = true := by
  cases op <;> decide

theorem loadLine_not_assignsPv (stage : ShaderType) (i : Nat) (op : InstructionOperand) :
    assignsPv (loadLine stage i op) = false := by
  have h : ∃ rest, (loadLine stage i op).data = 's' :: 'r' :: 'c' :: rest :=
    ⟨_, by simp [loadLine, loadLineWith]; rfl⟩
  obtain ⟨rest, hr⟩ := h
  simp [assignsPv, pvLanesOf, hr, List.dropWhile, List.isPrefixOf]

theorem fetchLoadLines_not_assignsPv (stage : ShaderType) (skip : InstructionStorageSource)
    (n : Nat) (ops : Arr3 InstructionOperand) :
    (fetchLoadLines stage skip n ops).any assignsPv = false := by
  rw [List.any_eq_false]
  intro l hl
  simp only [fetchLoadLines, List.mem_map] at hl
  obtain ⟨i, _, rfl⟩ := hl
  simp [loadLine_not_assignsPv]

/-- When every written lane takes a literal, the store line does not mention
the temp. -/
theorem storeLine_constants (r : InstructionResult) (hw : r.has_any_writes = true)
    (hc : r.stores_non_constants = false) (temp : String) :
    storeLine r temp = storeLine r "pv" := by
  have hall : ∀ j ∈ writtenLanes r, r.components.get j = .k0 ∨ r.components.get j = .k1 := by
    intro j hj
    simp only [writtenLanes, List.mem_filter, List.mem_range] at hj
    simp only [InstructionResult.stores_non_constants, List.any_eq_false, List.mem_range,
      Bool.and_eq_true, decide_eq_true_eq, not_and, Bool.not_eq_true] at hc
    have h := hc j hj.1
    by_contra hne
    push_neg at hne
    have := h
    simp [hj.2, hne.1, hne.2] at this
  have hstd : r.is_standard_swizzle = false := by
    by_contra hs
    simp only [Bool.not_eq_false] at hs
    simp only [InstructionResult.is_standard_swizzle, Bool.and_eq_true, decide_eq_true_eq] at hs
    have h0 : (0 : Nat) ∈ writtenLanes r := by
      simp [writtenLanes, Vec4.get, hs.1.1.1.1.1.1.1]
    have := hall 0 h0
    simp [Vec4.get, hs.1.1.1.2] at this
  have hcw : hasConstWrite r = true := by
    obtain ⟨j, hj⟩ : ∃ j, j ∈ writtenLanes r := by
      simp only [InstructionResult.has_any_writes, Bool.or_eq_true] at hw
      rcases hw with ((h | h) | h) | h
      · exact ⟨0, by simp [writtenLanes, Vec4.get, h]⟩
      · exact ⟨1, by simp [writtenLanes, Vec4.get, h]⟩
      · exact ⟨2, by simp [writtenLanes, Vec4.get, h]⟩
      · exact ⟨3, by simp [writtenLanes, Vec4.get, h]⟩
    simp only [hasConstWrite, List.any_eq_true]
    refine ⟨j, hj, ?_⟩
    rcases hall j hj with h | h <;> simp [isConstSwizzle, h]
  have hmap : (writtenLanes r).map (fun j => vecElement temp (r.components.get j)) =
      (writtenLanes r).map (fun j => vecElement "pv" (r.components.get j)) := by
    apply List.map_congr_left
    intro j hj
    rcases hall j hj with h | h <;> simp [h, vecElement]
  simp only [storeLine, storeTail, storeRhs, hstd, hcw, vecRhs, hmap]
  rfl

/-! ## The preamble -/

theorem concatLines_append (a b : List String) :
    concatLines (a ++ b) = concatLines a ++ concatLines b := by
  induction a with
  | nil => simp [concatLines]
  | cons x xs ih => simp [concatLines, ih, String.append_assoc]

theorem foldl_EmitSource {α : Type} (f : α → String) (xs : List α) (t : GlslShaderTranslator) :
    xs.foldl (fun acc x => EmitSource acc (f x)) t = EmitSource t (concatLines (xs.map f)) := by
  induction xs generalizing t with
  | nil => simp [concatLines]
  | cons x xs ih => simp [concatLines, ih]

theorem emitVertexInputs_eq (t : GlslShaderTranslator) (vb : List VertexBinding) :
    emitVertexInputs t vb = EmitSource t (concatLines (vertexInputLines vb)) := by
  unfold emitVertexInputs vertexInputLines
  induction vb generalizing t with
  | nil => simp [concatLines]
  | cons b bs ih =>
    simp only [List.foldl_cons, List.flatMap_cons, concatLines_append]
    rw [ih]
    have h := foldl_EmitSource (fun attrib : VertexAttribute =>
      "layout(location = " ++ toString attrib.attrib_index ++ ") in " ++
        GetVertexFormatTypeName attrib.fetch_instr.attributes.data_format ++
        " vf" ++ toString b.fetch_constant ++ "_" ++
        toString attrib.fetch_instr.attributes.offset ++ ";\n") b.attributes t
    simp only [emitAttribute]
    rw [h, EmitSource_EmitSource]

theorem emitInterpolatorCopies_eq (t : GlslShaderTranslator) :
    emitInterpolatorCopies t = EmitSource t (concatLines interpolatorCopyLines) := by
  unfold emitInterpolatorCopies interpolatorCopyLines
  exact foldl_EmitSource _ _ t

/-- `StartTranslation` appends the preamble and leaves the rest of the state. -/
theorem StartTranslation_eq (t : GlslShaderTranslator) (vb : List VertexBinding) :
    StartTranslation t vb = EmitSource t (preambleText t.shader_type_ vb) := by
  unfold StartTranslation preambleText preambleHead scratchDeclarations
  cases hs : t.shader_type_ <;>
    simp [is_vertex_shader, hs, emitVertexInputs_eq, emitInterpolatorCopies_eq,
      String.append_assoc]

theorem vector_a0_lines (op : AluVectorOpcode) :
    ∀ l ∈ vectorOpcodeBody op, assignsA0 l = true →
      op = .kMaxA ∧ l = "a0 = clamp(int(floor(src0.w + 0.5)), -256, 255);\n" := by
  cases op <;> decide

theorem scalar_a0_lines (op : AluScalarOpcode) :
    ∀ l ∈ scalarOpcodeBody op, assignsA0 l = true →
      (op = .kMaxAs ∧ l = "a0 = clamp(int(floor(src0.x + 0.5)), -256, 255);\n") ∨
      (op = .kMaxAsf ∧ l = "a0 = clamp(int(floor(src0.x)), -256, 255);\n") := by
  cases op <;> decide

theorem vector_p0_lines (op : AluVectorOpcode) :
    (vectorOpcodeBody op).any assignsP0 = true ↔
      op ∈ [.kSetpEqPush, .kSetpNePush, .kSetpGtPush, .kSetpGePush] := by
  cases op <;> decide

theorem scalar_p0_lines (op : AluScalarOpcode) :
    (scalarOpcodeBody op).any assignsP0 = true ↔
      op ∈ [.kSetpEq, .kSetpNe, .kSetpGt, .kSetpGe, .kSetpInv, .kSetpPop, .kSetpClr,
        .kSetpRstr] := by
  cases op <;> decide

/-! ## Braces -/

theorem braceFold_none (cs : List Char) : cs.foldl braceStep none = none := by
  induction cs with
  | nil => rfl
  | cons c cs ih => simpa [List.foldl_cons, braceStep] using ih

theorem braceScan_none (s : String) : braceScan none s = none :=
  braceFold_none s.data

theorem braceScan_append (n : Option Nat) (a b : String) :
    braceScan n (a ++ b) = braceScan (braceScan n a) b := by
  simp [braceScan, List.foldl_append]

theorem braceScan_empty (n : Option Nat) : braceScan n "" = n := rfl

theorem braceFold_of_not_mem (cs : List Char) (n : Option Nat)
    (ho : '\x7b' ∉ cs) (hc : '\x7d' ∉ cs) : cs.foldl braceStep n = n := by
  induction cs generalizing n with
  | nil => rfl
  | cons c cs ih =>
    simp only [List.mem_cons, not_or] at ho hc
    rw [List.foldl_cons, ih _ ho.2 hc.2]
    cases n with
    | none => rfl
    | some k => simp [braceStep, Ne.symm ho.1, Ne.symm hc.1]

/-- A text without braces leaves the count as it is. -/
theorem braceScan_of_not_mem (n : Option Nat) (s : String)
    (ho : '\x7b' ∉ s.data) (hc : '\x7d' ∉ s.data) : braceScan n s = n :=
  braceFold_of_not_mem s.data n ho hc

theorem braceFold_lift (cs : List Char) (j k m : Nat)
    (h : cs.foldl braceStep (some j) = some m) :
    cs.foldl braceStep (some (j + k)) = some (m + k) := by
  induction cs generalizing j with
  | nil =>
    simp only [List.foldl_nil, Option.some.injEq] at h ⊢
    omega
  | cons c cs ih =>
    rw [List.foldl_cons] at h ⊢
    by_cases h1 : c = '\x7b'
    · simp only [braceStep, h1, if_true] at h ⊢
      have := ih (j + 1) h
      rwa [show j + 1 + k = j + k + 1 by omega] at this
    · by_cases h2 : c = '\x7d'
      · have hne : ('\x7d' : Char) ≠ '\x7b' := by decide
        simp only [braceStep, h2, hne, if_false, if_true] at h ⊢
        by_cases hj : j = 0
        · subst hj
          simp only [if_true] at h
          rw [braceFold_none] at h
          exact absurd h (by simp)
        · simp only [hj, if_false] at h
          have := ih (j - 1) h
          rw [show j - 1 + k = j + k - 1 by omega] at this
          simpa [show j + k ≠ 0 by omega] using this
      · simp only [braceStep, h1, h2, if_false] at h ⊢
        exact ih j h

/-- The count after a text, from a higher start. -/
theorem braceScan_lift (s : String) (j k m : Nat) (h : braceScan (some j) s = some m) :
    braceScan (some (j + k)) s = some (m + k) :=
  braceFold_lift s.data j k m h

/-- A text that is matched on its own leaves any count as it is. -/
theorem braceScan_matched (s : String) (h : braceScan (some 0) s = some 0) (k : Nat) :
    braceScan (some k) s = some k := by
  simpa using braceScan_lift s 0 k 0 h

/-- A text that opens one brace more than it closes adds one to any count. -/
theorem braceScan_opens (s : String) (h : braceScan (some 0) s = some 1) (k : Nat) :
    braceScan (some k) s = some (k + 1) := by
  have := braceScan_lift s 0 k 1 h
  simpa [Nat.add_comm] using this

/-! ### Texts without braces -/

theorem digitChar_ne_brace (c : Char) (hc : c = '\x7b' ∨ c = '\x7d') (m : Nat) (h : m < 10) :
    Nat.digitChar m ≠ c := by
  rcases hc with rfl | rfl <;> interval_cases m <;> decide

theorem toDigitsCore_no_brace (c : Char) (hc : c = '\x7b' ∨ c = '\x7d') (fuel : Nat) :
    ∀ (n : Nat) (ds : List Char), c ∉ ds → c ∉ Nat.toDigitsCore 10 fuel n ds := by
  induction fuel with
  | zero => intro n ds h; simpa [Nat.toDigitsCore] using h
  | succ f ih =>
    intro n ds h
    have hd : c ∉ Nat.digitChar (n % 10) :: ds := by
      intro hm
      rcases List.mem_cons.mp hm with hm | hm
      · exact digitChar_ne_brace c hc (n % 10) (Nat.mod_lt _ (by decide)) hm.symm
      · exact h hm
    unfold Nat.toDigitsCore
    dsimp only
    split
    · exact hd
    · exact ih _ _ hd

theorem nat_toString_no_brace (c : Char) (hc : c = '\x7b' ∨ c = '\x7d') (n : Nat) :
    c ∉ (toString n).data := by
  show c ∉ (Nat.repr n).data
  unfold Nat.repr Nat.toDigits
  exact toDigitsCore_no_brace c hc _ _ _ (by simp)

theorem int_toString_no_brace (c : Char) (hc : c = '\x7b' ∨ c = '\x7d') (k : Int) :
    c ∉ (toString k).data := by
  cases k with
  | ofNat m => exact nat_toString_no_brace c hc m
  | negSucc m =>
    show c ∉ ("-" ++ toString (m + 1)).data
    rw [String.data_append]
    intro h
    rcases List.mem_append.mp h with h | h
    · revert h; rcases hc with rfl | rfl <;> decide
    · exact nat_toString_no_brace c hc _ h

theorem swizzleChar_ne_brace (c : Char) (hc : c = '\x7b' ∨ c = '\x7d') (s : SwizzleSource) :
    GetCharForSwizzle s ≠ c := by
  rcases hc with rfl | rfl <;> cases s <;> decide

theorem componentChar_ne_brace (c : Char) (hc : c = '\x7b' ∨ c = '\x7d') (j : Nat) :
    GetCharForComponentIndex j ≠ c := by
  rw [← componentChar_eq]
  exact swizzleChar_ne_brace c hc _

theorem loadLine_no_brace (c : Char) (hc : c = '\x7b' ∨ c = '\x7d') (stage : ShaderType)
    (i : Nat) (op : InstructionOperand) : c ∉ (loadLine stage i op).data := by
  have hi := nat_toString_no_brace c hc i
  have hk := int_toString_no_brace c hc op.storage_index
  have hs := fun s => swizzleChar_ne_brace c hc s
  have hs2 := fun s => Ne.symm (swizzleChar_ne_brace c hc s)
  have hroot : c ∉ (operandRoot op.storage_source).data := by
    rcases hc with rfl | rfl <;> cases op.storage_source <;> decide
  have hidx : c ∉ (operandIndex stage op).data := by
    unfold operandIndex
    rcases hc with rfl | rfl <;>
      cases op.storage_addressing_mode <;> split_ifs <;> simp [addressSuffix, hk]
  have hswz : c ∉ (swizzleSuffix op).data := by
    unfold swizzleSuffix swizzleLetters
    rcases hc with rfl | rfl <;> split_ifs <;> simp [hs, hs2]
  unfold loadLine loadLineWith
  rcases hc with rfl | rfl <;>
    cases op.is_negated <;> cases op.is_absolute_value <;>
    simp [hi, hroot, hidx, hswz]

theorem commaSep_no_brace (c : Char) (hc : c = '\x7b' ∨ c = '\x7d') (es : List String)
    (h : ∀ e ∈ es, c ∉ e.data) : c ∉ (commaSep es).data := by
  induction es with
  | nil => simp [commaSep]
  | cons a rest ih =>
    rw [commaSep_cons]
    have ha := h a (List.mem_cons_self _ _)
    have hr := ih (fun e he => h e (List.mem_cons_of_mem _ he))
    rcases hc with rfl | rfl <;> split_ifs <;> simp [ha, hr]

theorem storeLine_no_brace (c : Char) (hc : c = '\x7b' ∨ c = '\x7d') (r : InstructionResult)
    (temp : String) (ht : c ∉ temp.data) : c ∉ (storeLine r temp).data := by
  have hk := int_toString_no_brace c hc r.storage_index
  have hroot : c ∉ (destRoot r.storage_target).data := by
    rcases hc with rfl | rfl <;> cases r.storage_target <;> decide
  have hidx : c ∉ (destIndex r).data := by
    unfold destIndex
    rcases hc with rfl | rfl <;>
      cases r.storage_target <;> cases r.storage_addressing_mode <;>
      simp [addressSuffix, hk]
  have hmask : c ∉ maskLetters r := by
    simp only [maskLetters, List.mem_map, not_exists, not_and]
    exact fun j _ h => componentChar_ne_brace c hc j h
  have hswz : c ∉ storeSwizzleLetters r := by
    simp only [storeSwizzleLetters, List.mem_map, not_exists, not_and]
    exact fun j _ h => swizzleChar_ne_brace c hc _ h
  have hvec : c ∉ (vecRhs r temp).data := by
    have := commaSep_no_brace c hc
      ((writtenLanes r).map (fun j => vecElement temp (r.components.get j)))
      (by
        intro e he
        obtain ⟨j, _, rfl⟩ := List.mem_map.mp he
        rcases hc with rfl | rfl <;> cases hcj : r.components.get j <;>
          simp [vecElement, ht, GetCharForSwizzle])
    have hn := nat_toString_no_brace c hc (writtenLanes r).length
    rcases hc with rfl | rfl <;> simp [vecRhs, this, hn]
  have hrhs : c ∉ (storeRhs r temp).data := by
    unfold storeRhs
    rcases hc with rfl | rfl <;> split_ifs <;> simp [ht, hvec, hswz]
  unfold storeLine storeTail clampWrap
  rcases hc with rfl | rfl <;>
    cases r.is_standard_swizzle <;> cases r.is_clamped <;>
    simp [hroot, hidx, hmask, hrhs]

/-! ### The indentation holds no brace -/

theorem clean_set_nul (b : List Char) (i : Nat)
    (h : ∀ c ∈ b.takeWhile (fun c => c != NUL), c = ' ') :
    ∀ c ∈ (b.set i NUL).takeWhile (fun c => c != NUL), c = ' ' := by
  induction b generalizing i with
  | nil => simp
  | cons x xs ih =>
    by_cases hx : x = NUL
    · cases i with
      | zero => simp [List.takeWhile]
      | succ i => simp [List.takeWhile, hx]
    · have hx2 : (x != NUL) = true := by simpa using hx
      rw [List.takeWhile_cons, hx2] at h
      simp only [if_true, List.mem_cons, forall_eq_or_imp] at h
      cases i with
      | zero => simp [List.takeWhile]
      | succ i =>
        rw [List.set_cons_succ, List.takeWhile_cons, hx2]
        simp only [if_true, List.mem_cons, forall_eq_or_imp]
        exact ⟨h.1, ih i h.2⟩

theorem clean_set_space_nul (b : List Char) :
    ∀ c ∈ ((b.set 0 ' ').set 1 NUL).takeWhile (fun c => c != NUL), c = ' ' := by
  rcases b with _ | ⟨x, _ | ⟨y, ys⟩⟩ <;> simp [List.takeWhile, NUL]

theorem clean_set_indent (b : List Char) (d : Nat)
    (h : ∀ c ∈ b.takeWhile (fun c => c != NUL), c = ' ') :
    ∀ c ∈ (((b.set d ' ').set (d + 1) ' ').set (d + 2) NUL).takeWhile (fun c => c != NUL),
      c = ' ' := by
  induction b generalizing d with
  | nil => simp
  | cons x xs ih =>
    cases d with
    | zero =>
      have hsp : ((' ' : Char) != NUL) = true := by decide
      simp only [List.set_cons_zero, List.set_cons_succ, Nat.zero_add, List.takeWhile_cons,
        hsp, if_true, List.mem_cons, forall_eq_or_imp, true_and]
      have := clean_set_space_nul xs
      simpa using this
    | succ d =>
      by_cases hx : x = NUL
      · simp [List.takeWhile, hx]
      · have hx2 : (x != NUL) = true := by simpa using hx
        rw [List.takeWhile_cons, hx2] at h
        simp only [if_true, List.mem_cons, forall_eq_or_imp] at h
        simp only [List.set_cons_succ, List.takeWhile_cons, hx2, if_true, List.mem_cons,
          forall_eq_or_imp]
        exact ⟨h.1, ih d h.2⟩

theorem clean_poke_nul (b : List Char) (i : Int)
    (h : ∀ c ∈ b.takeWhile (fun c => c != NUL), c = ' ') :
    ∀ c ∈ (poke b i NUL).takeWhile (fun c => c != NUL), c = ' ' := by
  unfold poke
  split
  · exact clean_set_nul b _ h
  · exact h

theorem CleanIndent_Reset (t : GlslShaderTranslator) : CleanIndent (Reset t) := by
  unfold CleanIndent cstr Reset poke
  rcases t.depth_prefix_ with _ | ⟨x, xs⟩ <;> simp [List.takeWhile]

theorem CleanIndent_Unindent (t : GlslShaderTranslator) (h : CleanIndent t) :
    CleanIndent (Unindent t) := by
  unfold CleanIndent cstr at h ⊢
  exact clean_poke_nul _ _ (clean_poke_nul _ _ (clean_poke_nul _ _ h))

theorem CleanIndent_Indent (t : GlslShaderTranslator) (h : CleanIndent t) :
    CleanIndent (Indent t) := by
  unfold CleanIndent cstr at h ⊢
  simp only [Indent]
  by_cases h0 : 0 ≤ t.depth_
  · obtain ⟨n, hn⟩ := Int.eq_ofNat_of_zero_le h0
    have e1 : (t.depth_ + 1).toNat = n + 1 := by omega
    have e2 : (t.depth_ + 2).toNat = n + 2 := by omega
    have e0 : t.depth_.toNat = n := by omega
    have p1 : 0 ≤ t.depth_ + 1 := by omega
    have p2 : 0 ≤ t.depth_ + 2 := by omega
    simp only [poke, h0, p1, p2, if_true, e0, e1, e2]
    exact clean_set_indent _ n h
  · by_cases h1 : t.depth_ = -1
    · have p1 : 0 ≤ t.depth_ + 1 := by omega
      have p2 : 0 ≤ t.depth_ + 2 := by omega
      have e1 : (t.depth_ + 1).toNat = 0 := by omega
      have e2 : (t.depth_ + 2).toNat = 1 := by omega
      simp only [poke, h0, p1, p2, if_true, if_false, e1, e2]
      exact clean_set_space_nul _
    · by_cases h2 : t.depth_ = -2
      · have p1 : ¬ 0 ≤ t.depth_ + 1 := by omega
        have p2 : 0 ≤ t.depth_ + 2 := by omega
        have e2 : (t.depth_ + 2).toNat = 0 := by omega
        simp only [poke, h0, p1, p2, if_true, if_false, e2]
        exact clean_set_nul _ _ h
      · have p1 : ¬ 0 ≤ t.depth_ + 1 := by omega
        have p2 : ¬ 0 ≤ t.depth_ + 2 := by omega
        simp only [poke, h0, p1, p2, if_false]
        exact h

theorem indent_no_brace (c : Char) (hc : c = '\x7b' ∨ c = '\x7d') (t : GlslShaderTranslator)
    (h : CleanIndent t) : c ∉ (indent t).data := by
  unfold indent
  rw [String.data_append]
  intro hm
  rcases List.mem_append.mp hm with hm | hm
  · revert hm
    rcases hc with rfl | rfl <;> decide
  · have := h c hm
    rcases hc with rfl | rfl <;> exact absurd this (by decide)

/-! ### The braces of the lines of an instruction -/

theorem concatLines_no_brace_scan (ls : List String) (n : Option Nat)
    (h : ∀ l ∈ ls, '\x7b' ∉ l.data ∧ '\x7d' ∉ l.data) :
    braceScan n (concatLines ls) = n := by
  induction ls with
  | nil => rfl
  | cons l ls ih =>
    have hl := h l (List.mem_cons_self _ _)
    simp only [concatLines, braceScan_append]
    rw [braceScan_of_not_mem n l hl.1 hl.2]
    exact ih (fun x hx => h x (List.mem_cons_of_mem _ hx))

theorem indented_scan (ind : String) (ho : '\x7b' ∉ ind.data) (hc : '\x7d' ∉ ind.data)
    (ls : List String) (n : Option Nat) :
    braceScan n (indented ind ls) = braceScan n (concatLines ls) := by
  induction ls generalizing n with
  | nil => rfl
  | cons l ls ih =>
    simp only [indented, concatLines, braceScan_append]
    rw [braceScan_of_not_mem n ind ho hc, ih]

set_option maxRecDepth 20000 in
theorem vectorOpcodeBody_matched (op : AluVectorOpcode) :
    braceScan (some 0) (concatLines (vectorOpcodeBody op)) = some 0 := by
  cases op <;> decide

set_option maxRecDepth 20000 in
theorem scalarOpcodeBody_matched (op : AluScalarOpcode) :
    braceScan (some 0) (concatLines (scalarOpcodeBody op)) = some 0 := by
  cases op <;> decide

theorem int_toString_scan (k : Int) (n : Option Nat) : braceScan n (toString k) = n :=
  braceScan_of_not_mem n _ (int_toString_no_brace _ (Or.inl rfl) k)
    (int_toString_no_brace _ (Or.inr rfl) k)

theorem nat_toString_scan (k : Nat) (n : Option Nat) : braceScan n (toString k) = n :=
  braceScan_of_not_mem n _ (nat_toString_no_brace _ (Or.inl rfl) k)
    (nat_toString_no_brace _ (Or.inr rfl) k)

set_option maxRecDepth 20000 in
theorem textureFetchBody_matched (d : TextureDimension) (k : Int) :
    braceScan (some 0) (concatLines (textureFetchBody d k)) = some 0 := by
  cases d <;>
    simp only [textureFetchBody, concatLines, braceScan_append, int_toString_scan] <;>
    decide

theorem textureOpcodeLines_matched (instr : ParsedTextureFetchInstruction) :
    braceScan (some 0) (concatLines (textureOpcodeLines instr)) = some 0 := by
  unfold textureOpcodeLines
  cases instr.opcode <;> dsimp only
  case kTextureFetch => exact textureFetchBody_matched _ _
  all_goals decide

theorem loadLines_no_brace (stage : ShaderType) (n : Nat) (ops : Arr3 InstructionOperand) :
    ∀ l ∈ loadLines stage n ops, '\x7b' ∉ l.data ∧ '\x7d' ∉ l.data := by
  intro l hl
  simp only [loadLines, List.mem_map] at hl
  obtain ⟨i, _, rfl⟩ := hl
  exact ⟨loadLine_no_brace _ (Or.inl rfl) _ _ _, loadLine_no_brace _ (Or.inr rfl) _ _ _⟩

theorem fetchLoadLines_no_brace (stage : ShaderType) (skip : InstructionStorageSource)
    (n : Nat) (ops : Arr3 InstructionOperand) :
    ∀ l ∈ fetchLoadLines stage skip n ops, '\x7b' ∉ l.data ∧ '\x7d' ∉ l.data := by
  intro l hl
  simp only [fetchLoadLines, List.mem_map] at hl
  obtain ⟨i, _, rfl⟩ := hl
  exact ⟨loadLine_no_brace _ (Or.inl rfl) _ _ _, loadLine_no_brace _ (Or.inr rfl) _ _ _⟩

theorem storeLines_no_brace (r : InstructionResult) (temp : String)
    (ht : '\x7b' ∉ temp.data ∧ '\x7d' ∉ temp.data) :
    ∀ l ∈ storeLines r temp, '\x7b' ∉ l.data ∧ '\x7d' ∉ l.data := by
  intro l hl
  unfold storeLines at hl
  split_ifs at hl
  · rw [List.mem_singleton.mp hl]
    exact ⟨storeLine_no_brace _ (Or.inl rfl) _ _ ht.1,
      storeLine_no_brace _ (Or.inr rfl) _ _ ht.2⟩
  · simp at hl

theorem vertexFetchBodyLines_no_brace (stage : ShaderType)
    (instr : ParsedVertexFetchInstruction) :
    ∀ l ∈ vertexFetchBodyLines stage instr, '\x7b' ∉ l.data ∧ '\x7d' ∉ l.data := by
  intro l hl
  unfold vertexFetchBodyLines at hl
  split_ifs at hl
  · rcases List.mem_append.mp hl with h | h
    · exact fetchLoadLines_no_brace _ _ _ _ l h
    · revert h
      cases instr.opcode <;> intro h <;> simp only [List.mem_singleton, List.not_mem_nil] at h
      subst h
      have h1 := nat_toString_no_brace _ (Or.inl rfl)
        (asUnsigned (instr.operands.get 1).storage_index)
      have h2 := nat_toString_no_brace _ (Or.inr rfl)
        (asUnsigned (instr.operands.get 1).storage_index)
      have h3 := int_toString_no_brace _ (Or.inl rfl) instr.attributes.offset
      have h4 := int_toString_no_brace _ (Or.inr rfl) instr.attributes.offset
      have h5 := fun j => componentChar_ne_brace _ (Or.inl rfl) j
      have h6 := fun j => componentChar_ne_brace _ (Or.inr rfl) j
      simp [h1, h2, h3, h4, h5, h6]
  · simp at hl

/-- The lines of an ALU instruction leave the brace count as it is. -/
theorem aluLines_scan (stage : ShaderType) (instr : ParsedAluInstruction) (k : Nat) :
    braceScan (some k) (concatLines (aluLines stage instr)) = some k := by
  unfold aluLines
  rw [concatLines_append, concatLines_append, braceScan_append, braceScan_append,
    concatLines_no_brace_scan _ _ (loadLines_no_brace _ _ _)]
  have hbody : braceScan (some k) (concatLines (aluOpcodeLines instr)) = some k := by
    unfold aluOpcodeLines
    cases instr.type <;> dsimp only
    · rfl
    · exact braceScan_matched _ (vectorOpcodeBody_matched _) k
    · exact braceScan_matched _ (scalarOpcodeBody_matched _) k
  rw [hbody]
  apply concatLines_no_brace_scan
  apply storeLines_no_brace
  unfold aluTemp
  cases instr.type <;> decide

/-- The lines of a vertex fetch leave the brace count as it is. -/
theorem vertexFetchLines_scan (stage : ShaderType) (instr : ParsedVertexFetchInstruction)
    (n : Option Nat) :
    braceScan n (concatLines (vertexFetchLines stage instr)) = n := by
  apply concatLines_no_brace_scan
  intro l hl
  rcases List.mem_append.mp hl with h | h
  · exact vertexFetchBodyLines_no_brace _ _ l h
  · exact storeLines_no_brace _ _ (by decide) l h

/-- The lines of a texture fetch leave the brace count as it is. -/
theorem textureFetchLines_scan (stage : ShaderType) (instr : ParsedTextureFetchInstruction)
    (k : Nat) :
    braceScan (some k) (concatLines (textureFetchLines stage instr)) = some k := by
  unfold textureFetchLines
  rw [concatLines_append, concatLines_append, braceScan_append, braceScan_append,
    concatLines_no_brace_scan _ _ (fetchLoadLines_no_brace _ _ _ _),
    braceScan_matched _ (textureOpcodeLines_matched _) k]
  exact concatLines_no_brace_scan _ _ (storeLines_no_brace _ _ (by decide))

/-! ### The braces of a callback -/

theorem close_scan (k : Nat) :
    braceScan (some k) "\x7d\n" = if k = 0 then none else some (k - 1) := by
  have h : ("\x7d\n" : String).data = ['\x7d', '\n'] := rfl
  simp only [braceScan, h, List.foldl_cons, List.foldl_nil, braceStep]
  split_ifs <;> simp_all [braceStep]

theorem guardLine_scan (c : Bool) (k : Nat) :
    braceScan (some k) (guardLine c) = some (k + 1) := by
  cases c <;> exact braceScan_opens _ (by decide) k

theorem braceFree_iff (s : String) :
    braceFree s = true ↔ '\x7b' ∉ s.data ∧ '\x7d' ∉ s.data := by
  simp [braceFree]

theorem guarded_scan (t : GlslShaderTranslator) (hclean : CleanIndent t) (p c : Bool)
    (ls : List String) (hls : ∀ k, braceScan (some k) (concatLines ls) = some k) (k : Nat) :
    braceScan (some k) (segmentsText (guardedSegments t p c ls)) = some k := by
  have hi := fun x hx => indent_no_brace x hx t hclean
  have hI := fun x hx => indent_no_brace x hx (Indent t) (CleanIndent_Indent t hclean)
  have hU := fun x hx => indent_no_brace x hx (Unindent (Indent t))
    (CleanIndent_Unindent _ (CleanIndent_Indent t hclean))
  rw [segmentsText_guarded]
  cases p
  · simp only [guardText, closeText, bodyState, braceScan_append, braceScan_empty,
      Bool.false_eq_true, if_false]
    rw [indented_scan _ (hi _ (Or.inl rfl)) (hi _ (Or.inr rfl)), hls]
  · simp only [guardText, closeText, bodyState, braceScan_append, if_true]
    rw [braceScan_of_not_mem _ _ (hi _ (Or.inl rfl)) (hi _ (Or.inr rfl)), guardLine_scan,
      indented_scan _ (hI _ (Or.inl rfl)) (hI _ (Or.inr rfl)), hls,
      braceScan_of_not_mem _ _ (hU _ (Or.inl rfl)) (hU _ (Or.inr rfl)), close_scan]
    simp

theorem comment_scan (cb : Callback) (hd : braceFree cb.disassembly = true) (n : Option Nat) :
    braceScan n cb.comment = n := by
  rw [braceFree_iff] at hd
  have h3 : ∀ s : String, '\x7b' ∉ s.data ∧ '\x7d' ∉ s.data →
      braceScan n ("// " ++ s) = n := by
    intro s hs
    rw [braceScan_append, braceScan_of_not_mem n "// " (by decide) (by decide),
      braceScan_of_not_mem n s hs.1 hs.2]
  cases cb <;>
    first
      | rfl
      | exact h3 _ hd
      | exact braceScan_of_not_mem n _ (by decide) (by decide)

theorem execHeader_scan (instr : ParsedExecInstruction) (k : Nat) :
    braceScan (some k) (execHeader instr) = some (k + 1) := by
  apply braceScan_opens
  obtain ⟨d, ty, i, c⟩ := instr
  cases ty <;> cases c <;>
    simp only [execHeader, braceScan_append, nat_toString_scan, if_true, if_false,
      Bool.false_eq_true] <;>
    decide

/-- What the text of a callback does to the brace count: an exec begin opens
a brace, an exec end closes one, any other callback leaves the count. -/
theorem Callback_braces (t : GlslShaderTranslator) (cb : Callback) (hclean : CleanIndent t)
    (hd : braceFree cb.disassembly = true) (n : Option Nat) :
    braceScan n (cb.comment ++ segmentsText (cb.segments t)) = execStep n cb := by
  cases n with
  | none => rw [braceScan_none]; rfl
  | some k =>
    rw [braceScan_append, comment_scan cb hd]
    have hi := fun x hx => indent_no_brace x hx t hclean
    have hU := fun x hx => indent_no_brace x hx (Unindent t) (CleanIndent_Unindent t hclean)
    have hun : braceScan (some k) (segmentsText [(indent t, "// UNIMPLEMENTED TRANSLATION\n")])
        = some k := by
      simp only [segmentsText, braceScan_append, braceScan_empty]
      rw [braceScan_of_not_mem _ _ (hi _ (Or.inl rfl)) (hi _ (Or.inr rfl))]
      exact braceScan_of_not_mem _ _ (by decide) (by decide)
    cases cb with
    | label _ => exact hun
    | controlFlowNop => rfl
    | execBegin instr =>
      simp only [Callback.segments, segmentsText, braceScan_append, braceScan_empty, execStep]
      rw [braceScan_of_not_mem _ _ (hi _ (Or.inl rfl)) (hi _ (Or.inr rfl)), execHeader_scan]
    | execEnd instr =>
      simp only [Callback.segments, segmentsText, braceScan_append, braceScan_empty, execStep]
      rw [braceScan_of_not_mem _ _ (hU _ (Or.inl rfl)) (hU _ (Or.inr rfl)), close_scan]
    | loopStart _ => exact hun
    | loopEnd _ => exact hun
    | call _ => exact hun
    | ret _ => exact hun
    | jump _ => exact hun
    | alloc _ => rfl
    | vertexFetch instr =>
      exact guarded_scan t hclean _ _ _ (fun j => vertexFetchLines_scan _ _ _) k
    | textureFetch instr =>
      exact guarded_scan t hclean _ _ _ (fun j => textureFetchLines_scan _ _ j) k
    | alu instr =>
      simp only [Callback.segments, execStep]
      cases hty : instr.type
      · rfl
      · exact guarded_scan t hclean _ _ _ (fun j => aluLines_scan _ _ j) k
      · exact guarded_scan t hclean _ _ _ (fun j => aluLines_scan _ _ j) k

/-! ### A whole translation -/

theorem CleanIndent_of_buffer (t w : GlslShaderTranslator)
    (h : w.depth_prefix_ = t.depth_prefix_) (hc : CleanIndent t) : CleanIndent w := by
  unfold CleanIndent at hc ⊢
  rw [h]
  exact hc

theorem CleanIndent_run (t : GlslShaderTranslator) (cb : Callback) (h : CleanIndent t) :
    CleanIndent (cb.run t) := by
  cases hx : cb.isExec
  · rcases nonExec_buffer t cb hx with ⟨_, h2⟩ | ⟨_, h2⟩
    · exact CleanIndent_of_buffer t _ h2 h
    · exact CleanIndent_of_buffer _ _ h2 (CleanIndent_Unindent _ (CleanIndent_Indent t h))
  · cases cb <;> simp only [Callback.isExec, Bool.false_eq_true] at hx
    · simp only [Callback.run, execHeader_eq]
      exact CleanIndent_of_buffer _ _ rfl (CleanIndent_Indent t h)
    · simp only [Callback.run, execEnd_eq]
      exact CleanIndent_of_buffer _ _ rfl (CleanIndent_Unindent t h)

theorem run_depth (t : GlslShaderTranslator) (cb : Callback) :
    (cb.run t).depth_ = t.depth_ +
      (match cb with
       | .execBegin _ => 2
       | .execEnd _ => -2
       | _ => 0) := by
  cases hx : cb.isExec
  · have hd : (cb.run t).depth_ = t.depth_ := by
      rcases nonExec_buffer t cb hx with ⟨h1, _⟩ | ⟨h1, _⟩
      · exact h1
      · rw [h1, Unindent_depth, Indent_depth]; omega
    cases cb <;> simp only [Callback.isExec, Bool.true_eq_false] at hx <;> simpa using hd
  · cases cb <;> simp only [Callback.isExec, Bool.false_eq_true] at hx
    · simp only [Callback.run, execHeader_eq, EmitSource_depth, Indent_depth]
    · simp only [Callback.run, execEnd_eq, EmitSource_depth, Unindent_depth]
      omega

/-- Along a stream the brace count of the text follows the count of open exec
blocks, the indentation stays free of braces, and the depth is twice the
number of exec blocks opened since the start. -/
theorem stream_braces (stream : List Callback) (t : GlslShaderTranslator) (n : Option Nat)
    (hclean : CleanIndent t) (hd : ∀ cb ∈ stream, braceFree cb.disassembly = true) :
    braceScan n (stream.foldl Callback.run t).source_ =
      stream.foldl execStep (braceScan n t.source_) := by
  induction stream generalizing t with
  | nil => rfl
  | cons cb rest ih =>
    rw [List.foldl_cons, List.foldl_cons,
      ih (cb.run t) (CleanIndent_run t cb hclean) (fun x hx => hd x (List.mem_cons_of_mem _ hx)),
      Callback_run_source, braceScan_append,
      Callback_braces t cb hclean (hd cb (List.mem_cons_self _ _))]

theorem execFold_none (stream : List Callback) : stream.foldl execStep none = none := by
  induction stream with
  | nil => rfl
  | cons cb rest ih => simpa [List.foldl_cons, execStep] using ih

theorem execFold_depth (stream : List Callback) (t : GlslShaderTranslator) (k m : Nat)
    (h : stream.foldl execStep (some k) = some m) :
    (stream.foldl Callback.run t).depth_ = t.depth_ + 2 * m - 2 * k := by
  induction stream generalizing t k with
  | nil =>
    simp only [List.foldl_nil, Option.some.injEq] at h ⊢
    omega
  | cons cb rest ih =>
    rw [List.foldl_cons] at h ⊢
    have hr := run_depth t cb
    cases cb with
    | execBegin instr =>
      simp only [execStep] at h
      rw [ih _ _ h, hr]
      push_cast
      omega
    | execEnd instr =>
      simp only [execStep] at h
      by_cases hk : k = 0
      · simp only [hk, if_true] at h
        rw [execFold_none] at h
        exact absurd h (by simp)
      · simp only [hk, if_false] at h
        rw [ih _ _ h, hr]
        have : ((k - 1 : Nat) : Int) = (k : Int) - 1 := by omega
        rw [this]
        dsimp only
        omega
    | _ =>
      simp only [execStep] at h
      rw [ih _ _ h, hr]
      simp

theorem execFold_lift (stream : List Callback) (j k m : Nat)
    (h : stream.foldl execStep (some j) = some m) :
    stream.foldl execStep (some (j + k)) = some (m + k) := by
  induction stream generalizing j with
  | nil =>
    simp only [List.foldl_nil, Option.some.injEq] at h ⊢
    omega
  | cons cb rest ih =>
    rw [List.foldl_cons] at h ⊢
    cases cb with
    | execBegin instr =>
      simp only [execStep] at h ⊢
      have := ih (j + 1) h
      rwa [show j + 1 + k = j + k + 1 by omega] at this
    | execEnd instr =>
      simp only [execStep] at h ⊢
      by_cases hj : j = 0
      · simp only [hj, if_true] at h
        rw [execFold_none] at h
        exact absurd h (by simp)
      · simp only [hj, if_false] at h
        have := ih (j - 1) h
        rw [show j - 1 + k = j + k - 1 by omega] at this
        simpa [show j + k ≠ 0 by omega] using this
    | _ =>
      simp only [execStep] at h ⊢
      exact ih j h

set_option maxRecDepth 100000 in
theorem preambleCommon_matched : braceScan (some 0) preambleCommon = some 0 := by
  decide

set_option maxRecDepth 100000 in
theorem preambleCube_matched : braceScan (some 0) preambleCube = some 0 := by
  decide

set_option maxRecDepth 100000 in
theorem preambleVertex_matched : braceScan (some 0) preambleVertex = some 0 := by
  decide

set_option maxRecDepth 100000 in
theorem preamblePixel_matched : braceScan (some 0) preamblePixel = some 0 := by
  decide

theorem vertexInputLines_no_brace (vb : List VertexBinding) :
    ∀ l ∈ vertexInputLines vb, '\x7b' ∉ l.data ∧ '\x7d' ∉ l.data := by
  intro l hl
  simp only [vertexInputLines, List.mem_flatMap, List.mem_map] at hl
  obtain ⟨b, _, a, _, rfl⟩ := hl
  have h1 := fun c hc => int_toString_no_brace c hc a.attrib_index
  have h2 := fun c hc => nat_toString_no_brace c hc b.fetch_constant
  have h3 := fun c hc => int_toString_no_brace c hc a.fetch_instr.attributes.offset
  have h4 : ∀ c, c = '\x7b' ∨ c = '\x7d' →
      c ∉ (GetVertexFormatTypeName a.fetch_instr.attributes.data_format).data := by
    intro c hc
    rcases hc with rfl | rfl <;> cases a.fetch_instr.attributes.data_format <;> decide
  constructor
  · simp [h1 _ (Or.inl rfl), h2 _ (Or.inl rfl), h3 _ (Or.inl rfl), h4 _ (Or.inl rfl)]
  · simp [h1 _ (Or.inr rfl), h2 _ (Or.inr rfl), h3 _ (Or.inr rfl), h4 _ (Or.inr rfl)]

theorem interpolatorCopyLines_no_brace :
    ∀ l ∈ interpolatorCopyLines, '\x7b' ∉ l.data ∧ '\x7d' ∉ l.data := by
  intro l hl
  simp only [interpolatorCopyLines, List.mem_map] at hl
  obtain ⟨i, _, rfl⟩ := hl
  have h1 := fun c hc => nat_toString_no_brace c hc i
  constructor
  · simp [h1 _ (Or.inl rfl)]
  · simp [h1 _ (Or.inr rfl)]

set_option maxRecDepth 8000 in
/-- The preamble leaves one brace open: that of the process function. -/
theorem preamble_scan (stage : ShaderType) (vb : List VertexBinding) :
    braceScan (some 0) (preambleText stage vb) = some 1 := by
  unfold preambleText preambleHead
  cases stage
  · simp only [braceScan_append, preambleCommon_matched, preambleCube_matched,
      preambleVertex_matched, concatLines_no_brace_scan _ _ (vertexInputLines_no_brace vb)]
    decide
  · simp only [braceScan_append, preambleCommon_matched, preambleCube_matched,
      preamblePixel_matched]
    have h1 : braceScan (some 0) "void processFragment(const in StateData state) \x7b\n" =
        some 1 := by decide
    have h2 : braceScan (some 1) "  vec4 r[64];\n" = some 1 := by decide
    rw [h1, h2, concatLines_no_brace_scan _ _ interpolatorCopyLines_no_brace]
    decide

set_option maxRecDepth 20000 in
theorem scalarStatements_render (op : AluScalarOpcode) (body : List Stmt)
    (h : scalarStatements op = some body) : renderBody body = scalarOpcodeBody op := by
  cases op <;> simp only [scalarStatements, Option.some.injEq] at h <;>
    first
      | exact absurd h (by simp)
      | (subst h; decide)

set_option maxRecDepth 20000 in
theorem vectorStatements_render (op : AluVectorOpcode) (body : List Stmt)
    (h : vectorStatements op = some body) : renderBody body = vectorOpcodeBody op := by
  cases op <;> simp only [vectorStatements, Option.some.injEq] at h <;>
    first
      | exact absurd h (by simp)
      | (subst h; decide)

theorem scalarReads_of (op : AluScalarOpcode) (body : List Stmt) (s : ShaderState)
    (out : Outcome) (h : scalarStatements op = some body) (hr : runBody body s = some out) :
    ScalarReads op s out :=
  ⟨body, h, scalarStatements_render op body h, hr⟩

theorem vectorReads_of (op : AluVectorOpcode) (body : List Stmt) (s : ShaderState)
    (out : Outcome) (h : vectorStatements op = some body) (hr : runBody body s = some out) :
    VectorReads op s out :=
  ⟨body, h, vectorStatements_render op body h, hr⟩

/-- What the statements of `setp_eq`, `setp_ne`, `setp_gt`, `setp_ge` do, with
`b` the value of the comparison. -/
theorem setpStatements_run (c : Ex) (s : ShaderState) (b : Bool)
    (h : c.value s = some (.bool b)) :
    runBody (setpStatements c) s =
      some (.completed { s with p0 := b, ps := if b then .fin 0 else .fin 1 }) := by
  cases b <;> simp [setpStatements, runBody, Stmt.run, runSimples, Ex.value, h]

theorem VectorReads_unique (op : AluVectorOpcode) (s : ShaderState) (a b : Outcome)
    (ha : VectorReads op s a) (hb : VectorReads op s b) : a = b := by
  obtain ⟨body, h1, _, h2⟩ := ha
  obtain ⟨body2, h3, _, h4⟩ := hb
  rw [h1] at h3
  cases h3
  rw [h2] at h4
  exact Option.some.inj h4

theorem apply_and (a b : Bool) : BinOp.apply .and (.bool a) (.bool b) = some (.bool (a && b)) :=
  rfl

theorem apply_or (a b : Bool) : BinOp.apply .or (.bool a) (.bool b) = some (.bool (a || b)) :=
  rfl

theorem apply_eq (a b : FVal) : BinOp.apply .eq (.num a) (.num b) = some (.bool (a.eq b)) :=
  rfl

theorem apply_ne (a b : FVal) : BinOp.apply .ne (.num a) (.num b) = some (.bool (a.ne b)) :=
  rfl

theorem apply_gt (a b : FVal) : BinOp.apply .gt (.num a) (.num b) = some (.bool (a.gt b)) :=
  rfl

theorem apply_ge (a b : FVal) : BinOp.apply .ge (.num a) (.num b) = some (.bool (a.ge b)) :=
  rfl

theorem apply_le (a b : FVal) : BinOp.apply .le (.num a) (.num b) = some (.bool (a.le b)) :=
  rfl

theorem apply_add (a b : FVal) : BinOp.apply .add (.num a) (.num b) = some (.num (a.add b)) :=
  rfl

theorem apply_mul (a b : FVal) : BinOp.apply .mul (.num a) (.num b) = some (.num (a.mul b)) :=
  rfl

/-- What the statements of a push opcode do, with `cmp` the comparison of the
opcode. -/
theorem pushStatements_run (op : BinOp) (cmp : FVal → FVal → Bool) (s : ShaderState)
    (h : ∀ a b, op.apply (.num a) (.num b) = some (.bool (cmp a b))) :
    runBody (pushStatements op) s = some (.completed (pushResult cmp s)) := by
  unfold pushResult
  cases h3 : s.src.e0.e3.eq (.fin 0) && cmp s.src.e1.e3 (.fin 0) <;>
    cases h0 : s.src.e0.e0.eq (.fin 0) && cmp s.src.e1.e0 (.fin 0) <;>
    simp [pushStatements, pushCondition, runBody, Stmt.run, runSimples, Ex.value, apply_and,
      apply_eq, apply_add, Arr3.get, Vec4.get, h, h3, h0]

theorem pushReads (s : ShaderState) :
    VectorReads .kSetpEqPush s (.completed (pushResult FVal.eq s)) ∧
    VectorReads .kSetpNePush s (.completed (pushResult FVal.ne s)) ∧
    VectorReads .kSetpGtPush s (.completed (pushResult FVal.gt s)) ∧
    VectorReads .kSetpGePush s (.completed (pushResult FVal.ge s)) :=
  ⟨vectorReads_of _ _ _ _ rfl (pushStatements_run _ _ _ apply_eq),
   vectorReads_of _ _ _ _ rfl (pushStatements_run _ _ _ apply_ne),
   vectorReads_of _ _ _ _ rfl (pushStatements_run _ _ _ apply_gt),
   vectorReads_of _ _ _ _ rfl (pushStatements_run _ _ _ apply_ge)⟩

theorem killStatements_run (op : BinOp) (cmp : FVal → FVal → Bool) (s : ShaderState)
    (h : ∀ a b, op.apply (.num a) (.num b) = some (.bool (cmp a b))) :
    runBody (killStatements op) s = some (killOutcome (anyLane cmp s) s) := by
  unfold killOutcome anyLane
  cases h0 : cmp s.src.e0.e0 s.src.e1.e0 <;> cases h1 : cmp s.src.e0.e1 s.src.e1.e1 <;>
    cases h2 : cmp s.src.e0.e2 s.src.e1.e2 <;> cases h3 : cmp s.src.e0.e3 s.src.e1.e3 <;>
    simp [killStatements, killGuard, cmpLanes, runBody, Stmt.run, runSimples, Ex.value,
      apply_or, Arr3.get, Vec4.get, h, h0, h1, h2, h3]

theorem killsStatements_run (c : Ex) (s : ShaderState) (b : Bool)
    (h : c.value s = some (.bool b)) :
    runBody (killsStatements c) s = some (killsOutcome b s) := by
  cases b <;> simp [killsOutcome, killsStatements, runBody, Stmt.run, runSimples, Ex.value, h]

/-! ## The helpers of the preamble, fetches and declarations -/

/-- The face the helper `cube` selects is one of 0..5. -/
theorem cubeFace_range (src1 : Vec4 ℚ) :
    0 ≤ (cubeFace src1).face_id ∧ (cubeFace src1).face_id ≤ 5 := by
  unfold cubeFace
  dsimp only
  split_ifs <;> simp

/-- When one component is strictly larger in magnitude than the two others,
the helper `cube` selects it: `ma` is the largest magnitude. -/
theorem cubeFace_dominant (src1 : Vec4 ℚ)
    (h : (|src1.e1| > |src1.e0| ∧ |src1.e1| > |src1.e2|) ∨
      (|src1.e0| > |src1.e1| ∧ |src1.e0| > |src1.e2|) ∨
      (|src1.e2| > |src1.e1| ∧ |src1.e2| > |src1.e0|)) :
    (cubeFace src1).ma = max (max |src1.e1| |src1.e0|) |src1.e2| := by
  unfold cubeFace
  dsimp only
  rcases h with ⟨h1, h2⟩ | ⟨h1, h2⟩ | ⟨h1, h2⟩
  · have e1 : max |src1.e1| |src1.e0| = |src1.e1| := max_eq_left h1.le
    rw [if_pos ⟨h1, h2⟩, e1, max_eq_left h2.le]
    split_ifs <;> rfl
  · have hn : ¬ (|src1.e1| > |src1.e0| ∧ |src1.e1| > |src1.e2|) := fun hh =>
      absurd hh.1 (not_lt.mpr h1.le)
    have e1 : max |src1.e1| |src1.e0| = |src1.e0| := max_eq_right h1.le
    rw [if_neg hn, if_pos ⟨h1, h2⟩, e1, max_eq_left h2.le]
    split_ifs <;> rfl
  · have hn : ¬ (|src1.e1| > |src1.e0| ∧ |src1.e1| > |src1.e2|) := fun hh =>
      absurd hh.2 (not_lt.mpr h1.le)
    have hn2 : ¬ (|src1.e0| > |src1.e1| ∧ |src1.e0| > |src1.e2|) := fun hh =>
      absurd hh.2 (not_lt.mpr h2.le)
    rw [if_neg hn, if_neg hn2, max_eq_right (max_le h1.le h2.le)]
    split_ifs <;> rfl

/-- Where the components that `sc` and `tc` read are not negative, the pair
the helper `cube` computes is the pair of the documented table. -/
theorem cubeFace_table_nonneg (src1 : Vec4 ℚ) (hx : 0 ≤ src1.e1) (hy : 0 ≤ src1.e0)
    (hz : 0 ≤ src1.e2) :
    ((cubeFace src1).sc, (cubeFace src1).tc) =
      documentedScTc (cubeFace src1).face_id src1.e1 src1.e0 src1.e2 := by
  unfold cubeFace
  dsimp only
  rw [abs_of_nonneg hx, abs_of_nonneg hy, abs_of_nonneg hz]
  split_ifs <;> simp [documentedScTc]

theorem textureFetchBody_guarded (d : TextureDimension) (i : Int) :
    textureFetchBody d i = guardedFetchLines d i := by
  cases d <;>
    simp only [textureFetchBody, guardedFetchLines, samplerName, fetchCoordinate,
      fetchPassthrough, List.cons.injEq, and_true, true_and] <;>
    refine ⟨?_, ?_⟩ <;> apply String.ext <;> simp

theorem vertexInputLines_eq (vb : List VertexBinding) :
    vertexInputLines vb = (bindingAttributes vb).map (fun p => vertexInputLine p.1 p.2) := by
  unfold vertexInputLines bindingAttributes
  induction vb with
  | nil => rfl
  | cons b bs ih =>
    simp only [List.flatMap_cons, List.map_append, List.map_map, ih]
    congr 1
    apply List.map_congr_left
    intro a _
    apply String.ext
    simp [vertexInputLine, vertexInputName]

set_option maxRecDepth 20000 in
theorem vertexPrologue_eq :
    "void processVertex(const in StateData state) \x7b\n" ++ "  vec4 r[64];\n" ++
      scratchDeclarations = concatLines vertexPrologueLines := by
  decide

set_option maxRecDepth 20000 in
theorem pixelPrologue_eq :
    "void processFragment(const in StateData state) \x7b\n" ++ "  vec4 r[64];\n" ++
      concatLines interpolatorCopyLines ++ scratchDeclarations =
        concatLines pixelPrologueLines := by
  decide

/-- The text `StartTranslation` appends in the vertex stage. -/
theorem StartTranslation_vertex (t : GlslShaderTranslator) (vb : List VertexBinding)
    (h : t.shader_type_ = .kVertex) :
    (StartTranslation t vb).source_ =
      t.source_ ++ (preambleCommon ++ preambleCube ++ preambleVertex ++
        concatLines (vertexInputLines vb) ++ concatLines vertexPrologueLines) := by
  rw [StartTranslation_eq, EmitSource_source, h, ← vertexPrologue_eq]
  simp only [preambleText, preambleHead, String.append_assoc]

/-- The text `StartTranslation` appends in the pixel stage. -/
theorem StartTranslation_pixel (t : GlslShaderTranslator) (vb : List VertexBinding)
    (h : t.shader_type_ = .kPixel) :
    (StartTranslation t vb).source_ =
      t.source_ ++ (preambleCommon ++ preambleCube ++ preamblePixel ++
        concatLines pixelPrologueLines) := by
  rw [StartTranslation_eq, EmitSource_source, h, ← pixelPrologue_eq]
  simp only [preambleText, preambleHead, String.append_assoc]

theorem bindingAttributes_length (vb : List VertexBinding) :
    (bindingAttributes vb).length = (vb.map (fun b => b.attributes.length)).sum := by
  unfold bindingAttributes
  induction vb with
  | nil => rfl
  | cons b bs ih => simp [List.flatMap_cons, ih]

theorem vertexInputLine_isLine (binding : VertexBinding) (attrib : VertexAttribute) :
    IsLine (vertexInputLine binding attrib) := by
  apply isLine_of_data _
    (("layout(location = " ++ toString attrib.attrib_index ++ ") in " ++
      GetVertexFormatTypeName attrib.fetch_instr.attributes.data_format ++ " " ++
      vertexInputName binding.fetch_constant attrib.fetch_instr.attributes.offset ++
      ";").data)
  · simp [vertexInputLine]
  · have h1 := int_toString_no_newline attrib.attrib_index
    have h2 := nat_toString_no_newline binding.fetch_constant
    have h3 := int_toString_no_newline attrib.fetch_instr.attributes.offset
    have h4 : '\n' ∉ (GetVertexFormatTypeName attrib.fetch_instr.attributes.data_format).data := by
      cases attrib.fetch_instr.attributes.data_format <;> decide
    simp [vertexInputName, h1, h2, h3, h4]

theorem loadLine_ne_unimplemented (stage : ShaderType) (i : Nat) (op : InstructionOperand) :
    loadLine stage i op ≠ "// UNIMPLEMENTED TRANSLATION\n" := by
  intro h
  have h2 : (loadLine stage i op).data.head? = some 's' := by
    simp [loadLine, loadLineWith]
  rw [h] at h2
  revert h2
  decide

theorem storeLine_ne_unimplemented (r : InstructionResult) (temp : String) :
    storeLine r temp ≠ "// UNIMPLEMENTED TRANSLATION\n" := by
  intro h
  have h2 : (storeLine r temp).data.head? ≠ some '/' := by
    unfold storeLine destRoot
    cases r.storage_target <;> simp
  rw [h] at h2
  exact h2 (by decide)

theorem count_unimplemented_loads (stage : ShaderType) (skip : InstructionStorageSource)
    (n : Nat) (ops : Arr3 InstructionOperand) :
    (fetchLoadLines stage skip n ops).count "// UNIMPLEMENTED TRANSLATION\n" = 0 := by
  rw [List.count_eq_zero]
  intro hm
  simp only [fetchLoadLines, List.mem_map] at hm
  obtain ⟨i, _, hi⟩ := hm
  exact loadLine_ne_unimplemented _ _ _ hi

theorem count_unimplemented_store (r : InstructionResult) (temp : String) :
    (storeLines r temp).count "// UNIMPLEMENTED TRANSLATION\n" = 0 := by
  rw [List.count_eq_zero]
  intro hm
  unfold storeLines at hm
  split_ifs at hm
  · exact storeLine_ne_unimplemented _ _ (List.mem_singleton.mp hm).symm
  · simp at hm

theorem poke_getElem (buf : List Char) (i : Int) (c : Char) (j : Nat) :
    (poke buf i c)[j]? =
      if 0 ≤ i ∧ i.toNat = j ∧ j < buf.length then some c else buf[j]? := by
  unfold poke
  by_cases h0 : 0 ≤ i
  · simp only [h0, if_true, true_and, List.getElem?_set]
    by_cases h1 : i.toNat = j
    · by_cases hj : j < buf.length
      · simp [h1, hj]
      · simp [h1, hj, List.getElem?_eq_none (not_lt.1 hj)]
    · simp [h1]
  · simp [h0]

theorem take_succ_eq_iff (a b : List Char) (m : Nat) :
    a.take (m + 1) = b.take (m + 1) ↔ ∀ j, j ≤ m → a[j]? = b[j]? := by
  constructor
  · intro h j hj
    have := congrArg (fun l => l[j]?) h
    have hlt : j < m + 1 := by omega
    simpa [List.getElem?_take, hlt] using this
  · intro h
    apply List.ext_getElem?
    intro j
    by_cases hj : j < m + 1
    · simp [List.getElem?_take, hj, h j (by omega)]
    · simp [List.getElem?_take, hj]

theorem takeWhile_stop (p : Char → Bool) (l r : List Char) (x : Char) (hx : p x = false) :
    (l ++ x :: r).takeWhile p = l.takeWhile p := by
  induction l with
  | nil => simp [List.takeWhile, hx]
  | cons c cs ih =>
    simp only [List.cons_append, List.takeWhile_cons]
    split
    · rw [ih]
    · rfl

theorem cstr_take (a : List Char) (m : Nat) (h : a[m]? = some NUL) :
    cstr a = String.mk ((a.take m).takeWhile (fun c => c != NUL)) := by
  have hlt : m < a.length := by
    by_contra hge
    rw [List.getElem?_eq_none (by omega)] at h
    exact absurd h (by simp)
  have hsplit : a = a.take m ++ NUL :: a.drop (m + 1) := by
    conv_lhs => rw [← List.take_append_drop m a]
    congr 1
    rw [List.drop_eq_getElem_cons hlt]
    congr 1
    rw [List.getElem?_eq_getElem hlt] at h
    exact Option.some.inj h
  unfold cstr
  conv_lhs => rw [hsplit]
  rw [takeWhile_stop _ _ _ _ (by simp)]

theorem BufferAgrees_cstr (d : Int) (a b : List Char) (h : BufferAgrees d a b) :
    cstr a = cstr b := by
  obtain ⟨hlen, htake, hnul⟩ := h
  rcases hnul with hn | hshort
  · have hb : b[d.toNat]? = some NUL := by
      rw [← (take_succ_eq_iff a b d.toNat).1 htake d.toNat (le_refl _)]
      exact hn
    rw [cstr_take a _ hn, cstr_take b _ hb]
    have : a.take d.toNat = b.take d.toNat := by
      have := congrArg (List.take d.toNat) htake
      simpa [List.take_take] using this
    rw [this]
  · have ha : a.take (d.toNat + 1) = a := List.take_of_length_le (by omega)
    have hb : b.take (d.toNat + 1) = b := List.take_of_length_le (by omega)
    rw [ha, hb] at htake
    rw [htake]

theorem SameOutput_indent (a b : GlslShaderTranslator) (h : SameOutput a b) :
    indent a = indent b := by
  unfold indent
  rw [BufferAgrees_cstr _ _ _ h.2.2.2]

theorem BufferAgrees_Indent (d : Int) (a b : List Char) (h : BufferAgrees d a b) :
    BufferAgrees (d + 2)
      (poke (poke (poke a d ' ') (d + 1) ' ') (d + 2) NUL)
      (poke (poke (poke b d ' ') (d + 1) ' ') (d + 2) NUL) := by
  obtain ⟨hlen, htake, hnul⟩ := h
  rw [take_succ_eq_iff] at htake
  refine ⟨by simp [poke_length, hlen], ?_, ?_⟩
  · rw [take_succ_eq_iff]
    intro j hj
    simp only [poke_getElem, poke_length, hlen]
    by_cases c2 : 0 ≤ d + 2 ∧ (d + 2).toNat = j ∧ j < b.length
    · simp [c2]
    · by_cases c1 : 0 ≤ d + 1 ∧ (d + 1).toNat = j ∧ j < b.length
      · simp [c2, c1]
      · by_cases c0 : 0 ≤ d ∧ d.toNat = j ∧ j < b.length
        · simp [c2, c1, c0]
        · simp only [c2, c1, c0, if_false]
          by_cases hjd : j ≤ d.toNat
          · exact htake j hjd
          · have hge : b.length ≤ j := by
              by_contra hlt
              push_neg at hlt
              by_cases hd0 : 0 ≤ d
              · by_cases e1 : (d + 1).toNat = j
                · exact c1 ⟨by omega, e1, hlt⟩
                · exact c2 ⟨by omega, by omega, hlt⟩
              · exact c2 ⟨by omega, by omega, hlt⟩
            rw [List.getElem?_eq_none (by omega), List.getElem?_eq_none hge]
  · simp only [poke_getElem, poke_length]
    by_cases hlt : (d + 2).toNat < a.length
    · left
      by_cases hd2 : 0 ≤ d + 2
      · simp [hd2, hlt]
      · have e0 : (d + 2).toNat = 0 := by omega
        have e1 : d.toNat = 0 := by omega
        have n1 : ¬ 0 ≤ d + 1 := by omega
        have n0 : ¬ 0 ≤ d := by omega
        simp only [hd2, n1, n0, false_and, if_false]
        rw [e0]
        rw [e1] at hnul
        rcases hnul with hn | hs
        · exact hn
        · omega
    · right
      omega

theorem BufferAgrees_Unindent (d : Int) (a b : List Char) (h : BufferAgrees d a b) :
    BufferAgrees (d - 2)
      (poke (poke (poke a d NUL) (d - 1) NUL) (d - 2) NUL)
      (poke (poke (poke b d NUL) (d - 1) NUL) (d - 2) NUL) := by
  obtain ⟨hlen, htake, hnul⟩ := h
  rw [take_succ_eq_iff] at htake
  refine ⟨by simp [poke_length, hlen], ?_, ?_⟩
  · rw [take_succ_eq_iff]
    intro j hj
    simp only [poke_getElem, poke_length, hlen]
    rw [htake j (by omega)]
  · simp only [poke_getElem, poke_length]
    by_cases hlt : (d - 2).toNat < a.length
    · left
      by_cases hd2 : 0 ≤ d - 2
      · simp [hd2, hlt]
      · have e0 : (d - 2).toNat = 0 := by omega
        simp only [hd2, false_and, if_false]
        rw [e0]
        rw [e0] at hlt
        by_cases c1 : 0 ≤ d - 1 ∧ (d - 1).toNat = 0 ∧ 0 < a.length
        · simp [c1]
        · simp only [c1, if_false]
          by_cases c0 : 0 ≤ d ∧ d.toNat = 0 ∧ 0 < a.length
          · simp [c0]
          · simp only [c0, if_false]
            have e1 : d.toNat = 0 := by
              by_contra hne
              have : d = 1 := by omega
              exact c1 ⟨by omega, by omega, hlt⟩
            rw [e1] at hnul
            rcases hnul with hn | hs
            · exact hn
            · omega
    · right
      omega

theorem SameOutput_EmitSource (a b : GlslShaderTranslator) (s : String) (h : SameOutput a b) :
    SameOutput (EmitSource a s) (EmitSource b s) := by
  obtain ⟨h1, h2, h3, h4⟩ := h
  exact ⟨h1, h2, by simp [h3], h4⟩

theorem SameOutput_Indent (a b : GlslShaderTranslator) (h : SameOutput a b) :
    SameOutput (Indent a) (Indent b) := by
  obtain ⟨h1, h2, h3, h4⟩ := h
  refine ⟨h1, by simp [Indent_depth, h2], h3, ?_⟩
  have := BufferAgrees_Indent _ _ _ h4
  simpa only [Indent, ← h2] using this

theorem SameOutput_Unindent (a b : GlslShaderTranslator) (h : SameOutput a b) :
    SameOutput (Unindent a) (Unindent b) := by
  obtain ⟨h1, h2, h3, h4⟩ := h
  refine ⟨h1, by simp [Unindent_depth, h2], h3, ?_⟩
  have := BufferAgrees_Unindent _ _ _ h4
  simpa only [Unindent, ← h2] using this

theorem SameOutput_Reset (a b : GlslShaderTranslator)
    (hs : a.shader_type_ = b.shader_type_)
    (hl : a.depth_prefix_.length = b.depth_prefix_.length) :
    SameOutput (Reset a) (Reset b) := by
  refine ⟨hs, rfl, rfl, ?_⟩
  show BufferAgrees 0 (poke a.depth_prefix_ 0 NUL) (poke b.depth_prefix_ 0 NUL)
  refine ⟨by simp [poke_length, hl], ?_, ?_⟩
  · rw [take_succ_eq_iff]
    intro j hj
    have : j = 0 := by simpa using hj
    subst this
    simp only [poke_getElem, hl]
    by_cases hb : 0 < b.depth_prefix_.length
    · simp [hb]
    · simp only [hb, and_false, if_false]
      rw [List.getElem?_eq_none (by omega), List.getElem?_eq_none (by omega)]
  · simp only [poke_getElem, poke_length]
    by_cases ha : 0 < a.depth_prefix_.length
    · left; simp [ha]
    · right; simpa using ha

/-- Depth and indentation buffer after a callback other than exec begin and
exec end: those of `Unindent` after `Indent` when the callback indents its
body, and unchanged otherwise. -/
theorem run_buffer (t : GlslShaderTranslator) (cb : Callback) (h : cb.isExec = false) :
    (cb.run t).depth_ = (if cb.indents then (Unindent (Indent t)).depth_ else t.depth_) ∧
      (cb.run t).depth_prefix_ =
        (if cb.indents then (Unindent (Indent t)).depth_prefix_ else t.depth_prefix_) := by
  cases cb with
  | execBegin instr => simp [Callback.isExec] at h
  | execEnd instr => simp [Callback.isExec] at h
  | vertexFetch instr =>
    obtain ⟨_, h2, h3⟩ := ProcessVertexFetchInstruction_emits t instr
    exact ⟨h2, h3⟩
  | textureFetch instr =>
    obtain ⟨_, h2, h3⟩ := ProcessTextureFetchInstruction_emits t instr
    exact ⟨h2, h3⟩
  | alu instr =>
    cases hty : instr.type
    · simp [Callback.run, ProcessAluInstruction, hty, Callback.indents]
    · obtain ⟨_, h2, h3⟩ := ProcessAluInstruction_emits t instr (by rw [hty]; decide)
      simpa [Callback.indents, hty] using And.intro h2 h3
    · obtain ⟨_, h2, h3⟩ := ProcessAluInstruction_emits t instr (by rw [hty]; decide)
      simpa [Callback.indents, hty] using And.intro h2 h3
  | _ => exact ⟨rfl, rfl⟩

@[simp] theorem Unindent_stage (t : GlslShaderTranslator) :
    (Unindent t).shader_type_ = t.shader_type_ := rfl

theorem beginPredicate_stage (t : GlslShaderTranslator) (c : Bool) :
    (beginPredicate t c).shader_type_ = t.shader_type_ := by
  rw [beginPredicate_eq]; rfl

theorem endPredicate_stage (t : GlslShaderTranslator) :
    (endPredicate t).shader_type_ = t.shader_type_ := by
  rw [endPredicate_eq]; rfl

theorem guarded_stage (t : GlslShaderTranslator) (pred c : Bool)
    (body : GlslShaderTranslator → GlslShaderTranslator)
    (hbody : ∀ u : GlslShaderTranslator, (body u).shader_type_ = u.shader_type_) :
    (let u := if pred then beginPredicate t c else t
     let v := body u
     if pred then endPredicate v else v).shader_type_ = t.shader_type_ := by
  cases pred
  · simp only [Bool.false_eq_true, if_false]
    exact hbody t
  · simp only [if_true]
    rw [endPredicate_stage, hbody, beginPredicate_stage]

theorem textureFetchSwitch_stage (u : GlslShaderTranslator)
    (instr : ParsedTextureFetchInstruction) :
    (textureFetchSwitch u instr).shader_type_ = u.shader_type_ := by
  rw [textureFetchSwitch_eq]; rfl

/-- A callback leaves the stage of the translator as it is. -/
theorem run_stage (t : GlslShaderTranslator) (cb : Callback) :
    (cb.run t).shader_type_ = t.shader_type_ := by
  cases cb with
  | execBegin instr => simp only [Callback.run, execHeader_eq]; rfl
  | execEnd instr => simp only [Callback.run, execEnd_eq]; rfl
  | vertexFetch instr =>
    have h := guarded_stage (EmitSource t ("// " ++ instr.disassembly)) instr.is_predicated
      instr.predicate_condition
      (fun u => EmitStoreVectorResult
        (if instr.result.stores_non_constants then
          vertexFetchSwitch
            (loadFetchOperands u .kVertexFetchConstant instr.operand_count instr.operands) instr
        else u) instr.result)
      (by
        intro u
        dsimp only
        rw [vertexFetchSwitch_eq]
        simp only [EmitStoreVectorResult, EmitStoreResult_lines, EmitSource_stage])
    simpa only [Callback.run, ProcessVertexFetchInstruction, EmitSource_EmitSource,
      EmitSource_stage] using h
  | textureFetch instr =>
    have h := guarded_stage (EmitSource t ("// " ++ instr.disassembly)) instr.is_predicated
      instr.predicate_condition
      (fun u => EmitStoreVectorResult
        (textureFetchSwitch
          (loadFetchOperands u .kTextureFetchConstant instr.operand_count instr.operands) instr)
        instr.result)
      (by
        intro u
        dsimp only
        simp only [EmitStoreVectorResult, EmitStoreResult_lines, EmitSource_stage,
          textureFetchSwitch_stage, loadFetchOperands_eq])
    simpa only [Callback.run, ProcessTextureFetchInstruction, EmitSource_EmitSource,
      EmitSource_stage] using h
  | alu instr =>
    cases hty : instr.type
    · simp [Callback.run, ProcessAluInstruction, hty]
    · have h := guarded_stage (EmitSource t ("// " ++ instr.disassembly)) instr.is_predicated
        instr.predicate_condition
        (fun u => EmitStoreVectorResult
          (emitDepthLines (loadOperands u instr.operand_count instr.operands)
            (vectorOpcodeBody instr.vector_opcode)) instr.result)
        (by
          intro u
          simp only [EmitStoreVectorResult, EmitStoreResult_lines, emitDepthLines_eq,
            loadOperands_eq, EmitSource_stage])
      simpa only [Callback.run, ProcessAluInstruction, hty, ProcessVectorAluInstruction,
        EmitSource_EmitSource, EmitSource_stage] using h
    · have h := guarded_stage (EmitSource t ("// " ++ instr.disassembly)) instr.is_predicated
        instr.predicate_condition
        (fun u => EmitStoreScalarResult
          (emitDepthLines (loadOperands u instr.operand_count instr.operands)
            (scalarOpcodeBody instr.scalar_opcode)) instr.result)
        (by
          intro u
          simp only [EmitStoreScalarResult, EmitStoreResult_lines, emitDepthLines_eq,
            loadOperands_eq, EmitSource_stage])
      simpa only [Callback.run, ProcessAluInstruction, hty, ProcessScalarAluInstruction,
        EmitSource_EmitSource, EmitSource_stage] using h
  | _ => rfl

theorem SameOutput_segments (a b : GlslShaderTranslator) (cb : Callback) (h : SameOutput a b) :
    cb.segments a = cb.segments b := by
  have hi := SameOutput_indent a b h
  have hu := SameOutput_indent _ _ (SameOutput_Unindent a b h)
  have hn := SameOutput_indent _ _ (SameOutput_Indent a b h)
  have hui := SameOutput_indent _ _ (SameOutput_Unindent _ _ (SameOutput_Indent a b h))
  have hs := h.1
  have hbody : ∀ p : Bool, indent (bodyState a p) = indent (bodyState b p) := by
    intro p
    cases p
    · exact hi
    · exact hn
  cases cb <;> simp only [Callback.segments, guardedSegments, hi, hu, hui, hs, hbody]

/-- Two translators that emit the same text from here on still do after a
callback. -/
theorem SameOutput_run (a b : GlslShaderTranslator) (cb : Callback) (h : SameOutput a b) :
    SameOutput (cb.run a) (cb.run b) := by
  have hsrc : (cb.run a).source_ = (cb.run b).source_ := by
    rw [Callback_run_source, Callback_run_source, SameOutput_segments a b cb h, h.2.2.1]
  have hst : (cb.run a).shader_type_ = (cb.run b).shader_type_ := by
    rw [run_stage, run_stage, h.1]
  cases hx : cb.isExec
  · obtain ⟨a1, a2⟩ := run_buffer a cb hx
    obtain ⟨b1, b2⟩ := run_buffer b cb hx
    cases hi : cb.indents
    · simp only [hi, Bool.false_eq_true, if_false] at a1 a2 b1 b2
      refine ⟨hst, by rw [a1, b1, h.2.1], hsrc, ?_⟩
      rw [a1, a2, b2]
      exact h.2.2.2
    · simp only [hi, if_true] at a1 a2 b1 b2
      have hui := SameOutput_Unindent _ _ (SameOutput_Indent a b h)
      refine ⟨hst, by rw [a1, b1, hui.2.1], hsrc, ?_⟩
      rw [a1, a2, b2]
      exact hui.2.2.2
  · cases cb <;> simp only [Callback.isExec, Bool.false_eq_true] at hx
    · have hi := SameOutput_Indent a b h
      refine ⟨hst, ?_, hsrc, ?_⟩
      · simp only [Callback.run, execHeader_eq, EmitSource_depth]
        exact hi.2.1
      · simp only [Callback.run, execHeader_eq, EmitSource_depth, EmitSource_buffer]
        exact hi.2.2.2
    · have hu := SameOutput_Unindent a b h
      refine ⟨hst, ?_, hsrc, ?_⟩
      · simp only [Callback.run, execEnd_eq, EmitSource_depth]
        exact hu.2.1
      · simp only [Callback.run, execEnd_eq, EmitSource_depth, EmitSource_buffer]
        exact hu.2.2.2

theorem SameOutput_stream (stream : List Callback) (a b : GlslShaderTranslator)
    (h : SameOutput a b) :
    SameOutput (stream.foldl Callback.run a) (stream.foldl Callback.run b) := by
  induction stream generalizing a b with
  | nil => exact h
  | cons cb rest ih => exact ih _ _ (SameOutput_run a b cb h)

/-- The text of a translation is the same for two translators of the same
stage whose indentation buffers have the same size. -/
theorem Translate_congr (a b : GlslShaderTranslator) (vb : List VertexBinding)
    (stream : List Callback) (hs : a.shader_type_ = b.shader_type_)
    (hl : a.depth_prefix_.length = b.depth_prefix_.length) :
    (Translate a vb stream).2 = (Translate b vb stream).2 := by
  have h0 := SameOutput_Reset a b hs hl
  have h1 : SameOutput (StartTranslation (Reset a) vb) (StartTranslation (Reset b) vb) := by
    rw [StartTranslation_eq, StartTranslation_eq]
    have : (Reset a).shader_type_ = (Reset b).shader_type_ := hs
    rw [this]
    exact SameOutput_EmitSource _ _ _ h0
  have h2 := SameOutput_stream stream _ _ h1
  simp only [Translate, CompleteTranslation, EmitSource_source]
  rw [h2.2.2.1]

theorem poke_poke_same (buf : List Char) (i : Int) (c : Char) :
    poke (poke buf i c) i c = poke buf i c := by
  unfold poke
  split
  · simp
  · rfl

theorem Reset_Reset (t : GlslShaderTranslator) : Reset (Reset t) = Reset t := by
  simp only [Reset, poke_poke_same]

/-! ## The indentation invariant -/

theorem IndentInvariant_iff (t : GlslShaderTranslator) :
    IndentInvariant t ↔ t.depth_ % 2 = 0 ∧ PrefixOk t := Iff.rfl

theorem IndentInvariant_run (t : GlslShaderTranslator) (cb : Callback)
    (h : IndentInvariant t) (hroom : cb.callsIndent = true → HasRoom t)
    (hend : ∀ instr, cb = .execEnd instr → 2 ≤ t.depth_) :
    IndentInvariant (cb.run t) := by
  rw [IndentInvariant_iff] at h ⊢
  obtain ⟨he, hok⟩ := h
  cases hx : cb.isExec
  · obtain ⟨h1, h2⟩ := run_buffer t cb hx
    cases hi : cb.indents
    · simp only [hi, Bool.false_eq_true, if_false] at h1 h2
      refine ⟨by rw [h1]; exact he, ?_⟩
      unfold PrefixOk
      rw [h1, h2]
      exact hok
    · simp only [hi, if_true] at h1 h2
      have hr : HasRoom t := by
        apply hroom
        cases cb <;> simp_all [Callback.callsIndent, Callback.isExec]
      have hI := PrefixOk_Indent t hok hr
      have hU := PrefixOk_Unindent (Indent t) hI (by rw [Indent_depth]; have := hok.1; omega)
      refine ⟨?_, ?_⟩
      · rw [h1, Unindent_depth, Indent_depth]; omega
      · unfold PrefixOk
        rw [h1, h2]
        exact hU
  · cases cb <;> simp only [Callback.isExec, Bool.false_eq_true] at hx
    · have hr : HasRoom t := hroom rfl
      have hI := PrefixOk_Indent t hok hr
      simp only [Callback.run, execHeader_eq]
      exact ⟨by show (t.depth_ + 2) % 2 = 0; omega, hI⟩
    · have hU := PrefixOk_Unindent t hok (hend _ rfl)
      simp only [Callback.run, execEnd_eq]
      exact ⟨by show (t.depth_ - 2) % 2 = 0; omega, hU⟩

theorem leadingSpaces_replicate (n : Nat) (s : String) (h : s.data.head? ≠ some ' ') :
    leadingSpaces (String.mk (List.replicate n ' ') ++ s) = n := by
  unfold leadingSpaces
  simp only [String.data_append]
  induction n with
  | zero =>
    simp only [List.replicate_zero, List.nil_append]
    cases hs : s.data with
    | nil => rfl
    | cons c cs =>
      rw [hs] at h
      have hc : c ≠ ' ' := by simpa using h
      have hb : (c == ' ') = false := by simpa using hc
      simp [List.takeWhile, hb]
  | succ k ih =>
    simp only [List.replicate_succ, List.cons_append, List.takeWhile_cons, beq_self_eq_true,
      if_true, List.length_cons, ih]

/-! ## The guard of a conditional exec -/

theorem toString_one : toString (1 : Nat) = "1" := by decide

theorem toString_zero : toString (0 : Nat) = "0" := by decide

theorem execHeader_conditional (instr : ParsedExecInstruction) (h : instr.type = .kConditional) :
    execHeader instr =
      "if (" ++ (guardWord instr).render ++ " == " ++ (guardLiteral instr).render ++
        ") \x7b\n" := by
  obtain ⟨d, ty, i, c⟩ := instr
  simp only at h
  subst h
  cases c <;>
    simp only [execHeader, guardWord, guardLiteral, IntEx.render, Bool.false_eq_true, if_false,
      if_true, toString_one, toString_zero] <;>
    apply String.ext <;> simp

theorem guardHolds_eq (instr : ParsedExecInstruction) (w : Nat) :
    guardHolds instr w =
      if instr.condition then
        decide (instr.bool_constant_index % 32 = 0) && w.testBit 0
      else !w.testBit (instr.bool_constant_index % 32) := by
  have hk : instr.bool_constant_index % 32 < 32 := Nat.mod_lt _ (by decide)
  unfold guardHolds guardWord guardLiteral
  simp only [IntEx.value]
  generalize instr.bool_constant_index % 32 = k at hk
  have hk1 : k % 4294967296 = k := Nat.mod_eq_of_lt (by omega)
  have hp : (2 : Nat) ^ k < 4294967296 := by
    have : (2 : Nat) ^ k < 2 ^ 32 := Nat.pow_lt_pow_right (by decide) hk
    simpa using this
  have hword : (w % 4294967296) &&& 2 ^ k = (w.testBit k).toNat * 2 ^ k := by
    rw [Nat.and_two_pow]
    congr 2
    have : (4294967296 : Nat) = 2 ^ 32 := by norm_num
    rw [this, Nat.testBit_mod_two_pow]
    simp [hk]
  simp only [hk1, hk, if_true, Nat.one_shiftLeft, Nat.mod_eq_of_lt hp, Nat.one_mod, hword]
  cases hc : instr.condition
  · cases hb : w.testBit k
    · simp
    · simp
  · cases hb : w.testBit k
    · simp only [Bool.toNat_false, zero_mul, if_true]
      by_cases hk0 : k = 0
      · subst hk0
        simp [hb]
      · simp [hk0]
    · simp only [if_true, Bool.toNat_true, one_mul]
      by_cases hk0 : k = 0
      · subst hk0
        simp [hb]
      · have : (2 : Nat) ^ k ≠ 1 := by
          have h2 : 2 ^ 1 ≤ 2 ^ k := Nat.pow_le_pow_right (by decide) (by omega)
          omega
        simp [hk0, this]

/-! ## Lanes of a store -/

theorem afterLastDot_none (l : List Char) (h : '.' ∉ l) : afterLastDot l = none := by
  induction l with
  | nil => rfl
  | cons c cs ih =>
    have hc : c ≠ '.' := fun e => h (by simp [e])
    have hcs : '.' ∉ cs := fun e => h (List.mem_cons_of_mem _ e)
    simp [afterLastDot, ih hcs, hc]

theorem afterLastDot_append (a l : List Char) (h : '.' ∉ l) :
    afterLastDot (a ++ '.' :: l) = some l := by
  induction a with
  | nil => simp [afterLastDot, afterLastDot_none l h]
  | cons c cs ih => simp [afterLastDot, ih]

theorem swizzleChar_ne_dot (c : SwizzleSource) : GetCharForSwizzle c ≠ '.' := by
  cases c <;> decide

theorem swizzleChar_ne_paren (c : SwizzleSource) : GetCharForSwizzle c ≠ ')' := by
  cases c <;> decide

theorem storeSwizzleLetters_no_dot (r : InstructionResult) : '.' ∉ storeSwizzleLetters r := by
  unfold storeSwizzleLetters
  intro h
  obtain ⟨j, _, hj⟩ := List.mem_map.1 h
  exact swizzleChar_ne_dot _ hj

theorem storeSwizzleLetters_last (r : InstructionResult) (hw : r.has_any_writes = true) :
    (storeSwizzleLetters r).getLast? ≠ some ')' := by
  have hne : storeSwizzleLetters r ≠ [] := by
    unfold storeSwizzleLetters
    simpa using writtenLanes_ne_nil r hw
  rw [List.getLast?_eq_getLast _ hne]
  intro h
  have hmem := List.getLast_mem hne
  rw [Option.some.inj h] at hmem
  unfold storeSwizzleLetters at hmem
  obtain ⟨j, _, hj⟩ := List.mem_map.1 hmem
  exact swizzleChar_ne_paren _ hj

theorem writtenLanes_length (r : InstructionResult) (hw : r.has_any_writes = true) :
    1 ≤ (writtenLanes r).length ∧ (writtenLanes r).length ≤ 4 := by
  refine ⟨List.length_pos.2 (writtenLanes_ne_nil r hw), ?_⟩
  unfold writtenLanes
  exact le_trans (List.length_filter_le _ _) (by simp)

theorem unclamped_clamp (e : List Char) :
    unclamped ("clamp(".data ++ e ++ ", 0.0, 1.0)".data) = e := by
  unfold unclamped
  have h1 : "clamp(".data.isPrefixOf ("clamp(".data ++ e ++ ", 0.0, 1.0)".data) = true := by
    rw [ List.isPrefixOf_iff_prefix, List.append_assoc]
    exact List.prefix_append _ _
  have h2 : ", 0.0, 1.0)".data.isSuffixOf ("clamp(".data ++ e ++ ", 0.0, 1.0)".data) = true := by
    rw [List.isSuffixOf_iff_suffix]
    exact List.suffix_append _ _
  rw [if_pos ⟨h1, h2⟩]
  have hl : ("clamp(".data ++ e ++ ", 0.0, 1.0)".data).length - 6 - 11 = e.length := by
    have a1 : "clamp(".data.length = 6 := rfl
    have a2 : ", 0.0, 1.0)".data.length = 11 := rfl
    rw [List.length_append, List.length_append, a1, a2]
    omega
  rw [hl, List.append_assoc]
  have a1 : "clamp(".data.length = 6 := rfl
  rw [← a1, List.drop_left, List.take_left]

theorem unclamped_of_head (e : List Char) (c : Char) (rest : List Char) (he : e = c :: rest)
    (hc : c ≠ 'c') : unclamped e = e := by
  unfold unclamped
  have h1 : "clamp(".data.isPrefixOf e = false := by
    rw [he]
    simp [List.isPrefixOf, hc.symm]
  simp [h1]

/-- Lanes of a right-hand side read through `clamp(…, 0.0, 1.0)`: those of the
text inside. -/
theorem valueLanes_clampWrap (c : Bool) (e : String) (hd : Char) (rest : List Char)
    (he : e.data = hd :: rest) (hc : hd ≠ 'c') :
    valueLanes (clampWrap c e) = valueLanes e := by
  unfold valueLanes clampWrap
  cases c
  · rfl
  · simp only [if_true, String.data_append]
    rw [unclamped_clamp, unclamped_of_head e.data hd rest he hc]

theorem valueLanes_temp (temp : String) (ht : temp = "pv" ∨ temp = "vec4(ps)") :
    valueLanes temp = some 4 := by
  rcases ht with h | h <;> subst h <;> decide

theorem valueLanes_swizzle (temp : String) (ht : temp = "pv" ∨ temp = "vec4(ps)")
    (letters : List Char) (hd : '.' ∉ letters) (hl : letters.getLast? ≠ some ')')
    (hne : letters ≠ []) :
    valueLanes (temp ++ "." ++ String.mk letters) = some letters.length := by
  have hdata : (temp ++ "." ++ String.mk letters).data = temp.data ++ '.' :: letters := by
    simp
  have hhead : ∃ c rest, (temp ++ "." ++ String.mk letters).data = c :: rest ∧ c ≠ 'c' := by
    rcases ht with h | h <;> subst h
    · exact ⟨'p', _, by rw [hdata]; rfl, by decide⟩
    · exact ⟨'v', _, by rw [hdata]; rfl, by decide⟩
  obtain ⟨c, rest, hc1, hc2⟩ := hhead
  unfold valueLanes
  simp only []
  rw [unclamped_of_head _ c rest hc1 hc2, hdata]
  have hlast : (temp.data ++ '.' :: letters).getLast? = letters.getLast? := by
    rw [List.getLast?_append]
    cases hq : letters.getLast? with
    | none =>
      rw [List.getLast?_eq_none_iff] at hq
      exact absurd hq hne
    | some x =>
      have : ('.' :: letters).getLast? = some x := by
        cases letters with
        | nil => exact absurd rfl hne
        | cons y ys => rw [List.getLast?_cons_cons]; exact hq
      simp [this]
  rw [hlast, if_neg hl, afterLastDot_append _ _ hd]

theorem toString_digit (k : Nat) (h1 : 1 ≤ k) (h4 : k ≤ 4) :
    (toString k).data = [Nat.digitChar k] ∧ (Nat.digitChar k).isDigit = true ∧
      (Nat.digitChar k).toNat - 48 = k := by
  interval_cases k <;> decide

theorem valueLanes_vec (k : Nat) (h1 : 1 ≤ k) (h4 : k ≤ 4) (args : String) :
    valueLanes ("vec" ++ toString k ++ "(" ++ args ++ ")") = some k := by
  obtain ⟨hk, hdg, hv⟩ := toString_digit k h1 h4
  have hdata : ("vec" ++ toString k ++ "(" ++ args ++ ")").data =
      'v' :: 'e' :: 'c' :: Nat.digitChar k :: '(' :: (args.data ++ [')']) := by
    simp [hk]
  unfold valueLanes
  simp only []
  rw [unclamped_of_head _ 'v' _ hdata (by decide), hdata]
  have hlast : ('v' :: 'e' :: 'c' :: Nat.digitChar k :: '(' :: (args.data ++ [')'])).getLast? =
      some ')' := by
    have : 'v' :: 'e' :: 'c' :: Nat.digitChar k :: '(' :: (args.data ++ [')']) =
        ('v' :: 'e' :: 'c' :: Nat.digitChar k :: '(' :: args.data) ++ [')'] := by simp
    rw [this, List.getLast?_append]
    simp
  rw [if_pos hlast]
  simp [hdg, hv]

theorem storeRhs_head (r : InstructionResult) (temp : String)
    (ht : temp = "pv" ∨ temp = "vec4(ps)") :
    ∃ c rest, (storeRhs r temp).data = c :: rest ∧ c ≠ 'c' := by
  unfold storeRhs vecRhs
  split
  · rcases ht with h | h <;> subst h
    · exact ⟨'p', _, rfl, by decide⟩
    · exact ⟨'v', _, rfl, by decide⟩
  · split
    · exact ⟨'v', _, by simp; rfl, by decide⟩
    · rcases ht with h | h <;> subst h
      · exact ⟨'p', _, by simp; rfl, by decide⟩
      · exact ⟨'v', _, by simp; rfl, by decide⟩

/-- Lanes of the right-hand side of a store: four for a standard result, else
the number of written lanes. -/
theorem valueLanes_storeRhs (r : InstructionResult) (temp : String)
    (hw : r.has_any_writes = true) (ht : temp = "pv" ∨ temp = "vec4(ps)") :
    valueLanes (clampWrap r.is_clamped (storeRhs r temp)) =
      some (if r.is_standard_swizzle then 4 else (writtenLanes r).length) := by
  obtain ⟨c, rest, h1, h2⟩ := storeRhs_head r temp ht
  rw [valueLanes_clampWrap _ _ c rest h1 h2]
  unfold storeRhs
  cases hs : r.is_standard_swizzle
  · simp only [Bool.false_eq_true, if_false]
    cases hc : hasConstWrite r
    · simp only [Bool.false_eq_true, if_false]
      rw [valueLanes_swizzle temp ht _ (storeSwizzleLetters_no_dot r)
        (storeSwizzleLetters_last r hw)
        (by unfold storeSwizzleLetters; simpa using writtenLanes_ne_nil r hw)]
      simp [storeSwizzleLetters]
    · simp only [if_true]
      unfold vecRhs
      obtain ⟨k1, k4⟩ := writtenLanes_length r hw
      exact valueLanes_vec _ k1 k4 _
  · simp only [if_true]
    exact valueLanes_temp temp ht

theorem selectedLanes_storeSelector (r : InstructionResult) (lanes : Nat) :
    selectedLanes lanes (storeSelector r) =
      if r.is_standard_swizzle then lanes else (writtenLanes r).length := by
  unfold selectedLanes storeSelector
  cases r.is_standard_swizzle
  · simp [maskLetters]
  · rfl

theorem storeLine_parts (r : InstructionResult) (temp : String) :
    storeLine r temp =
      destRoot r.storage_target ++ destIndex r ++ storeSelector r ++ " = " ++
        clampWrap r.is_clamped (storeRhs r temp) ++ ";\n" := by
  simp only [storeLine, storeTail, storeSelector, String.append_assoc]

/-! ## The scalar predicate setters -/

theorem ScalarReads_unique (op : AluScalarOpcode) (s : ShaderState) (a b : Outcome)
    (ha : ScalarReads op s a) (hb : ScalarReads op s b) : a = b := by
  obtain ⟨body, h1, _, h2⟩ := ha
  obtain ⟨body2, h3, _, h4⟩ := hb
  rw [h1] at h3
  cases h3
  rw [h2] at h4
  exact Option.some.inj h4

theorem FVal_eq_one_zero : FVal.eq (.fin 1) (.fin 0) = false := by
  simp [FVal.eq]

theorem FVal_eq_zero_zero : FVal.eq (.fin 0) (.fin 0) = true := by
  simp [FVal.eq]

theorem FVal_eq_fltMax_zero : FVal.eq (.fin FLT_MAX) (.fin 0) = false := by
  simp [FVal.eq, FLT_MAX]

/-- After a comparison setter, `p0` and `ps == 0.0` agree. -/
theorem setp_agree (s : ShaderState) (b : Bool) :
    let s' : ShaderState := { s with p0 := b, ps := if b then .fin 0 else .fin 1 }
    (s'.p0 = true ↔ s'.ps.eq (.fin 0) = true) := by
  cases b <;> simp [FVal_eq_one_zero, FVal_eq_zero_zero]

theorem le_zero_false_ne_zero (v : FVal) (h : v.le (.fin 0) = false) :
    v.eq (.fin 0) = false := by
  cases v with
  | fin q =>
    simp only [FVal.le, FVal.eq, decide_eq_false_iff_not] at h ⊢
    intro h0
    exact h (le_of_eq h0)
  | posInf => rfl
  | negInf => rfl
  | nan => rfl

theorem sub_one_pos_ne_zero (x : FVal) (h : (x.sub (.fin 1)).le (.fin 0) = false) :
    (x.sub (.fin 1)).eq (.fin 0) = false :=
  le_zero_false_ne_zero _ h

/-! ## The lanes of `pv` assigned before a store -/

theorem pathStep_skip (f : List Char → List Char) (s : PathState) (l : String)
    (hs : s.mode = 0) (ho : opensIf l = false) (hf : f l.data = []) : pathStep f s l = s := by
  obtain ⟨m, a, b, c⟩ := s
  simp only at hs
  subst hs
  simp [pathStep, ho, hf]

theorem pathFold_skip (f : List Char → List Char) (ls : List String) (s : PathState)
    (hs : s.mode = 0) (h : ∀ l ∈ ls, opensIf l = false ∧ f l.data = []) :
    ls.foldl (pathStep f) s = s := by
  induction ls with
  | nil => rfl
  | cons l rest ih =>
    rw [List.foldl_cons, pathStep_skip f s l hs (h l (List.mem_cons_self _ _)).1
      (h l (List.mem_cons_self _ _)).2]
    exact ih (fun m hm => h m (List.mem_cons_of_mem _ hm))

/-- Lines at the margin that open no conditional and assign no lane do not
change the lanes assigned on every path. -/
theorem assignedOnEveryPath_skip (f : List Char → List Char) (ls body : List String)
    (h : ∀ l ∈ ls, opensIf l = false ∧ f l.data = []) :
    assignedOnEveryPath f (ls ++ body) = assignedOnEveryPath f body := by
  unfold assignedOnEveryPath
  rw [List.foldl_append, pathFold_skip f ls _ rfl h]

theorem loadLine_skip (stage : ShaderType) (i : Nat) (op : InstructionOperand) :
    opensIf (loadLine stage i op) = false ∧ pvLanesOf (loadLine stage i op).data = [] := by
  have h : ∃ rest, (loadLine stage i op).data = 's' :: 'r' :: 'c' :: rest :=
    ⟨_, by simp [loadLine, loadLineWith]; rfl⟩
  obtain ⟨rest, hr⟩ := h
  constructor
  · simp [opensIf, hr, List.isPrefixOf]
  · simp [pvLanesOf, hr, List.isPrefixOf]

theorem loadLines_skip (stage : ShaderType) (n : Nat) (ops : Arr3 InstructionOperand) :
    ∀ l ∈ loadLines stage n ops, opensIf l = false ∧ pvLanesOf l.data = [] := by
  intro l hl
  simp only [loadLines, List.mem_map] at hl
  obtain ⟨i, _, rfl⟩ := hl
  exact loadLine_skip _ _ _

theorem fetchLoadLines_skip (stage : ShaderType) (skip : InstructionStorageSource) (n : Nat)
    (ops : Arr3 InstructionOperand) :
    ∀ l ∈ fetchLoadLines stage skip n ops, opensIf l = false ∧ pvLanesOf l.data = [] := by
  intro l hl
  simp only [fetchLoadLines, List.mem_map] at hl
  obtain ⟨i, _, rfl⟩ := hl
  exact loadLine_skip _ _ _

theorem vectorOpcodeBody_lanes (op : AluVectorOpcode) :
    (∀ lane ∈ ['x', 'y', 'z', 'w'], lane ∈ assignedOnEveryPath pvLanesOf (vectorOpcodeBody op)) ∧
      (∀ lane ∈ assignedOnEveryPath pvLanesOf (vectorOpcodeBody op),
        lane ∈ ['x', 'y', 'z', 'w']) := by
  cases op <;> decide

theorem opensIf_of (mid : List Char) :
    opensIf (String.mk ("if (".data ++ mid ++ "\x7b\n".data)) = true := by
  unfold opensIf
  rw [Bool.and_eq_true]
  constructor
  · simp [List.isPrefixOf]
  · rw [List.isSuffixOf_iff_suffix]
    exact List.suffix_append _ _

/-- The lanes assigned on every path by a conditional with one assignment to
the whole of `pv` in each branch. -/
theorem assigned_ifElse (c a b : String) (mid ra rb : List Char)
    (hc : c.data = "if (".data ++ mid ++ "\x7b\n".data)
    (ha : a.data = "  pv = ".data ++ ra) (hb : b.data = "  pv = ".data ++ rb) :
    assignedOnEveryPath pvLanesOf [c, a, "\x7d else \x7b\n", b, "\x7d\n"] =
      ['x', 'y', 'z', 'w'] := by
  have hopen : opensIf c = true := by
    have : c = String.mk ("if (".data ++ mid ++ "\x7b\n".data) := String.ext hc
    rw [this]
    exact opensIf_of mid
  have ha1 : a ≠ "\x7d else \x7b\n" := by
    intro h
    rw [h] at ha
    simp at ha
  have ha2 : a ≠ "\x7d\n" := by
    intro h
    rw [h] at ha
    simp at ha
  have hb2 : b ≠ "\x7d\n" := by
    intro h
    rw [h] at hb
    simp at hb
  have hla : branchLanes pvLanesOf a = ['x', 'y', 'z', 'w'] := by
    simp [branchLanes, ha, pvLanesOf, List.isPrefixOf]
  have hlb : branchLanes pvLanesOf b = ['x', 'y', 'z', 'w'] := by
    simp [branchLanes, hb, pvLanesOf, List.isPrefixOf]
  simp [assignedOnEveryPath, List.foldl, pathStep, hopen, ha1, ha2, hb2, hla, hlb]

theorem textureFetchBody_lanes (d : TextureDimension) (k : Int) :
    assignedOnEveryPath pvLanesOf (textureFetchBody d k) = ['x', 'y', 'z', 'w'] := by
  cases d <;>
    exact assigned_ifElse _ _ _ ("state.texture_samplers[".data ++ (toString k).data ++
      "] != 0) ".data) _ _ (by simp) (by simp; rfl) (by simp; rfl)

theorem textureOpcodeLines_lanes (instr : ParsedTextureFetchInstruction)
    (h : textureOpcodeAssignsPv instr.opcode = true) :
    assignedOnEveryPath pvLanesOf (textureOpcodeLines instr) = ['x', 'y', 'z', 'w'] := by
  revert h
  unfold textureOpcodeLines
  cases instr.opcode <;> intro h <;> first | exact absurd h (by decide) | skip
  case kTextureFetch => exact textureFetchBody_lanes _ _
  all_goals
    dsimp only
    decide

theorem vertexFetchLine_lanes (data_format : VertexFormat) (k : Nat) (o : Int) :
    assignedOnEveryPath pvLanesOf
      ["pv." ++ String.mk ((List.range (GetVertexFormatComponentCount data_format)).map
          GetCharForComponentIndex) ++ " = vf" ++ toString k ++ "_" ++ toString o ++ ";\n"] =
      vertexFetchLanes data_format := by
  cases data_format <;>
    simp [assignedOnEveryPath, List.foldl, pathStep, opensIf, pvLanesOf, vertexFetchLanes,
      GetVertexFormatComponentCount, List.range, List.range.loop, GetCharForComponentIndex,
      GetSwizzleFromComponentIndex, GetCharForSwizzle, List.isPrefixOf, isLaneLetter,
      List.takeWhile]

theorem vertexFetchLanes_count (data_format : VertexFormat) :
    1 ≤ (vertexFetchLanes data_format).length ∧ (vertexFetchLanes data_format).length ≤ 4 ∧
      vertexFetchLanes data_format =
        ['x', 'y', 'z', 'w'].take (GetVertexFormatComponentCount data_format) := by
  cases data_format <;> decide

theorem vertexFetchLine_assignsPv (data_format : VertexFormat) (k : Nat) (o : Int) :
    assignsPv ("pv." ++ String.mk (vertexFetchLanes data_format) ++ " = vf" ++ toString k ++
      "_" ++ toString o ++ ";\n") = true := by
  cases data_format <;>
    simp [assignsPv, pvLanesOf, vertexFetchLanes, GetVertexFormatComponentCount, List.range,
      List.range.loop, GetCharForComponentIndex, GetSwizzleFromComponentIndex,
      GetCharForSwizzle, List.dropWhile, List.isPrefixOf, isLaneLetter, List.takeWhile]

theorem fetchLoadLines_filter_assignsPv (stage : ShaderType) (skip : InstructionStorageSource)
    (n : Nat) (ops : Arr3 InstructionOperand) :
    (fetchLoadLines stage skip n ops).filter assignsPv = [] := by
  rw [List.filter_eq_nil_iff]
  intro l hl
  have h := fetchLoadLines_not_assignsPv stage skip n ops
  rw [List.any_eq_false] at h
  exact h l hl

/-! ## Rounding to binary32 -/

/-- `FLT_MAX` is the largest finite binary32 number. -/
theorem FLT_MAX_eq : FLT_MAX = 2 ^ 128 - 2 ^ 104 := by
  norm_num [FLT_MAX]

set_option maxRecDepth 10000 in
/-- The decimal literal `3.402823466e+38` rounds to `FLT_MAX`, which rounds to
itself. -/
theorem round32_fltMax :
    round32 340282346600000000000000000000000000000 = .fin FLT_MAX ∧
    round32 FLT_MAX = .fin FLT_MAX := by
  decide

set_option maxRecDepth 10000 in
/-- In binary32 `2^25 - 1` is `2^25`: the difference lies halfway between
`2^25 - 2` and `2^25`, and the latter has the even significand. -/
theorem sub_one_rounds : (FVal.fin 33554432).sub (.fin 1) = .fin 33554432 := by
  simp only [FVal.sub, FVal.add, FVal.neg]
  norm_num
  decide

set_option maxRecDepth 10000 in
/-- In binary32 `2^25 + 1` is `2^25`. -/
theorem add_one_rounds : (FVal.fin 33554432).add (.fin 1) = .fin 33554432 := by
  simp only [FVal.add]
  norm_num
  decide

set_option maxRecDepth 10000 in
/-- In binary32 the product `2^100 * 2^100` overflows to positive infinity. -/
theorem mul_overflows :
    (FVal.fin 1267650600228229401496703205376).mul (.fin 1267650600228229401496703205376) =
      .posInf := by
  simp only [FVal.mul]
  norm_num
  decide

/-- What the statements of `setp_pop` do. -/
theorem setpPop_reads (s : ShaderState) :
    ScalarReads .kSetpPop s (.completed
      (if (s.src.e0.e0.sub (.fin 1)).le (.fin 0) then { s with p0 := true, ps := .fin 0 }
       else { s with p0 := false, ps := s.src.e0.e0.sub (.fin 1) })) := by
  refine scalarReads_of _ _ _ _ rfl ?_
  cases h1 : (s.src.e0.e0.sub (.fin 1)).le (.fin 0) <;>
    simp [runBody, Stmt.run, runSimples, Ex.value, BinOp.apply, Arr3.get, Vec4.get, h1]

/-- What the statement of `muls_prev2` does. -/
theorem mulsPrev2_reads (s : ShaderState) :
    ScalarReads .kMulsPrev2 s (.completed { s with
      ps :=
        if s.ps.eq (.fin (-FLT_MAX)) || s.ps.isinf || s.ps.isnan || s.src.e0.e1.isnan ||
            s.src.e0.e1.le (.fin 0)
        then .fin (-FLT_MAX) else s.src.e0.e0.mul s.ps }) := by
  refine scalarReads_of _ _ _ _ rfl ?_
  cases h : s.ps.eq (.fin (-FLT_MAX)) || s.ps.isinf || s.ps.isnan || s.src.e0.e1.isnan ||
      s.src.e0.e1.le (.fin 0) <;>
    simp [runBody, Stmt.run, runSimples, Ex.value, apply_or, apply_eq, apply_le, apply_mul,
      Arr3.get, Vec4.get, FVal.neg, h]

/-- Over the rationals the helper `cube` read over any arithmetic is the
helper `cube` read over the rationals. -/
theorem cubeWith_rationalOps (src0 src1 : Vec4 ℚ) :
    cubeWith rationalOps src0 src1 = cube src0 src1 := by
  unfold cube cubeWith cubeFace rationalOps
  simp only [gt_iff_lt, Bool.and_eq_true, decide_eq_true_eq]
  split_ifs <;> rfl

/-- The helper `cube` over any arithmetic reads the lanes x, y, z of `src1`
only. -/
theorem cubeWith_congr {α : Type} (ops : FloatOps α) (src0 src0' src1 src1' : Vec4 α)
    (hx : src1.e0 = src1'.e0) (hy : src1.e1 = src1'.e1) (hz : src1.e2 = src1'.e2) :
    cubeWith ops src0 src1 = cubeWith ops src0' src1' := by
  unfold cubeWith
  rw [hx, hy, hz]

/-! ## The claims -/

/-- C1: for a non-predicated vector or scalar ALU instruction, the text that
`ProcessAluInstruction` appends is the `// ` disassembly comment, one operand
load for each i from 0 to operand_count-1 in increasing i, the opcode body,
and last the store if the result has writes; for vector `add` on r0, r1 into
r2 the statements after the comment are `src0 = r[0];`, `src1 = r[1];`,
`pv = src0 + src1;`, `r[2] = pv;`. -/
theorem ProcessAluInstruction_order (t : GlslShaderTranslator) (instr : ParsedAluInstruction)
    (hp : instr.is_predicated = false) (hty : instr.type ≠ .kNop) :
    (ProcessAluInstruction t instr).source_ =
        t.source_ ++ "// " ++ instr.disassembly ++
          indented (indent t)
            ((List.range instr.operand_count).map
              (fun i => loadLine t.shader_type_ i (instr.operands.get i))) ++
          indented (indent t) (aluOpcodeLines instr) ++
          (if instr.result.has_any_writes then
            indent t ++ storeLine instr.result (aluTemp instr) else "") ∧
      (∀ d : String, (ProcessAluInstruction t (addExample d)).source_ =
        t.source_ ++ "// " ++ d ++ indent t ++ "src0 = r[0];\n" ++ indent t ++ "src1 = r[1];\n" ++
          indent t ++ "pv = src0 + src1;\n" ++ indent t ++ "r[2] = pv;\n") := by
  have key : ∀ instr : ParsedAluInstruction, instr.is_predicated = false →
      instr.type ≠ .kNop →
      (ProcessAluInstruction t instr).source_ =
        t.source_ ++ "// " ++ instr.disassembly ++
          indented (indent t) (loadLines t.shader_type_ instr.operand_count instr.operands) ++
          indented (indent t) (aluOpcodeLines instr) ++
          (if instr.result.has_any_writes then
            indent t ++ storeLine instr.result (aluTemp instr) else "") := by
    intro instr hp hty
    rw [(ProcessAluInstruction_emits t instr hty).1, hp]
    simp only [guardText, closeText, bodyState, Bool.false_eq_true, if_false, aluLines,
      indented_append, storeLines]
    cases instr.result.has_any_writes <;> apply String.ext <;> simp [indented]
  refine ⟨key instr hp hty, ?_⟩
  intro d
  have h0 : loadLine t.shader_type_ 0 (registerOperand 0) = "src0 = r[0];\n" := by
    cases t.shader_type_ <;> decide
  have h1 : loadLine t.shader_type_ 1 (registerOperand 1) = "src1 = r[1];\n" := by
    cases t.shader_type_ <;> decide
  have h2 : storeLine (registerResult 2) "pv" = "r[2] = pv;\n" := by decide
  have hl : loadLines t.shader_type_ 2 ⟨registerOperand 0, registerOperand 1, registerOperand 0⟩ =
      ["src0 = r[0];\n", "src1 = r[1];\n"] := by
    simp only [loadLines, List.range_succ, List.range_zero, List.nil_append, List.map_cons,
      List.cons_append, List.map_nil, Arr3.get, h0, h1]
  rw [key (addExample d) rfl (by simp [addExample])]
  simp only [addExample, hl, aluOpcodeLines, vectorOpcodeBody, aluTemp, h2, indented]
  apply String.ext
  simp [registerResult, InstructionResult.has_any_writes, Arr3.get, h0, h1]

/-- Witness of C1: the scenario "add two registers" on a fresh translator. -/
theorem ProcessAluInstruction_order_witness :
    ((addExample "").is_predicated = false ∧ (addExample "").type ≠ .kNop) ∧
    (ProcessAluInstruction (freshTranslator .kVertex) (addExample "")).source_ =
      "// " ++ "  src0 = r[0];\n" ++ "  src1 = r[1];\n" ++ "  pv = src0 + src1;\n" ++
        "  r[2] = pv;\n" := by
  refine ⟨⟨rfl, by decide⟩, ?_⟩
  rw [(ProcessAluInstruction_order (freshTranslator .kVertex) (addExample "") rfl
    (by decide)).1]
  decide

/-- C2: `EmitLoadOperand` appends the indentation and then `src<i> = `, `-` iff
negated, `abs(` iff absolute-value, the root chosen by storage source, the
bracketed index, `)` iff absolute-value, the swizzle suffix and `;`; what
follows the indentation is one line; for a negated absolute-value register
operand the line reads `-abs(r[k])` followed by the swizzle suffix. -/
theorem EmitLoadOperand_appends_load_line (t : GlslShaderTranslator) (i : Nat)
    (op : InstructionOperand) :
    (EmitLoadOperand t i op).source_ =
        t.source_ ++ indent t ++ "src" ++ toString i ++ " = " ++
          (if op.is_negated then "-" else "") ++
          (if op.is_absolute_value then "abs(" else "") ++
          operandRoot op.storage_source ++ operandIndex t.shader_type_ op ++
          (if op.is_absolute_value then ")" else "") ++
          swizzleSuffix op ++ ";\n" ∧
      ((EmitLoadOperand t i op).source_ = t.source_ ++ indent t ++ loadLine t.shader_type_ i op ∧
        IsLine (loadLine t.shader_type_ i op)) ∧
      (operandRoot .kRegister = "r" ∧ operandRoot .kConstantFloat = "state.float_consts" ∧
        operandRoot .kConstantInt = "state.loop_consts" ∧
        operandRoot .kConstantBool = "state.bool_consts") ∧
      (∀ (k : Int) (n : Nat) (c : Vec4 SwizzleSource) (std : Bool),
        (EmitLoadOperand t i
            { storage_source := .kRegister, storage_index := k,
              storage_addressing_mode := .kStatic, is_negated := true,
              is_absolute_value := true, component_count := n, components := c,
              is_standard_swizzle := std }).source_ =
          t.source_ ++ indent t ++ "src" ++ toString i ++ " = -abs(r[" ++ toString k ++ "])" ++
            swizzleSuffix
              { storage_source := .kRegister, storage_index := k,
                storage_addressing_mode := .kStatic, is_negated := true,
                is_absolute_value := true, component_count := n, components := c,
                is_standard_swizzle := std } ++ ";\n") := by
  refine ⟨?_, ⟨?_, loadLine_isLine _ _ _⟩, ⟨rfl, rfl, rfl, rfl⟩, ?_⟩
  · rw [EmitLoadOperand_eq]
    apply String.ext
    simp [loadLine, loadLineWith]
  · rw [EmitLoadOperand_eq, EmitSource_source, String.append_assoc]
  · intro k n c std
    rw [EmitLoadOperand_eq]
    apply String.ext
    simp [loadLine, loadLineWith, operandRoot, operandIndex, addressSuffix]

/-- C3: for an operand whose swizzle is not standard and whose component count
n is in 1..4, `EmitLoadOperand` emits `.` and exactly four swizzle letters:
c0 c0 c0 c0 for n = 1, c0 c1 c1 c1 for n = 2, c0 c1 c2 c2 for n = 3 and
c0 c1 c2 c3 for n = 4; for a standard swizzle it emits no suffix. -/
theorem EmitLoadOperand_swizzle_letters (t : GlslShaderTranslator) (i : Nat)
    (op : InstructionOperand)
    (hn : 1 ≤ op.component_count ∧ op.component_count ≤ 4) :
    (EmitLoadOperand t i op).source_ =
      t.source_ ++ indent t ++
        loadLineWith i op (operandIndex t.shader_type_ op)
          (if op.is_standard_swizzle then ""
           else "." ++ String.mk
            (if op.component_count = 1 then
              [GetCharForSwizzle op.components.e0, GetCharForSwizzle op.components.e0,
               GetCharForSwizzle op.components.e0, GetCharForSwizzle op.components.e0]
             else if op.component_count = 2 then
              [GetCharForSwizzle op.components.e0, GetCharForSwizzle op.components.e1,
               GetCharForSwizzle op.components.e1, GetCharForSwizzle op.components.e1]
             else if op.component_count = 3 then
              [GetCharForSwizzle op.components.e0, GetCharForSwizzle op.components.e1,
               GetCharForSwizzle op.components.e2, GetCharForSwizzle op.components.e2]
             else
              [GetCharForSwizzle op.components.e0, GetCharForSwizzle op.components.e1,
               GetCharForSwizzle op.components.e2, GetCharForSwizzle op.components.e3])) := by
  rw [EmitLoadOperand_eq, EmitSource_source, String.append_assoc]
  congr 2
  unfold loadLine
  congr 1
  unfold swizzleSuffix
  cases op.is_standard_swizzle
  · simp only [Bool.false_eq_true, if_false]
    congr 2
    obtain ⟨h1, h4⟩ := hn
    have h : op.component_count = 1 ∨ op.component_count = 2 ∨ op.component_count = 3 ∨
        op.component_count = 4 := by omega
    rcases h with h | h | h | h <;>
      simp [swizzleLetters, h, Vec4.get, List.range_succ]
  · rfl

/-- Witness of C3: three components `y x z` give the suffix `.yxzz`. -/
theorem EmitLoadOperand_swizzle_letters_witness :
    (EmitLoadOperand (freshTranslator .kPixel) 0 swizzledOperand).source_ =
      "  src0 = -abs(state.float_consts[256+5]).yxzz;\n" := by
  have h := EmitLoadOperand_swizzle_letters (freshTranslator .kPixel) 0 swizzledOperand
    (by decide)
  rw [h]
  decide

/-- C4: `EmitLoadOperand` puts `256+` in front of the index of a constant-float
operand exactly in the pixel stage (`[256+k]`, `[256+k+a0]`, `[256+k+aL]`), and
emits the bare index (`[k]`, `[k+a0]`, `[k+aL]`) in the vertex stage and for
every other storage source in both stages; in the pixel stage constant-float 5
loads as `src0 = state.float_consts[256+5];`. -/
theorem EmitLoadOperand_float_const_offset (t : GlslShaderTranslator) (i : Nat)
    (op : InstructionOperand) :
    (EmitLoadOperand t i op).source_ =
        t.source_ ++ indent t ++
          loadLineWith i op
            ((if op.storage_source = .kConstantFloat ∧ t.shader_type_ = .kPixel then "[256+"
              else "[") ++
              toString op.storage_index ++
              (match op.storage_addressing_mode with
               | .kStatic => "]"
               | .kAddressAbsolute => "+a0]"
               | .kAddressRelative => "+aL]"))
            (swizzleSuffix op) ∧
      (EmitLoadOperand { t with shader_type_ := .kPixel } 0 (floatConstOperand 5)).source_ =
        t.source_ ++ indent t ++ "src0 = state.float_consts[256+5];\n" := by
  constructor
  · rw [EmitLoadOperand_eq, EmitSource_source, String.append_assoc]
    congr 2
    unfold loadLine
    congr 1
    unfold operandIndex
    cases op.storage_addressing_mode <;> split_ifs <;> apply String.ext <;>
      simp [addressSuffix]
  · rw [EmitLoadOperand_eq, EmitSource_source, String.append_assoc]
    congr 1

/-- C5: for every vector ALU, scalar ALU, vertex-fetch and texture-fetch
instruction, the emitted text is the comment, the guard if any, the body lines
and the closing brace if any; if the result has writes, exactly one body line
assigns to a destination, the store line of the declared destination, which
comes last; if the result has no writes, `EmitStoreResult` appends nothing and
no body line assigns to a destination. Guard and closing brace assign to
none. -/
theorem store_emitted_once (t : GlslShaderTranslator) :
    (∀ (r : InstructionResult) (temp : String), r.has_any_writes = false →
      EmitStoreResult t r temp = t) ∧
    (∀ instr : ParsedAluInstruction, instr.type ≠ .kNop →
      StoresOnce t (ProcessAluInstruction t instr) instr.is_predicated
        instr.predicate_condition instr.disassembly (aluLines t.shader_type_ instr)
        instr.result.has_any_writes (storeLine instr.result (aluTemp instr))) ∧
    (∀ instr : ParsedVertexFetchInstruction,
      StoresOnce t (ProcessVertexFetchInstruction t instr) instr.is_predicated
        instr.predicate_condition instr.disassembly (vertexFetchLines t.shader_type_ instr)
        instr.result.has_any_writes (storeLine instr.result "pv")) ∧
    (∀ instr : ParsedTextureFetchInstruction,
      StoresOnce t (ProcessTextureFetchInstruction t instr) instr.is_predicated
        instr.predicate_condition instr.disassembly (textureFetchLines t.shader_type_ instr)
        instr.result.has_any_writes (storeLine instr.result "pv")) ∧
    (isDestinationAssignment (guardLine true) = false ∧
      isDestinationAssignment (guardLine false) = false ∧
      isDestinationAssignment "\x7d\n" = false) := by
  refine ⟨?_, ?_, ?_, ?_, by decide⟩
  · intro r temp h
    rw [EmitStoreResult_eq, h]
    rfl
  · intro instr hty
    obtain ⟨h1, h2⟩ := store_is_only_destination
      (loadLines t.shader_type_ instr.operand_count instr.operands ++ aluOpcodeLines instr)
      instr.result (aluTemp instr)
      (by
        intro l hl
        rcases List.mem_append.mp hl with hl | hl
        · exact loadLines_not_destination _ _ _ l hl
        · exact aluOpcodeLines_not_destination _ l hl)
    refine ⟨?_, h1, h2⟩
    rw [(ProcessAluInstruction_emits t instr hty).1]
    simp only [String.append_assoc]
  · intro instr
    obtain ⟨h1, h2⟩ := store_is_only_destination (vertexFetchBodyLines t.shader_type_ instr)
      instr.result "pv" (vertexFetchBodyLines_not_destination _ _)
    refine ⟨?_, h1, h2⟩
    rw [(ProcessVertexFetchInstruction_emits t instr).1]
    simp only [String.append_assoc]
  · intro instr
    obtain ⟨h1, h2⟩ := store_is_only_destination
      (fetchLoadLines t.shader_type_ .kTextureFetchConstant instr.operand_count
        instr.operands ++ textureOpcodeLines instr)
      instr.result "pv"
      (by
        intro l hl
        rcases List.mem_append.mp hl with hl | hl
        · exact fetchLoadLines_not_destination _ _ _ _ l hl
        · exact textureOpcodeLines_not_destination _ l hl)
    refine ⟨?_, h1, h2⟩
    rw [(ProcessTextureFetchInstruction_emits t instr).1]
    simp only [String.append_assoc]

/-- Witness of C5: the predicated kill of the scenarios stores once, into
`r[2]`. -/
theorem store_emitted_once_witness :
    killExample.type ≠ .kNop ∧
    StoresOnce (freshTranslator .kPixel) (ProcessAluInstruction (freshTranslator .kPixel) killExample)
      true true "" (aluLines .kPixel killExample) true "r[2] = pv;\n" :=
  ⟨by decide, (store_emitted_once (freshTranslator .kPixel)).2.1 killExample (by decide)⟩

/-- C6: for a result with writes none of whose written lanes has output
swizzle 0 or 1, `EmitStoreResult` emits `<dest> = <temp>;` when the result is
standard and `<dest>.<L> = <temp>.<S>;` otherwise, L naming the written lanes
in x, y, z, w order and S listing their output-swizzle components in the same
order; the right-hand side is wrapped in `clamp(…, 0.0, 1.0)` exactly when
`is_clamped` is set. -/
theorem EmitStoreResult_plain_store (t : GlslShaderTranslator) (r : InstructionResult)
    (temp : String) (hw : r.has_any_writes = true) (hc : hasConstWrite r = false) :
    (EmitStoreResult t r temp).source_ =
      t.source_ ++ indent t ++ destRoot r.storage_target ++ destIndex r ++
        (if r.is_standard_swizzle then
          " = " ++ (if r.is_clamped then "clamp(" ++ temp ++ ", 0.0, 1.0)" else temp) ++ ";\n"
         else
          "." ++ String.mk (maskLetters r) ++ " = " ++
            (if r.is_clamped then
              "clamp(" ++ (temp ++ "." ++ String.mk (storeSwizzleLetters r)) ++ ", 0.0, 1.0)"
             else temp ++ "." ++ String.mk (storeSwizzleLetters r)) ++ ";\n") := by
  rw [EmitStoreResult_eq, hw, if_pos rfl, EmitSource_source]
  unfold storeLine storeTail storeRhs clampWrap
  rw [hc]
  cases r.is_standard_swizzle <;> cases r.is_clamped <;> apply String.ext <;> simp

/-- Witness of C6: lanes x, y of interpolant 3 written from components y, x. -/
theorem EmitStoreResult_plain_store_witness :
    (swizzledResult.has_any_writes = true ∧ hasConstWrite swizzledResult = false) ∧
    (EmitStoreResult (freshTranslator .kVertex) swizzledResult "pv").source_ =
      "  vtx.o[3+a0].xy = pv.yx;\n" := by
  refine ⟨⟨by decide, by decide⟩, ?_⟩
  rw [EmitStoreResult_plain_store (freshTranslator .kVertex) swizzledResult "pv"
    (by decide) (by decide)]
  decide

/-- C7, as the code has it: for a result some written lane of which has output
swizzle 0 or 1, `EmitStoreResult` emits the right-hand side as `vecN(…)` with N
the number of set write-mask bits and N comma-separated elements, one per
written lane in x, y, z, w order: `0.0` for swizzle 0, `1.0` for swizzle 1 and
`<temp>.<component>` otherwise. -/
theorem EmitStoreResult_const_write (t : GlslShaderTranslator) (r : InstructionResult)
    (temp : String) (hc : hasConstWrite r = true) :
    (EmitStoreResult t r temp).source_ =
        t.source_ ++ indent t ++ destRoot r.storage_target ++ destIndex r ++
          "." ++ String.mk (maskLetters r) ++ " = " ++
          clampWrap r.is_clamped
            ("vec" ++ toString (writtenLanes r).length ++ "(" ++
              commaSep ((writtenLanes r).map (fun j =>
                match r.components.get j with
                | .k0 => "0.0"
                | .k1 => "1.0"
                | c => temp ++ "." ++ String.singleton (GetCharForSwizzle c))) ++ ")") ++
          ";\n" ∧
      (writtenLanes r).length =
        (if r.write_mask.e0 then 1 else 0) + (if r.write_mask.e1 then 1 else 0) +
          (if r.write_mask.e2 then 1 else 0) + (if r.write_mask.e3 then 1 else 0) := by
  have hw : r.has_any_writes = true := by
    obtain ⟨tg, k, m, c, ⟨w0, w1, w2, w3⟩, comps⟩ := r
    revert hc
    cases w0 <;> cases w1 <;> cases w2 <;> cases w3 <;>
      simp [InstructionResult.has_any_writes, hasConstWrite, writtenLanes, Vec4.get,
        List.range_succ, List.filter]
  have hs : r.is_standard_swizzle = false := by
    cases hstd : r.is_standard_swizzle
    · rfl
    · rw [standard_hasConstWrite r hstd] at hc
      exact absurd hc (by decide)
  constructor
  · rw [EmitStoreResult_eq, hw, if_pos rfl, EmitSource_source]
    unfold storeLine storeTail storeRhs vecRhs
    rw [hc, hs]
    have hv : (fun j => vecElement temp (r.components.get j)) =
        (fun j => match r.components.get j with
          | .k0 => "0.0"
          | .k1 => "1.0"
          | c => temp ++ "." ++ String.singleton (GetCharForSwizzle c)) := by
      funext j
      cases r.components.get j <;> rfl
    rw [hv]
    apply String.ext
    simp
  · obtain ⟨tg, k, m, c, ⟨w0, w1, w2, w3⟩, comps⟩ := r
    cases w0 <;> cases w1 <;> cases w2 <;> cases w3 <;>
      simp [writtenLanes, Vec4.get, List.range_succ, List.filter]

/-- Witness of C7 as amended: lanes x, z, w written with swizzle x, z, 1. -/
theorem EmitStoreResult_const_write_witness :
    hasConstWrite constWriteResult = true ∧
    (EmitStoreResult (freshTranslator .kPixel) constWriteResult "pv").source_ =
      "  r[2].xzw = clamp(vec3(pv.x, pv.z, 1.0), 0.0, 1.0);\n" := by
  refine ⟨by decide, ?_⟩
  rw [(EmitStoreResult_const_write (freshTranslator .kPixel) constWriteResult "pv"
    (by decide)).1]
  decide

/-- Counterexample to C7 as stated: the result has writes (lane x) and one of
its four output-swizzle components is the literal 0 (lane y, not written), yet
the right-hand side emitted is `pv.x`, not `vec1(pv.x)`. -/
theorem EmitStoreResult_const_unwritten_lane :
    maskedConstResult.has_any_writes = true ∧
    anyConstComponent maskedConstResult = true ∧
    (EmitStoreResult (freshTranslator .kPixel) maskedConstResult "pv").source_ =
      "  r[0].x = pv.x;\n" ∧
    (EmitStoreResult (freshTranslator .kPixel) maskedConstResult "pv").source_ ≠
      "  r[0].x = vec1(pv.x);\n" := by
  decide

/-- C8: for a result with writes, the destination that `EmitStoreResult` emits
is `r`, `vtx.o`, `gl_Position`, `gl_PointSize`, `oC`, `gl_FragDepth` by storage
target; register, interpolant and color target are followed by `[k]`,
`[k+a0]` or `[k+aL]` by addressing mode, and position, point size and depth
by no index whatever the addressing mode. -/
theorem EmitStoreResult_destination (t : GlslShaderTranslator) (r : InstructionResult)
    (temp : String) (hw : r.has_any_writes = true) :
    (EmitStoreResult t r temp).source_ =
      t.source_ ++ indent t ++
        (match r.storage_target, r.storage_addressing_mode with
         | .kRegister, .kStatic => "r[" ++ toString r.storage_index ++ "]"
         | .kRegister, .kAddressAbsolute => "r[" ++ toString r.storage_index ++ "+a0]"
         | .kRegister, .kAddressRelative => "r[" ++ toString r.storage_index ++ "+aL]"
         | .kInterpolant, .kStatic => "vtx.o[" ++ toString r.storage_index ++ "]"
         | .kInterpolant, .kAddressAbsolute => "vtx.o[" ++ toString r.storage_index ++ "+a0]"
         | .kInterpolant, .kAddressRelative => "vtx.o[" ++ toString r.storage_index ++ "+aL]"
         | .kColorTarget, .kStatic => "oC[" ++ toString r.storage_index ++ "]"
         | .kColorTarget, .kAddressAbsolute => "oC[" ++ toString r.storage_index ++ "+a0]"
         | .kColorTarget, .kAddressRelative => "oC[" ++ toString r.storage_index ++ "+aL]"
         | .kPosition, _ => "gl_Position"
         | .kPointSize, _ => "gl_PointSize"
         | .kDepth, _ => "gl_FragDepth") ++
        storeTail r temp := by
  rw [EmitStoreResult_eq, hw, if_pos rfl, EmitSource_source]
  unfold storeLine destIndex
  cases r.storage_target <;> cases r.storage_addressing_mode <;> apply String.ext <;>
    simp [destRoot, addressSuffix]

/-- Witness of C8: interpolant 3 with address-absolute addressing. -/
theorem EmitStoreResult_destination_witness :
    swizzledResult.has_any_writes = true ∧
    (EmitStoreResult (freshTranslator .kVertex) swizzledResult "pv").source_ =
      "  " ++ "vtx.o[3+a0]" ++ storeTail swizzledResult "pv" :=
  ⟨by decide,
   EmitStoreResult_destination (freshTranslator .kVertex) swizzledResult "pv" (by decide)⟩

/-- C9: for every vector ALU, scalar ALU, vertex-fetch and texture-fetch
instruction that is predicated, what follows the disassembly comment is the
guard line `if ( p0) {` (condition true) or `if (!p0) {` (condition false),
the body lines each two spaces deeper than the guard, and `}` at the
indentation of the guard; an instruction that is not predicated has neither
guard line nor closing line. -/
theorem predicated_instruction_guard (t : GlslShaderTranslator) :
    (∀ instr : ParsedAluInstruction, instr.type ≠ .kNop →
      GuardedText t (ProcessAluInstruction t instr) instr.is_predicated
        instr.predicate_condition instr.disassembly (aluLines t.shader_type_ instr)) ∧
    (∀ instr : ParsedVertexFetchInstruction,
      GuardedText t (ProcessVertexFetchInstruction t instr) instr.is_predicated
        instr.predicate_condition instr.disassembly (vertexFetchLines t.shader_type_ instr)) ∧
    (∀ instr : ParsedTextureFetchInstruction,
      GuardedText t (ProcessTextureFetchInstruction t instr) instr.is_predicated
        instr.predicate_condition instr.disassembly (textureFetchLines t.shader_type_ instr)) ∧
    (guardLine true = "if ( p0) \x7b\n" ∧ guardLine false = "if (!p0) \x7b\n") := by
  have key : ∀ (w : GlslShaderTranslator) (p c : Bool) (d : String) (ls : List String),
      (∀ l ∈ ls, IsLine l) →
      Emits t w p
        ("// " ++ d ++ (guardText t p c ++ indented (indent (bodyState t p)) ls ++
          closeText t p)) →
      GuardedText t w p c d ls := by
    intro w p c d ls hl he
    obtain ⟨h1, h2, h3⟩ := he
    refine ⟨hl, ?_, ?_⟩
    · intro hp
      subst hp
      rw [h1]
      simp only [guardText, closeText, bodyState, Bool.false_eq_true, if_false]
      apply String.ext
      simp
    · intro hp hok hroom
      subst hp
      obtain ⟨hi1, hi2, hi3⟩ := indent_Indent t hok hroom
      simp only [if_true] at h2 h3
      refine ⟨?_, ?_, ?_⟩
      · rw [h1]
        simp only [guardText, closeText, bodyState, if_true, hi1, hi2]
        apply String.ext
        simp
      · rw [h2, hi3]
      · rw [← hi2]
        unfold indent
        rw [h3]
  refine ⟨?_, ?_, ?_, rfl, rfl⟩
  · intro instr hty
    exact key _ _ _ _ _ (aluLines_isLine _ _) (ProcessAluInstruction_emits t instr hty)
  · intro instr
    exact key _ _ _ _ _ (vertexFetchLines_isLine _ _) (ProcessVertexFetchInstruction_emits t instr)
  · intro instr
    exact key _ _ _ _ _ (textureFetchLines_isLine _ _)
      (ProcessTextureFetchInstruction_emits t instr)

set_option maxRecDepth 8000 in
/-- Witness of C9: the predicated kill of the scenarios, on a fresh translator. -/
theorem predicated_instruction_guard_witness :
    (killExample.type ≠ .kNop ∧ killExample.is_predicated = true ∧
      PrefixOk (freshTranslator .kPixel) ∧ HasRoom (freshTranslator .kPixel)) ∧
    (ProcessAluInstruction (freshTranslator .kPixel) killExample).source_ =
      "// " ++ "  if ( p0) \x7b\n" ++
        "    src0 = r[0];\n" ++
        "    src1 = r[1];\n" ++
        ("    if (src0.x > src1.x || src0.y > src1.y || src0.z > src1.z || " ++
          "src0.w > src1.w) \x7b\n") ++
        "      pv = vec4(1.0);\n" ++
        "      discard;\n" ++
        "    \x7d else \x7b\n" ++
        "      pv = vec4(0.0);\n" ++
        "    \x7d\n" ++
        "    r[2] = pv;\n" ++
        "  \x7d\n" := by
  have hok : PrefixOk (freshTranslator .kPixel) := by
    unfold PrefixOk
    decide
  have hroom : HasRoom (freshTranslator .kPixel) := by
    unfold HasRoom
    decide
  refine ⟨⟨by decide, rfl, hok, hroom⟩, ?_⟩
  rw [(((predicated_instruction_guard (freshTranslator .kPixel)).1 killExample
    (by decide)).2.2 rfl hok hroom).1]
  decide

/-- C10: after the disassembly comment, `ProcessExecInstructionBegin` emits at
the current indentation `{` for an unconditional exec,
`if ((state.bool_consts[W] & (1 << B)) == C) {` for a conditional exec with
W = i / 32, B = i % 32 in decimal and C `1` or `0` by the condition, and
`if ( p0) {` or `if (!p0) {` for a predicated exec; index 37 with condition
true gives `if ((state.bool_consts[1] & (1 << 5)) == 1) {`. -/
theorem ProcessExecInstructionBegin_header (t : GlslShaderTranslator)
    (instr : ParsedExecInstruction) :
    (ProcessExecInstructionBegin t instr).source_ =
        t.source_ ++ "// " ++ instr.disassembly ++ indent t ++
          (match instr.type with
           | .kUnconditional => "\x7b\n"
           | .kConditional =>
             "if ((state.bool_consts[" ++ toString (instr.bool_constant_index / 32) ++
               "] & (1 << " ++ toString (instr.bool_constant_index % 32) ++ ")) == " ++
               (if instr.condition then "1" else "0") ++ ") \x7b\n"
           | .kPredicated =>
             if instr.condition then "if ( p0) \x7b\n" else "if (!p0) \x7b\n") ∧
      (ProcessExecInstructionBegin t condExecExample).source_ =
        t.source_ ++ "// " ++ indent t ++
          "if ((state.bool_consts[1] & (1 << 5)) == 1) \x7b\n" := by
  have key : ∀ instr : ParsedExecInstruction,
      (ProcessExecInstructionBegin t instr).source_ =
        t.source_ ++ "// " ++ instr.disassembly ++ indent t ++
          (match instr.type with
           | .kUnconditional => "\x7b\n"
           | .kConditional =>
             "if ((state.bool_consts[" ++ toString (instr.bool_constant_index / 32) ++
               "] & (1 << " ++ toString (instr.bool_constant_index % 32) ++ ")) == " ++
               (if instr.condition then "1" else "0") ++ ") \x7b\n"
           | .kPredicated =>
             if instr.condition then "if ( p0) \x7b\n" else "if (!p0) \x7b\n") := by
    intro instr
    obtain ⟨d, ty, i, c⟩ := instr
    cases ty <;> cases c <;>
      simp only [ProcessExecInstructionBegin, EmitSourceDepth_eq, EmitSource_EmitSource,
        Indent, EmitSource_source, indent_EmitSource] <;>
      apply String.ext <;> simp
  refine ⟨key instr, ?_⟩
  rw [key condExecExample]
  apply String.ext
  simp [condExecExample]
  decide

/-- C11: `ProcessExecInstructionBegin` emits its header at the current
indentation and sets depth to d + 2; `ProcessExecInstructionEnd` sets depth to
its depth less two and then emits `}`; with the indentation buffer in order,
an exec end at depth d + 2 emits `}` at the indentation of the header and
restores depth d and the indentation; so does exec begin, any callbacks other
than exec begin and end, then exec end. -/
theorem exec_block_restores_depth (t : GlslShaderTranslator) (instr : ParsedExecInstruction) :
    ((ProcessExecInstructionBegin t instr).depth_ = t.depth_ + 2 ∧
      (ProcessExecInstructionBegin t instr).source_ =
        t.source_ ++ "// " ++ instr.disassembly ++ indent t ++ execHeader instr) ∧
    (∀ (u : GlslShaderTranslator) (e : ParsedExecInstruction),
      (ProcessExecInstructionEnd u e).depth_ = u.depth_ - 2 ∧
      (ProcessExecInstructionEnd u e).source_ =
        u.source_ ++ indent (ProcessExecInstructionEnd u e) ++ "\x7d\n") ∧
    (PrefixOk t → HasRoom t →
      (∀ (w : GlslShaderTranslator) (e : ParsedExecInstruction), PrefixOk w →
        w.depth_ = t.depth_ + 2 →
        (ProcessExecInstructionEnd w e).depth_ = t.depth_ ∧
        indent (ProcessExecInstructionEnd w e) = indent t ∧
        (ProcessExecInstructionEnd w e).source_ = w.source_ ++ indent t ++ "\x7d\n") ∧
      (t.depth_ + 4 < t.depth_prefix_.length →
        ∀ (mid : List Callback) (e : ParsedExecInstruction),
        (∀ cb ∈ mid, cb.isExec = false) →
        (ProcessExecInstructionEnd
          (mid.foldl Callback.run (ProcessExecInstructionBegin t instr)) e).depth_ = t.depth_ ∧
        indent (ProcessExecInstructionEnd
          (mid.foldl Callback.run (ProcessExecInstructionBegin t instr)) e) = indent t)) := by
  have hend : ∀ (w : GlslShaderTranslator) (e : ParsedExecInstruction), PrefixOk w →
      w.depth_ = t.depth_ + 2 → PrefixOk t →
      (ProcessExecInstructionEnd w e).depth_ = t.depth_ ∧
      indent (ProcessExecInstructionEnd w e) = indent t ∧
      (ProcessExecInstructionEnd w e).source_ = w.source_ ++ indent t ++ "\x7d\n" := by
    intro w e hw hd hok
    have hu := PrefixOk_Unindent w hw (by rw [hd]; have := hok.1; omega)
    have hdu : (Unindent w).depth_ = t.depth_ := by rw [Unindent_depth, hd]; omega
    have hiu : indent (Unindent w) = indent t := by
      rw [indent_of_PrefixOk _ hu, indent_of_PrefixOk _ hok, hdu]
    rw [execEnd_eq]
    refine ⟨hdu, ?_, ?_⟩
    · rw [indent_EmitSource, hiu]
    · rw [EmitSource_source, Unindent_source, hiu, String.append_assoc]
  refine ⟨⟨?_, ?_⟩, ?_, ?_⟩
  · rw [execHeader_eq]; rfl
  · rw [execHeader_eq, EmitSource_source, Indent_source]
    simp only [String.append_assoc]
  · intro u e
    rw [execEnd_eq]
    refine ⟨rfl, ?_⟩
    rw [EmitSource_source, Unindent_source, indent_EmitSource, String.append_assoc]
  · intro hok hroom
    refine ⟨fun w e hw hd => hend w e hw hd hok, ?_⟩
    intro hroom2 mid e hmid
    have hb : PrefixOk (ProcessExecInstructionBegin t instr) := by
      rw [execHeader_eq]
      exact PrefixOk_Indent t hok hroom
    have hbd : (ProcessExecInstructionBegin t instr).depth_ = t.depth_ + 2 := by
      rw [execHeader_eq]; rfl
    have hbr : HasRoom (ProcessExecInstructionBegin t instr) := by
      unfold HasRoom
      rw [hbd, execHeader_eq, EmitSource_buffer, Indent_length]
      omega
    obtain ⟨h1, h2⟩ := nonExec_stream_preserves mid hmid _ hb hbr
    obtain ⟨r1, r2, _⟩ := hend _ e h1 (by rw [h2, hbd]) hok
    exact ⟨r1, r2⟩

/-- Witness of C11: a conditional exec around the predicated kill of the
scenarios, on a fresh translator. -/
theorem exec_block_restores_depth_witness :
    (PrefixOk (freshTranslator .kPixel) ∧ HasRoom (freshTranslator .kPixel) ∧
      (freshTranslator .kPixel).depth_ + 4 < (freshTranslator .kPixel).depth_prefix_.length ∧
      (∀ cb ∈ [Callback.alu killExample], cb.isExec = false)) ∧
    (ProcessExecInstructionEnd
      ([Callback.alu killExample].foldl Callback.run
        (ProcessExecInstructionBegin (freshTranslator .kPixel) condExecExample))
      condExecExample).depth_ = 0 ∧
    indent (ProcessExecInstructionEnd
      ([Callback.alu killExample].foldl Callback.run
        (ProcessExecInstructionBegin (freshTranslator .kPixel) condExecExample))
      condExecExample) = "  " := by
  have hok : PrefixOk (freshTranslator .kPixel) := by unfold PrefixOk; decide
  have hroom : HasRoom (freshTranslator .kPixel) := by unfold HasRoom; decide
  have h4 : (freshTranslator .kPixel).depth_ + 4 <
      (freshTranslator .kPixel).depth_prefix_.length := by decide
  have hmid : ∀ cb ∈ [Callback.alu killExample], cb.isExec = false := by decide
  exact ⟨⟨hok, hroom, h4, hmid⟩,
    ((exec_block_restores_depth (freshTranslator .kPixel) condExecExample).2.2 hok hroom).2 h4
      [Callback.alu killExample] condExecExample hmid⟩

set_option maxRecDepth 8000 in
/-- C12: for every stage, list of vertex bindings and stream of callbacks in
which exec begins and exec ends are matched, the text that `Reset`,
`StartTranslation`, the callbacks in order and `CompleteTranslation` produce
has its braces matched (every opening brace closed later, no part read from
the start with more closing than opening braces), the disassembly comments
holding no brace; the depth is 0 when `CompleteTranslation` is called; and for
the empty stream the text is the preamble followed by a closing brace and a
newline. -/
theorem translation_braces_matched (t : GlslShaderTranslator) (vb : List VertexBinding)
    (stream : List Callback) (hexec : ExecMatched stream)
    (hdis : ∀ cb ∈ stream, braceFree cb.disassembly = true) :
    BracesMatched (Translate t vb stream).2 ∧
    (stream.foldl Callback.run (StartTranslation (Reset t) vb)).depth_ = 0 ∧
    (Translate t vb []).2 = preambleText t.shader_type_ vb ++ "\x7d\n" := by
  have hstart : StartTranslation (Reset t) vb =
      EmitSource (Reset t) (preambleText t.shader_type_ vb) := StartTranslation_eq _ _
  have hclean : CleanIndent (StartTranslation (Reset t) vb) := by
    rw [hstart]
    exact CleanIndent_of_buffer _ _ rfl (CleanIndent_Reset t)
  have hsrc : (StartTranslation (Reset t) vb).source_ = preambleText t.shader_type_ vb := by
    rw [hstart]
    apply String.ext
    simp [EmitSource, Reset]
  refine ⟨?_, ?_, ?_⟩
  · unfold BracesMatched Translate CompleteTranslation
    simp only [EmitSource_source, braceScan_append]
    rw [stream_braces stream _ (some 0) hclean hdis, hsrc, preamble_scan]
    have h := execFold_lift stream 0 1 0 hexec
    simp only [Nat.zero_add] at h
    rw [h]
    decide
  · have h := execFold_depth stream (StartTranslation (Reset t) vb) 0 0 hexec
    rw [h, hstart]
    simp [Reset]
  · unfold Translate CompleteTranslation
    simp only [List.foldl_nil, EmitSource_source, hsrc]

/-- A stream with one conditional exec block that holds a kill instruction is
matched, and its translation in the pixel stage has matched braces. -/
theorem translation_braces_matched_witness :
    ExecMatched [.execBegin condExecExample, .alu killExample, .execEnd condExecExample] ∧
    (∀ cb ∈ [Callback.execBegin condExecExample, .alu killExample, .execEnd condExecExample],
      braceFree cb.disassembly = true) ∧
    BracesMatched (Translate (freshTranslator .kPixel) []
      [.execBegin condExecExample, .alu killExample, .execEnd condExecExample]).2 :=
  ⟨by decide, by decide,
    (translation_braces_matched (freshTranslator .kPixel) []
      [.execBegin condExecExample, .alu killExample, .execEnd condExecExample]
      (by decide) (by decide)).1⟩

/-- C13: for every vector opcode the body emitted by
`ProcessVectorAluInstruction` assigns all four lanes of `pv` on every path,
as a whole or lane by lane; for every scalar opcode but `kRetainPrev` the body
emitted by `ProcessScalarAluInstruction` assigns `ps` on every path; the body
of `kRetainPrev` is empty. No other opcode has an empty body, and the body is
part of what the instruction emits, after the comment and the loads. -/
theorem opcode_bodies_assign_temps :
    (∀ op : AluVectorOpcode, ∀ lane ∈ ['x', 'y', 'z', 'w'],
      lane ∈ assignedOnEveryPath pvLanesOf (vectorOpcodeBody op)) ∧
    (∀ op : AluScalarOpcode, op ≠ .kRetainPrev →
      's' ∈ assignedOnEveryPath psLanesOf (scalarOpcodeBody op)) ∧
    scalarOpcodeBody .kRetainPrev = [] ∧
    (∀ op : AluVectorOpcode, vectorOpcodeBody op ≠ []) ∧
    (∀ op : AluScalarOpcode, op ≠ .kRetainPrev → scalarOpcodeBody op ≠ []) ∧
    (∀ (t : GlslShaderTranslator) (instr : ParsedAluInstruction), instr.type ≠ .kNop →
      (ProcessAluInstruction t instr).source_ =
        t.source_ ++ ("// " ++ instr.disassembly ++
          (guardText t instr.is_predicated instr.predicate_condition ++
            indented (indent (bodyState t instr.is_predicated))
              (loadLines t.shader_type_ instr.operand_count instr.operands ++
                aluOpcodeLines instr ++ storeLines instr.result (aluTemp instr)) ++
            closeText t instr.is_predicated))) := by
  refine ⟨?_, ?_, rfl, ?_, ?_, ?_⟩
  · intro op
    cases op <;> decide
  · intro op hop
    cases op <;> first | exact absurd rfl hop | decide
  · intro op
    cases op <;> decide
  · intro op hop
    cases op <;> first | exact absurd rfl hop | decide
  · intro t instr hty
    exact (ProcessAluInstruction_emits t instr hty).1

/-- The scalar opcode `adds` is not `kRetainPrev` and its body assigns `ps`;
the add scenario emits its comment, loads, body and store. -/
theorem opcode_bodies_assign_temps_witness :
    (AluScalarOpcode.kAdds ≠ .kRetainPrev ∧
      's' ∈ assignedOnEveryPath psLanesOf (scalarOpcodeBody .kAdds) ∧
      scalarOpcodeBody .kAdds ≠ []) ∧
    ((addExample "add").type ≠ .kNop ∧
      (ProcessAluInstruction (freshTranslator .kPixel) (addExample "add")).source_ =
        "// add  src0 = r[0];\n  src1 = r[1];\n  pv = src0 + src1;\n  r[2] = pv;\n") :=
  ⟨⟨by decide, opcode_bodies_assign_temps.2.1 .kAdds (by decide),
    opcode_bodies_assign_temps.2.2.2.2.1 .kAdds (by decide)⟩,
   by decide, by
    rw [opcode_bodies_assign_temps.2.2.2.2.2 (freshTranslator .kPixel) (addExample "add")
      (by decide)]
    decide⟩

/-- Counterexamples to C14 as stated. A texture fetch with opcode
`kSetTextureLod` whose result writes all four lanes of `r2` emits the comment
of an unimplemented translation and the store `r[2] = pv;`, with no assignment
to `pv` before it. A vertex fetch of format `k_32_FLOAT` whose result writes
all four lanes of `r2` emits `pv.x = vf95_8;` and then the store `r[2] = pv;`:
the lanes y, z and w that the store reads are assigned nowhere in the
instruction. -/
theorem stores_read_unassigned_pv :
    (setLodExample.result.has_any_writes = true ∧
      (ProcessTextureFetchInstruction (freshTranslator .kPixel) setLodExample).source_ =
        "//   // UNIMPLEMENTED TRANSLATION\n  r[2] = pv;\n" ∧
      (Callback.lines (freshTranslator .kPixel) (.textureFetch setLodExample)).any assignsPv =
        false) ∧
    ((vfetchExample .k_32_FLOAT 8).result.has_any_writes = true ∧
      (ProcessVertexFetchInstruction (freshTranslator .kVertex)
          (vfetchExample .k_32_FLOAT 8)).source_ =
        "//   src0 = r[0];\n  pv.x = vf95_8;\n  r[2] = pv;\n" ∧
      assignedOnEveryPath pvLanesOf
          (vertexFetchBodyLines .kVertex (vfetchExample .k_32_FLOAT 8)) = ['x'] ∧
      storeLines (vfetchExample .k_32_FLOAT 8).result "pv" = ["r[2] = pv;\n"]) := by
  decide

/-- C14, amended: a vector ALU instruction assigns all four lanes of `pv` in
its opcode body, before the store, and so does, on both paths of its
conditional or in its one statement, a texture fetch whose opcode is the fetch
itself or one of the opcodes that fall back to `vec4(0.0)`. A vertex fetch
whose result has writes and stores a non-constant component assigns, when its
opcode is `kVertexFetch`, the first n lanes of `pv` and no other before the
store, n from 1 to 4 being the component count of its data format, in the one
line `pv.<lanes> = vf…;`, the only line before the store to assign `pv`, and
assigns `pv` nowhere when its opcode is another one; when the result stores
constants only, nothing is emitted before the store, whose line does not
mention `pv`. For the opcodes `kSetTextureLod`, `kSetTextureGradientsHorz` and
`kSetTextureGradientsVert` no line before the store assigns `pv`. -/
theorem pv_assigned_before_store (t : GlslShaderTranslator) :
    (∀ instr : ParsedAluInstruction, instr.type = .kVector →
      AssignsLanesBeforeStore t (ProcessAluInstruction t instr) instr.is_predicated
        instr.predicate_condition instr.disassembly
        (loadLines t.shader_type_ instr.operand_count instr.operands ++
          vectorOpcodeBody instr.vector_opcode) instr.result ['x', 'y', 'z', 'w']) ∧
    (∀ instr : ParsedVertexFetchInstruction, instr.result.has_any_writes = true →
      (instr.result.stores_non_constants = true → instr.opcode = .kVertexFetch →
        AssignsLanesBeforeStore t (ProcessVertexFetchInstruction t instr) instr.is_predicated
          instr.predicate_condition instr.disassembly
          (vertexFetchBodyLines t.shader_type_ instr) instr.result
          (vertexFetchLanes instr.attributes.data_format) ∧
        (vertexFetchBodyLines t.shader_type_ instr).filter assignsPv =
          ["pv." ++ String.mk (vertexFetchLanes instr.attributes.data_format) ++ " = vf" ++
            toString (asUnsigned (instr.operands.get 1).storage_index) ++ "_" ++
            toString instr.attributes.offset ++ ";\n"] ∧
        vertexFetchLanes instr.attributes.data_format =
          ['x', 'y', 'z', 'w'].take
            (GetVertexFormatComponentCount instr.attributes.data_format) ∧
        1 ≤ GetVertexFormatComponentCount instr.attributes.data_format ∧
        GetVertexFormatComponentCount instr.attributes.data_format ≤ 4) ∧
      (instr.result.stores_non_constants = true → instr.opcode ≠ .kVertexFetch →
        StoresWithoutAssigningPv t (ProcessVertexFetchInstruction t instr) instr.is_predicated
          instr.predicate_condition instr.disassembly
          (vertexFetchBodyLines t.shader_type_ instr) instr.result) ∧
      (instr.result.stores_non_constants = false →
        StoresWithoutAssigningPv t (ProcessVertexFetchInstruction t instr) instr.is_predicated
          instr.predicate_condition instr.disassembly [] instr.result ∧
        ∀ temp, storeLine instr.result temp = storeLine instr.result "pv")) ∧
    (∀ instr : ParsedTextureFetchInstruction, textureOpcodeAssignsPv instr.opcode = true →
      AssignsLanesBeforeStore t (ProcessTextureFetchInstruction t instr) instr.is_predicated
        instr.predicate_condition instr.disassembly
        (fetchLoadLines t.shader_type_ .kTextureFetchConstant instr.operand_count
          instr.operands ++ textureOpcodeLines instr) instr.result ['x', 'y', 'z', 'w']) ∧
    (∀ instr : ParsedTextureFetchInstruction,
      instr.opcode = .kSetTextureLod ∨ instr.opcode = .kSetTextureGradientsHorz ∨
        instr.opcode = .kSetTextureGradientsVert →
      StoresWithoutAssigningPv t (ProcessTextureFetchInstruction t instr) instr.is_predicated
        instr.predicate_condition instr.disassembly
        (fetchLoadLines t.shader_type_ .kTextureFetchConstant instr.operand_count
          instr.operands ++ textureOpcodeLines instr) instr.result) := by
  refine ⟨?_, ?_, ?_, ?_⟩
  · intro instr hty
    have h := (ProcessAluInstruction_emits t instr (by rw [hty]; decide)).1
    refine ⟨?_, ?_⟩
    · rw [h]
      simp only [aluLines, aluOpcodeLines, aluTemp, hty, String.append_assoc]
    · rw [assignedOnEveryPath_skip _ _ _ (loadLines_skip _ _ _)]
      exact vectorOpcodeBody_lanes instr.vector_opcode
  · intro instr hw
    have h := (ProcessVertexFetchInstruction_emits t instr).1
    refine ⟨fun hs hop => ⟨⟨?_, ?_⟩, ?_, ?_⟩, fun hs hop => ⟨?_, ?_⟩,
      fun hs => ⟨⟨?_, rfl⟩, storeLine_constants instr.result hw hs⟩⟩
    · rw [h]
      simp only [vertexFetchLines, String.append_assoc]
    · simp only [vertexFetchBodyLines, hs, hop, if_true]
      rw [assignedOnEveryPath_skip _ _ _ (fetchLoadLines_skip _ _ _ _), vertexFetchLine_lanes]
      exact ⟨fun _ hl => hl, fun _ hl => hl⟩
    · simp only [vertexFetchBodyLines, hs, hop, if_true]
      rw [List.filter_append, fetchLoadLines_filter_assignsPv, List.nil_append]
      have ha := vertexFetchLine_assignsPv instr.attributes.data_format
        (asUnsigned (instr.operands.get 1).storage_index) instr.attributes.offset
      simp only [vertexFetchLanes] at ha
      simp only [List.filter_cons, ha, if_true, List.filter_nil, vertexFetchLanes]
    · have hc := vertexFetchLanes_count instr.attributes.data_format
      refine ⟨hc.2.2, ?_, ?_⟩ <;> cases instr.attributes.data_format <;> decide
    · rw [h]
      simp only [vertexFetchLines, String.append_assoc]
    · simp only [vertexFetchBodyLines, hs, if_true]
      rw [List.any_append, fetchLoadLines_not_assignsPv, Bool.false_or]
      revert hop
      cases instr.opcode <;> intro hop <;> first | exact absurd rfl hop | rfl
    · rw [h]
      simp only [vertexFetchLines, vertexFetchBodyLines, hs, String.append_assoc]
      rfl
  · intro instr hop
    have h := (ProcessTextureFetchInstruction_emits t instr).1
    refine ⟨?_, ?_⟩
    · rw [h]
      simp only [textureFetchLines, String.append_assoc]
    · rw [assignedOnEveryPath_skip _ _ _ (fetchLoadLines_skip _ _ _ _),
        textureOpcodeLines_lanes instr hop]
      exact ⟨fun _ hl => hl, fun _ hl => hl⟩
  · intro instr hop
    have h := (ProcessTextureFetchInstruction_emits t instr).1
    refine ⟨?_, ?_⟩
    · rw [h]
      simp only [textureFetchLines, String.append_assoc]
    · rw [List.any_append, fetchLoadLines_not_assignsPv, Bool.false_or]
      unfold textureOpcodeLines
      rcases hop with hop | hop | hop <;> rw [hop] <;> dsimp only <;> decide

/-- The add scenario assigns the four lanes of `pv` before its store; a vertex
fetch of format `k_32_FLOAT` assigns lane x and no other; the same fetch with
an opcode that has no case, and the `kSetTextureLod` scenario, store without
assigning `pv`. -/
theorem pv_assigned_before_store_witness :
    ((addExample "add").type = .kVector ∧
      AssignsLanesBeforeStore (freshTranslator .kPixel)
        (ProcessAluInstruction (freshTranslator .kPixel) (addExample "add"))
        (addExample "add").is_predicated (addExample "add").predicate_condition
        (addExample "add").disassembly
        (loadLines (freshTranslator .kPixel).shader_type_ (addExample "add").operand_count
          (addExample "add").operands ++ vectorOpcodeBody (addExample "add").vector_opcode)
        (addExample "add").result ['x', 'y', 'z', 'w']) ∧
    (((vfetchExample .k_32_FLOAT 8).result.has_any_writes = true ∧
        (vfetchExample .k_32_FLOAT 8).result.stores_non_constants = true ∧
        (vfetchExample .k_32_FLOAT 8).opcode = .kVertexFetch) ∧
      AssignsLanesBeforeStore (freshTranslator .kVertex)
        (ProcessVertexFetchInstruction (freshTranslator .kVertex) (vfetchExample .k_32_FLOAT 8))
        (vfetchExample .k_32_FLOAT 8).is_predicated
        (vfetchExample .k_32_FLOAT 8).predicate_condition
        (vfetchExample .k_32_FLOAT 8).disassembly
        (vertexFetchBodyLines (freshTranslator .kVertex).shader_type_
          (vfetchExample .k_32_FLOAT 8))
        (vfetchExample .k_32_FLOAT 8).result
        (vertexFetchLanes (vfetchExample .k_32_FLOAT 8).attributes.data_format) ∧
      vertexFetchLanes (vfetchExample .k_32_FLOAT 8).attributes.data_format = ['x']) ∧
    ((vfetchOtherOpcode.result.has_any_writes = true ∧
        vfetchOtherOpcode.result.stores_non_constants = true ∧
        vfetchOtherOpcode.opcode ≠ .kVertexFetch) ∧
      StoresWithoutAssigningPv (freshTranslator .kVertex)
        (ProcessVertexFetchInstruction (freshTranslator .kVertex) vfetchOtherOpcode)
        vfetchOtherOpcode.is_predicated vfetchOtherOpcode.predicate_condition
        vfetchOtherOpcode.disassembly
        (vertexFetchBodyLines (freshTranslator .kVertex).shader_type_ vfetchOtherOpcode)
        vfetchOtherOpcode.result) ∧
    ((setLodExample.opcode = .kSetTextureLod ∨
        setLodExample.opcode = .kSetTextureGradientsHorz ∨
        setLodExample.opcode = .kSetTextureGradientsVert) ∧
      StoresWithoutAssigningPv (freshTranslator .kPixel)
        (ProcessTextureFetchInstruction (freshTranslator .kPixel) setLodExample)
        setLodExample.is_predicated setLodExample.predicate_condition setLodExample.disassembly
        (fetchLoadLines (freshTranslator .kPixel).shader_type_ .kTextureFetchConstant
          setLodExample.operand_count setLodExample.operands ++
          textureOpcodeLines setLodExample) setLodExample.result) :=
  ⟨⟨by decide, (pv_assigned_before_store (freshTranslator .kPixel)).1 (addExample "add")
      (by decide)⟩,
   ⟨⟨by decide, by decide, by decide⟩,
     ((pv_assigned_before_store (freshTranslator .kVertex)).2.1 (vfetchExample .k_32_FLOAT 8)
       (by decide)).1 (by decide) (by decide) |>.1, by decide⟩,
   ⟨⟨by decide, by decide, by decide⟩,
     ((pv_assigned_before_store (freshTranslator .kVertex)).2.1 vfetchOtherOpcode
       (by decide)).2.1 (by decide) (by decide)⟩,
   ⟨by decide, (pv_assigned_before_store (freshTranslator .kPixel)).2.2.2 setLodExample
      (by decide)⟩⟩

/-- C15: of all the lines the callbacks emit, the assignments to `a0` are the
line `a0 = clamp(int(floor(E)), -256, 255);` of the vector opcode `maxa`
(E = `src0.w + 0.5`) and of the scalar opcodes `maxas` (E = `src0.x + 0.5`)
and `maxasf` (E = `src0.x`), which do emit it; with
clamp(n, lo, hi) = min(max(n, lo), hi) on the integers the value written lies
in [-256, 255]. -/
theorem a0_assigned_clamped (t : GlslShaderTranslator) (cb : Callback) :
    ((cb.run t).source_ = t.source_ ++ (cb.comment ++ segmentsText (cb.segments t)) ∧
      ∀ l ∈ cb.lines t, assignsA0 l = true →
        ∃ instr : ParsedAluInstruction, cb = .alu instr ∧
          ((instr.type = .kVector ∧ instr.vector_opcode = .kMaxA ∧
              l = "a0 = clamp(int(floor(src0.w + 0.5)), -256, 255);\n") ∨
            (instr.type = .kScalar ∧ instr.scalar_opcode = .kMaxAs ∧
              l = "a0 = clamp(int(floor(src0.x + 0.5)), -256, 255);\n") ∨
            (instr.type = .kScalar ∧ instr.scalar_opcode = .kMaxAsf ∧
              l = "a0 = clamp(int(floor(src0.x)), -256, 255);\n"))) ∧
    ("a0 = clamp(int(floor(src0.w + 0.5)), -256, 255);\n" ∈ vectorOpcodeBody .kMaxA ∧
      "a0 = clamp(int(floor(src0.x + 0.5)), -256, 255);\n" ∈ scalarOpcodeBody .kMaxAs ∧
      "a0 = clamp(int(floor(src0.x)), -256, 255);\n" ∈ scalarOpcodeBody .kMaxAsf) ∧
    (∀ n : Int, -256 ≤ clampInt n (-256) 255 ∧ clampInt n (-256) 255 ≤ 255) ∧
    (∀ e : ℚ, -256 ≤ a0Written e ∧ a0Written e ≤ 255) := by
  have hclamp : ∀ n : Int, -256 ≤ clampInt n (-256) 255 ∧ clampInt n (-256) 255 ≤ 255 := by
    intro n
    exact ⟨le_min (le_max_right _ _) (by norm_num), min_le_right _ _⟩
  refine ⟨⟨Callback_run_source t cb, ?_⟩, by decide, hclamp, fun e => hclamp _⟩
  intro l hl ha
  rcases register_lines "a0 = " (Or.inl rfl) cb l (Callback_lines_kind t cb l hl) ha with
    ⟨instr, hcb, hty, hmem⟩ | ⟨instr, hcb, hty, hmem⟩
  · exact ⟨instr, hcb, Or.inl ⟨hty, vector_a0_lines _ l hmem ha⟩⟩
  · refine ⟨instr, hcb, Or.inr ?_⟩
    rcases scalar_a0_lines _ l hmem ha with h | h
    · exact Or.inl ⟨hty, h⟩
    · exact Or.inr ⟨hty, h⟩

/-- The vector `maxa` scenario emits the assignment to `a0`, which the
classification attributes to `maxa`. -/
theorem a0_assigned_clamped_witness :
    "a0 = clamp(int(floor(src0.w + 0.5)), -256, 255);\n" ∈
        Callback.lines (freshTranslator .kPixel) (.alu maxaExample) ∧
      assignsA0 "a0 = clamp(int(floor(src0.w + 0.5)), -256, 255);\n" = true ∧
      ∃ instr : ParsedAluInstruction, Callback.alu maxaExample = .alu instr ∧
        ((instr.type = .kVector ∧ instr.vector_opcode = .kMaxA ∧
            "a0 = clamp(int(floor(src0.w + 0.5)), -256, 255);\n" =
              "a0 = clamp(int(floor(src0.w + 0.5)), -256, 255);\n") ∨
          (instr.type = .kScalar ∧ instr.scalar_opcode = .kMaxAs ∧
            "a0 = clamp(int(floor(src0.w + 0.5)), -256, 255);\n" =
              "a0 = clamp(int(floor(src0.x + 0.5)), -256, 255);\n") ∨
          (instr.type = .kScalar ∧ instr.scalar_opcode = .kMaxAsf ∧
            "a0 = clamp(int(floor(src0.w + 0.5)), -256, 255);\n" =
              "a0 = clamp(int(floor(src0.x)), -256, 255);\n")) :=
  ⟨by decide, by decide,
    (a0_assigned_clamped (freshTranslator .kPixel) (.alu maxaExample)).1.2 _ (by decide)
      (by decide)⟩

/-- C16: the opcode body assigns `p0` exactly for the vector opcodes
`setp_eq_push`, `setp_ne_push`, `setp_gt_push`, `setp_ge_push` and the scalar
opcodes `setp_eq`, `setp_ne`, `setp_gt`, `setp_ge`, `setp_inv`, `setp_pop`,
`setp_clr`, `setp_rstr`; every line of a callback that assigns `p0` is a line
of the body of an ALU instruction with one of these opcodes, so no fetch and
no control-flow callback emits one; and the preamble of `StartTranslation`
declares `bool p0 = false;`. -/
theorem p0_assigned_by_setp (t : GlslShaderTranslator) :
    (∀ op : AluVectorOpcode, (vectorOpcodeBody op).any assignsP0 = true ↔
      op ∈ [.kSetpEqPush, .kSetpNePush, .kSetpGtPush, .kSetpGePush]) ∧
    (∀ op : AluScalarOpcode, (scalarOpcodeBody op).any assignsP0 = true ↔
      op ∈ [.kSetpEq, .kSetpNe, .kSetpGt, .kSetpGe, .kSetpInv, .kSetpPop, .kSetpClr,
        .kSetpRstr]) ∧
    (∀ cb : Callback,
      (cb.run t).source_ = t.source_ ++ (cb.comment ++ segmentsText (cb.segments t)) ∧
      ∀ l ∈ cb.lines t, assignsP0 l = true →
        ∃ instr : ParsedAluInstruction, cb = .alu instr ∧
          ((instr.type = .kVector ∧ l ∈ vectorOpcodeBody instr.vector_opcode ∧
              instr.vector_opcode ∈
                [.kSetpEqPush, .kSetpNePush, .kSetpGtPush, .kSetpGePush]) ∨
            (instr.type = .kScalar ∧ l ∈ scalarOpcodeBody instr.scalar_opcode ∧
              instr.scalar_opcode ∈
                [.kSetpEq, .kSetpNe, .kSetpGt, .kSetpGe, .kSetpInv, .kSetpPop, .kSetpClr,
                  .kSetpRstr]))) ∧
    (∀ vb : List VertexBinding,
      (StartTranslation t vb).source_ =
        t.source_ ++ (preambleHead t.shader_type_ vb ++ ("  vec4 pv;\n" ++ "  float ps;\n" ++
          "  bool p0 = false;\n" ++ "  int a0 = 0;\n" ++ "  vec4 src0;\n" ++ "  vec4 src1;\n" ++
          "  vec4 src2;\n"))) := by
  refine ⟨vector_p0_lines, scalar_p0_lines, fun cb => ⟨Callback_run_source t cb, ?_⟩, ?_⟩
  · intro l hl hp
    rcases register_lines "p0 = " (Or.inr rfl) cb l (Callback_lines_kind t cb l hl) hp with
      ⟨instr, hcb, hty, hmem⟩ | ⟨instr, hcb, hty, hmem⟩
    · refine ⟨instr, hcb, Or.inl ⟨hty, hmem, (vector_p0_lines _).mp ?_⟩⟩
      exact List.any_eq_true.mpr ⟨l, hmem, hp⟩
    · refine ⟨instr, hcb, Or.inr ⟨hty, hmem, (scalar_p0_lines _).mp ?_⟩⟩
      exact List.any_eq_true.mpr ⟨l, hmem, hp⟩
  · intro vb
    rw [StartTranslation_eq]
    rfl

/-- The scalar `setp_eq` scenario emits `p0 = true;` in its body, and the
classification attributes the line to a predicate setter. -/
theorem p0_assigned_by_setp_witness :
    "  p0 = true;\n" ∈ Callback.lines (freshTranslator .kPixel) (.alu setpEqExample) ∧
      assignsP0 "  p0 = true;\n" = true ∧
      ∃ instr : ParsedAluInstruction, Callback.alu setpEqExample = .alu instr ∧
        ((instr.type = .kVector ∧ "  p0 = true;\n" ∈ vectorOpcodeBody instr.vector_opcode ∧
            instr.vector_opcode ∈
              [.kSetpEqPush, .kSetpNePush, .kSetpGtPush, .kSetpGePush]) ∨
          (instr.type = .kScalar ∧ "  p0 = true;\n" ∈ scalarOpcodeBody instr.scalar_opcode ∧
            instr.scalar_opcode ∈
              [.kSetpEq, .kSetpNe, .kSetpGt, .kSetpGe, .kSetpInv, .kSetpPop, .kSetpClr,
                .kSetpRstr])) :=
  ⟨by decide, by decide,
    ((p0_assigned_by_setp (freshTranslator .kPixel)).2.2.1 (.alu setpEqExample)).2 _
      (by decide) (by decide)⟩

/-- C17: the statements emitted for the scalar predicate setters, read as
statements of the shading language with x = `src0.x`: `setp_eq`, `setp_ne`,
`setp_gt`, `setp_ge` set `p0` to x == 0, x != 0, x > 0, x >= 0 and `ps` to 0.0
when `p0` is true and 1.0 otherwise; `setp_inv` gives `ps` = 0, `p0` = true
when x == 1, and otherwise `p0` = false with `ps` = 1.0 if x == 0 else x;
`setp_pop` gives 0 and true when x - 1 <= 0 and otherwise x - 1 and false;
`setp_clr` gives `FLT_MAX` and false; `setp_rstr` gives x and x == 0. The
difference x - 1 is the binary32 one: with x = 2^25 `setp_pop` gives 2^25 and
false; and `FLT_MAX` is the binary32 number 2^128 - 2^104. -/
theorem scalar_setp_semantics (s : ShaderState) :
    ScalarReads .kSetpEq s (.completed { s with
      p0 := s.src.e0.e0.eq (.fin 0),
      ps := if s.src.e0.e0.eq (.fin 0) then .fin 0 else .fin 1 }) ∧
    ScalarReads .kSetpNe s (.completed { s with
      p0 := s.src.e0.e0.ne (.fin 0),
      ps := if s.src.e0.e0.ne (.fin 0) then .fin 0 else .fin 1 }) ∧
    ScalarReads .kSetpGt s (.completed { s with
      p0 := s.src.e0.e0.gt (.fin 0),
      ps := if s.src.e0.e0.gt (.fin 0) then .fin 0 else .fin 1 }) ∧
    ScalarReads .kSetpGe s (.completed { s with
      p0 := s.src.e0.e0.ge (.fin 0),
      ps := if s.src.e0.e0.ge (.fin 0) then .fin 0 else .fin 1 }) ∧
    ScalarReads .kSetpInv s (.completed
      (if s.src.e0.e0.eq (.fin 1) then { s with p0 := true, ps := .fin 0 }
       else { s with p0 := false,
                     ps := if s.src.e0.e0.eq (.fin 0) then .fin 1 else s.src.e0.e0 })) ∧
    ScalarReads .kSetpPop s (.completed
      (if (s.src.e0.e0.sub (.fin 1)).le (.fin 0) then { s with p0 := true, ps := .fin 0 }
       else { s with p0 := false, ps := s.src.e0.e0.sub (.fin 1) })) ∧
    ScalarReads .kSetpClr s (.completed { s with p0 := false, ps := .fin FLT_MAX }) ∧
    ScalarReads .kSetpRstr s (.completed { s with
      p0 := s.src.e0.e0.eq (.fin 0), ps := s.src.e0.e0 }) ∧
    ScalarReads .kSetpPop (scalarState (.fin 33554432) (.fin 0) (.fin 0))
      (.completed { scalarState (.fin 33554432) (.fin 0) (.fin 0) with
        p0 := false, ps := .fin 33554432 }) ∧
    FLT_MAX = 2 ^ 128 - 2 ^ 104 := by
  refine ⟨?_, ?_, ?_, ?_, ?_, setpPop_reads s, ?_, ?_, ?_, FLT_MAX_eq⟩
  · exact scalarReads_of _ _ _ _ rfl (setpStatements_run _ _ _ rfl)
  · exact scalarReads_of _ _ _ _ rfl (setpStatements_run _ _ _ rfl)
  · exact scalarReads_of _ _ _ _ rfl (setpStatements_run _ _ _ rfl)
  · exact scalarReads_of _ _ _ _ rfl (setpStatements_run _ _ _ rfl)
  · refine scalarReads_of _ _ _ _ rfl ?_
    cases h1 : s.src.e0.e0.eq (.fin 1) <;> cases h0 : s.src.e0.e0.eq (.fin 0) <;>
      simp [runBody, Stmt.run, runSimples, Ex.value, cmpZero, BinOp.apply, Arr3.get, Vec4.get,
        h1, h0]
  · refine scalarReads_of _ _ _ _ rfl ?_
    simp [runBody, Stmt.run, runSimples, Ex.value]
  · refine scalarReads_of _ _ _ _ rfl ?_
    cases h0 : s.src.e0.e0.eq (.fin 0) <;>
      simp [runBody, Stmt.run, runSimples, Ex.value, cmpZero, BinOp.apply, Arr3.get, Vec4.get,
        h0]
  · have h := setpPop_reads (scalarState (.fin 33554432) (.fin 0) (.fin 0))
    have e : (scalarState (.fin 33554432) (.fin 0) (.fin 0)).src.e0.e0 = .fin 33554432 := rfl
    rw [e, sub_one_rounds] at h
    exact h

/-- C18: the statements emitted for `setp_eq_push`, `setp_ne_push`,
`setp_gt_push`, `setp_ge_push`, read as statements of the shading language,
set `p0` to `src0.w == 0 && src1.w OP 0` and every lane of `pv` to 0.0 if
`src0.x == 0 && src1.x OP 0` and to `src0.x + 1.0` otherwise, OP being ==, !=,
>, >=. So two states with the same w lanes get the same `p0` whatever their x
lanes, and two states with the same x lanes the same `pv` lanes whatever their
w lanes. The sum `src0.x + 1.0` is the binary32 one: with `src0.x` = 2^25 every
lane of `pv` is 2^25. -/
theorem push_predicate_and_value (s : ShaderState) :
    (VectorReads .kSetpEqPush s (.completed (pushResult FVal.eq s)) ∧
      VectorReads .kSetpNePush s (.completed (pushResult FVal.ne s)) ∧
      VectorReads .kSetpGtPush s (.completed (pushResult FVal.gt s)) ∧
      VectorReads .kSetpGePush s (.completed (pushResult FVal.ge s))) ∧
    (∀ op ∈ [AluVectorOpcode.kSetpEqPush, .kSetpNePush, .kSetpGtPush, .kSetpGePush],
      ∀ (s2 o1 o2 : ShaderState),
        VectorReads op s (.completed o1) → VectorReads op s2 (.completed o2) →
        (s.src.e0.e3 = s2.src.e0.e3 → s.src.e1.e3 = s2.src.e1.e3 → o1.p0 = o2.p0) ∧
        (s.src.e0.e0 = s2.src.e0.e0 → s.src.e1.e0 = s2.src.e1.e0 →
          o1.pv.e0 = o2.pv.e0 ∧ o1.pv.e1 = o2.pv.e1 ∧ o1.pv.e2 = o2.pv.e2 ∧
            o1.pv.e3 = o2.pv.e3)) ∧
    (pushResult FVal.eq (pushState (.fin 33554432) (.fin 0) (.fin 0) (.fin 0))).pv =
      ⟨.fin 33554432, .fin 33554432, .fin 33554432, .fin 33554432⟩ := by
  refine ⟨pushReads s, ?_, ?_⟩
  · intro op hop s2 o1 o2 h1 h2
    have key : ∀ cmp : FVal → FVal → Bool,
        VectorReads op s (.completed (pushResult cmp s)) →
        VectorReads op s2 (.completed (pushResult cmp s2)) →
        (s.src.e0.e3 = s2.src.e0.e3 → s.src.e1.e3 = s2.src.e1.e3 → o1.p0 = o2.p0) ∧
        (s.src.e0.e0 = s2.src.e0.e0 → s.src.e1.e0 = s2.src.e1.e0 →
          o1.pv.e0 = o2.pv.e0 ∧ o1.pv.e1 = o2.pv.e1 ∧ o1.pv.e2 = o2.pv.e2 ∧
            o1.pv.e3 = o2.pv.e3) := by
      intro cmp r1 r2
      have e1 := Outcome.completed.inj (VectorReads_unique op s _ _ h1 r1)
      have e2 := Outcome.completed.inj (VectorReads_unique op s2 _ _ h2 r2)
      subst e1 e2
      constructor
      · intro hw0 hw1
        simp only [pushResult, hw0, hw1]
      · intro hx0 hx1
        simp only [pushResult, hx0, hx1, and_self]
    simp only [List.mem_cons, List.mem_singleton, List.not_mem_nil, or_false] at hop
    rcases hop with rfl | rfl | rfl | rfl
    · exact key _ (pushReads s).1 (pushReads s2).1
    · exact key _ (pushReads s).2.1 (pushReads s2).2.1
    · exact key _ (pushReads s).2.2.1 (pushReads s2).2.2.1
    · exact key _ (pushReads s).2.2.2 (pushReads s2).2.2.2
  · have e : (FVal.fin 33554432).eq (.fin 0) = false := by decide
    simp only [pushResult, pushState, e, Bool.false_and, add_one_rounds]
    rfl

/-- Two states with the same w lanes and different x lanes get the same `p0`
from `setp_gt_push`. -/
theorem push_predicate_and_value_witness :
    (pushResult FVal.gt (pushState (.fin 0) (.fin 0) (.fin 1) (.fin 2))).p0 =
      (pushResult FVal.gt (pushState (.fin 5) (.fin 0) (.fin (-1)) (.fin 2))).p0 :=
  ((push_predicate_and_value (pushState (.fin 0) (.fin 0) (.fin 1) (.fin 2))).2.1
    .kSetpGtPush (by decide)
    (pushState (.fin 5) (.fin 0) (.fin (-1)) (.fin 2)) _ _
    (push_predicate_and_value (pushState (.fin 0) (.fin 0) (.fin 1) (.fin 2))).1.2.2.1
    (push_predicate_and_value (pushState (.fin 5) (.fin 0) (.fin (-1)) (.fin 2))).1.2.2.1).1
    rfl rfl

/-- C19: the statements emitted for `kill_eq`, `kill_ne`, `kill_gt`, `kill_ge`,
read as statements of the shading language, are guarded by the disjunction
over the lanes x, y, z, w of `src0.L OP src1.L`; when it holds `pv` is set to
`vec4(1.0)` and the fragment discarded, otherwise `pv` is set to `vec4(0.0)`.
Those of `kills_eq`, `kills_ne`, `kills_gt`, `kills_ge` are guarded by
`src0.x OP 0.0` and those of `kills_one` by `src0.x == 1.0`; on a match `ps`
is set to 1.0 and the fragment discarded, otherwise `ps` is set to 0.0. The
first line of `kill_gt` is the guard over the four lanes with `>`. -/
theorem kill_semantics (s : ShaderState) :
    (VectorReads .kKillEq s (killOutcome (anyLane FVal.eq s) s) ∧
      VectorReads .kKillNe s (killOutcome (anyLane FVal.ne s) s) ∧
      VectorReads .kKillGt s (killOutcome (anyLane FVal.gt s) s) ∧
      VectorReads .kKillGe s (killOutcome (anyLane FVal.ge s) s)) ∧
    (ScalarReads .kKillsEq s (killsOutcome (s.src.e0.e0.eq (.fin 0)) s) ∧
      ScalarReads .kKillsNe s (killsOutcome (s.src.e0.e0.ne (.fin 0)) s) ∧
      ScalarReads .kKillsGt s (killsOutcome (s.src.e0.e0.gt (.fin 0)) s) ∧
      ScalarReads .kKillsGe s (killsOutcome (s.src.e0.e0.ge (.fin 0)) s) ∧
      ScalarReads .kKillsOne s (killsOutcome (s.src.e0.e0.eq (.fin 1)) s)) ∧
    (vectorOpcodeBody .kKillGt).head? =
      some ("if (src0.x > src1.x || src0.y > src1.y || src0.z > src1.z || " ++
        "src0.w > src1.w) \x7b\n") ∧
    (∀ op : BinOp, (killStatements op).flatMap Stmt.lines =
      ["if (" ++ (killGuard op).render ++ ") \x7b\n", "  pv = vec4(1.0);\n", "  discard;\n",
        "\x7d else \x7b\n", "  pv = vec4(0.0);\n", "\x7d\n"]) := by
  refine ⟨⟨?_, ?_, ?_, ?_⟩, ⟨?_, ?_, ?_, ?_, ?_⟩, by decide, ?_⟩
  · exact vectorReads_of _ _ _ _ rfl (killStatements_run _ _ _ apply_eq)
  · exact vectorReads_of _ _ _ _ rfl (killStatements_run _ _ _ apply_ne)
  · exact vectorReads_of _ _ _ _ rfl (killStatements_run _ _ _ apply_gt)
  · exact vectorReads_of _ _ _ _ rfl (killStatements_run _ _ _ apply_ge)
  · exact scalarReads_of _ _ _ _ rfl (killsStatements_run _ _ _ rfl)
  · exact scalarReads_of _ _ _ _ rfl (killsStatements_run _ _ _ rfl)
  · exact scalarReads_of _ _ _ _ rfl (killsStatements_run _ _ _ rfl)
  · exact scalarReads_of _ _ _ _ rfl (killsStatements_run _ _ _ rfl)
  · exact scalarReads_of _ _ _ _ rfl (killsStatements_run _ _ _ rfl)
  · intro op
    cases op <;> decide

/-- C20: the single statement emitted for `muls_prev2`, read as a statement of
the shading language, assigns `ps` the value `-FLT_MAX` when the previous `ps`
is `-FLT_MAX`, infinite or NaN, or `src0.y` is NaN or `<= 0`, the whole
disjunction being the condition, and `src0.x * ps` in every other case. With
the previous `ps` = `-FLT_MAX` and `src0.y` = -1 it assigns `-FLT_MAX`
whatever `src0.x` is. `FLT_MAX` is the binary32 number 2^128 - 2^104 and the
product is the binary32 one: with `src0.x` = `ps` = 2^100 and `src0.y` = 1 the
statement assigns positive infinity. -/
theorem muls_prev2_semantics (s : ShaderState) :
    ScalarReads .kMulsPrev2 s (.completed { s with
      ps :=
        if s.ps.eq (.fin (-FLT_MAX)) || s.ps.isinf || s.ps.isnan || s.src.e0.e1.isnan ||
            s.src.e0.e1.le (.fin 0)
        then .fin (-FLT_MAX) else s.src.e0.e0.mul s.ps }) ∧
    (scalarOpcodeBody .kMulsPrev2).length = 1 ∧
    (s.ps = .fin (-FLT_MAX) → s.src.e0.e1 = .fin (-1) →
      ScalarReads .kMulsPrev2 s (.completed { s with ps := .fin (-FLT_MAX) })) ∧
    FLT_MAX = 2 ^ 128 - 2 ^ 104 ∧
    ScalarReads .kMulsPrev2
      (scalarState (.fin 1267650600228229401496703205376) (.fin 1)
        (.fin 1267650600228229401496703205376))
      (.completed { scalarState (.fin 1267650600228229401496703205376) (.fin 1)
        (.fin 1267650600228229401496703205376) with ps := .posInf }) := by
  refine ⟨mulsPrev2_reads s, rfl, ?_, FLT_MAX_eq, ?_⟩
  · intro hps hy
    have main := mulsPrev2_reads s
    have hc : (s.ps.eq (.fin (-FLT_MAX)) || s.ps.isinf || s.ps.isnan || s.src.e0.e1.isnan ||
        s.src.e0.e1.le (.fin 0)) = true := by
      rw [hps]
      simp [FVal.eq]
    rw [hc] at main
    simpa using main
  · have main := mulsPrev2_reads (scalarState (.fin 1267650600228229401496703205376) (.fin 1)
      (.fin 1267650600228229401496703205376))
    have hc : ((scalarState (.fin 1267650600228229401496703205376) (.fin 1)
          (.fin 1267650600228229401496703205376)).ps.eq (.fin (-FLT_MAX)) ||
        (scalarState (.fin 1267650600228229401496703205376) (.fin 1)
          (.fin 1267650600228229401496703205376)).ps.isinf ||
        (scalarState (.fin 1267650600228229401496703205376) (.fin 1)
          (.fin 1267650600228229401496703205376)).ps.isnan ||
        (scalarState (.fin 1267650600228229401496703205376) (.fin 1)
          (.fin 1267650600228229401496703205376)).src.e0.e1.isnan ||
        (scalarState (.fin 1267650600228229401496703205376) (.fin 1)
          (.fin 1267650600228229401496703205376)).src.e0.e1.le (.fin 0)) = false := by
      decide
    rw [hc] at main
    have e : (scalarState (.fin 1267650600228229401496703205376) (.fin 1)
        (.fin 1267650600228229401496703205376)).src.e0.e0.mul
          (scalarState (.fin 1267650600228229401496703205376) (.fin 1)
            (.fin 1267650600228229401496703205376)).ps = .posInf := mul_overflows
    rw [e] at main
    exact main

/-- With the previous `ps` = `-FLT_MAX`, `src0.y` = -1 and `src0.x` = 2 the
statement of `muls_prev2` assigns `-FLT_MAX`. -/
theorem muls_prev2_semantics_witness :
    ScalarReads .kMulsPrev2 (scalarState (.fin 2) (.fin (-1)) (.fin (-FLT_MAX)))
      (.completed { scalarState (.fin 2) (.fin (-1)) (.fin (-FLT_MAX)) with
        ps := .fin (-FLT_MAX) }) :=
  (muls_prev2_semantics (scalarState (.fin 2) (.fin (-1)) (.fin (-FLT_MAX)))).2.2.1 rfl rfl

/-- Counterexample to C21 as stated: when the result of `log2` is positive
infinity, the second statement of `logc` replaces it by `-FLT_MAX`. -/
theorem logc_clamps_positive_infinity :
    scalarOpcodeBody .kLogc = ["ps = log2(src0.x);\n", logcClamp.line] ∧
    runSimples [logcClamp] (scalarState (.fin 1) (.fin 0) .posInf) =
      some (.completed { scalarState (.fin 1) (.fin 0) .posInf with ps := .fin (-FLT_MAX) }) ∧
    FVal.fin (-FLT_MAX) ≠ .posInf := by
  refine ⟨by decide, rfl, by simp⟩

/-- C21, amended: the statements emitted for `logc` are `ps = log2(src0.x);`
and then a statement that replaces `ps` by `-FLT_MAX` exactly when it is
infinite, negative or positive, and leaves every other value, a NaN included,
unchanged. -/
theorem logc_clamps_infinities (s : ShaderState) :
    scalarOpcodeBody .kLogc = ["ps = log2(src0.x);\n", logcClamp.line] ∧
    runSimples [logcClamp] s =
      some (.completed { s with ps := if s.ps.isinf then .fin (-FLT_MAX) else s.ps }) ∧
    (∀ v : FVal, v.isinf = true ↔ v = .posInf ∨ v = .negInf) := by
  refine ⟨by decide, ?_, ?_⟩
  · cases h : s.ps.isinf <;>
      simp [logcClamp, runSimples, Ex.value, FVal.neg, h]
  · intro v
    cases v <;> simp [FVal.isinf]

set_option maxRecDepth 100000 in
/-- C22, at the failing input `src1 = (1, 1, 0, 0)`, where r = (1, 1, 0): rx
and ry tie for the largest magnitude, both strict comparisons of the helper
`cube` fail and it takes the z branch, so `ma` is 0 and not the largest
magnitude 1, and `face_id` is 5, a face of z. -/
theorem cube_tie_selects_z :
    (cubeFace ⟨1, 1, 0, 0⟩).ma = 0 ∧
    (cubeFace ⟨1, 1, 0, 0⟩).face_id = 5 ∧
    max (max |(1 : ℚ)| |(1 : ℚ)|) |(0 : ℚ)| = 1 ∧
    "  if (abs_src.x > abs_src.y && abs_src.x > abs_src.z) \x7b" ∈ textLines preambleCube ∧
    "  \x7d else if (abs_src.y > abs_src.x && abs_src.y > abs_src.z) \x7b" ∈
      textLines preambleCube := by
  refine ⟨?_, ?_, ?_, ?_, ?_⟩
  · decide
  · decide
  · norm_num
  · decide
  · decide

set_option maxRecDepth 100000 in
/-- C23, at the failing input `src1 = (0, 2, -1, 0)`, where r = (2, 0, -1):
the helper `cube` selects face 0 and takes `sc` from `abs_src`, so `sc` is
`-|rz|` = -1, where the table above the helper has `-rz` = 1 for face 0. -/
theorem cube_sc_uses_magnitude :
    (cubeFace ⟨0, 2, -1, 0⟩).face_id = 0 ∧
    (cubeFace ⟨0, 2, -1, 0⟩).sc = -1 ∧
    (cubeFace ⟨0, 2, -1, 0⟩).tc = 0 ∧
    documentedScTc 0 2 0 (-1) = (1, 0) ∧
    "      face_id = 0; sc = -abs_src.z; tc = -abs_src.y; ma = abs_src.x;" ∈
      textLines preambleCube ∧
    "  vec3 abs_src = abs(src);" ∈ textLines preambleCube := by
  refine ⟨?_, ?_, ?_, ?_, ?_, ?_⟩
  · decide
  · decide
  · decide
  · decide
  · decide
  · decide

/-- C25: for a texture fetch with opcode `kTextureFetch` and sampler index
i = `operands[1].storage_index`, the opcode body is the null-sampler guard
`if (state.texture_samplers[i] != 0) {`, the sample
`pv = texture(<S>(state.texture_samplers[i]), src0.<C>);`, `} else {`, the
passthrough `pv = <F>;` and `}`, with S, C and F by dimension as in
`samplerName`, `fetchCoordinate` and `fetchPassthrough`; the instruction emits
it between its loads and its store. -/
theorem texture_fetch_guarded (t : GlslShaderTranslator)
    (instr : ParsedTextureFetchInstruction) (hop : instr.opcode = .kTextureFetch) :
    textureOpcodeLines instr =
      guardedFetchLines instr.dimension (instr.operands.get 1).storage_index ∧
    (ProcessTextureFetchInstruction t instr).source_ =
      t.source_ ++ ("// " ++ instr.disassembly ++
        (guardText t instr.is_predicated instr.predicate_condition ++
          indented (indent (bodyState t instr.is_predicated))
            (fetchLoadLines t.shader_type_ .kTextureFetchConstant instr.operand_count
                instr.operands ++
              guardedFetchLines instr.dimension (instr.operands.get 1).storage_index ++
              storeLines instr.result "pv") ++
          closeText t instr.is_predicated)) ∧
    (samplerName .k1D = "sampler1D" ∧ fetchCoordinate .k1D = "x" ∧
      fetchPassthrough .k1D = "vec4(src0.x, 0.0, 0.0, 1.0)") ∧
    (samplerName .k2D = "sampler2D" ∧ fetchCoordinate .k2D = "xy" ∧
      fetchPassthrough .k2D = "vec4(src0.x, src0.y, 0.0, 1.0)") ∧
    (samplerName .k3D = "sampler3D" ∧ fetchCoordinate .k3D = "xyz" ∧
      fetchPassthrough .k3D = "vec4(src0.x, src0.y, src0.z, 1.0)") ∧
    (samplerName .kCube = "samplerCube" ∧ fetchCoordinate .kCube = "xyz" ∧
      fetchPassthrough .kCube = "vec4(src0.x, src0.y, src0.z, 1.0)") := by
  have h1 : textureOpcodeLines instr =
      guardedFetchLines instr.dimension (instr.operands.get 1).storage_index := by
    unfold textureOpcodeLines
    rw [hop]
    exact textureFetchBody_guarded _ _
  refine ⟨h1, ?_, ⟨rfl, rfl, rfl⟩, ⟨rfl, rfl, rfl⟩, ⟨rfl, rfl, rfl⟩, ⟨rfl, rfl, rfl⟩⟩
  rw [(ProcessTextureFetchInstruction_emits t instr).1, textureFetchLines, h1]

set_option maxRecDepth 20000 in
/-- A 2D fetch from sampler 3 emits the guard, the sample through `sampler2D`
with `src0.xy`, and the passthrough. -/
theorem texture_fetch_guarded_witness :
    tfetchExample.opcode = .kTextureFetch ∧
    (ProcessTextureFetchInstruction (freshTranslator .kPixel) tfetchExample).source_ =
      "//   src0 = r[0];\n" ++
      "  if (state.texture_samplers[3] != 0) \x7b\n" ++
      "    pv = texture(sampler2D(state.texture_samplers[3]), src0.xy);\n" ++
      "  \x7d else \x7b\n" ++
      "    pv = vec4(src0.x, src0.y, 0.0, 1.0);\n" ++
      "  \x7d\n" ++
      "  r[2] = pv;\n" :=
  ⟨rfl, by
    rw [(texture_fetch_guarded (freshTranslator .kPixel) tfetchExample rfl).2.1]
    decide⟩

/-- C27: in the vertex stage `StartTranslation` emits, between the fixed text
and the prologue of the process function, the lines
`layout(location = <attrib_index>) in <T> vf<fetch_constant>_<offset>;`, one per
attribute, in binding order and then attribute order; in the pixel stage the
text does not depend on the bindings; T is `float`, `vec2`, `vec3` or `vec4`
by data format as stated, and its number of lanes is the component count of
the format. -/
theorem vertex_inputs_declared (t : GlslShaderTranslator) (vb : List VertexBinding) :
    (t.shader_type_ = .kVertex →
      (StartTranslation t vb).source_ =
        t.source_ ++ (preambleCommon ++ preambleCube ++ preambleVertex ++
          concatLines ((bindingAttributes vb).map (fun p => vertexInputLine p.1 p.2)) ++
          concatLines vertexPrologueLines)) ∧
    (bindingAttributes vb).length = (vb.map (fun b => b.attributes.length)).sum ∧
    (∀ (binding : VertexBinding) (attrib : VertexAttribute),
      IsLine (vertexInputLine binding attrib)) ∧
    (t.shader_type_ = .kPixel →
      (StartTranslation t vb).source_ =
        t.source_ ++ (preambleCommon ++ preambleCube ++ preamblePixel ++
          concatLines pixelPrologueLines)) ∧
    (∀ f : VertexFormat,
      (f ∈ [VertexFormat.k_32, .k_32_FLOAT] → GetVertexFormatTypeName f = "float") ∧
      (f ∈ [VertexFormat.k_16_16, .k_32_32, .k_16_16_FLOAT, .k_32_32_FLOAT] →
        GetVertexFormatTypeName f = "vec2") ∧
      (f ∈ [VertexFormat.k_10_11_11, .k_11_11_10, .k_32_32_32_FLOAT] →
        GetVertexFormatTypeName f = "vec3") ∧
      (f ∉ [VertexFormat.k_32, .k_32_FLOAT, .k_16_16, .k_32_32, .k_16_16_FLOAT,
          .k_32_32_FLOAT, .k_10_11_11, .k_11_11_10, .k_32_32_32_FLOAT] →
        GetVertexFormatTypeName f = "vec4") ∧
      typeLanes (GetVertexFormatTypeName f) = GetVertexFormatComponentCount f) := by
  refine ⟨?_, bindingAttributes_length vb, vertexInputLine_isLine,
    StartTranslation_pixel t vb, ?_⟩
  · intro h
    rw [StartTranslation_vertex t vb h, vertexInputLines_eq]
  · intro f
    cases f <;> decide

set_option maxRecDepth 20000 in
/-- In the vertex stage, the binding of the scenario gets two declarations,
in attribute order, after the fixed text and before the prologue. -/
theorem vertex_inputs_declared_witness :
    (freshTranslator .kVertex).shader_type_ = .kVertex ∧
    (StartTranslation (freshTranslator .kVertex) [bindingExample]).source_ =
      "" ++ (preambleCommon ++ preambleCube ++ preambleVertex ++
        ("layout(location = 0) in vec3 vf95_0;\n" ++
          "layout(location = 1) in vec2 vf95_3;\n") ++
        concatLines vertexPrologueLines) ∧
    (StartTranslation (freshTranslator .kPixel) [bindingExample]).source_ =
      "" ++ (preambleCommon ++ preambleCube ++ preamblePixel ++
        concatLines pixelPrologueLines) := by
  have h := vertex_inputs_declared (freshTranslator .kVertex) [bindingExample]
  have hp := vertex_inputs_declared (freshTranslator .kPixel) [bindingExample]
  refine ⟨rfl, ?_, hp.2.2.2.1 rfl⟩
  rw [h.1 rfl]
  have e : concatLines ((bindingAttributes [bindingExample]).map
      (fun p => vertexInputLine p.1 p.2)) =
      "layout(location = 0) in vec3 vf95_0;\n" ++ "layout(location = 1) in vec2 vf95_3;\n" := by
    decide
  rw [e]
  rfl

/-- C28: `ProcessLabel` and the loop-start, loop-end, call, return and jump
callbacks emit the line `// UNIMPLEMENTED TRANSLATION` at the current
indentation, after the disassembly comment if any, and leave depth and
indentation as they are; a texture fetch with an opcode other than
`kTextureFetch` has that line once among its body lines, and still emits its
store and the close of its predication; `EmitTranslationError(m)` emits
`// TRANSLATION ERROR: m`; the control-flow nop and alloc callbacks emit their
comment only. -/
theorem unsupported_constructs_reported (t : GlslShaderTranslator) :
    ((ProcessLabel t).source_ = t.source_ ++ indent t ++ "// UNIMPLEMENTED TRANSLATION\n" ∧
      (ProcessLabel t).depth_ = t.depth_ ∧
      (ProcessLabel t).depth_prefix_ = t.depth_prefix_) ∧
    (∀ instr : ParsedControlFlowInstruction,
      (ProcessUnimplementedControlFlow t instr).source_ =
        t.source_ ++ "// " ++ instr.disassembly ++ indent t ++
          "// UNIMPLEMENTED TRANSLATION\n" ∧
      (ProcessUnimplementedControlFlow t instr).depth_ = t.depth_ ∧
      (ProcessUnimplementedControlFlow t instr).depth_prefix_ = t.depth_prefix_) ∧
    (∀ instr : ParsedTextureFetchInstruction,
      instr.opcode ∈ [FetchOpcode.kGetTextureBorderColorFrac, .kGetTextureComputedLod,
        .kGetTextureGradients, .kGetTextureWeights, .kSetTextureLod,
        .kSetTextureGradientsHorz, .kSetTextureGradientsVert, .kUnknownTextureOp] →
      (textureFetchLines t.shader_type_ instr).count "// UNIMPLEMENTED TRANSLATION\n" = 1 ∧
      (ProcessTextureFetchInstruction t instr).source_ =
        t.source_ ++ ("// " ++ instr.disassembly ++
          (guardText t instr.is_predicated instr.predicate_condition ++
            indented (indent (bodyState t instr.is_predicated))
              (fetchLoadLines t.shader_type_ .kTextureFetchConstant instr.operand_count
                  instr.operands ++
                textureOpcodeLines instr ++ storeLines instr.result "pv") ++
            closeText t instr.is_predicated))) ∧
    (∀ m : String,
      (EmitTranslationError t m).source_ =
        t.source_ ++ indent t ++ "// TRANSLATION ERROR: " ++ m ++ "\n" ∧
      (EmitTranslationError t m).depth_ = t.depth_) ∧
    (ProcessControlFlowNopInstruction t).source_ = t.source_ ++ "//        cnop\n" ∧
    (∀ instr : ParsedControlFlowInstruction,
      (ProcessAllocInstruction t instr).source_ = t.source_ ++ "// " ++ instr.disassembly) := by
  refine ⟨⟨?_, rfl, rfl⟩, ?_, ?_, ?_, rfl, ?_⟩
  · simp only [ProcessLabel, EmitUnimplementedTranslationError_eq, EmitSource_source,
      indent_EmitSource, String.append_assoc]
  · intro instr
    refine ⟨?_, rfl, rfl⟩
    rw [unimplementedControlFlow_source]
    simp only [String.append_assoc]
  · intro instr hop
    refine ⟨?_, ?_⟩
    · unfold textureFetchLines
      rw [List.count_append, List.count_append, count_unimplemented_loads,
        count_unimplemented_store]
      unfold textureOpcodeLines
      simp only [List.mem_cons, List.mem_singleton, List.not_mem_nil, or_false] at hop
      rcases hop with h | h | h | h | h | h | h | h <;> rw [h] <;> dsimp only <;> decide
    · rw [(ProcessTextureFetchInstruction_emits t instr).1, textureFetchLines]
  · intro m
    refine ⟨?_, rfl⟩
    simp only [EmitTranslationError, EmitSourceDepth_eq, EmitSource_source, String.append_assoc]
    rfl
  · intro instr
    simp only [ProcessAllocInstruction, EmitSource_EmitSource, EmitSource_source,
      String.append_assoc]

/-- A texture fetch with opcode `kSetTextureLod` emits the comment of an
unimplemented translation once and then its store. -/
theorem unsupported_constructs_reported_witness :
    setLodExample.opcode ∈ [FetchOpcode.kGetTextureBorderColorFrac, .kGetTextureComputedLod,
      .kGetTextureGradients, .kGetTextureWeights, .kSetTextureLod,
      .kSetTextureGradientsHorz, .kSetTextureGradientsVert, .kUnknownTextureOp] ∧
    (textureFetchLines (freshTranslator .kPixel).shader_type_ setLodExample).count
      "// UNIMPLEMENTED TRANSLATION\n" = 1 ∧
    (ProcessTextureFetchInstruction (freshTranslator .kPixel) setLodExample).source_ =
      "//   // UNIMPLEMENTED TRANSLATION\n  r[2] = pv;\n" := by
  have h := (unsupported_constructs_reported (freshTranslator .kPixel)).2.2.1 setLodExample
    (by decide)
  refine ⟨by decide, h.1, ?_⟩
  rw [h.2]
  decide

/-- C29: the process-function prologue that ends the text of
`StartTranslation` is, in the pixel stage, `void processFragment(const in
StateData state) {`, `vec4 r[64];` and the sixteen copies `r[i] = vtx.o[i];`
for i = 0..15 in increasing order, and in the vertex stage
`void processVertex(const in StateData state) {` and `vec4 r[64];` with no
copy; then, in both, `vec4 pv;`, `float ps;`, `bool p0 = false;`,
`int a0 = 0;`, `vec4 src0;`, `vec4 src1;`, `vec4 src2;`, once each in this
order. -/
theorem process_prologue (t : GlslShaderTranslator) (vb : List VertexBinding) :
    (t.shader_type_ = .kPixel →
      (StartTranslation t vb).source_ =
        t.source_ ++ (preambleCommon ++ preambleCube ++ preamblePixel ++
          concatLines pixelPrologueLines)) ∧
    (t.shader_type_ = .kVertex →
      (StartTranslation t vb).source_ =
        t.source_ ++ (preambleCommon ++ preambleCube ++ preambleVertex ++
          concatLines (vertexInputLines vb) ++ concatLines vertexPrologueLines)) ∧
    pixelPrologueLines =
      ["void processFragment(const in StateData state) \x7b\n", "  vec4 r[64];\n"] ++
        (List.range 16).map
          (fun i => "  r[" ++ toString i ++ "] = vtx.o[" ++ toString i ++ "];\n") ++
        scratchLines ∧
    vertexPrologueLines =
      ["void processVertex(const in StateData state) \x7b\n", "  vec4 r[64];\n"] ++
        scratchLines ∧
    scratchLines =
      ["  vec4 pv;\n", "  float ps;\n", "  bool p0 = false;\n", "  int a0 = 0;\n",
        "  vec4 src0;\n", "  vec4 src1;\n", "  vec4 src2;\n"] :=
  ⟨StartTranslation_pixel t vb, StartTranslation_vertex t vb, by decide, rfl, rfl⟩

set_option maxRecDepth 100000 in
/-- On a fresh translator the text of `StartTranslation` ends with the
prologue of the stage. -/
theorem process_prologue_witness :
    ((freshTranslator .kPixel).shader_type_ = .kPixel ∧
      (StartTranslation (freshTranslator .kPixel) []).source_ =
        "" ++ (preambleCommon ++ preambleCube ++ preamblePixel ++
          concatLines pixelPrologueLines)) ∧
    ((freshTranslator .kVertex).shader_type_ = .kVertex ∧
      (StartTranslation (freshTranslator .kVertex) []).source_ =
        "" ++ (preambleCommon ++ preambleCube ++ preambleVertex ++
          concatLines (vertexInputLines []) ++ concatLines vertexPrologueLines)) :=
  ⟨⟨rfl, (process_prologue (freshTranslator .kPixel) []).1 rfl⟩,
   ⟨rfl, (process_prologue (freshTranslator .kVertex) []).2.1 rfl⟩⟩

/-- C31: after `Reset` the text of a translation does not depend on what the
translator held before. Two translators of the same stage, whose indentation
buffers are arrays of the same size, give the same text for the same vertex
bindings and stream, whatever their depth, the bytes of their buffers, their
buffered source, their error flag and their dialect; so do two translators
constructed with different dialects. `Reset` after `Reset` gives the state of
one `Reset`, and a translation started after an additional `Reset` ends in the
same state with the same text. -/
theorem reset_forgets_earlier_state (a b : GlslShaderTranslator) (vb : List VertexBinding)
    (stream : List Callback) (hs : a.shader_type_ = b.shader_type_)
    (hl : a.depth_prefix_.length = b.depth_prefix_.length) :
    (Translate a vb stream).2 = (Translate b vb stream).2 ∧
      (∀ (d1 d2 : Dialect) (stage : ShaderType),
        (Translate (construct d1 stage) vb stream).2 =
          (Translate (construct d2 stage) vb stream).2) ∧
      Reset (Reset a) = Reset a ∧
      Translate (Reset a) vb stream = Translate a vb stream := by
  refine ⟨Translate_congr a b vb stream hs hl, ?_, Reset_Reset a, ?_⟩
  · intro d1 d2 stage
    exact Translate_congr _ _ vb stream rfl rfl
  · simp only [Translate, Reset_Reset]

theorem reset_forgets_earlier_state_witness :
    (Translate (usedTranslator .kPixel) [] [.execBegin plainExec, .alu killExample,
        .execEnd plainExec]).2 =
      (Translate (freshTranslator .kPixel) [] [.execBegin plainExec, .alu killExample,
        .execEnd plainExec]).2 :=
  (reset_forgets_earlier_state (usedTranslator .kPixel) (freshTranslator .kPixel) []
    [.execBegin plainExec, .alu killExample, .execEnd plainExec] rfl (by decide)).1

/-- C32 fails as stated: at depth 0, with the indentation invariant holding,
`EmitSourceDepth` puts two spaces in front of the text, not none. And where
the invariant does not hold, as at depth -2 after an exec end at depth 0, the
two spaces in front of the text are not `depth_ + 2` spaces either. -/
theorem EmitSourceDepth_at_depth_zero :
    (IndentInvariant (freshTranslator .kVertex) ∧ (freshTranslator .kVertex).depth_ = 0 ∧
      (EmitSourceDepth (freshTranslator .kVertex) "pv = src0;\n").source_ =
        "  pv = src0;\n" ∧
      (EmitSourceDepth (freshTranslator .kVertex) "pv = src0;\n").source_ ≠
        (freshTranslator .kVertex).source_ ++
          (String.mk (List.replicate (freshTranslator .kVertex).depth_.toNat ' ') ++
            "pv = src0;\n")) ∧
    (¬ IndentInvariant (ProcessExecInstructionEnd (freshTranslator .kVertex) plainExec) ∧
      (ProcessExecInstructionEnd (freshTranslator .kVertex) plainExec).depth_ = -2 ∧
      (EmitSourceDepth (ProcessExecInstructionEnd (freshTranslator .kVertex) plainExec)
        "pv = src0;\n").source_ = "  \x7d\n  pv = src0;\n") := by
  decide

/-- C32, amended: under the indentation invariant, what `EmitSourceDepth`
appends is `depth_ + 2` spaces followed by the formatted text, the two
fixed spaces and the `depth_` spaces of the indentation; when the formatted
text does not open with a space, the appended text opens with exactly
`depth_ + 2` spaces. -/
theorem EmitSourceDepth_indentation (t : GlslShaderTranslator) (s : String)
    (h : IndentInvariant t) :
    (EmitSourceDepth t s).source_ =
        t.source_ ++ (String.mk (List.replicate (t.depth_.toNat + 2) ' ') ++ s) ∧
      (s.data.head? ≠ some ' ' →
        leadingSpaces (String.mk (List.replicate (t.depth_.toNat + 2) ' ') ++ s) =
          t.depth_.toNat + 2) := by
  refine ⟨?_, leadingSpaces_replicate _ s⟩
  rw [EmitSourceDepth_eq, EmitSource_source, indent_of_PrefixOk t h.2]
  apply congrArg
  apply String.ext
  rw [show t.depth_.toNat + 2 = 2 + t.depth_.toNat from by omega]
  simp [List.replicate_add]

theorem EmitSourceDepth_indentation_witness :
    (EmitSourceDepth (Indent (freshTranslator .kVertex)) "pv = src0;\n").source_ =
      "" ++ (String.mk (List.replicate (2 + 2) ' ') ++ "pv = src0;\n") :=
  (EmitSourceDepth_indentation (Indent (freshTranslator .kVertex)) "pv = src0;\n"
    (by decide)).1

/-- C33 fails as stated: with the invariant holding at depth 14 in a buffer of
16 bytes, `Indent` stores the terminator past the end of the buffer and the
invariant is lost; and with the invariant holding at depth 0, the exec-end
callback calls `Unindent` and leaves a negative depth. -/
theorem indent_invariant_lost :
    (IndentInvariant (Indent^[7] (freshTranslator .kVertex)) ∧
      (Indent^[7] (freshTranslator .kVertex)).depth_ = 14 ∧
      (Indent^[7] (freshTranslator .kVertex)).depth_prefix_.length = 16 ∧
      ¬ IndentInvariant (Indent (Indent^[7] (freshTranslator .kVertex)))) ∧
    (IndentInvariant (freshTranslator .kVertex) ∧
      (ProcessExecInstructionEnd (freshTranslator .kVertex) plainExec).depth_ = -2 ∧
      ¬ IndentInvariant (ProcessExecInstructionEnd (freshTranslator .kVertex) plainExec)) := by
  decide

/-- C33, amended: the predicate "depth even and not negative, and the
indentation buffer holds depth spaces and then the terminator", under which
the buffer reads as a C string of depth spaces, holds after `Reset` (the
buffer being an array of at least one byte). It is preserved by `Indent` when
the buffer has room (`depth_ + 2` less than its size), by `Unindent` when the
depth is at least 2, and by every callback, with room when the callback calls
`Indent` (exec begin and the predicated instructions) and depth at least 2
for exec end. Under the predicate and with room, `Unindent` after `Indent`
restores depth and indentation string. Every callback other than exec begin
and exec end leaves depth and buffer as they are or as one `Indent` followed
by one `Unindent` leaves them, so its depth is unchanged. -/
theorem indent_invariant (t : GlslShaderTranslator) (h : IndentInvariant t) :
    cstr t.depth_prefix_ = String.mk (List.replicate t.depth_.toNat ' ') ∧
    (∀ u : GlslShaderTranslator, u.depth_prefix_ ≠ [] → IndentInvariant (Reset u)) ∧
    (HasRoom t → IndentInvariant (Indent t)) ∧
    (2 ≤ t.depth_ → IndentInvariant (Unindent t)) ∧
    (∀ cb : Callback, (cb.callsIndent = true → HasRoom t) →
      (∀ instr, cb = .execEnd instr → 2 ≤ t.depth_) → IndentInvariant (cb.run t)) ∧
    (HasRoom t → (Unindent (Indent t)).depth_ = t.depth_ ∧
      cstr (Unindent (Indent t)).depth_prefix_ = cstr t.depth_prefix_) ∧
    (∀ (u : GlslShaderTranslator) (cb : Callback), cb.isExec = false →
      (cb.run u).depth_ = u.depth_ ∧
        (cb.run u).depth_prefix_ =
          (if cb.indents then (Unindent (Indent u)).depth_prefix_ else u.depth_prefix_)) := by
  have h' := h
  obtain ⟨he, hok⟩ := h'
  refine ⟨cstr_spaces _ _ hok.2.1 hok.2.2, ?_, ?_, ?_, ?_, ?_, ?_⟩
  · intro u hu
    refine ⟨rfl, le_refl _, rfl, ?_⟩
    show (poke u.depth_prefix_ 0 NUL)[0]? = some NUL
    rw [poke_getElem]
    have : 0 < u.depth_prefix_.length := List.length_pos.2 hu
    simp [this]
  · intro hr
    exact ⟨by show (t.depth_ + 2) % 2 = 0; omega, PrefixOk_Indent t hok hr⟩
  · intro hd
    exact ⟨by show (t.depth_ - 2) % 2 = 0; omega, PrefixOk_Unindent t hok hd⟩
  · intro cb hroom hend
    exact IndentInvariant_run t cb h hroom hend
  · intro hr
    obtain ⟨_, h2, h3⟩ := indent_Indent t hok hr
    refine ⟨h3, ?_⟩
    have h2' : "  " ++ cstr (Unindent (Indent t)).depth_prefix_ = "  " ++ cstr t.depth_prefix_ :=
      h2
    have := congrArg String.data h2'
    simp only [String.data_append, List.append_cancel_left_eq] at this
    exact String.ext this
  · intro u cb hx
    obtain ⟨h1, h2⟩ := run_buffer u cb hx
    refine ⟨?_, h2⟩
    rw [h1]
    split
    · rw [Unindent_depth, Indent_depth]; omega
    · rfl

theorem indent_invariant_witness :
    cstr (Indent (Indent (freshTranslator .kVertex))).depth_prefix_ =
      String.mk (List.replicate 4 ' ') :=
  (indent_invariant (Indent (Indent (freshTranslator .kVertex))) (by decide)).1

/-- C34: the guard that `ProcessExecInstructionBegin` emits for a conditional
exec is `(state.bool_consts[i / 32] & (1 << i % 32)) == 1` for condition true
and `== 0` for condition false. Read with 32-bit integers on a word `w`, the
guard for condition false holds exactly when bit `i mod 32` of `w` is clear;
the guard for condition true holds only when `i mod 32` is 0 and bit 0 is set.
For index 37, condition true and `w` = 32, whose bit 5 is set, the guard is
false. -/
theorem conditional_guard_compares_with_one :
    (ProcessExecInstructionBegin (freshTranslator .kPixel) condExecExample).source_ =
        "//   if ((state.bool_consts[1] & (1 << 5)) == 1) \x7b\n" ∧
      (∀ instr : ParsedExecInstruction, instr.type = .kConditional →
        execHeader instr =
          "if (" ++ (guardWord instr).render ++ " == " ++ (guardLiteral instr).render ++
            ") \x7b\n") ∧
      (∀ (instr : ParsedExecInstruction) (w : Nat),
        guardHolds instr w =
          if instr.condition then
            decide (instr.bool_constant_index % 32 = 0) && w.testBit 0
          else !w.testBit (instr.bool_constant_index % 32)) ∧
      Nat.testBit 32 (condExecExample.bool_constant_index % 32) = true ∧
      condExecExample.condition = true ∧
      guardHolds condExecExample 32 = false := by
  refine ⟨by decide, execHeader_conditional, guardHolds_eq, by decide, rfl, by decide⟩

set_option maxRecDepth 100000 in
/-- C35: the load line of an operand and the store line of a result with
relative addressing name `aL`, while the text that `StartTranslation` emits
declares `r`, `pv`, `ps`, `p0`, `a0`, `src0`, `src1`, `src2` in the process
function and holds the characters `aL` nowhere, in neither stage. -/
theorem relative_addressing_names_undeclared :
    loadLine .kVertex 0 (relativeOperand 3) = "src0 = r[3+aL];\n" ∧
      (EmitLoadOperand (freshTranslator .kVertex) 0 (relativeOperand 3)).source_ =
        "  src0 = r[3+aL];\n" ∧
      (EmitStoreResult (freshTranslator .kVertex) (relativeResult 3) "pv").source_ =
        "  r[3+aL] = pv;\n" ∧
      declaredNames vertexPrologueLines =
        ["r", "pv", "ps", "p0", "a0", "src0", "src1", "src2"] ∧
      declaredNames pixelPrologueLines =
        ["r", "pv", "ps", "p0", "a0", "src0", "src1", "src2"] ∧
      mentions "aL"
        (StartTranslation (Reset (freshTranslator .kVertex)) [bindingExample]).source_ = false ∧
      mentions "aL" (StartTranslation (Reset (freshTranslator .kPixel)) []).source_ = false ∧
      mentions "a0"
        (StartTranslation (Reset (freshTranslator .kVertex)) [bindingExample]).source_ = true := by
  refine ⟨by decide, by decide, by decide, by decide, by decide, by decide, by decide,
    by decide⟩

/-- C36: for a result with writes whose target has four lanes, and the temp
`pv` or `vec4(ps)`, the store that `EmitStoreResult` emits is destination,
selector, ` = `, right-hand side, `;`, and the number of lanes that the
selector picks equals the number of lanes of the right-hand side read from its
text (through `clamp(…, 0.0, 1.0)` if present): four on both sides for a
standard result, and otherwise the number of set write-mask bits on both
sides, the right-hand side being a swizzle of the temp or a `vecN(…)`
constructor. -/
theorem store_lanes_balanced (t : GlslShaderTranslator) (r : InstructionResult)
    (temp : String) (hw : r.has_any_writes = true) (ht : targetLanes r.storage_target = 4)
    (htemp : temp = "pv" ∨ temp = "vec4(ps)") :
    (EmitStoreResult t r temp).source_ =
        t.source_ ++ (indent t ++ (destRoot r.storage_target ++ destIndex r ++
          storeSelector r ++ " = " ++ clampWrap r.is_clamped (storeRhs r temp) ++ ";\n")) ∧
      selectedLanes (targetLanes r.storage_target) (storeSelector r) =
        (if r.is_standard_swizzle then 4 else (writtenLanes r).length) ∧
      valueLanes (clampWrap r.is_clamped (storeRhs r temp)) =
        some (if r.is_standard_swizzle then 4 else (writtenLanes r).length) ∧
      (writtenLanes r).length =
        r.write_mask.e0.toNat + r.write_mask.e1.toNat + r.write_mask.e2.toNat +
          r.write_mask.e3.toNat := by
  refine ⟨?_, ?_, valueLanes_storeRhs r temp hw htemp, ?_⟩
  · rw [EmitStoreResult_eq, hw, if_pos rfl, EmitSource_source, storeLine_parts]
  · rw [selectedLanes_storeSelector, ht]
  · obtain ⟨tg, k, m, c, ⟨w0, w1, w2, w3⟩, comps⟩ := r
    cases w0 <;> cases w1 <;> cases w2 <;> cases w3 <;>
      simp [writtenLanes, Vec4.get, List.range_succ, List.filter]

theorem store_lanes_balanced_witness :
    (EmitStoreResult (freshTranslator .kVertex) positionResult "vec4(ps)").source_ =
      "  gl_Position.yw = clamp(vec4(ps).wx, 0.0, 1.0);\n" ∧
    selectedLanes 4 (storeSelector positionResult) = 2 ∧
    valueLanes (clampWrap true (storeRhs positionResult "vec4(ps)")) = some 2 := by
  obtain ⟨h1, h2, h3, _⟩ := store_lanes_balanced (freshTranslator .kVertex) positionResult
    "vec4(ps)" (by decide) (by decide) (Or.inr rfl)
  refine ⟨?_, h2, h3⟩
  rw [h1]
  decide

/-- C37: for each of the eight scalar predicate setters and every state, the
statements emitted for it, read as statements of the shading language, run to
completion, and in the state they leave `p0` is true exactly when `ps == 0.0`
holds. `FLT_MAX` is positive and the value of `src0.x` is arbitrary; of the
arithmetic only the difference x - 1 of `setp_pop` is read, compared with zero
and stored as it is, so the statement holds whether or not it is rounded. -/
theorem setp_predicate_mirrors_ps (op : AluScalarOpcode) (s : ShaderState)
    (hop : op ∈ [AluScalarOpcode.kSetpEq, .kSetpNe, .kSetpGt, .kSetpGe, .kSetpInv,
      .kSetpPop, .kSetpClr, .kSetpRstr]) :
    ∃ s' : ShaderState, ScalarReads op s (.completed s') ∧
      (∀ out, ScalarReads op s out → out = .completed s') ∧
      (s'.p0 = true ↔ s'.ps.eq (.fin 0) = true) := by
  have key : ∀ s' : ShaderState, ScalarReads op s (.completed s') →
      (s'.p0 = true ↔ s'.ps.eq (.fin 0) = true) →
      ∃ s' : ShaderState, ScalarReads op s (.completed s') ∧
        (∀ out, ScalarReads op s out → out = .completed s') ∧
        (s'.p0 = true ↔ s'.ps.eq (.fin 0) = true) :=
    fun s' h1 h2 => ⟨s', h1, fun out ho => ScalarReads_unique op s _ _ ho h1, h2⟩
  simp only [List.mem_cons, List.mem_singleton, List.mem_nil_iff, or_false] at hop
  rcases hop with h | h | h | h | h | h | h | h <;> subst h
  · exact key _ (scalarReads_of _ _ _ _ rfl (setpStatements_run _ _ _ rfl)) (setp_agree s _)
  · exact key _ (scalarReads_of _ _ _ _ rfl (setpStatements_run _ _ _ rfl)) (setp_agree s _)
  · exact key _ (scalarReads_of _ _ _ _ rfl (setpStatements_run _ _ _ rfl)) (setp_agree s _)
  · exact key _ (scalarReads_of _ _ _ _ rfl (setpStatements_run _ _ _ rfl)) (setp_agree s _)
  · cases h1 : s.src.e0.e0.eq (.fin 1)
    · cases h0 : s.src.e0.e0.eq (.fin 0)
      · refine key { s with p0 := false, ps := s.src.e0.e0 }
          (scalarReads_of _ _ _ _ rfl ?_) ?_
        · simp [runBody, Stmt.run, runSimples, Ex.value, cmpZero, BinOp.apply, Arr3.get,
            Vec4.get, h1, h0]
        · simp [h0]
      · refine key { s with p0 := false, ps := .fin 1 } (scalarReads_of _ _ _ _ rfl ?_) ?_
        · simp [runBody, Stmt.run, runSimples, Ex.value, cmpZero, BinOp.apply, Arr3.get,
            Vec4.get, h1, h0]
        · simp [FVal_eq_one_zero]
    · refine key { s with p0 := true, ps := .fin 0 } (scalarReads_of _ _ _ _ rfl ?_) ?_
      · simp [runBody, Stmt.run, runSimples, Ex.value, cmpZero, BinOp.apply, Arr3.get,
          Vec4.get, h1]
      · simp [FVal_eq_zero_zero]
  · cases h1 : (s.src.e0.e0.sub (.fin 1)).le (.fin 0)
    · refine key { s with p0 := false, ps := s.src.e0.e0.sub (.fin 1) }
        (scalarReads_of _ _ _ _ rfl ?_) ?_
      · simp [runBody, Stmt.run, runSimples, Ex.value, BinOp.apply, Arr3.get, Vec4.get, h1]
      · simp [sub_one_pos_ne_zero _ h1]
    · refine key { s with p0 := true, ps := .fin 0 } (scalarReads_of _ _ _ _ rfl ?_) ?_
      · simp [runBody, Stmt.run, runSimples, Ex.value, BinOp.apply, Arr3.get, Vec4.get, h1]
      · simp [FVal_eq_zero_zero]
  · refine key { s with p0 := false, ps := .fin FLT_MAX } (scalarReads_of _ _ _ _ rfl ?_) ?_
    · simp [runBody, Stmt.run, runSimples, Ex.value]
    · simp [FVal_eq_fltMax_zero]
  · cases h0 : s.src.e0.e0.eq (.fin 0)
    · refine key { s with p0 := false, ps := s.src.e0.e0 } (scalarReads_of _ _ _ _ rfl ?_) ?_
      · simp [runBody, Stmt.run, runSimples, Ex.value, cmpZero, BinOp.apply, Arr3.get,
          Vec4.get, h0]
      · simp [h0]
    · refine key { s with p0 := true, ps := s.src.e0.e0 } (scalarReads_of _ _ _ _ rfl ?_) ?_
      · simp [runBody, Stmt.run, runSimples, Ex.value, cmpZero, BinOp.apply, Arr3.get,
          Vec4.get, h0]
      · simp [h0]

theorem setp_predicate_mirrors_ps_witness :
    ∃ s' : ShaderState,
      ScalarReads .kSetpPop (scalarState (.fin 3) (.fin 0) (.fin 7)) (.completed s') ∧
      (∀ out, ScalarReads .kSetpPop (scalarState (.fin 3) (.fin 0) (.fin 7)) out →
        out = .completed s') ∧
      (s'.p0 = true ↔ s'.ps.eq (.fin 0) = true) :=
  setp_predicate_mirrors_ps .kSetpPop (scalarState (.fin 3) (.fin 0) (.fin 7)) (by decide)

set_option maxRecDepth 100000 in
/-- C38: the helper `cube` emitted in the preamble, read statement by
statement over any interpretation of the operations on `float` (so whatever a
division by zero gives), returns the same four lanes for two calls that agree
on the lanes x, y and z of `src1`, whatever `src0` and `src1.w` are; over the
rationals this reading is the function `cube`. In the emitted text `src0` is
named in the signature only and `src1` in the signature and in the statement
`vec3 src = vec3(src1.y, src1.x, src1.z);` only; the statements read here are
lines of the emitted helper, in this order; and the vector opcode `cube` emits
the one call `pv = cube(src0, src1);`. -/
theorem cube_reads_xyz_of_src1 {α : Type} (ops : FloatOps α) (src0 src0' src1 src1' : Vec4 α)
    (hx : src1.e0 = src1'.e0) (hy : src1.e1 = src1'.e1) (hz : src1.e2 = src1'.e2) :
    cubeWith ops src0 src1 = cubeWith ops src0' src1' ∧
    (∀ a b : Vec4 ℚ, cubeWith rationalOps a b = cube a b) ∧
    (textLines preambleCube).filter (mentions "src0") =
      ["vec4 cube(vec4 src0, vec4 src1) \x7b"] ∧
    (textLines preambleCube).filter (mentions "src1") =
      ["vec4 cube(vec4 src0, vec4 src1) \x7b", "  vec3 src = vec3(src1.y, src1.x, src1.z);"] ∧
    List.Sublist cubeComputingLines (textLines preambleCube) ∧
    vectorOpcodeBody .kCube = ["pv = cube(src0, src1);\n"] :=
  ⟨cubeWith_congr ops src0 src0' src1 src1' hx hy hz, cubeWith_rationalOps, by decide, by decide,
    by decide, rfl⟩

set_option maxRecDepth 10000 in
/-- Two calls in binary32 arithmetic with `src1` = (1, 1, 0, 9) and
(1, 1, 0, -5) and different `src0`, where `ma` is zero and the quotients are
infinite, return the same lanes: negative infinity twice, 0 and face 5. -/
theorem cube_reads_xyz_of_src1_witness :
    cubeWith binary32Ops ⟨.fin 1, .fin 2, .fin 3, .fin 4⟩ ⟨.fin 1, .fin 1, .fin 0, .fin 9⟩ =
      cubeWith binary32Ops ⟨.nan, .posInf, .fin 0, .fin 0⟩
        ⟨.fin 1, .fin 1, .fin 0, .fin (-5)⟩ ∧
    cubeWith binary32Ops ⟨.fin 1, .fin 2, .fin 3, .fin 4⟩ ⟨.fin 1, .fin 1, .fin 0, .fin 9⟩ =
      ⟨.negInf, .negInf, .fin 0, .fin 5⟩ :=
  ⟨(cube_reads_xyz_of_src1 binary32Ops ⟨.fin 1, .fin 2, .fin 3, .fin 4⟩
      ⟨.nan, .posInf, .fin 0, .fin 0⟩ ⟨.fin 1, .fin 1, .fin 0, .fin 9⟩
      ⟨.fin 1, .fin 1, .fin 0, .fin (-5)⟩ rfl rfl rfl).1, by decide!⟩

end xe.gpu

namespace xe.kernel.apps

/-! ## The song index of `XXMPApp` -/

theorem toInt32_of_range (z : Int) (h0 : -2147483648 ≤ z) (h1 : z < 2147483648) :
    toInt32 z = z := by
  unfold toInt32
  omega

theorem toSizeT_of_nat (i : Nat) (h : i < 2147483648) : toSizeT (i : Int) = i := by
  unfold toSizeT
  have : ((i : Int) % 18446744073709551616) = (i : Int) := by omega
  rw [this]
  simp

/-- What `XMPNext` does with a song index in range: the next position, and
the first after the last. -/
theorem XMPNext_eq (app : XXMPApp) (playlist : Playlist) (i : Nat)
    (ha : app.active_playlist_ = some playlist) (hi : app.active_song_index_ = (i : Int))
    (hlt : i < playlist.songs.length) (hfit : playlist.songs.length < 2147483648) :
    app.XMPNext =
      some ({ app with state_ := .kPlaying,
                       active_song_index_ := (((i + 1) % playlist.songs.length : Nat) : Int) },
        .X_ERROR_SUCCESS) := by
  unfold XXMPApp.XMPNext
  rw [ha]
  have hne : playlist.songs.length ≠ 0 := by omega
  simp only [hne, if_false, hi]
  have e1 : toInt32 ((i : Int) + 1) = ((i + 1 : Nat) : Int) := by
    rw [toInt32_of_range] <;> push_cast <;> omega
  rw [e1, toSizeT_of_nat _ (by omega)]
  have hm : (i + 1) % playlist.songs.length < playlist.songs.length :=
    Nat.mod_lt _ (by omega)
  rw [toInt32_of_range] <;> omega

/-- What `XMPPrevious` does with a song index in range: the position before,
and the last before the first. -/
theorem XMPPrevious_eq (app : XXMPApp) (playlist : Playlist) (i : Nat)
    (ha : app.active_playlist_ = some playlist) (hi : app.active_song_index_ = (i : Int))
    (hlt : i < playlist.songs.length) (hfit : playlist.songs.length < 2147483648) :
    app.XMPPrevious =
      ({ app with state_ := .kPlaying,
                  active_song_index_ :=
                    ((if i = 0 then playlist.songs.length - 1 else i - 1 : Nat) : Int) },
        .X_ERROR_SUCCESS) := by
  unfold XXMPApp.XMPPrevious
  rw [ha]
  simp only [hi]
  by_cases h0 : i = 0
  · subst h0
    simp only [Nat.cast_zero, if_true]
    rw [toInt32_of_range (playlist.songs.length : Int) (by omega) (by omega),
      toInt32_of_range _ (by omega) (by omega)]
    congr 3
    omega
  · have hne : ¬ ((i : Int) = 0) := by omega
    simp only [hne, h0, if_false]
    rw [toInt32_of_range _ (by omega) (by omega)]
    congr 3
    omega

theorem succ_mod_pred (i n : Nat) (hlt : i < n) :
    (if (i + 1) % n = 0 then n - 1 else (i + 1) % n - 1) = i := by
  by_cases h : i + 1 = n
  · rw [h, Nat.mod_self]
    simp
    omega
  · have : (i + 1) % n = i + 1 := Nat.mod_eq_of_lt (by omega)
    rw [this]
    simp

theorem pred_succ_mod (i n : Nat) (hlt : i < n) :
    ((if i = 0 then n - 1 else i - 1) + 1) % n = i := by
  by_cases h : i = 0
  · subst h
    simp only [if_true]
    have : n - 1 + 1 = n := by omega
    rw [this, Nat.mod_self]
  · simp only [h, if_false]
    have : i - 1 + 1 = i := by omega
    rw [this, Nat.mod_eq_of_lt hlt]

/-- After `k` calls of `XMPNext` from a song index in range the playlist is
the same and the index has advanced by `k` positions, around the end. -/
theorem nextTimes_eq (k : Nat) (app : XXMPApp) (playlist : Playlist) (i : Nat)
    (ha : app.active_playlist_ = some playlist) (hi : app.active_song_index_ = (i : Int))
    (hlt : i < playlist.songs.length) (hfit : playlist.songs.length < 2147483648) :
    ∃ a, nextTimes k app = some a ∧ a.active_playlist_ = some playlist ∧
      a.active_song_index_ = (((i + k) % playlist.songs.length : Nat) : Int) := by
  induction k with
  | zero =>
    exact ⟨app, rfl, ha, by rw [hi, Nat.add_zero, Nat.mod_eq_of_lt hlt]⟩
  | succ k ih =>
    obtain ⟨a, h1, h2, h3⟩ := ih
    have hm : (i + k) % playlist.songs.length < playlist.songs.length :=
      Nat.mod_lt _ (by omega)
    have hn := XMPNext_eq a playlist _ h2 h3 hm hfit
    refine ⟨{ a with state_ := .kPlaying,
                     active_song_index_ :=
                       ((((i + k) % playlist.songs.length + 1) % playlist.songs.length : Nat) :
                         Int) }, ?_, h2, ?_⟩
    · show (nextTimes k app).bind (fun a => a.XMPNext.map Prod.fst) = _
      rw [h1, Option.some_bind, hn]
      rfl
    · show (((((i + k) % playlist.songs.length + 1) % playlist.songs.length : Nat)) : Int) = _
      congr 1
      rw [Nat.add_mod ((i + k) % playlist.songs.length) 1, Nat.mod_mod, ← Nat.add_mod]
      rfl

/-! ### Reachable states -/

theorem createLoop_eq (guest_songs : Nat → GuestSong) (js : List Nat) (app : XXMPApp)
    (songs : List Song) :
    ((js.foldl (XXMPApp.createSong guest_songs) (app, songs)).1.active_playlist_ =
        app.active_playlist_ ∧
      (js.foldl (XXMPApp.createSong guest_songs) (app, songs)).1.active_song_index_ =
        app.active_song_index_ ∧
      (js.foldl (XXMPApp.createSong guest_songs) (app, songs)).1.playlists_ =
        app.playlists_) ∧
      (js.foldl (XXMPApp.createSong guest_songs) (app, songs)).2.length =
        songs.length + js.length := by
  induction js generalizing app songs with
  | nil => exact ⟨⟨rfl, rfl, rfl⟩, rfl⟩
  | cons j js ih =>
    rw [List.foldl_cons]
    have h := ih (XXMPApp.createSong guest_songs (app, songs) j).1
      (XXMPApp.createSong guest_songs (app, songs) j).2
    obtain ⟨⟨h1, h2, h3⟩, h4⟩ := h
    refine ⟨⟨h1, h2, h3⟩, ?_⟩
    rw [h4]
    simp [XXMPApp.createSong]
    omega

theorem findPlaylist_mem (playlists : List (Nat × Playlist)) (handle : Nat) (p : Playlist)
    (h : findPlaylist playlists handle = some p) : ∃ e ∈ playlists, e.2 = p := by
  unfold findPlaylist at h
  cases hf : playlists.find? (fun e => e.1 == handle) with
  | none => rw [hf] at h; cases h
  | some e =>
    rw [hf] at h
    exact ⟨e, List.mem_of_find?_eq_some hf, Option.some.inj h⟩

theorem SongsInvariant_index (app : XXMPApp) (p : Playlist) (h : SongsInvariant app)
    (ha : app.active_playlist_ = some p) :
    ∃ i : Nat, app.active_song_index_ = (i : Int) ∧ i < p.songs.length ∧
      p.songs.length < 2147483648 := by
  obtain ⟨⟨_, h2⟩, h3, h4⟩ := h.2 p ha
  exact ⟨app.active_song_index_.toNat, by omega, by omega, h2⟩

/-- A call that creates no playlist without songs has a defined behaviour in
a state with the invariant and keeps the invariant. -/
theorem SongsInvariant_run (app : XXMPApp) (c : Call) (h : SongsInvariant app)
    (hc : c.hasSongs) : ∃ a, c.run app = some a ∧ SongsInvariant a := by
  cases c with
  | createTitlePlaylist guest_songs song_count playlist_name flags =>
    refine ⟨_, rfl, ?_⟩
    obtain ⟨⟨l1, l2, l3⟩, l4⟩ := createLoop_eq guest_songs (List.range song_count)
      { app with next_playlist_handle_ := increment32 app.next_playlist_handle_ } []
    simp only [List.length_nil, List.length_range, Nat.zero_add] at l4
    unfold XXMPApp.XMPCreateTitlePlaylist
    simp only
    refine ⟨?_, ?_⟩
    · intro e he
      simp only [l3] at he
      split at he
      · exact h.1 e he
      · rcases List.mem_append.1 he with hm | hm
        · exact h.1 e hm
        · simp only [List.mem_singleton] at hm
          subst hm
          simp only [l4]
          exact hc
    · intro p hp
      simp only [l1, l2] at hp ⊢
      exact h.2 p hp
  | playTitlePlaylist playlist_handle song_handle =>
    refine ⟨_, rfl, ?_⟩
    unfold XXMPApp.XMPPlayTitlePlaylist
    cases hf : findPlaylist app.playlists_ playlist_handle with
    | none => exact h
    | some q =>
      simp only
      split
      · exact h
      · refine ⟨h.1, ?_⟩
        intro p hp
        simp only [Option.some.injEq] at hp
        subst hp
        obtain ⟨e, he, hq⟩ := findPlaylist_mem _ _ _ hf
        have := h.1 e he
        rw [hq] at this
        exact ⟨this, le_refl _, by simp only; omega⟩
  | next =>
    cases ha : app.active_playlist_ with
    | none =>
      refine ⟨app, ?_, h⟩
      simp [Call.run, XXMPApp.XMPNext, ha]
    | some p =>
      obtain ⟨i, hi, hlt, hfit⟩ := SongsInvariant_index app p h ha
      have hn := XMPNext_eq app p i ha hi hlt hfit
      refine ⟨{ app with state_ := .kPlaying,
                         active_song_index_ := (((i + 1) % p.songs.length : Nat) : Int) },
        by simp only [Call.run, hn]; rfl, h.1, ?_⟩
      intro q hq
      have hq' : app.active_playlist_ = some q := hq
      rw [ha] at hq'
      cases hq'
      have hm : (i + 1) % p.songs.length < p.songs.length := Nat.mod_lt _ (by omega)
      exact ⟨⟨by omega, hfit⟩, by simp only; omega, by simp only; omega⟩
  | previous =>
    cases ha : app.active_playlist_ with
    | none =>
      refine ⟨app, ?_, h⟩
      simp [Call.run, XXMPApp.XMPPrevious, ha]
    | some p =>
      obtain ⟨i, hi, hlt, hfit⟩ := SongsInvariant_index app p h ha
      have hn := XMPPrevious_eq app p i ha hi hlt hfit
      refine ⟨{ app with state_ := .kPlaying,
                         active_song_index_ :=
                           ((if i = 0 then p.songs.length - 1 else i - 1 : Nat) : Int) },
        by simp only [Call.run, hn], h.1, ?_⟩
      intro q hq
      have hq' : app.active_playlist_ = some q := hq
      rw [ha] at hq'
      cases hq'
      refine ⟨⟨by omega, hfit⟩, by simp only; omega, ?_⟩
      simp only
      split <;> omega
  | stop =>
    refine ⟨_, rfl, h.1, ?_⟩
    intro p hp
    cases hp
  | deleteTitlePlaylist playlist_handle =>
    refine ⟨_, rfl, ?_⟩
    unfold XXMPApp.XMPDeleteTitlePlaylist
    cases hf : findPlaylist app.playlists_ playlist_handle with
    | none => exact h
    | some q =>
      simp only
      split
      · refine ⟨?_, ?_⟩
        · intro e he
          exact h.1 e (List.mem_of_mem_filter he)
        · intro p hp
          cases hp
      · refine ⟨?_, ?_⟩
        · intro e he
          exact h.1 e (List.mem_of_mem_filter he)
        · intro p hp
          exact h.2 p hp

/-- From the constructor, calls that create no playlist without songs have a
defined behaviour and lead to a state whose song index is in range. -/
theorem reachable_index (calls : List Call) (app : XXMPApp) (h : SongsInvariant app)
    (hc : ∀ c ∈ calls, c.hasSongs) :
    ∃ a, runCalls app calls = some a ∧ SongsInvariant a := by
  induction calls generalizing app with
  | nil => exact ⟨app, rfl, h⟩
  | cons c rest ih =>
    obtain ⟨a, h1, h2⟩ := SongsInvariant_run app c h (hc c (List.mem_cons_self _ _))
    obtain ⟨b, h3, h4⟩ := ih a h2 (fun d hd => hc d (List.mem_cons_of_mem _ hd))
    exact ⟨b, by simp only [runCalls, h1, Option.some_bind, h3], h4⟩

theorem SongsInvariant_construct : SongsInvariant XXMPApp.construct := by
  refine ⟨?_, ?_⟩
  · intro e he
    cases he
  · intro p hp
    cases hp

/-! ## The claims on the music player -/

/-- C39: from the constructor, `XMPCreateTitlePlaylist` with a song count of 0
and `XMPPlayTitlePlaylist` of the handle it gives lead to a state whose active
playlist has no songs, so that the song index 0 is not a position in it; from
there the remainder in `XMPNext` has a zero divisor and `XMPPrevious` sets the
index to -1. When every playlist is created with at least one song (and no
more than an `int` counts), every sequence of the six calls has a defined
behaviour and leads to a state in which an active playlist has a song and the
index is a position in it. -/
theorem empty_playlist_breaks_song_index :
    (runCalls XXMPApp.construct playEmptyPlaylist).map
        (fun a => a.active_playlist_.map (fun p => p.songs.length)) = some (some 0) ∧
      (runCalls XXMPApp.construct playEmptyPlaylist).map
        (fun a => decide (IndexInRange a)) = some false ∧
      runCalls XXMPApp.construct (playEmptyPlaylist ++ [.next]) = none ∧
      (runCalls XXMPApp.construct (playEmptyPlaylist ++ [.previous])).map
        (fun a => a.active_song_index_) = some (-1) ∧
      (∀ calls : List Call, (∀ c ∈ calls, c.hasSongs) →
        ∃ a, runCalls XXMPApp.construct calls = some a ∧ IndexInRange a) := by
  refine ⟨by decide, by decide, by decide, by decide, ?_⟩
  intro calls hc
  obtain ⟨a, h1, h2⟩ := reachable_index calls XXMPApp.construct SongsInvariant_construct hc
  refine ⟨a, h1, ?_⟩
  intro p hp
  obtain ⟨⟨h3, _⟩, h4, h5⟩ := h2.2 p hp
  exact ⟨h3, h4, h5⟩

/-- C40: for an active playlist of n songs, n at least 1 and within the range
of an `int`, and a song index i with 0 <= i < n: `XMPNext` succeeds and moves
the index to i + 1, or to 0 from n - 1, and `XMPPrevious` after it restores i;
`XMPPrevious` moves the index to i - 1, or to n - 1 from 0, and `XMPNext`
after it restores i; and n calls of `XMPNext` in a row lead back to i. -/
theorem next_previous_inverse (app : XXMPApp) (playlist : Playlist)
    (hactive : app.active_playlist_ = some playlist)
    (hn : 1 ≤ playlist.songs.length) (hfit : playlist.songs.length < 2147483648)
    (h0 : 0 ≤ app.active_song_index_)
    (h1 : app.active_song_index_ < (playlist.songs.length : Int)) :
    (∃ a, app.XMPNext = some (a, .X_ERROR_SUCCESS) ∧
      (app.active_song_index_ = (playlist.songs.length : Int) - 1 →
        a.active_song_index_ = 0) ∧
      (app.active_song_index_ < (playlist.songs.length : Int) - 1 →
        a.active_song_index_ = app.active_song_index_ + 1) ∧
      a.XMPPrevious.1.active_song_index_ = app.active_song_index_) ∧
    ((app.active_song_index_ = 0 →
        app.XMPPrevious.1.active_song_index_ = (playlist.songs.length : Int) - 1) ∧
      (0 < app.active_song_index_ →
        app.XMPPrevious.1.active_song_index_ = app.active_song_index_ - 1) ∧
      ∃ a, app.XMPPrevious.1.XMPNext = some (a, .X_ERROR_SUCCESS) ∧
        a.active_song_index_ = app.active_song_index_) ∧
    (∃ a, nextTimes playlist.songs.length app = some a ∧
      a.active_song_index_ = app.active_song_index_) := by
  obtain ⟨i, hi⟩ := Int.eq_ofNat_of_zero_le h0
  have hlt : i < playlist.songs.length := by omega
  have hnext := XMPNext_eq app playlist i hactive hi hlt hfit
  have hprev := XMPPrevious_eq app playlist i hactive hi hlt hfit
  have hm : (i + 1) % playlist.songs.length < playlist.songs.length :=
    Nat.mod_lt _ (by omega)
  refine ⟨⟨_, hnext, ?_, ?_, ?_⟩, ⟨?_, ?_, ?_⟩, ?_⟩
  · intro he
    have : i + 1 = playlist.songs.length := by omega
    simp only [this, Nat.mod_self, Nat.cast_zero]
  · intro hl
    have : (i + 1) % playlist.songs.length = i + 1 := Nat.mod_eq_of_lt (by omega)
    simp only [this, hi]
    push_cast
    rfl
  · have hp := XMPPrevious_eq
      { app with state_ := .kPlaying,
                 active_song_index_ := (((i + 1) % playlist.songs.length : Nat) : Int) }
      playlist ((i + 1) % playlist.songs.length) hactive rfl hm hfit
    rw [hp]
    simp only [succ_mod_pred i _ hlt, hi]
  · intro he
    have : i = 0 := by omega
    rw [hprev]
    simp only [this, if_true]
    omega
  · intro hpos
    have : ¬ i = 0 := by omega
    rw [hprev]
    simp only [this, if_false, hi]
    omega
  · rw [hprev]
    have hp : (if i = 0 then playlist.songs.length - 1 else i - 1) < playlist.songs.length := by
      split <;> omega
    have hx := XMPNext_eq
      { app with state_ := .kPlaying,
                 active_song_index_ :=
                   ((if i = 0 then playlist.songs.length - 1 else i - 1 : Nat) : Int) }
      playlist (if i = 0 then playlist.songs.length - 1 else i - 1) hactive rfl hp hfit
    refine ⟨_, hx, ?_⟩
    simp only [pred_succ_mod i _ hlt, hi]
  · obtain ⟨a, h2, _, h4⟩ := nextTimes_eq playlist.songs.length app playlist i hactive hi hlt hfit
    refine ⟨a, h2, ?_⟩
    rw [h4, hi, Nat.add_mod_right, Nat.mod_eq_of_lt hlt]

theorem next_previous_inverse_witness :
    ∃ a, nextTimes 3 threeSongsApp = some a ∧
      a.active_song_index_ = threeSongsApp.active_song_index_ :=
  (next_previous_inverse threeSongsApp
    { handle := 2, name := "", flags := 0,
      songs := [
        { handle := 2, file_path := "", name := "", artist := "", album := "",
          album_artist := "", genre := "", track_number := 0, duration_ms := 0, format := 0 },
        { handle := 3, file_path := "", name := "", artist := "", album := "",
          album_artist := "", genre := "", track_number := 0, duration_ms := 0, format := 0 },
        { handle := 4, file_path := "", name := "", artist := "", album := "",
          album_artist := "", genre := "", track_number := 0, duration_ms := 0, format := 0 }] }
    (by decide) (by decide) (by decide) (by decide) (by decide)).2.2

end xe.kernel.apps
